import Mathlib

/-! Expression lowering of the D front end for GCC (`gcc/d/d-elem.cc`).

A shallow embedding of the lowering rules `X::toElem` and of the cleanup
wrapper `Expression::toElemDtor`.  A lowering is a state-passing function over
`IRState`; it yields a GENERIC tree (`Tree`) or stops with a `Fault`.

The IR construction helpers (`compound_expr`, `make_temp`, `build_libcall`,
...) are declared in `d-codegen.h` and are not part of `d-elem.cc`; they are
modelled as builders of symbolic trees.
-/

namespace GDC

set_option linter.unusedTactic false
set_option linter.unreachableTactic false
set_option linter.unusedVariables false
set_option linter.unnecessarySeqFocus false

/-! ## Static types of the front end -/

/-- Type kinds of the front end (`enum TY`). -/
inductive TY
  | Tarray | Tsarray | Taarray | Tpointer | Treference | Tfunction | Tdelegate
  | Tclass | Tstruct | Tenum | Tvoid | Tbool | Tchar | Twchar | Tdchar
  | Tint8 | Tuns8 | Tint16 | Tuns16 | Tint32 | Tuns32 | Tint64 | Tuns64
  | Tint128 | Tuns128 | Tfloat32 | Tfloat64 | Tfloat80
  | Timaginary32 | Timaginary64 | Timaginary80
  | Tcomplex32 | Tcomplex64 | Tcomplex80
  deriving DecidableEq, Repr

/-- The fields of `StructDeclaration` read by the lowering rules.
`postblit` stands for `sd->postblit != NULL`, `identity_compare` for the answer
of `identity_compare_p (sd)`: the struct has no user-defined equality; `inv`
names the invariant function, `none` for `NULL`. -/
structure StructDeclaration where
  ident : String
  structsize : Nat
  postblit : Bool
  identity_compare : Bool
  isNested : Bool
  zeroInit : Bool
  dtor : Bool := false
  inv : Option String := none
  deriving DecidableEq, Repr

/-- The fields of `ClassDeclaration` read by the lowering rules: `outer` names
the symbol `toParent2 ()`, `outer_isClass` tells whether that is a class, and
`bases` names the classes of which `isBaseOf` holds for this class. -/
structure ClassDeclaration where
  ident : String
  isNested : Bool
  outer : String
  outer_isClass : Bool
  bases : List String
  isInterfaceDeclaration : Bool := false
  isCOMclass : Bool := false
  isCPPclass : Bool := false
  deriving DecidableEq, Repr

/-- Static types (`Type` and its subclasses); qualifiers are not modelled. -/
inductive DType
  | TypeBasic (ty : TY)
  | TypeSArray (next : DType) (dim : Nat)
  | TypeDArray (next : DType)
  | TypeAArray (next : DType) (index : DType)
  | TypePointer (next : DType)
  | TypeFunction (next : DType) (isref : Bool)
  | TypeDelegate (next : DType)
  | TypeStruct (sym : StructDeclaration)
  | TypeClass (sym : ClassDeclaration)
  | TypeEnum (memtype : DType)
  deriving DecidableEq, Repr

namespace DType

/-- The type kind, `t->ty`. -/
def ty : DType → TY
  | TypeBasic ty => ty
  | TypeSArray _ _ => .Tsarray
  | TypeDArray _ => .Tarray
  | TypeAArray _ _ => .Taarray
  | TypePointer _ => .Tpointer
  | TypeFunction _ _ => .Tfunction
  | TypeDelegate _ => .Tdelegate
  | TypeStruct _ => .Tstruct
  | TypeClass _ => .Tclass
  | TypeEnum _ => .Tenum

/-- The method `Type::toBasetype`: an enum type stands for its member type. -/
def toBasetype : DType → DType
  | TypeEnum memtype => memtype.toBasetype
  | t => t

/-- The method `Type::nextOf`, `NULL` for a type without a `next`. -/
def nextOf : DType → Option DType
  | TypeSArray next _ => some next
  | TypeDArray next => some next
  | TypeAArray next _ => some next
  | TypePointer next => some next
  | TypeFunction next _ => some next
  | TypeDelegate next => some next
  | TypeEnum memtype => memtype.nextOf
  | _ => none

/-- The method `Type::baseElemOf`: strips the static-array dimensions. -/
def baseElemOf : DType → DType
  | TypeSArray next _ => next.baseElemOf
  | TypeEnum memtype => memtype.baseElemOf
  | t => t

/-- The dimension of a fixed-size array type, `((TypeSArray *) t)->dim`. -/
def dim : DType → Nat
  | TypeSArray _ dim => dim
  | _ => 0

/-- The method `Type::isintegral`. -/
def isintegral : DType → Bool
  | TypeBasic ty =>
    match ty with
    | .Tbool | .Tchar | .Twchar | .Tdchar
    | .Tint8 | .Tuns8 | .Tint16 | .Tuns16 | .Tint32 | .Tuns32
    | .Tint64 | .Tuns64 | .Tint128 | .Tuns128 => true
    | _ => false
  | TypeEnum memtype => memtype.isintegral
  | _ => false

/-- The method `Type::isfloating`: real, imaginary and complex types. -/
def isfloating : DType → Bool
  | TypeBasic ty =>
    match ty with
    | .Tfloat32 | .Tfloat64 | .Tfloat80 | .Timaginary32 | .Timaginary64 | .Timaginary80
    | .Tcomplex32 | .Tcomplex64 | .Tcomplex80 => true
    | _ => false
  | TypeEnum memtype => memtype.isfloating
  | _ => false

/-- The method `Type::isreal`: the real floating types. -/
def isreal : DType → Bool
  | TypeBasic ty =>
    match ty with
    | .Tfloat32 | .Tfloat64 | .Tfloat80 => true
    | _ => false
  | TypeEnum memtype => memtype.isreal
  | _ => false

/-- The method `Type::isimaginary`: the imaginary floating types. -/
def isimaginary : DType → Bool
  | TypeBasic ty =>
    match ty with
    | .Timaginary32 | .Timaginary64 | .Timaginary80 => true
    | _ => false
  | TypeEnum memtype => memtype.isimaginary
  | _ => false

/-- Size in bytes of a pointer on the target; an LP64 target is taken. -/
def PTRSIZE : Nat := 8

/-- The method `Type::size` (bytes). -/
def size : DType → Nat
  | TypeBasic ty =>
    match ty with
    | .Tvoid | .Tbool | .Tchar | .Tint8 | .Tuns8 => 1
    | .Twchar | .Tint16 | .Tuns16 => 2
    | .Tdchar | .Tint32 | .Tuns32 | .Tfloat32 | .Timaginary32 => 4
    | .Tint64 | .Tuns64 | .Tfloat64 | .Timaginary64 | .Tcomplex32 => 8
    | .Tint128 | .Tuns128 | .Tfloat80 | .Timaginary80 | .Tcomplex64 => 16
    | .Tcomplex80 => 32
    | _ => 0
  | TypeSArray next dim => dim * next.size
  | TypeDArray _ => 2 * PTRSIZE
  | TypeAArray _ _ => PTRSIZE
  | TypePointer _ => PTRSIZE
  | TypeFunction _ _ => PTRSIZE
  | TypeDelegate _ => 2 * PTRSIZE
  | TypeStruct sym => sym.structsize
  | TypeClass _ => PTRSIZE
  | TypeEnum memtype => memtype.size

end DType

/-- The helper `d_types_same`: equality of types up to qualifiers. -/
def d_types_same (t1 t2 : DType) : Bool := decide (t1 = t2)

/-! ## GENERIC trees -/

/-- Tree codes built by the lowering rules. -/
inductive tree_code
  | EQ_EXPR | NE_EXPR | LT_EXPR | LE_EXPR | GT_EXPR | GE_EXPR
  | PLUS_EXPR | MINUS_EXPR | MULT_EXPR | POINTER_PLUS_EXPR
  | TRUTH_ANDIF_EXPR | TRUTH_ORIF_EXPR | TRUTH_NOT_EXPR
  | COMPOUND_EXPR | MODIFY_EXPR | COND_EXPR | TRY_FINALLY_EXPR
  | NOP_EXPR | VIEW_CONVERT_EXPR | ADDR_EXPR | INDIRECT_REF | ARRAY_REF
  | UNEQ_EXPR | LTGT_EXPR | UNLE_EXPR | UNLT_EXPR | UNGE_EXPR | UNGT_EXPR
  | ORDERED_EXPR | UNORDERED_EXPR | NEGATE_EXPR | COMPLEX_EXPR
  deriving DecidableEq, Repr

/-- The runtime library routines (`enum LibCall`) called by the embedded rules. -/
inductive LibCall
  | LIBCALL_ADEQ2 | LIBCALL_ARRAYCATT | LIBCALL_ARRAYCATNTX
  | LIBCALL_ARRAYSETCTOR | LIBCALL_ARRAYSETASSIGN
  | LIBCALL_ARRAYCTOR | LIBCALL_ARRAYASSIGN | LIBCALL_ARRAYCOPY
  | LIBCALL_ARRAYASSIGN_L | LIBCALL_ARRAYASSIGN_R
  | LIBCALL_ARRAYSETLENGTHT | LIBCALL_ARRAYSETLENGTHIT
  | LIBCALL_ARRAY_BOUNDS | LIBCALL_AAEQUAL
  | LIBCALL_ARRAYAPPENDCD | LIBCALL_ARRAYAPPENDWD | LIBCALL_ARRAYAPPENDT
  | LIBCALL_ARRAYAPPENDCTX | LIBCALL_AAGETY | LIBCALL_AAGETRVALUEX
  | LIBCALL_NEWCLASS | LIBCALL_NEWITEMT | LIBCALL_NEWITEMIT
  | LIBCALL_NEWARRAYT | LIBCALL_NEWARRAYIT | LIBCALL_NEWARRAYMTX | LIBCALL_NEWARRAYMITX
  | LIBCALL_ADCMP2 | LIBCALL_CALLFINALIZER | LIBCALL_CALLINTERFACEFINALIZER
  | LIBCALL_DELINTERFACE | LIBCALL_DELCLASS | LIBCALL_DELARRAYT | LIBCALL_DELSTRUCT
  | LIBCALL_DELMEMORY
  | LIBCALL_ASSERT | LIBCALL_ASSERT_MSG | LIBCALL_UNITTEST | LIBCALL_UNITTEST_MSG
  | LIBCALL_INVARIANT
  deriving DecidableEq, Repr

/-- The compiler builtins (`enum built_in_function`) called by the embedded rules. -/
inductive built_in_function
  | BUILT_IN_MEMCMP | BUILT_IN_MEMSET | BUILT_IN_MEMCPY
  | BUILT_IN_POW | BUILT_IN_POWF | BUILT_IN_POWL
  deriving DecidableEq, Repr

/-- GENERIC trees, as far as the embedded rules build them.  The type operand
of a node is left out.  `atom` is the tree of an expression whose lowering rule
is not embedded, with its `TREE_SIDE_EFFECTS` flag; `save_expr` carries the
identity of the temporary, two temporaries of equal operands being distinct
nodes; `temp_var` is a variable made by `create_temporary_var` or
`build_local_temp`, with its `DECL_INITIAL`; `tree_list` chains the arguments of
a call, `constructor_elt` the (index, value) pairs of a `CONSTRUCTOR`, both
ended by `null_tree`; `helper` is the tree an IR construction helper builds
from the operands `ops` when its shape is not modelled further. -/
inductive Tree
  | atom (name : String) (side_effects : Bool)
  | error_mark_node
  | void_node
  | null_tree
  | integer_cst (value : Nat)
  | var_decl (name : String)
  | function_decl (name : String)
  | libcall_decl (libcall : LibCall)
  | builtin_decl (fn : built_in_function)
  | typeinfo_decl (type : DType)
  | save_expr (id : Nat) (op0 : Tree)
  | build1 (code : tree_code) (op0 : Tree)
  | build2 (code : tree_code) (op0 op1 : Tree)
  | build3 (code : tree_code) (op0 op1 op2 : Tree)
  | component_ref (object : Tree) (field : String)
  | call_expr (fn : Tree) (args : Tree)
  | tree_list (value chain : Tree)
  | constructor (elts : Tree)
  | constructor_elt (index : Nat) (value chain : Tree)
  | bind_expr (var body : Tree)
  | temp_var (id : Nat) (initial : Tree)
  | statement_list (head : Tree)
  | method_call_expr (callee object : Tree)
  | helper (name : String) (side_effects : Bool) (ops : Tree)
  deriving DecidableEq, Repr

namespace Tree

/-- A `TREE_LIST` chain of the given values. -/
def list : List Tree → Tree
  | [] => null_tree
  | t :: ts => tree_list t (list ts)

/-- Number of values in a `TREE_LIST` chain, of pairs in a `CONSTRUCTOR` chain. -/
def chain_length : Tree → Nat
  | tree_list _ chain => chain.chain_length + 1
  | constructor_elt _ _ chain => chain.chain_length + 1
  | _ => 0

/-- The indices of a `CONSTRUCTOR` chain, in the order the pairs were appended. -/
def elt_indices : Tree → List Nat
  | constructor_elt index _ chain => index :: chain.elt_indices
  | _ => []

/-- The values of a `TREE_LIST` or `CONSTRUCTOR` chain, in order. -/
def chain_values : Tree → List Tree
  | tree_list value chain => value :: chain.chain_values
  | constructor_elt _ value chain => value :: chain.chain_values
  | _ => []

/-- The flag `TREE_SIDE_EFFECTS` of a node. -/
def TREE_SIDE_EFFECTS : Tree → Bool
  | atom _ side_effects => side_effects
  | save_expr _ _ => true
  | call_expr _ _ => true
  | build1 _ op0 => op0.TREE_SIDE_EFFECTS
  | build2 .MODIFY_EXPR _ _ => true
  | build2 _ op0 op1 => op0.TREE_SIDE_EFFECTS || op1.TREE_SIDE_EFFECTS
  | build3 _ op0 op1 op2 =>
    op0.TREE_SIDE_EFFECTS || op1.TREE_SIDE_EFFECTS || op2.TREE_SIDE_EFFECTS
  | component_ref object _ => object.TREE_SIDE_EFFECTS
  | tree_list value chain => value.TREE_SIDE_EFFECTS || chain.TREE_SIDE_EFFECTS
  | constructor elts => elts.TREE_SIDE_EFFECTS
  | constructor_elt _ value chain => value.TREE_SIDE_EFFECTS || chain.TREE_SIDE_EFFECTS
  | bind_expr var body => var.TREE_SIDE_EFFECTS || body.TREE_SIDE_EFFECTS
  | statement_list head => head.TREE_SIDE_EFFECTS
  | method_call_expr callee object => callee.TREE_SIDE_EFFECTS || object.TREE_SIDE_EFFECTS
  | helper _ side_effects ops => side_effects || ops.TREE_SIDE_EFFECTS
  | _ => false

end Tree

open Tree

/-! ## IR construction helpers (`d-codegen.h`) -/

/-- Modelled from the spec: the helper `d_has_side_effects` (d-codegen.cc), the
annotation of an IR value "with whether it has side effects (needed to decide
whether a temporary must be introduced)".  A temporary may be referenced again,
a declaration or constant has no effect, a reference has those of its object. -/
def d_has_side_effects : Tree → Bool
  | save_expr _ _ => false
  | build1 .NOP_EXPR op0 => d_has_side_effects op0
  | build1 .INDIRECT_REF op0 => d_has_side_effects op0
  | build1 .ADDR_EXPR op0 => d_has_side_effects op0
  | component_ref object _ => d_has_side_effects object
  | t => t.TREE_SIDE_EFFECTS

/-- The GCC predicate `integer_zerop`: an integer constant of value zero. -/
def integer_zerop : Tree → Bool
  | integer_cst value => value == 0
  | _ => false

def integer_zero_node : Tree := integer_cst 0
def size_zero_node : Tree := integer_cst 0
def size_one_node : Tree := integer_cst 1
def size_int (n : Nat) : Tree := integer_cst n

/-- Modelled from the spec: the helper `compound_expr`, a `COMPOUND_EXPR` that
evaluates `arg0` and then yields `arg1`. -/
def compound_expr (arg0 arg1 : Tree) : Tree := build2 .COMPOUND_EXPR arg0 arg1

/-- Modelled from the spec: the helper `maybe_compound_expr`, which is `arg1`
when `arg0` is `NULL_TREE` and `compound_expr (arg0, arg1)` otherwise. -/
def maybe_compound_expr (arg0 : Option Tree) (arg1 : Tree) : Tree :=
  match arg0 with
  | none => arg1
  | some t => compound_expr t arg1

/-- The helper `build_boolop`: a boolean node of the given code. -/
def build_boolop (code : tree_code) (arg0 arg1 : Tree) : Tree := build2 code arg0 arg1

/-- The helper `modify_expr`: the assignment `dst = src`. -/
def modify_expr (dst src : Tree) : Tree := build2 .MODIFY_EXPR dst src

def build_address (exp : Tree) : Tree := build1 .ADDR_EXPR exp
def build_nop (exp : Tree) : Tree := build1 .NOP_EXPR exp
def indirect_ref (exp : Tree) : Tree := build1 .INDIRECT_REF exp
def build_deref (exp : Tree) : Tree := build1 .INDIRECT_REF exp
def void_okay_p (t : Tree) : Tree := t
def build_array_index (ptr index : Tree) : Tree := build2 .POINTER_PLUS_EXPR ptr index
def build_condition (cond t1 t2 : Tree) : Tree := build3 .COND_EXPR cond t1 t2
def build_typeinfo (t : DType) : Tree := build_address (typeinfo_decl t)

/-- The length field of a dynamic array value (`d_array_length`). -/
def d_array_length (exp : Tree) : Tree := component_ref exp "length"

/-- The data pointer field of a dynamic array value (`d_array_ptr`). -/
def d_array_ptr (exp : Tree) : Tree := component_ref exp "ptr"

/-- A dynamic array value of the given length and data pointer (`d_array_value`). -/
def d_array_value (len data : Tree) : Tree :=
  constructor (constructor_elt 0 len (constructor_elt 1 data null_tree))

/-- The helper `build_libcall`: a call of the library routine on `args`. -/
def build_libcall (libcall : LibCall) (args : List Tree) : Tree :=
  call_expr (libcall_decl libcall) (Tree.list args)

/-- The helper `d_build_call_nary` on a builtin: a call of it on `args`. -/
def d_build_call_nary (fn : built_in_function) (args : List Tree) : Tree :=
  call_expr (build_address (builtin_decl fn)) (Tree.list args)

/-- Modelled from the spec: the helper `build_array_set`, the element-wise fill
of `length` elements from `ptr` with `value`. -/
def build_array_set (ptr length value : Tree) : Tree :=
  helper "build_array_set" true (Tree.list [ptr, length, value])

/-- Width in bits of `size_type_node` on the target. -/
def SIZE_BITS : Nat := 64

/-- The GCC function `fold_build2` on `size_type_node`: two constants are
folded, the arithmetic being modulo `2 ^ SIZE_BITS`. -/
def fold_build2 (code : tree_code) (op0 op1 : Tree) : Tree :=
  match code, op0, op1 with
  | .MULT_EXPR, integer_cst a, integer_cst b => integer_cst ((a * b) % 2 ^ SIZE_BITS)
  | .MINUS_EXPR, integer_cst a, integer_cst b =>
    integer_cst ((a + (2 ^ SIZE_BITS - b % 2 ^ SIZE_BITS)) % 2 ^ SIZE_BITS)
  | _, _, _ => build2 code op0 op1

/-- The accessor `TREE_OPERAND (t, i)`, `none` where the node has no such operand. -/
def TREE_OPERAND : Tree → Nat → Option Tree
  | save_expr _ op0, 0 => some op0
  | build1 _ op0, 0 => some op0
  | build2 _ op0 _, 0 => some op0
  | build2 _ _ op1, 1 => some op1
  | build3 _ op0 _ _, 0 => some op0
  | build3 _ _ op1 _, 1 => some op1
  | build3 _ _ _ op2, 2 => some op2
  | _, _ => none

/-- The helper `d_convert` to the tree type of a D type. -/
def d_convert (exp : Tree) : Tree := build1 .NOP_EXPR exp

/-- Modelled from the spec: the helper `convert_expr`.  Equal types need no
conversion; a fixed-size array becomes a dynamic array view (pointer, length) of
its storage or a pointer to it; a dynamic array becomes its data pointer; any
other conversion is left symbolic. -/
def convert_expr (exp : Tree) (etype totype : DType) : Tree :=
  if d_types_same etype totype then exp
  else
    match etype.toBasetype, totype.toBasetype with
    | .TypeSArray _ dim, .TypeDArray _ =>
      d_array_value (size_int dim) (build_nop (build_address exp))
    | .TypeSArray _ _, .TypePointer _ => build_nop (build_address exp)
    | .TypeDArray _, .TypePointer _ => build_nop (d_array_ptr exp)
    | _, _ => helper "convert_expr" false (Tree.list [exp])

/-- Modelled from the spec: the helper `convert_for_assignment`. -/
def convert_for_assignment (exp : Tree) (etype totype : DType) : Tree :=
  if d_types_same etype totype then exp
  else helper "convert_for_assignment" false (Tree.list [exp])

/-- Modelled from the spec: the helper `convert_for_condition`, the coercion of
a value "to a boolean condition". -/
def convert_for_condition (exp : Tree) (_type : DType) : Tree :=
  helper "convert_for_condition" false (Tree.list [exp])

/-- Modelled from the spec: the helper `get_array_length`, the constant
dimension of a fixed-size array and the length field of a dynamic one. -/
def get_array_length (exp : Tree) (type : DType) : Tree :=
  match type.toBasetype with
  | .TypeSArray _ dim => size_int dim
  | .TypeDArray _ => d_array_length exp
  | _ => error_mark_node

/-- The library routines called anywhere in a tree, in pre-order. -/
def libcalls : Tree → List LibCall
  | libcall_decl libcall => [libcall]
  | save_expr _ op0 => libcalls op0
  | build1 _ op0 => libcalls op0
  | build2 _ op0 op1 => libcalls op0 ++ libcalls op1
  | build3 _ op0 op1 op2 => libcalls op0 ++ libcalls op1 ++ libcalls op2
  | component_ref object _ => libcalls object
  | call_expr fn args => libcalls fn ++ libcalls args
  | tree_list value chain => libcalls value ++ libcalls chain
  | constructor elts => libcalls elts
  | constructor_elt _ value chain => libcalls value ++ libcalls chain
  | bind_expr var body => libcalls var ++ libcalls body
  | temp_var _ initial => libcalls initial
  | statement_list head => libcalls head
  | method_call_expr callee object => libcalls callee ++ libcalls object
  | helper _ _ ops => libcalls ops
  | _ => []

/-! ## Expression trees of the front end -/

/-- Expression kinds (`enum TOK`) tested by the embedded rules. -/
inductive TOK
  | TOKint64 | TOKvar | TOKdotvar | TOKcall | TOKnew | TOKdeclaration | TOKcomma
  | TOKquestion | TOKcat | TOKequal | TOKnotequal | TOKslice | TOKcast
  | TOKassign | TOKconstruct | TOKblit | TOKarraylength | TOKsuper | TOKdottype
  | TOKstructliteral | TOKsymoff | TOKadd | TOKaddress | TOKindex | TOKstring
  | TOKnull | TOKthis | TOKfunction | TOKdelegate | TOKreserved | TOKcatass
  | TOKue | TOKlg | TOKule | TOKul | TOKuge | TOKug | TOKle | TOKlt | TOKge | TOKgt
  | TOKleg | TOKunord | TOKidentity | TOKnotidentity | TOKdelete | TOKpow
  | TOKassert | TOKandand | TOKoror | TOKmin
  deriving DecidableEq, Repr

/-- Storage classes (`STC...` bits of `storage_class`) tested by the embedded rules. -/
inductive STC
  | STCmanifest | STCextern | STCtls | STCgshared | STCout | STCref | STClazy
  deriving DecidableEq, Repr

/-- The fields and predicates of `FuncDeclaration` read by the embedded rules. -/
structure FuncDeclaration where
  ident : String
  type : DType
  isThis : Bool
  needThis : Bool
  isNested : Bool
  isVirtual : Bool
  isFinalFunc : Bool
  isCtorDeclaration : Bool
  vtblIndex : Nat
  deriving DecidableEq, Repr

/-- The fields of the `FuncLiteralDeclaration` of a function literal read or
written by `FuncExp::toElem`: `tok` is `TOKfunction`, `TOKdelegate` or, for a
lambda whose kind is to be inferred, `TOKreserved`; `vthis` names the context
parameter, `none` for `NULL`.  `isNested` is the answer of the front-end method
`isNested ()` (dfrontend/func.c, not part of d-elem.cc) from the fields `tok`
and `vthis` as they stand when it is asked. -/
structure FuncLiteralDeclaration where
  ident : String
  type : DType
  tok : TOK
  vthis : Option String
  isNested : TOK → Option String → Bool

mutual

/-- Expression nodes (`Expression` and its subclasses).  `ElemExp` is a node of
a kind whose lowering rule is not embedded: it stands with its kind `op`, its
already lowered tree `elem` and its answer to `isLvalue`, and is a leaf. -/
inductive Expression
  | IntegerExp (type : DType) (value : Nat)
  | VarExp (type : DType) (var : Dsymbol)
  | DotVarExp (type : DType) (e1 : Expression) (var : Dsymbol)
  | CallExp (type : DType) (e1 : Expression) (arguments : List Expression)
  | ElemExp (op : TOK) (type : DType) (elem : Tree) (lvalue : Bool)
  | DeclarationExp (type : DType) (declaration : Dsymbol) (objfile : Tree)
  | CommaExp (type : DType) (e1 e2 : Expression)
  | CondExp (type : DType) (econd e1 e2 : Expression)
  | CatExp (type : DType) (e1 e2 : Expression)
  | EqualExp (op : TOK) (type : DType) (e1 e2 : Expression)
  | SliceExp (type : DType) (e1 : Expression) (lwr upr : Option Expression)
      (upperIsInBounds lowerIsLessThanUpper : Bool) (lengthVar : Option String)
  | AssignExp (op : TOK) (type : DType) (e1 e2 : Expression) (ismemset : Bool)
  | ArrayLengthExp (type : DType) (e1 : Expression)
  | CastExp (type : DType) (e1 : Expression) (totype : DType)
  | CatAssignExp (type : DType) (e1 e2 : Expression)
  | IndexExp (type : DType) (e1 e2 : Expression) (modifiable indexIsInBounds : Bool)
      (lengthVar : Option String)
  | NewExp (type newtype : DType) (thisexp : Option Expression)
      (allocator : Option FuncDeclaration) (newargs : Option (List Expression))
      (onstack : Bool) (member : Option FuncDeclaration)
      (arguments : Option (List Expression)) ( argprefix : Option Expression)
  | FuncExp (type : DType) (fd : FuncLiteralDeclaration)
  | CmpExp (op : TOK) (type : DType) (e1 e2 : Expression)
  | IdentityExp (op : TOK) (type : DType) (e1 e2 : Expression)
  | DeleteExp (type : DType) (e1 : Expression)
  | PowExp (type : DType) (e1 e2 : Expression)
  | AssertExp (type : DType) (e1 : Expression) (msg : Option Expression)
  | AndAndExp (type : DType) (e1 e2 : Expression)
  | OrOrExp (type : DType) (e1 e2 : Expression)
  | AddExp (type : DType) (e1 e2 : Expression)
  | MinExp (type : DType) (e1 e2 : Expression)

/-- The fields and predicates of `VarDeclaration` read by the embedded rules;
`edtor` is the destructor expression, `none` for `NULL`. -/
inductive VarDeclaration
  | mk (ident : String) (type : DType) (storage_class : List STC)
      (isStatic isField needThis noscope onstack : Bool) (edtor : Option Expression)

/-- Declared symbols: `isVarDeclaration ()` and `isFuncDeclaration ()` answer
by the constructor. -/
inductive Dsymbol
  | VarDeclaration (vd : VarDeclaration)
  | FuncDeclaration (fd : FuncDeclaration)
  | other (ident : String) (type : DType)

end

namespace VarDeclaration

def ident : VarDeclaration → String
  | mk ident _ _ _ _ _ _ _ _ => ident

def type : VarDeclaration → DType
  | mk _ type _ _ _ _ _ _ _ => type

def storage_class : VarDeclaration → List STC
  | mk _ _ storage_class _ _ _ _ _ _ => storage_class

def isStatic : VarDeclaration → Bool
  | mk _ _ _ isStatic _ _ _ _ _ => isStatic

def isField : VarDeclaration → Bool
  | mk _ _ _ _ isField _ _ _ _ => isField

def needThis : VarDeclaration → Bool
  | mk _ _ _ _ _ needThis _ _ _ => needThis

def noscope : VarDeclaration → Bool
  | mk _ _ _ _ _ _ noscope _ _ => noscope

def onstack : VarDeclaration → Bool
  | mk _ _ _ _ _ _ _ onstack _ => onstack

def edtor : VarDeclaration → Option Expression
  | mk _ _ _ _ _ _ _ _ edtor => edtor

end VarDeclaration

namespace Dsymbol

def isVarDeclaration : Dsymbol → Option GDC.VarDeclaration
  | VarDeclaration vd => some vd
  | _ => none

def isFuncDeclaration : Dsymbol → Option GDC.FuncDeclaration
  | FuncDeclaration fd => some fd
  | _ => none

def ident : Dsymbol → String
  | VarDeclaration vd => vd.ident
  | FuncDeclaration fd => fd.ident
  | other ident _ => ident

def type : Dsymbol → DType
  | VarDeclaration vd => vd.type
  | FuncDeclaration fd => fd.type
  | other _ type => type

def storage_class : Dsymbol → List STC
  | VarDeclaration vd => vd.storage_class
  | _ => []

def needThis : Dsymbol → Bool
  | VarDeclaration vd => vd.needThis
  | FuncDeclaration fd => fd.needThis
  | other _ _ => false

def isCtorDeclaration : Dsymbol → Bool
  | FuncDeclaration fd => fd.isCtorDeclaration
  | _ => false

end Dsymbol

namespace Expression

/-- The kind of a node, `e->op`. -/
def op : Expression → TOK
  | IntegerExp _ _ => .TOKint64
  | VarExp _ _ => .TOKvar
  | DotVarExp _ _ _ => .TOKdotvar
  | CallExp _ _ _ => .TOKcall
  | ElemExp op _ _ _ => op
  | DeclarationExp _ _ _ => .TOKdeclaration
  | CommaExp _ _ _ => .TOKcomma
  | CondExp _ _ _ _ => .TOKquestion
  | CatExp _ _ _ => .TOKcat
  | EqualExp op _ _ _ => op
  | SliceExp _ _ _ _ _ _ _ => .TOKslice
  | AssignExp op _ _ _ _ => op
  | ArrayLengthExp _ _ => .TOKarraylength
  | CastExp _ _ _ => .TOKcast
  | CatAssignExp _ _ _ => .TOKcatass
  | IndexExp _ _ _ _ _ _ => .TOKindex
  | NewExp _ _ _ _ _ _ _ _ _ => .TOKnew
  | FuncExp _ _ => .TOKfunction
  | CmpExp op _ _ _ => op
  | IdentityExp op _ _ _ => op
  | DeleteExp _ _ => .TOKdelete
  | PowExp _ _ _ => .TOKpow
  | AssertExp _ _ _ => .TOKassert
  | AndAndExp _ _ _ => .TOKandand
  | OrOrExp _ _ _ => .TOKoror
  | AddExp _ _ _ => .TOKadd
  | MinExp _ _ _ => .TOKmin

/-- The static type of a node, `e->type`. -/
def type : Expression → DType
  | IntegerExp type _ => type
  | VarExp type _ => type
  | DotVarExp type _ _ => type
  | CallExp type _ _ => type
  | ElemExp _ type _ _ => type
  | DeclarationExp type _ _ => type
  | CommaExp type _ _ => type
  | CondExp type _ _ _ => type
  | CatExp type _ _ => type
  | EqualExp _ type _ _ => type
  | SliceExp type _ _ _ _ _ _ => type
  | AssignExp _ type _ _ _ => type
  | ArrayLengthExp type _ => type
  | CastExp type _ _ => type
  | CatAssignExp type _ _ => type
  | IndexExp type _ _ _ _ _ => type
  | NewExp type _ _ _ _ _ _ _ _ => type
  | FuncExp type _ => type
  | CmpExp _ type _ _ => type
  | IdentityExp _ type _ _ => type
  | DeleteExp type _ => type
  | PowExp type _ _ => type
  | AssertExp type _ _ => type
  | AndAndExp type _ _ => type
  | OrOrExp type _ _ => type
  | AddExp type _ _ => type
  | MinExp type _ _ => type

/-- The front-end method `isLvalue` (dfrontend/expression.c, not part of
d-elem.cc), as the front end defines it for the embedded kinds. -/
def isLvalue : Expression → Bool
  | IntegerExp _ _ => false
  | VarExp _ var =>
    !(var.storage_class.contains .STClazy || var.storage_class.contains .STCmanifest)
  | DotVarExp _ _ _ => true
  | CallExp _ e1 _ =>
    match e1.type.toBasetype with
    | .TypeFunction _ isref => isref
    | .TypeDelegate (.TypeFunction _ isref) => isref
    | _ => false
  | ElemExp _ _ _ lvalue => lvalue
  | DeclarationExp _ _ _ => false
  | CommaExp _ _ e2 => e2.isLvalue
  | CondExp _ _ e1 e2 => e1.isLvalue && e2.isLvalue
  | CatExp _ _ _ => false
  | EqualExp _ _ _ _ => false
  | SliceExp type _ _ _ _ _ _ => type.toBasetype.ty == .Tsarray
  | AssignExp _ _ e1 _ _ => !(e1.op == .TOKslice || e1.op == .TOKarraylength)
  | ArrayLengthExp _ _ => false
  | CastExp _ _ _ => false
  | CatAssignExp _ _ _ => true
  | IndexExp _ _ _ _ _ _ => true
  | NewExp _ _ _ _ _ _ _ _ _ => false
  | FuncExp _ _ => false
  | CmpExp _ _ _ _ => false
  | IdentityExp _ _ _ _ => false
  | DeleteExp _ _ => false
  | PowExp _ _ _ => false
  | AssertExp _ _ _ => false
  | AndAndExp _ _ _ => false
  | OrOrExp _ _ _ => false
  | AddExp _ _ _ => false
  | MinExp _ _ _ => false

end Expression

/-! ## Lowering state -/

/-- The compilation parameters `global.params` read by the embedded rules:
whether runtime assertions and class invariant calls are enabled. -/
structure Param where
  useAssert : Bool := true
  useInvariants : Bool := true
  deriving DecidableEq, Repr

/-- The state a lowering reads and writes.  `vars_in_scope` is
`cfun->language->vars_in_scope`, the declarations pending destruction, a
consumed entry being `none`; `temps` numbers the temporaries made so far;
`errors` are the diagnostics reported through `error ()`; `array_bounds_check`
is the answer of `array_bounds_check ()`; `deferred_fns` is
`cfun->language->deferred_fns`, the functions to emit after the current one, by
name; `params` is `global.params`; `isUnitTestDeclaration` is the answer of
`cfun->language->function->isUnitTestDeclaration ()` for the function being
compiled.  `dtors_lowered` is
a ghost field, not program state: the indices of the entries whose destructor
expression `toElemDtor` has lowered, latest first. -/
structure IRState where
  vars_in_scope : List (Option VarDeclaration)
  temps : Nat
  errors : List String
  dtors_lowered : List Nat
  array_bounds_check : Bool
  deferred_fns : List String := []
  params : Param := {}
  isUnitTestDeclaration : Bool := false

/-- The ways a lowering stops without a tree: an internal check that fails
(`gcc_assert`, `gcc_unreachable`), a `NULL` that is dereferenced, the
recursion bound of the embedding being reached, or a rule being called that is
not embedded. -/
inductive Fault
  | gcc_assert | gcc_unreachable | null_deref | out_of_fuel | not_embedded
  deriving DecidableEq, Repr

/-- A lowering computation. -/
abbrev Lower (α : Type) : Type := StateT IRState (Except Fault) α

/-- The check `gcc_assert (c)`. -/
def gcc_assert (c : Bool) : Lower Unit :=
  if c then pure () else throw Fault.gcc_assert

/-- The diagnostic sink `error (...)`: reports and continues. -/
def error (msg : String) : Lower Unit :=
  modify fun s => { s with errors := msg :: s.errors }

/-- Modelled from the spec: the helper `make_temp`, which captures `t` in a new
temporary ("operands are evaluated into named temporaries"): the operand is
evaluated where the temporary is first reached and not again. -/
def make_temp (t : Tree) : Lower Tree := do
  let s ← get
  set { s with temps := s.temps + 1 }
  pure (save_expr s.temps t)

/-- Modelled from the spec: the helper `maybe_make_temp`, a temporary "wherever
an operand could otherwise be evaluated more than once", that is when the
operand has side effects, and the operand itself otherwise. -/
def maybe_make_temp (t : Tree) : Lower Tree :=
  if d_has_side_effects t then make_temp t else pure t

/-- Modelled from the spec: the helper `build_bounds_condition`, the "dynamic
bounds check comparing the index against the length": with bounds checking
off the index is returned directly; otherwise the index is captured and the
result is the index guarded by a call of the bounds-check failure routine. -/
def build_bounds_condition (index len : Tree) (inclusive : Bool) : Lower Tree := do
  if !(← get).array_bounds_check then
    pure index
  else
    let index ← maybe_make_temp index
    let condition := build2 (if inclusive then .GT_EXPR else .GE_EXPR) index len
    let boundserr := build_libcall .LIBCALL_ARRAY_BOUNDS []
    pure (build_condition condition boundserr index)

/-- Modelled from the spec: the helper `create_temporary_var`, a new variable. -/
def create_temporary_var : Lower Nat := do
  let s ← get
  set { s with temps := s.temps + 1 }
  pure s.temps

/-- The helper `get_decl_tree`: the tree of a declared symbol. -/
def get_decl_tree (var : Dsymbol) : Tree :=
  match var with
  | .FuncDeclaration fd => function_decl fd.ident
  | _ => var_decl var.ident

/-- The helper `declaration_reference_p`: the variable is a reference. -/
def declaration_reference_p (var : Dsymbol) : Bool :=
  var.storage_class.contains .STCout || var.storage_class.contains .STCref

/-- The helper `get_function_type`: the function type behind a function,
delegate or function pointer type, `none` for `NULL`. -/
def get_function_type (t : DType) : Option DType :=
  match t.toBasetype with
  | .TypeFunction next isref => some (.TypeFunction next isref)
  | .TypeDelegate (.TypeFunction next isref) => some (.TypeFunction next isref)
  | .TypePointer (.TypeFunction next isref) => some (.TypeFunction next isref)
  | _ => none

/-! ## The lowering rules

Each rule takes the virtual call `e->toElem ()` on a child as the function
`toElem`; the calls are made in the order of the source.  A test `e->op == TOKx`
that is followed by a cast of `e` to the class of that kind is a match on the
constructor. -/

/-- The helper `d_array_convert (exp)`: lowers an array operand and turns a
fixed-size array into a dynamic array view. -/
def d_array_convert (toElem : Expression → Lower Tree) (exp : Expression) : Lower Tree :=
  let tb := exp.type.toBasetype
  if tb.ty == .Tarray then
    toElem exp
  else if tb.ty == .Tsarray then do
    let t ← toElem exp
    pure (d_array_value (size_int tb.dim) (build_nop (build_address t)))
  else
    -- Invalid type passed.
    throw Fault.gcc_unreachable

/-- The loop of `Expression::toElemDtor` over `vars_in_scope[i]` for
`i = starti, ..., endi - 1`; `count` is `endi - i`. -/
def toElemDtor_loop (toElem : Expression → Lower Tree) :
    Nat → Nat → Option Tree → Lower (Option Tree)
  | 0, _, tdtors => pure tdtors
  | count + 1, i, tdtors => do
    let s ← get
    match s.vars_in_scope[i]? with
    | none => throw Fault.gcc_assert
    | some none => toElemDtor_loop toElem count (i + 1) tdtors
    | some (some vd) =>
      set { s with vars_in_scope := s.vars_in_scope.set i none,
                   dtors_lowered := i :: s.dtors_lowered }
      match vd.edtor with
      | none => throw Fault.null_deref
      | some edtor =>
        let td ← toElem edtor
        -- Execute in reverse order.
        toElemDtor_loop toElem count (i + 1) (some (maybe_compound_expr tdtors td))

/-- The test of `toElemDtor` for a constructor call on a temporary that is
declared in the receiver: `catchCtor` is cleared for it. -/
def catchCtor (this : Expression) : Bool :=
  match this with
  | .CallExp _ (.DotVarExp _ (.CommaExp _ ce1 ce2) var) _ =>
    !(var.isCtorDeclaration && ce1.op == .TOKdeclaration && ce2.op == .TOKvar)
  | _ => true

/-- The token `rtoken` of `toElemDtor`: the kind of the node, for a comma
expression that of its right operand. -/
def rtoken (this : Expression) : TOK :=
  match this with
  | .CommaExp _ _ e2 => e2.op
  | _ => this.op

/-- The method `Expression::toElemDtor`: evaluate the expression, then call
destructors on any temporaries in it. -/
def Expression.toElemDtor (toElem : Expression → Lower Tree) (this : Expression) :
    Lower Tree := do
  let starti := (← get).vars_in_scope.length
  let exp ← toElem this
  let endi := (← get).vars_in_scope.length
  -- `for (i = starti; i != endi; ++i)`: past `endi` the index is out of range
  if endi < starti then throw Fault.gcc_assert
  let tdtors ← toElemDtor_loop toElem (endi - starti) starti none
  match tdtors with
  | none => pure exp
  | some tdtors =>
    if catchCtor this && (rtoken this == .TOKcall || rtoken this == .TOKnew) then
      if this.type.ty == .Tvoid then
        pure (build2 .TRY_FINALLY_EXPR exp tdtors)
      else do
        let body ← maybe_make_temp exp
        let tfexp := build2 .TRY_FINALLY_EXPR body tdtors
        pure (compound_expr tfexp body)
    else if this.op == .TOKcomma && rtoken this == .TOKvar then
      match TREE_OPERAND exp 0, TREE_OPERAND exp 1 with
      | some lexp, some rvalue => pure (compound_expr (compound_expr lexp tdtors) rvalue)
      | _, _ => throw Fault.gcc_assert
    else do
      let exp ← maybe_make_temp exp
      pure (compound_expr (compound_expr exp tdtors) exp)

/-- The rule `DeclarationExp::toElem`.  `objfile` is the statement list that
`declaration->toObjFile ()` (d-objfile.cc) emits between `push_stmt_list` and
`pop_stmt_list`; it is taken as given. -/
def DeclarationExp.toElem (declaration : Dsymbol) (objfile : Tree) : Lower Tree := do
  match declaration.isVarDeclaration with
  | some vd =>
    if !vd.isStatic && !vd.storage_class.contains .STCmanifest
        && !(vd.storage_class.contains STC.STCextern || vd.storage_class.contains .STCtls
              || vd.storage_class.contains .STCgshared) then
      -- Put variable on list of things needing destruction
      if vd.edtor.isSome && !vd.noscope then
        modify fun s => { s with vars_in_scope := s.vars_in_scope ++ [some vd] }
  | none => pure ()
  match objfile with
  | statement_list null_tree => pure (build1 .NOP_EXPR void_node)
  | t => pure t

/-- The rule `CommaExp::toElem`. -/
def CommaExp.toElem (toElem : Expression → Lower Tree) (e1 e2 : Expression) : Lower Tree := do
  let t1 ← toElem e1
  let t2 ← toElem e2
  pure (build2 .COMPOUND_EXPR t1 t2)

/-- The rule `CondExp::toElem`. -/
def CondExp.toElem (toElem : Expression → Lower Tree) (type : DType)
    (econd e1 e2 : Expression) : Lower Tree := do
  let cond := convert_for_condition (← toElem econd) econd.type
  let t1 ← e1.toElemDtor toElem
  let t2 ← e2.toElemDtor toElem
  if type.ty != .Tvoid then
    pure (build_condition cond (convert_expr t1 e1.type type) (convert_expr t2 e2.type type))
  else
    pure (build_condition cond t1 t2)

/-- The rule `IntegerExp::toElem`. -/
def IntegerExp.toElem (value : Nat) : Lower Tree :=
  pure (integer_cst value)

/-- The rule `SymbolExp::toElem` for a variable read (`op == TOKvar`). -/
def SymbolExp.toElem (type : DType) (var : Dsymbol) : Lower Tree := do
  if var.needThis then
    error ("need this to access member " ++ var.ident)
    pure error_mark_node
  else if var.ident == "__ctfe" then
    -- __ctfe is always false at runtime
    pure integer_zero_node
  else
    let exp := get_decl_tree var
    let exp := if declaration_reference_p var then indirect_ref exp else exp
    if !d_types_same var.type type && var.isFuncDeclaration.isNone then
      pure (build1 .VIEW_CONVERT_EXPR exp)
    else
      pure exp

/-- The rule `DotVarExp::toElem`. -/
def DotVarExp.toElem (toElem : Expression → Lower Tree) (e1 : Expression) (var : Dsymbol) :
    Lower Tree := do
  match var.isVarDeclaration with
  | some vd =>
    if !vd.isField then
      pure (get_decl_tree var)
    else
      let object ← toElem e1
      if e1.type.toBasetype.ty != .Tstruct then
        pure (component_ref (build_deref object) vd.ident)
      else
        pure (component_ref object vd.ident)
  | none =>
    error (var.ident ++ " is not a field")
    pure error_mark_node

/-- The rule `ArrayLengthExp::toElem`. -/
def ArrayLengthExp.toElem (toElem : Expression → Lower Tree) (e1 : Expression) :
    Lower Tree := do
  if e1.type.toBasetype.ty == .Tarray then
    pure (d_array_length (← toElem e1))
  else
    error "unexpected type for array length"
    pure error_mark_node

/-- The rule `CastExp::toElem`. -/
def CastExp.toElem (toElem : Expression → Lower Tree) (e1 : Expression) (totype : DType) :
    Lower Tree := do
  let ebtype := e1.type.toBasetype
  let tbtype := totype.toBasetype
  let t ← toElem e1
  -- Just evaluate e1 if it has any side effects
  if tbtype.ty == .Tvoid then
    pure (build_nop t)
  else
    pure (convert_expr t ebtype tbtype)

/-- The method `Type::arrayOf`: the dynamic array type of an element type. -/
def DType.arrayOf (t : DType) : DType := .TypeDArray t

/-- The struct behind a struct type, `((TypeStruct *) t)->sym`. -/
def DType.sym : DType → Option StructDeclaration
  | .TypeStruct sym => some sym
  | _ => none

/-- The rule `EqualExp::toElem`. -/
def EqualExp.toElem (toElem : Expression → Lower Tree) (op : TOK) (e1 e2 : Expression) :
    Lower Tree := do
  let tb1 := e1.type.toBasetype
  let tb2 := e2.type.toBasetype
  let code := if op == .TOKequal then tree_code.EQ_EXPR else tree_code.NE_EXPR
  if (tb1.ty == .Tsarray || tb1.ty == .Tarray)
      && (tb2.ty == .Tsarray || tb2.ty == .Tarray) then
    match tb1.nextOf with
    | none => throw Fault.null_deref
    | some next =>
    let t1elem := next.toBasetype
    -- the source reads `tb1` here as well
    let t2elem := next.toBasetype
    -- Check if comparisons of arrays can be optimized using memcmp.
    if (t1elem.isintegral || t1elem.ty == .Tvoid || t1elem.ty == .Tstruct)
        && t1elem.ty == t2elem.ty then
      let t1 ← d_array_convert toElem e1
      let t2 ← d_array_convert toElem e2
      -- Make temporaries to prevent multiple evaluations.
      let t1saved ← make_temp t1
      let t2saved ← make_temp t2
      -- Length of arrays, for comparisons done before calling memcmp.
      let t1len := d_array_length t1saved
      let t2len := d_array_length t2saved
      -- Reference to array data.
      let t1ptr := d_array_ptr t1saved
      let t2ptr := d_array_ptr t2saved
      -- Compare arrays using memcmp if possible, otherwise for structs,
      -- each field is compared inline.
      let result :=
        if t1elem.ty != .Tstruct || (t1elem.sym.map (·.identity_compare)).getD false then
          let tsize := fold_build2 .MULT_EXPR t1len (size_int t1elem.size)
          let tmemcmp := d_build_call_nary .BUILT_IN_MEMCMP [t1ptr, t2ptr, tsize]
          build2 code tmemcmp integer_zero_node
        else
          helper (if op == .TOKequal then "build_array_struct_comparison (EQ_EXPR)"
              else "build_array_struct_comparison (NE_EXPR)") false
            (Tree.list [t1len, t1ptr, t2ptr])
      -- Guard array comparison by first testing array length.
      let tsizecmp := build2 code t1len size_zero_node
      let result :=
        if op == .TOKequal then build_boolop .TRUTH_ORIF_EXPR tsizecmp result
        else build_boolop .TRUTH_ANDIF_EXPR tsizecmp result
      -- Finally, check if lengths of both arrays match.  The frontend
      -- should have already guaranteed that static arrays have same size.
      let result ←
        if tb1.ty == .Tsarray && tb2.ty == .Tsarray then do
          gcc_assert (tb1.size == tb2.size)
          pure result
        else
          let tlencmp := build2 code t1len t2len
          if op == .TOKequal then pure (build_boolop .TRUTH_ANDIF_EXPR tlencmp result)
          else pure (build_boolop .TRUTH_ORIF_EXPR tlencmp result)
      -- Ensure left-to-right order of evaluation.
      let result := if d_has_side_effects t2 then compound_expr t2saved result else result
      let result := if d_has_side_effects t1 then compound_expr t1saved result else result
      pure result
    else
      -- _adEq2 compares each element.
      let arg0 ← d_array_convert toElem e1
      let arg1 ← d_array_convert toElem e2
      let arg2 := build_typeinfo t1elem.arrayOf
      let result := d_convert (build_libcall .LIBCALL_ADEQ2 [arg0, arg1, arg2])
      if op == .TOKnotequal then pure (build1 .TRUTH_NOT_EXPR result) else pure result
  else if tb1.ty == .Tstruct then
    let t1 ← toElem e1
    let t2 ← toElem e2
    gcc_assert (d_types_same tb1 tb2)
    pure (helper "build_struct_comparison" false (Tree.list [t1, t2]))
  else if tb1.ty == .Taarray && tb2.ty == .Taarray then
    let arg0 := build_typeinfo tb1
    let arg1 ← toElem e1
    let arg2 ← toElem e2
    let result := d_convert (build_libcall .LIBCALL_AAEQUAL [arg0, arg1, arg2])
    if op == .TOKnotequal then pure (build1 .TRUTH_NOT_EXPR result) else pure result
  else
    let t1 ← toElem e1
    let t2 ← toElem e2
    pure (d_convert (build_boolop code t1 t2))

/-- Modelled from the spec: the helper `d_array_convert (etype, exp, &vars)`:
an operand "that is a bare element (not itself an array) is wrapped into a
one-element array view first", through a new variable pushed to `vars` unless
the operand is a variable already; an array operand is converted as by
`d_array_convert (exp)`. -/
def d_array_convert_elem (toElem : Expression → Lower Tree) (etype : Option DType)
    (exp : Expression) (vars : List Tree) : Lower (Tree × List Tree) := do
  let tb := exp.type.toBasetype
  if (tb.ty != .Tarray && tb.ty != .Tsarray) || etype == some tb then
    let t ← toElem exp
    match t with
    | var_decl name =>
      pure (d_array_value (size_int 1) (build_address (var_decl name)), vars)
    | t =>
      let var := temp_var (← create_temporary_var) null_tree
      pure (d_array_value (size_int 1)
              (build_address (compound_expr (modify_expr var t) var)), vars ++ [var])
  else
    pure (← d_array_convert toElem exp, vars)

/-- The first loop of `CatExp::toElem`, counting the operands of the chain:
`for (ex = e1; ex->op == TOKcat;) { ex = ex->e1; ndims++; }`. -/
def CatExp.ndims_loop : Expression → Nat → Nat
  | .CatExp _ e1 _, ndims => ndims_loop e1 (ndims + 1)
  | _, ndims => ndims

/-- The second loop of `CatExp::toElem`, from right to left over the chain,
entered with `oe = ce->e2` for the node `ce` of operands `ce_e1`, `ce_e2`.  The
nodes of an expression tree being distinct objects, the test `oe == ce->e1`
holds exactly when `oe` was loaded from `ce->e1`, which the step does when
`ce->e1` is no concatenation.  Yields the pairs appended, `dim` and `elemvars`. -/
def CatExp.elms_loop (toElem : Expression → Lower Tree) (etype : Option DType) :
    Expression → Expression → Int → List (Nat × Tree) → List Tree →
      Lower (List (Nat × Tree) × Int × List Tree)
  | ce_e1, ce_e2, dim, elms, elemvars => do
    let (arg, elemvars) ← d_array_convert_elem toElem etype ce_e2 elemvars
    let elms := elms ++ [(dim.toNat, ← maybe_make_temp arg)]
    let dim := dim - 1
    match ce_e1 with
    | .CatExp _ e1 e2 => CatExp.elms_loop toElem etype e1 e2 dim elms elemvars
    | oe => do
      let (arg, elemvars) ← d_array_convert_elem toElem etype oe elemvars
      let elms := elms ++ [(dim.toNat, ← maybe_make_temp arg)]
      -- Finished pushing all arrays.
      pure (elms, dim, elemvars)

/-- The `CONSTRUCTOR` chain of the given pairs. -/
def Tree.elts : List (Nat × Tree) → Tree
  | [] => null_tree
  | (index, value) :: rest => constructor_elt index value (Tree.elts rest)

/-- The rule `CatExp::toElem`. -/
def CatExp.toElem (toElem : Expression → Lower Tree) (type : DType) (e1 e2 : Expression) :
    Lower Tree := do
  -- One of the operands may be an element instead of an array.
  let tb1 := e1.type.toBasetype
  let tb2 := e2.type.toBasetype
  let etype := if tb1.ty == .Tarray || tb1.ty == .Tsarray then tb1.nextOf else tb2.nextOf
  let (result, elemvars) ←
    match e1 with
    | .CatExp _ _ _ => do
      -- Flatten multiple concatenations to an array.
      -- So the expression ((a ~ b) ~ c) becomes [a, b, c]
      let ndims := CatExp.ndims_loop e1 2
      -- Store all concatenation args to a temporary byte[][ndims] array.
      let var ← create_temporary_var
      -- Loop through each concatenation from right to left.
      let (elms, dim, elemvars) ← CatExp.elms_loop toElem etype e1 e2 (ndims - 1) [] []
      -- Check there is no logic bug in constructing byte[][] of arrays.
      gcc_assert (dim == 0)
      let var := temp_var var (constructor (Tree.elts elms))
      let arg0 := build_typeinfo type
      let arg1 := d_array_value (size_int ndims) (build_address var)
      pure (build_libcall .LIBCALL_ARRAYCATNTX [arg0, arg1], var :: elemvars)
    | _ => do
      -- Handle single concatenation (a ~ b)
      let arg0 := build_typeinfo type
      let (arg1, elemvars) ← d_array_convert_elem toElem etype e1 []
      let (arg2, elemvars) ← d_array_convert_elem toElem etype e2 elemvars
      pure (build_libcall .LIBCALL_ARRAYCATT [arg0, arg1, arg2], elemvars)
  pure (elemvars.foldl (fun result var => bind_expr var result) result)

/-- The method `Type::pointerTo`: the pointer type to a type. -/
def DType.pointerTo (t : DType) : DType := .TypePointer t

/-- The part of `SliceExp::toElem` for a dynamic-array result, after the lower
bound: the upper bound with its bounds checks and the new length.  `lwr_tree`
is `none` for `NULL_TREE`, a lower bound that is the constant zero. -/
def SliceExp.toElem_upper (toElem : Expression → Lower Tree) (tb1 : DType)
    (upr : Option Expression) (upperIsInBounds lowerIsLessThanUpper : Bool)
    (array ptr : Tree) (length lwr_tree : Option Tree) : Lower Tree := do
  -- Generate upper bound with bounds checking.
  let upr_tree ← match upr with
    | some upr => do maybe_make_temp (← toElem upr)
    | none => throw Fault.null_deref
  let newlength ←
    if !upperIsInBounds then
      match length with
      | some length => build_bounds_condition upr_tree length true
      | none => do
        -- Still need to check bounds lwr <= upr for pointers.
        gcc_assert (tb1.ty == .Tpointer)
        pure upr_tree
    else
      pure upr_tree
  let newlength ←
    match lwr_tree with
    | some lwr_tree => do
      -- Enforces lwr <= upr. No need to check lwr <= length as
      -- we have already ensured that upr <= length.
      let newlength ←
        if !lowerIsLessThanUpper then do
          let cond ← build_bounds_condition lwr_tree upr_tree true
          -- When bounds checking is off, the index value is returned directly.
          if (← get).array_bounds_check then pure (compound_expr cond newlength)
          else pure newlength
        else
          pure newlength
      -- Need to ensure lwr always gets evaluated first, as it may be a
      -- function call.  Generates (lwr, upr) - lwr.
      pure (fold_build2 .MINUS_EXPR (compound_expr lwr_tree newlength) lwr_tree)
    | none => pure newlength
  let result := d_array_value newlength ptr
  pure (compound_expr array result)

/-- The rule `SliceExp::toElem`.  The assignment of the length to the symbol of
`lengthVar` (the `__dollar` variable) writes no lowering state and is left out. -/
def SliceExp.toElem (toElem : Expression → Lower Tree) (type : DType) (e1 : Expression)
    (lwr upr : Option Expression) (upperIsInBounds lowerIsLessThanUpper : Bool)
    (lengthVar : Option String) : Lower Tree := do
  let tb := type.toBasetype
  let tb1 := e1.type.toBasetype
  gcc_assert (tb.ty == .Tarray || tb.ty == .Tsarray)
  -- Use convert-to-dynamic-array code if possible
  match lwr with
  | none =>
    let t1 ← toElem e1
    if e1.type.toBasetype.ty == .Tsarray then
      pure (convert_expr t1 e1.type type)
    else
      pure t1
  | some lwr =>
    gcc_assert upr.isSome
    -- Get the data pointer and length for static and dynamic arrays.
    let array ← maybe_make_temp (← toElem e1)
    let ptr ← match tb1.nextOf with
      | some next => pure (convert_expr array tb1 next.pointerTo)
      | none => throw Fault.null_deref
    -- Our array is already a SAVE_EXPR if necessary, so we do not make length
    -- a SAVE_EXPR which is, at most, a COMPONENT_REF on top of array.
    let length ←
      if tb1.ty != .Tpointer then
        pure (some (get_array_length array tb1))
      else do
        gcc_assert lengthVar.isNone
        pure none
    -- Generate lower bound.
    let lwr_tree ← maybe_make_temp (← toElem lwr)
    -- Adjust the .ptr offset, or else `lwr_tree = NULL_TREE`.
    let ptr :=
      if !integer_zerop lwr_tree then build_nop (build_array_index (void_okay_p ptr) lwr_tree)
      else ptr
    let lwr_tree := if !integer_zerop lwr_tree then some lwr_tree else none
    -- Nothing more to do for static arrays.
    if tb.ty == .Tsarray then
      pure (indirect_ref ptr)
    else
      gcc_assert (tb.ty == .Tarray)
      SliceExp.toElem_upper toElem tb1 upr upperIsInBounds lowerIsLessThanUpper array ptr
        length lwr_tree

/-- The helper `needsPostblit`: determine if type is an array of structs that
need a postblit. -/
def needsPostblit (t : DType) : Bool :=
  match t.baseElemOf with
  | .TypeStruct sd => sd.postblit
  | _ => false

/-- The operand `((UnaExp *) e)->e1` of a slice or cast node. -/
def Expression.una_e1 : Expression → Option Expression
  | .SliceExp _ e1 _ _ _ _ _ => some e1
  | .CastExp _ e1 _ => some e1
  | _ => none

/-- The test of `AssignExp::toElem` that the right side, or the operand of a
slice or cast on the right side, is an lvalue. -/
def rhs_isLvalue (e2 : Expression) : Bool :=
  (e2.op != .TOKslice && e2.isLvalue)
    || (e2.op == .TOKslice && (e2.una_e1.map (·.isLvalue)).getD false)
    || (e2.op == .TOKcast && (e2.una_e1.map (·.isLvalue)).getD false)

/-- The method `Type::isZeroInit` of the front end. -/
def DType.isZeroInit : DType → Bool
  | .TypeBasic ty =>
    match ty with
    | .Tbool | .Tint8 | .Tuns8 | .Tint16 | .Tuns16 | .Tint32 | .Tuns32
    | .Tint64 | .Tuns64 | .Tint128 | .Tuns128 => true
    | _ => false
  | .TypeSArray next _ => next.isZeroInit
  | .TypeStruct sym => sym.zeroInit
  | .TypeEnum memtype => memtype.isZeroInit
  | .TypeFunction _ _ => false
  | _ => true

/-- The part of `AssignExp::toElem` for `array[] = n` and `array[] = array`
(`e1->op == TOKslice`); `se_e1` is the operand of the slice `e1`. -/
def AssignExp.toElem_slice (toElem : Expression → Lower Tree) (op : TOK)
    (e1 e2 : Expression) (ismemset : Bool) (se_e1 : Expression) : Lower Tree := do
  let stype := se_e1.type.toBasetype
  let etype ← match stype.nextOf with
    | some next => pure next.toBasetype
    | none => throw Fault.null_deref
  -- Determine if we need to run postblit or dtor.
  let postblit := needsPostblit etype && rhs_isLvalue e2
  if ismemset then
    -- Set a range of elements to one value.
    let t1 ← maybe_make_temp (← toElem e1)
    let t2 ← toElem e2
    if postblit && op != .TOKblit then
      let libcall :=
        if op == .TOKconstruct then LibCall.LIBCALL_ARRAYSETCTOR
        else LibCall.LIBCALL_ARRAYSETASSIGN
      let call := build_libcall libcall
        [d_array_ptr t1, build_address t2, d_array_length t1, build_typeinfo etype]
      pure (compound_expr call t1)
    else
      let result :=
        if integer_zerop t2 then
          let size := fold_build2 .MULT_EXPR (d_convert (d_array_length t1))
            (size_int etype.size)
          d_build_call_nary .BUILT_IN_MEMSET [d_array_ptr t1, integer_zero_node, size]
        else
          build_array_set (d_array_ptr t1) (d_array_length t1) t2
      pure (compound_expr result t1)
  else
    -- Perform a memcpy operation.
    gcc_assert (e2.type.ty != .Tpointer)
    if !postblit && !(← get).array_bounds_check then
      let t1 ← maybe_make_temp (← d_array_convert toElem e1)
      let t2 ← d_array_convert toElem e2
      let size := fold_build2 .MULT_EXPR (d_convert (d_array_length t1)) (size_int etype.size)
      let result := d_build_call_nary .BUILT_IN_MEMCPY [d_array_ptr t1, d_array_ptr t2, size]
      pure (compound_expr result t1)
    else if postblit && op != .TOKblit then
      -- Generate _d_arrayassign(ti, from, to) or _d_arrayctor(ti, from, to)
      let arg0 := build_typeinfo etype
      let arg1 ← maybe_make_temp (← d_array_convert toElem e2)
      let arg2 ← d_array_convert toElem e1
      let libcall :=
        if op == .TOKconstruct then LibCall.LIBCALL_ARRAYCTOR else LibCall.LIBCALL_ARRAYASSIGN
      pure (build_libcall libcall [arg0, arg1, arg2])
    else
      -- Generate _d_arraycopy()
      let arg0 := size_int etype.size
      let arg1 ← maybe_make_temp (← d_array_convert toElem e2)
      let arg2 ← d_array_convert toElem e1
      pure (build_libcall .LIBCALL_ARRAYCOPY [arg0, arg1, arg2])

/-- Modelled from the spec: the helper `build_vthis`, the link "to that
enclosing instance" of a nested struct. -/
def build_vthis (sd : StructDeclaration) : Tree :=
  helper "build_vthis" false (Tree.list [var_decl sd.ident])

/-- The part of `AssignExp::toElem` after the slice and array-length cases. -/
def AssignExp.toElem_rest (toElem : Expression → Lower Tree) (op : TOK)
    (e1 e2 : Expression) : Lower Tree := do
  -- Look for reference initializations
  let refinit :=
    match e1 with
    | .VarExp _ decl =>
      op == TOK.TOKconstruct
        && (decl.storage_class.contains .STCout || decl.storage_class.contains .STCref)
    | _ => false
  if refinit then
    let t1 ← toElem e1
    let t2 := convert_for_assignment (← toElem e2) e2.type e1.type
    -- Want reference to lhs, not indirect ref.
    match TREE_OPERAND t1 0 with
    | some t1 => pure (indirect_ref (modify_expr t1 (build_address t2)))
    | none => throw Fault.gcc_assert
  else
  -- Other types of assignments that may require post construction.
  let tb1 := e1.type.toBasetype
  match tb1 with
  | .TypeStruct sd =>
    let t1 ← toElem e1
    let t2 := convert_for_assignment (← toElem e2) e2.type e1.type
    if e2.op == TOK.TOKint64 then
      -- Use memset to fill struct.
      let result := d_build_call_nary .BUILT_IN_MEMSET
        [build_address t1, t2, size_int sd.structsize]
      -- Maybe set-up hidden pointer to outer scope context.
      let result :=
        if sd.isNested then
          compound_expr result (modify_expr (component_ref t1 "this") (build_vthis sd))
        else result
      pure (compound_expr result t1)
    else
      pure (modify_expr t1 t2)
  | .TypeSArray etype _ =>
    gcc_assert (e2.type.toBasetype.ty == TY.Tsarray)
    -- Determine if we need to run postblit.
    let postblit := needsPostblit etype
    let lvalue_p := rhs_isLvalue e2
    -- Even if the elements in rhs are all rvalues and do not have to call
    -- postblits, this assignment should call dtors on old assigned elements.
    if !postblit || (op == TOK.TOKconstruct && !lvalue_p && postblit)
        || (op == TOK.TOKblit || e1.type.size == 0) then
      let t1 ← toElem e1
      let t2 := convert_for_assignment (← toElem e2) e2.type e1.type
      pure (modify_expr t1 t2)
    else if op == TOK.TOKconstruct then
      -- Generate _d_arrayassign(ti, from, to) or _d_arrayctor(ti, from, to)
      let arg0 := build_typeinfo etype
      let arg1 ← d_array_convert toElem e2
      let arg2 ← d_array_convert toElem e1
      let result := build_libcall .LIBCALL_ARRAYCTOR [arg0, arg1, arg2]
      pure (compound_expr result (← toElem e1))
    else
      -- Generate _d_arrayassign_l() or _d_arrayassign_r()
      let elembuf := temp_var (← create_temporary_var) null_tree
      let arg0 := build_typeinfo etype
      let arg1 ← d_array_convert toElem e2
      let arg2 ← d_array_convert toElem e1
      let arg3 := build_address elembuf
      let libcall :=
        if lvalue_p then LibCall.LIBCALL_ARRAYASSIGN_L else LibCall.LIBCALL_ARRAYASSIGN_R
      let result := build_libcall libcall [arg0, arg1, arg2, arg3]
      pure (compound_expr result (← toElem e1))
  | _ =>
    -- Simple assignment
    let t1 ← toElem e1
    let t2 := convert_for_assignment (← toElem e2) e2.type e1.type
    pure (modify_expr t1 t2)

/-- The rule `AssignExp::toElem`. -/
def AssignExp.toElem (toElem : Expression → Lower Tree) (op : TOK) (e1 e2 : Expression)
    (ismemset : Bool) : Lower Tree :=
  -- First, handle special assignment semantics
  match e1 with
  | .ArrayLengthExp _ ale_e1 => do
    -- Assignment to an array length property; resize the array.
    -- Do not want ->toBasetype() for the element type.
    let etype ← match ale_e1.type.toBasetype.nextOf with
      | some next => pure next
      | none => throw Fault.null_deref
    let arg0 := build_typeinfo ale_e1.type
    let arg1 := convert_expr (← toElem e2) e2.type (.TypeBasic .Tuns64)
    let arg2 := build_address (← toElem ale_e1)
    let libcall :=
      if etype.isZeroInit then LibCall.LIBCALL_ARRAYSETLENGTHT
      else LibCall.LIBCALL_ARRAYSETLENGTHIT
    let result := build_libcall libcall [arg0, arg1, arg2]
    pure (d_array_length result)
  | .SliceExp _ se_e1 _ _ _ _ _ => AssignExp.toElem_slice toElem op e1 e2 ismemset se_e1
  | _ => AssignExp.toElem_rest toElem op e1 e2

/-- The loop of `CallExp::toElem` that strips the casts off the receiver and
tells whether it is `super` or a type (`is_dottype`). -/
def CallExp.is_dottype : Expression → Bool
  | .CastExp _ e1 _ => CallExp.is_dottype e1
  | ex => ex.op == TOK.TOKsuper || ex.op == TOK.TOKdottype

/-- Lowers the argument expressions in order. -/
def toElem_arguments (toElem : Expression → Lower Tree) : List Expression → Lower (List Tree)
  | [] => pure []
  | arg :: rest => do
    let targ ← toElem arg
    let targs ← toElem_arguments toElem rest
    pure (targ :: targs)

/-- Modelled from the spec: the helper `d_build_call`, which builds the call of
`callee` on the optional object reference followed by the lowered arguments. -/
def d_build_call (toElem : Expression → Lower Tree) (callee : Tree) (object : Option Tree)
    (arguments : List Expression) : Lower Tree := do
  let targs ← toElem_arguments toElem arguments
  match object with
  | some object => pure (call_expr callee (Tree.list (object :: targs)))
  | none => pure (call_expr callee (Tree.list targs))

/-- Modelled from the spec: the helper `build_vindex_ref`, the load of "the
function pointer from the object's virtual table at the method's fixed slot
index". -/
def build_vindex_ref (object : Tree) (index : Nat) : Tree :=
  helper "build_vindex_ref" false (Tree.list [object, size_int index])

/-- The rule `CallExp::toElem`.  The clearing of the `sinit` field of a struct
literal receiver and the storage set-up of a nested function write no lowering
state and are left out. -/
def CallExp.toElem (toElem : Expression → Lower Tree) (type : DType) (e1 : Expression)
    (arguments : List Expression) : Lower Tree := do
  let tb := e1.type.toBasetype
  -- Calls to delegates can sometimes look like this:
  let e1b ←
    match e1 with
    | .CommaExp _ _ ce2 =>
      match ce2 with
      | .VarExp _ var => do
        gcc_assert (var.isFuncDeclaration.isSome && !var.needThis)
        pure ce2
      | _ => throw Fault.gcc_assert
    | _ => pure e1
  let callee ←
    match e1b with
    | .DotVarExp _ dve_e1 dve_var =>
      if tb.ty != TY.Tdelegate then
        -- Is this static method call?
        let is_dottype := CallExp.is_dottype dve_e1
        match dve_var.isFuncDeclaration with
        | some fd =>
          -- Get the correct callee from the DotVarExp object.
          let fndecl := function_decl fd.ident
          -- Static method; ignore the object instance.
          if !fd.isThis then
            pure (some (build_address fndecl))
          else do
            let thisexp ← toElem dve_e1
            -- Want reference to this object.
            let thisexp :=
              if dve_e1.type.ty != TY.Tclass && dve_e1.type.ty != TY.Tpointer then
                build_address thisexp
              else thisexp
            -- Make the callee a virtual call.
            let fndecl :=
              if fd.isVirtual && !fd.isFinalFunc && !is_dottype then
                build_vindex_ref thisexp fd.vtblIndex
              else
                build_address fndecl
            pure (some (method_call_expr fndecl thisexp))
        | none => pure none
      else pure none
    | _ => pure none
  let callee ←
    match callee with
    | some callee => pure callee
    | none => toElem e1b
  let (tf, callee, object) ←
    match callee with
    | method_call_expr fn obj =>
      -- This could be a delegate expression (TY == Tdelegate), but not
      -- actually a delegate variable.
      match e1b with
      | .DotVarExp _ _ var => pure (get_function_type var.type, fn, some obj)
      | _ => pure (get_function_type tb, fn, some obj)
    | callee =>
      if tb.ty == TY.Tdelegate then do
        -- Delegate call, extract .object and .funcptr from var.
        let callee ← maybe_make_temp callee
        pure (get_function_type tb, component_ref callee "funcptr",
              some (component_ref callee "object"))
      else
        match e1b with
        | .VarExp _ var =>
          match var.isFuncDeclaration with
          | none => throw Fault.gcc_assert
          | some fd =>
            if fd.isNested then
              pure (get_function_type fd.type, callee,
                    some (helper "get_frame_for_symbol" false (Tree.list [function_decl fd.ident])))
            else if fd.needThis then do
              error ("need this to access member " ++ fd.ident)
              -- Continue processing...
              pure (get_function_type fd.type, callee, some (integer_cst 0))
            else
              pure (get_function_type fd.type, callee, none)
        | _ =>
          -- Normal direct function call.
          pure (get_function_type tb, callee, none)
  match tf with
  | some (.TypeFunction _ isref) =>
    -- Now we have the type, callee and maybe object reference,
    -- build the call expression.
    let exp ← d_build_call toElem callee object arguments
    let exp := if isref then build_deref exp else exp
    -- Some library calls are defined to return a generic type.
    -- this->type is the real type we want to return.
    match type with
    | .TypeBasic _ => pure (d_convert exp)
    | _ => pure exp
  | _ => throw Fault.gcc_assert

/-- The rule `CatAssignExp::toElem`. -/
def CatAssignExp.toElem (toElem : Expression → Lower Tree) (type : DType)
    (e1 e2 : Expression) : Lower Tree := do
  let tb1 := e1.type.toBasetype
  let tb2 := e2.type.toBasetype
  let etype ← match tb1.nextOf with
    | some next => pure next.toBasetype
    | none => throw Fault.null_deref
  if tb1.ty == .Tarray && tb2.ty == .Tdchar && (etype.ty == .Tchar || etype.ty == .Twchar) then
    -- Append a dchar to a char[] or wchar[]
    let arg0 := build_address (← toElem e1)
    let arg1 ← toElem e2
    let libcall :=
      if etype.ty == .Tchar then LibCall.LIBCALL_ARRAYAPPENDCD
      else LibCall.LIBCALL_ARRAYAPPENDWD
    pure (build_libcall libcall [arg0, arg1])
  else
    gcc_assert (tb1.ty == .Tarray || tb2.ty == .Tsarray)
    let appends_array ←
      if tb2.ty == .Tarray || tb2.ty == .Tsarray then
        match tb2.nextOf with
        | some next2 => pure (d_types_same etype next2.toBasetype)
        | none => throw Fault.null_deref
      else pure false
    if appends_array then
      -- Append an array
      let arg0 := build_typeinfo type
      let arg1 := build_address (← toElem e1)
      let arg2 ← d_array_convert toElem e2
      pure (build_libcall .LIBCALL_ARRAYAPPENDT [arg0, arg1, arg2])
    else if d_types_same etype tb2 then
      -- Append an element
      let arg0 := build_typeinfo type
      let arg1 := build_address (← toElem e1)
      let arg2 := size_one_node
      let result := build_libcall .LIBCALL_ARRAYAPPENDCTX [arg0, arg1, arg2]
      let result ← make_temp result
      -- Assign e2 to last element
      let off_exp := d_array_length result
      let off_exp := build2 .MINUS_EXPR off_exp size_one_node
      let off_exp ← maybe_make_temp off_exp
      let ptr_exp := d_array_ptr result
      let ptr_exp := void_okay_p ptr_exp
      let ptr_exp := build_array_index ptr_exp off_exp
      -- Evaluate expression before appending
      let e2e ← toElem e2
      let e2e ← maybe_make_temp e2e
      let result := modify_expr (build_deref ptr_exp) e2e
      pure (compound_expr e2e result)
    else
      throw Fault.gcc_unreachable

/-- Modelled from the spec: the helper `d_truthvalue_conversion` on a pointer,
the test of the "null check" on "the returned slot pointer": it is not null. -/
def d_truthvalue_conversion (exp : Tree) : Tree := build2 .NE_EXPR exp (integer_cst 0)

/-- Modelled from the spec: the helper `d_assert_call` on a library routine,
the "bounds-check failure call". -/
def d_assert_call (libcall : LibCall) : Tree := build_libcall libcall []

/-- The rule `IndexExp::toElem`.  The placeholder `lengthVar->csym` set for
`__dollar` is a field of the declaration, not lowering state, and is left out. -/
def IndexExp.toElem (toElem : Expression → Lower Tree) (e1 e2 : Expression)
    (modifiable indexIsInBounds : Bool) (lengthVar : Option String) : Lower Tree := do
  let tb1 := e1.type.toBasetype
  if tb1.ty == .Taarray then
    match tb1 with
    | .TypeAArray next index =>
      -- Get the key for the associative array.
      let tkey := index.toBasetype
      let key := convert_expr (← toElem e2) e2.type tkey
      let (libcall, arg0, arg1) ←
        if modifiable then do
          pure (LibCall.LIBCALL_AAGETY, build_address (← toElem e1), build_typeinfo tb1)
        else do
          pure (LibCall.LIBCALL_AAGETRVALUEX, ← toElem e1, build_typeinfo tkey)
      let arg2 := size_int next.size
      let arg3 := build_address key
      -- Index the associative array.
      let result := build_libcall libcall [arg0, arg1, arg2, arg3]
      let result ←
        if !indexIsInBounds && (← get).array_bounds_check then do
          let result ← make_temp result
          pure (build_condition (d_truthvalue_conversion result) result
            (d_assert_call .LIBCALL_ARRAY_BOUNDS))
        else pure result
      pure (indirect_ref result)
    | _ => throw Fault.null_deref
  else
    -- Get the data pointer and length for static and dynamic arrays.
    let array ← maybe_make_temp (← toElem e1)
    let ptr ← match tb1.nextOf with
      | some next => pure (convert_expr array tb1 next.pointerTo)
      | none => throw Fault.null_deref
    if tb1.ty == .Tpointer then
      gcc_assert lengthVar.isNone
    -- Generate the index.
    let index ← toElem e2
    -- If it is a static array and the index is constant,
    -- the front end has already checked the bounds.
    let index ←
      if tb1.ty != .Tpointer && !indexIsInBounds then
        build_bounds_condition index (get_array_length array tb1) false
      else pure index
    -- Index the .ptr
    let ptr := void_okay_p ptr
    pure (indirect_ref (build_array_index ptr index))

/-- The class behind a class type, `type->isClassHandle ()`. -/
def DType.isClassHandle : DType → Option ClassDeclaration
  | .TypeClass sym => some sym
  | _ => none

/-- The class type `outer_cd->type` of the enclosing class named `ident`; the
conversion to it reads its identity only. -/
def class_handle (ident : String) : DType := .TypeClass ⟨ident, false, "", false, [], false, false, false⟩

/-- Modelled from the spec: the helper `build_vthis` on a class, the "hidden
outer-context pointer" of a nested class made without `this`. -/
def build_vthis_class (cd : ClassDeclaration) : Tree :=
  helper "build_vthis" false (Tree.list [var_decl cd.ident])

/-- The constant `null_pointer_node`. -/
def null_pointer_node : Tree := integer_cst 0

/-- The helper `d_build_call` on a function declaration: the call of the
address of its symbol. -/
def d_build_call_fd (toElem : Expression → Lower Tree) (fd : FuncDeclaration)
    (object : Option Tree) (arguments : Option (List Expression)) : Lower Tree :=
  d_build_call toElem (build_address (function_decl fd.ident)) object (arguments.getD [])

/-- The end of `NewExp::toElem`: the lowered `argprefix`, when there is one,
is put before the result, which is converted to the type of the node. -/
def NewExp.finish (toElem : Expression → Lower Tree) (type tb : DType)
    ( argprefix : Option Expression) (result : Tree) : Lower Tree := do
  let result ← match argprefix with
    | some argprefix => do pure (compound_expr (← toElem argprefix) result)
    | none => pure result
  pure (convert_expr result tb type)

/-- The loop of `NewExp::toElem` over the dimensions of a multidimensional
array allocation: it appends the pair `(i, arg->toElem ())` and steps `telem`
to its element type. -/
def NewExp.dims_loop (toElem : Expression → Lower Tree) :
    List Expression → Nat → DType → List (Nat × Tree) → Lower (List (Nat × Tree) × DType)
  | [], _, telem, elms => pure (elms, telem)
  | arg :: rest, i, telem, elms => do
    let elms := elms ++ [(i, ← toElem arg)]
    gcc_assert (telem.ty == .Tarray)
    match telem.toBasetype.nextOf with
    | some next => NewExp.dims_loop toElem rest (i + 1) next elms
    | none => throw Fault.gcc_assert

/-- The part of `NewExp::toElem` for a class.  `cd->toSymbol ()->Stree` is the
variable named after the class, `cd->toInitializer ()->Stree` the variable
`ident.init`, the hidden pointer the field `this`. -/
def NewExp.toElem_class (toElem : Expression → Lower Tree) (type newtype : DType)
    (thisexp : Option Expression) (allocator : Option FuncDeclaration)
    (newargs : Option (List Expression)) (onstack : Bool) (member : Option FuncDeclaration)
    (arguments : Option (List Expression)) ( argprefix : Option Expression) : Lower Tree := do
  let tb := newtype.toBasetype
  gcc_assert (tb.ty == .Tclass)
  match tb with
  | .TypeClass cd =>
    -- Call allocator (custom allocator or _d_newclass).
    let (new_call, setup_exp) ←
      if onstack then do
        let stack_var := temp_var (← create_temporary_var) null_tree
        pure (build_address stack_var,
          some (modify_expr stack_var (var_decl (cd.ident ++ ".init"))))
      else
        match allocator with
        | some allocator => do
          let new_call ← d_build_call_fd toElem allocator none newargs
          let new_call ← maybe_make_temp new_call
          -- copy memory...
          pure (new_call,
            some (modify_expr (indirect_ref new_call) (var_decl (cd.ident ++ ".init"))))
        | none =>
          let arg := build_address (var_decl cd.ident)
          pure (build_libcall .LIBCALL_NEWCLASS [arg], none)
    let new_call := build_nop new_call
    -- Set vthis for nested classes.
    let (new_call, setup_exp) ←
      if cd.isNested then do
        let vthis_value ←
          match thisexp with
          | some thisexp => do
            let vthis_value ← toElem thisexp
            if thisexp.type.isClassHandle.map (·.ident) != some cd.outer then
              if !cd.outer_isClass then throw Fault.null_deref
              match thisexp.type.isClassHandle with
              | some thisexp_cd => gcc_assert (thisexp_cd.bases.contains cd.outer)
              | none => throw Fault.null_deref
              -- could just add offset
              pure (convert_expr vthis_value thisexp.type (class_handle cd.outer))
            else pure vthis_value
          | none => pure (build_vthis_class cd)
        let new_call ← maybe_make_temp new_call
        let vthis_field := component_ref (indirect_ref new_call) "this"
        pure (new_call, some (maybe_compound_expr setup_exp (modify_expr vthis_field vthis_value)))
      else pure (new_call, setup_exp)
    let new_call := maybe_compound_expr setup_exp new_call
    -- Call constructor.
    let result ←
      match member with
      | some member => d_build_call_fd toElem member (some new_call) arguments
      | none => pure new_call
    NewExp.finish toElem type tb argprefix result
  | _ => throw Fault.gcc_assert

/-- The part of `NewExp::toElem` for a struct.  The lowering of the struct
literal built for a user supplied initialiser is not embedded. -/
def NewExp.toElem_struct (toElem : Expression → Lower Tree) (type newtype : DType)
    (allocator : Option FuncDeclaration) (newargs : Option (List Expression)) (onstack : Bool)
    (member : Option FuncDeclaration) (arguments : Option (List Expression))
    ( argprefix : Option Expression) : Lower Tree := do
  let tb := type.toBasetype
  let htype := newtype.toBasetype
  gcc_assert (htype.ty == .Tstruct)
  gcc_assert (!onstack)
  match htype with
  | .TypeStruct sd =>
    -- Cannot new an opaque struct.
    if sd.structsize == 0 then
      pure (d_convert integer_zero_node)
    else
      let new_call ←
        match allocator with
        | some allocator => d_build_call_fd toElem allocator none newargs
        | none =>
          let libcall :=
            if htype.isZeroInit then LibCall.LIBCALL_NEWITEMT else LibCall.LIBCALL_NEWITEMIT
          pure (build_libcall libcall [build_typeinfo newtype])
      let new_call ← maybe_make_temp new_call
      let new_call := build_nop new_call
      if member.isSome || arguments.isNone then
        -- Set vthis for nested structs.
        let new_call :=
          if sd.isNested then
            compound_expr
              (modify_expr (component_ref (indirect_ref new_call) "this") (build_vthis sd))
              new_call
          else new_call
        -- Call constructor.
        let result ←
          match member with
          | some member => d_build_call_fd toElem member (some new_call) arguments
          | none => pure new_call
        NewExp.finish toElem type tb argprefix result
      else
        -- User supplied initialiser, set-up with a struct literal.
        throw Fault.not_embedded
  | _ => throw Fault.gcc_assert

/-- The part of `NewExp::toElem` for a D array. -/
def NewExp.toElem_array (toElem : Expression → Lower Tree) (type newtype : DType)
    (allocator : Option FuncDeclaration) (arguments : Option (List Expression))
    ( argprefix : Option Expression) : Lower Tree := do
  let tb := newtype.toBasetype
  gcc_assert (tb.ty == .Tarray)
  gcc_assert allocator.isNone
  match tb, arguments with
  | .TypeDArray next, some [arg] =>
    -- Single dimension array allocations.
    -- Elem size is unknown.
    if next.size == 0 then
      pure (d_array_value (size_int 0) null_pointer_node)
    else
      let libcall :=
        if next.isZeroInit then LibCall.LIBCALL_NEWARRAYT else LibCall.LIBCALL_NEWARRAYIT
      let arg0 := build_typeinfo type
      let arg1 ← toElem arg
      let result := build_libcall libcall [arg0, arg1]
      NewExp.finish toElem type tb argprefix result
  | .TypeDArray _, some (arg :: rest) =>
    -- Multidimensional array allocations.
    let var ← create_temporary_var
    let (elms, telem) ← NewExp.dims_loop toElem (arg :: rest) 0 newtype.toBasetype []
    let var := temp_var var (constructor (Tree.elts elms))
    let libcall :=
      if telem.isZeroInit then LibCall.LIBCALL_NEWARRAYMTX else LibCall.LIBCALL_NEWARRAYMITX
    let arg0 := build_typeinfo type
    let arg1 := d_array_value (size_int (arg :: rest).length) (build_address var)
    let result := build_libcall libcall [arg0, arg1]
    let result := bind_expr var result
    NewExp.finish toElem type tb argprefix result
  | _, _ => throw Fault.gcc_assert

/-- The part of `NewExp::toElem` for a pointer. -/
def NewExp.toElem_pointer (toElem : Expression → Lower Tree) (type newtype : DType)
    (arguments : Option (List Expression)) ( argprefix : Option Expression) : Lower Tree := do
  let tb := type.toBasetype
  match tb.nextOf with
  | some next =>
    -- Elem size is unknown.
    if next.size == 0 then
      pure (d_convert integer_zero_node)
    else
      let libcall :=
        if next.isZeroInit then LibCall.LIBCALL_NEWITEMT else LibCall.LIBCALL_NEWITEMIT
      let result := build_libcall libcall [build_typeinfo newtype]
      let result ←
        match arguments with
        | some [arg] => do
          let result ← make_temp result
          let init := modify_expr (build_deref result) (← toElem arg)
          pure (compound_expr init result)
        | _ => pure result
      NewExp.finish toElem type tb argprefix result
  | none => throw Fault.null_deref

/-- The rule `NewExp::toElem`: the four shapes, by the base type of the node. -/
def NewExp.toElem (toElem : Expression → Lower Tree) (type newtype : DType)
    (thisexp : Option Expression) (allocator : Option FuncDeclaration)
    (newargs : Option (List Expression)) (onstack : Bool) (member : Option FuncDeclaration)
    (arguments : Option (List Expression)) ( argprefix : Option Expression) : Lower Tree := do
  let tb := type.toBasetype
  if allocator.isSome then
    gcc_assert newargs.isSome
  if tb.ty == .Tclass then
    -- New'ing a class.
    NewExp.toElem_class toElem type newtype thisexp allocator newargs onstack member
      arguments argprefix
  else if tb.ty == .Tpointer && (tb.nextOf.map (·.toBasetype.ty)) == some TY.Tstruct then
    -- New'ing a struct.
    NewExp.toElem_struct toElem type newtype allocator newargs onstack member arguments
      argprefix
  else if tb.ty == .Tarray then
    -- New'ing a D array.
    NewExp.toElem_array toElem type newtype allocator arguments argprefix
  else if tb.ty == .Tpointer then
    -- New'ing a pointer
    NewExp.toElem_pointer toElem type newtype arguments argprefix
  else
    throw Fault.gcc_unreachable

/-- The rule `FuncExp::toElem`; it yields the tree and the declaration as the
rule leaves it (`fd->tok` and `fd->vthis` may be reset). -/
def FuncExp.toElem (type : DType) (fd : FuncLiteralDeclaration) :
    Lower (Tree × FuncLiteralDeclaration) := do
  let ftype := type.toBasetype
  -- This check is for lambdas, remove vthis as function is not nested.
  let fd :=
    if fd.tok == .TOKreserved && ftype.ty == .Tpointer then
      { fd with tok := .TOKfunction, vthis := none }
    else fd
  -- Emit after current function body has finished.
  modify fun s => { s with deferred_fns := s.deferred_fns ++ [fd.ident] }
  -- If nested, this will be a trampoline...
  if fd.isNested fd.tok fd.vthis then
    pure (method_call_expr (build_address (function_decl fd.ident))
      (helper "get_frame_for_symbol" false (Tree.list [function_decl fd.ident])), fd)
  else
    pure (build_nop (build_address (function_decl fd.ident)), fd)

/-- Number of bits in an addressable storage unit (`BITS_PER_UNIT`). -/
def BITS_PER_UNIT : Nat := 8

/-- The bits of `TYPE_PRECISION (build_ctype (t))` on the target taken: those
of the IEEE single and double formats and of the x87 extended format; for any
other type those of its size. -/
def DType.precision (t : DType) : Nat :=
  match t.toBasetype with
  | .TypeBasic .Tfloat32 => 32
  | .TypeBasic .Tfloat64 => 64
  | .TypeBasic .Tfloat80 => 80
  | tb => BITS_PER_UNIT * tb.size

/-- The rule `IdentityExp::toElem`.  `TYPE_PRECISION (build_ctype (t))`, a
property of the type nodes of the target, is the function `precision`. -/
def IdentityExp.toElem (toElem : Expression → Lower Tree) (precision : DType → Nat)
    (op : TOK) (e1 e2 : Expression) : Lower Tree := do
  let tb1 := e1.type.toBasetype
  let tb2 := e2.type.toBasetype
  let code := if op == .TOKidentity then tree_code.EQ_EXPR else tree_code.NE_EXPR
  if (tb1.ty == .Tsarray || tb1.ty == .Tarray)
      && (tb2.ty == .Tsarray || tb2.ty == .Tarray) then
    -- Convert arrays to D array types.
    pure (build2 code (← d_array_convert toElem e1) (← d_array_convert toElem e2))
  else if tb1.isfloating then
    let t1 ← toElem e1
    let t2 ← toElem e2
    -- Assume all padding is at the end of the type.
    let size := size_int (precision e1.type / BITS_PER_UNIT)
    -- Do bit compare of floats.
    let tmemcmp := d_build_call_nary .BUILT_IN_MEMCMP [build_address t1, build_address t2, size]
    pure (build_boolop code tmemcmp integer_zero_node)
  else if tb1.ty == .Tstruct then
    let t1 ← toElem e1
    let t2 ← toElem e2
    gcc_assert (d_types_same tb1 tb2)
    pure (helper (if op == .TOKidentity then "build_struct_comparison (EQ_EXPR)"
      else "build_struct_comparison (NE_EXPR)") false (Tree.list [t1, t2]))
  else
    -- For operands of other types, identity is defined as being the same as equality.
    let tcmp := build_boolop code (← toElem e1) (← toElem e2)
    pure (d_convert tcmp)

/-- The tree code chosen by the `switch (op)` of `CmpExp::toElem`, `none` for
its `default: gcc_unreachable ()`. -/
def CmpExp.code (op : TOK) (tb1 tb2 : DType) : Option tree_code :=
  match op with
  | .TOKue => some (if tb1.isfloating && tb2.isfloating then .UNEQ_EXPR else .EQ_EXPR)
  | .TOKlg => some (if tb1.isfloating && tb2.isfloating then .LTGT_EXPR else .NE_EXPR)
  | .TOKule => some (if tb1.isfloating && tb2.isfloating then .UNLE_EXPR else .LE_EXPR)
  | .TOKul => some (if tb1.isfloating && tb2.isfloating then .UNLT_EXPR else .LT_EXPR)
  | .TOKuge => some (if tb1.isfloating && tb2.isfloating then .UNGE_EXPR else .GE_EXPR)
  | .TOKug => some (if tb1.isfloating && tb2.isfloating then .UNGT_EXPR else .GT_EXPR)
  | .TOKle => some .LE_EXPR
  | .TOKlt => some .LT_EXPR
  | .TOKge => some .GE_EXPR
  | .TOKgt => some .GT_EXPR
  | .TOKleg => some .ORDERED_EXPR
  | .TOKunord => some .UNORDERED_EXPR
  | _ => none

def integer_one_node : Tree := integer_cst 1
def boolean_true_node : Tree := integer_cst 1
def boolean_false_node : Tree := integer_cst 0

/-- Modelled from the spec: the GCC function `convert (bool_type_node, exp)`,
which makes of an integer constant "a compile-time-constant boolean". -/
def convert_bool (exp : Tree) : Tree :=
  match exp with
  | integer_cst value => if value == 0 then boolean_false_node else boolean_true_node
  | t => build1 .NOP_EXPR t

/-- The rule `CmpExp::toElem`. -/
def CmpExp.toElem (toElem : Expression → Lower Tree) (op : TOK) (e1 e2 : Expression) :
    Lower Tree := do
  let tb1 := e1.type.toBasetype
  let tb2 := e2.type.toBasetype
  let code ← match CmpExp.code op tb1 tb2 with
    | some code => pure code
    | none => throw Fault.gcc_unreachable
  if (tb1.ty == .Tsarray || tb1.ty == .Tarray)
      && (tb2.ty == .Tsarray || tb2.ty == .Tarray) then
    let telem ← match tb1.nextOf with
      | some next => pure next.toBasetype
      | none => throw Fault.null_deref
    let arg0 ← d_array_convert toElem e1
    let arg1 ← d_array_convert toElem e2
    let arg2 := build_typeinfo telem.arrayOf
    let result := build_libcall .LIBCALL_ADCMP2 [arg0, arg1, arg2]
    if code == .ORDERED_EXPR then
      pure (build_boolop .COMPOUND_EXPR result (d_truthvalue_conversion integer_one_node))
    else if code == .UNORDERED_EXPR then
      pure (build_boolop .COMPOUND_EXPR result (d_truthvalue_conversion integer_zero_node))
    else
      let result := build_boolop code result integer_zero_node
      pure (d_convert result)
  else
    if (!tb1.isfloating || !tb2.isfloating) && code == .ORDERED_EXPR then
      pure (convert_bool integer_one_node)
    else if (!tb1.isfloating || !tb2.isfloating) && code == .UNORDERED_EXPR then
      pure (convert_bool integer_zero_node)
    else
      let result := build_boolop code (← toElem e1) (← toElem e2)
      pure (d_convert result)

/-- Modelled from the spec: the lowered `getTypeInfo (t, NULL)`, the "pointer
to a structural type descriptor" of `t`. -/
def getTypeInfo_toElem (t : DType) : Tree := build_typeinfo t

/-- The test of `DeleteExp::toElem` for a class variable on the stack:
`e1->op == TOKvar` and `v && v->onstack` for its variable `v`. -/
def DeleteExp.onstack (e1 : Expression) : Bool :=
  match e1 with
  | .VarExp _ var => (var.isVarDeclaration.map (·.onstack)).getD false
  | _ => false

/-- The rule `DeleteExp::toElem`. -/
def DeleteExp.toElem (toElem : Expression → Lower Tree) (e1 : Expression) : Lower Tree := do
  let t1 ← toElem e1
  let tb1 := e1.type.toBasetype
  if tb1.ty == .Tclass then
    let cd ← match tb1.isClassHandle with
      | some cd => pure cd
      | none => throw Fault.null_deref
    if DeleteExp.onstack e1 then
      let libcall :=
        if cd.isInterfaceDeclaration then LibCall.LIBCALL_CALLINTERFACEFINALIZER
        else LibCall.LIBCALL_CALLFINALIZER
      pure (build_libcall libcall [t1])
    else
      let libcall :=
        if cd.isInterfaceDeclaration then LibCall.LIBCALL_DELINTERFACE
        else LibCall.LIBCALL_DELCLASS
      let t1 := build_address t1
      pure (build_libcall libcall [t1])
  else if tb1.ty == .Tarray then
    -- Might need to run destructor on array contents
    let next ← match tb1.nextOf with
      | some next => pure next
      | none => throw Fault.null_deref
    let ti :=
      match next.baseElemOf with
      | .TypeStruct sym => if sym.dtor then getTypeInfo_toElem next else null_pointer_node
      | _ => null_pointer_node
    -- call _delarray_t (&t1, ti);
    pure (build_libcall .LIBCALL_DELARRAYT [build_address t1, ti])
  else if tb1.ty == .Tpointer then
    let t1 := build_address t1
    let tnext ← match tb1.nextOf with
      | some next => pure next.toBasetype
      | none => throw Fault.null_deref
    match tnext with
    | .TypeStruct sym =>
      if sym.dtor then
        pure (build_libcall .LIBCALL_DELSTRUCT [t1, getTypeInfo_toElem tnext])
      else
        pure (build_libcall .LIBCALL_DELMEMORY [t1])
    | _ => pure (build_libcall .LIBCALL_DELMEMORY [t1])
  else
    error "don\x27t know how to delete"
    pure error_mark_node

/-- The type nodes of GCC that `PowExp::toElem` compares. -/
inductive type_node
  | double_type_node | float_type_node | long_double_type_node | other_type_node
  deriving DecidableEq, Repr

/-- Modelled from the spec: `TYPE_MAIN_VARIANT (build_ctype (t))` as far as
`PowExp::toElem` compares it: the type node of `double`, `float` and `real`. -/
def build_ctype (t : DType) : type_node :=
  match t with
  | .TypeBasic .Tfloat64 => .double_type_node
  | .TypeBasic .Tfloat32 => .float_type_node
  | .TypeBasic .Tfloat80 => .long_double_type_node
  | _ => .other_type_node

/-- The builtin that `PowExp::toElem` looks up for `powtype`, `none` for
`NULL_TREE`. -/
def PowExp.powfn (powtype : type_node) : Option built_in_function :=
  if powtype == .double_type_node then some .BUILT_IN_POW
  else if powtype == .float_type_node then some .BUILT_IN_POWF
  else if powtype == .long_double_type_node then some .BUILT_IN_POWL
  else none

/-- The rule `PowExp::toElem`. -/
def PowExp.toElem (toElem : Expression → Lower Tree) (type : DType) (e1 e2 : Expression) :
    Lower Tree := do
  let tb1 := e1.type.toBasetype
  -- Dictates what version of pow() we call.
  let powtype := build_ctype type.toBasetype
  -- If type is int, implicitly convert to double.
  -- This allows backend to fold the call into a constant return value.
  let powtype := if type.isintegral then type_node.double_type_node else powtype
  -- Lookup compatible builtin.
  match PowExp.powfn powtype with
  | none =>
    if tb1.ty == .Tarray || tb1.ty == .Tsarray then
      error "Array operation not implemented"
    else
      error "^^ is not supported"
    pure error_mark_node
  | some powfn =>
    let e1_t := d_convert (← toElem e1)
    let e2_t := d_convert (← toElem e2)
    pure (d_convert (d_build_call_nary powfn [e1_t, e2_t]))

/-- The rule `AndAndExp::toElem`. -/
def AndAndExp.toElem (toElem : Expression → Lower Tree) (e1 e2 : Expression) : Lower Tree := do
  if e2.type.toBasetype.ty != .Tvoid then
    let t1 := convert_for_condition (← toElem e1) e1.type
    let t2 := convert_for_condition (← toElem e2) e2.type
    pure (d_convert (build_boolop .TRUTH_ANDIF_EXPR t1 t2))
  else
    let cond := convert_for_condition (← toElem e1) e1.type
    pure (build_condition cond (← e2.toElemDtor toElem) void_node)

/-- The rule `OrOrExp::toElem`. -/
def OrOrExp.toElem (toElem : Expression → Lower Tree) (e1 e2 : Expression) : Lower Tree := do
  if e2.type.toBasetype.ty != .Tvoid then
    let t1 := convert_for_condition (← toElem e1) e1.type
    let t2 := convert_for_condition (← toElem e2) e2.type
    pure (d_convert (build_boolop .TRUTH_ORIF_EXPR t1 t2))
  else
    let cond := build1 .TRUTH_NOT_EXPR (convert_for_condition (← toElem e1) e1.type)
    pure (build_condition cond (← e2.toElemDtor toElem) void_node)

/-- Modelled from the spec: the helper `complex_expr`, "a genuine complex
value" of the given real and imaginary parts. -/
def complex_expr (re im : Tree) : Tree := build2 .COMPLEX_EXPR re im

/-- Modelled from the spec: the helper `build_binary_op`, which does "emit the
primitive operation node" of the code on the two operands. -/
def build_binary_op (code : tree_code) (arg0 arg1 : Tree) : Tree := build2 code arg0 arg1

/-- The rule `MinExp::toElem`. -/
def MinExp.toElem (toElem : Expression → Lower Tree) (e1 e2 : Expression) : Lower Tree := do
  if (e1.type.isreal && e2.type.isimaginary) || (e1.type.isimaginary && e2.type.isreal) then
    let t1 ← toElem e1
    let t2 ← toElem e2
    let t2 := build1 .NEGATE_EXPR t2
    if e1.type.isreal then
      pure (complex_expr t1 t2)
    else
      pure (complex_expr t2 t1)
  else
    -- The front end has already taken care of pointer-int and pointer-pointer
    pure (build_binary_op .MINUS_EXPR (← toElem e1) (← toElem e2))

/-- The rule `AddExp::toElem`. -/
def AddExp.toElem (toElem : Expression → Lower Tree) (e1 e2 : Expression) : Lower Tree := do
  if (e1.type.isreal && e2.type.isimaginary) || (e1.type.isimaginary && e2.type.isreal) then
    let t1 ← toElem e1
    let t2 ← toElem e2
    if e1.type.isreal then
      pure (complex_expr t1 t2)
    else
      pure (complex_expr t2 t1)
  else
    -- The front end has already taken care of (pointer + integer)
    pure (build_binary_op .PLUS_EXPR (← toElem e1) (← toElem e2))

/-- Modelled from the spec: the helper `d_assert_call (loc, libcall, msg)`, the
"runtime assertion-failure call (message-carrying or bare)"; the source
location is not modelled. -/
def d_assert_call_msg (libcall : LibCall) (msg : Option Tree) : Tree :=
  match msg with
  | some tmsg => build_libcall libcall [tmsg]
  | none => build_libcall libcall []

/-- Modelled from the spec: the helper `build_vcondition`, a condition of type
`void` that evaluates one of two branches. -/
def build_vcondition (cond t1 t2 : Tree) : Tree := build3 .COND_EXPR cond t1 t2

/-- The type of `Object`, the root of the class hierarchy (`build_object_type`). -/
def build_object_type : DType := class_handle "Object"

/-- The rule `AssertExp::toElem`. -/
def AssertExp.toElem (toElem : Expression → Lower Tree) (e1 : Expression)
    (msg : Option Expression) : Lower Tree := do
  if (← get).params.useAssert then
    let tb1 := e1.type.toBasetype
    -- Build _d_assert call.
    let (tmsg, libcall) ←
      if (← get).isUnitTestDeclaration then
        match msg with
        | some msg => do
          let tmsg ← msg.toElemDtor toElem
          pure (some tmsg, LibCall.LIBCALL_UNITTEST_MSG)
        | none => pure (none, LibCall.LIBCALL_UNITTEST)
      else
        match msg with
        | some msg => do
          let tmsg ← msg.toElemDtor toElem
          pure (some tmsg, LibCall.LIBCALL_ASSERT_MSG)
        | none => pure (none, LibCall.LIBCALL_ASSERT)
    let assert_call := d_assert_call_msg libcall tmsg
    -- Build condition that we are asserting in this contract.
    if tb1.ty == .Tclass then
      let cd ← match tb1.isClassHandle with
        | some cd => pure cd
        | none => throw Fault.null_deref
      let arg ← toElem e1
      if cd.isCOMclass then
        pure (build_vcondition (build_boolop .NE_EXPR arg null_pointer_node) void_node
          assert_call)
      else
        let arg := if cd.isInterfaceDeclaration then convert_expr arg tb1 build_object_type
          else arg
        if (← get).params.useInvariants && !cd.isCPPclass then
          let arg ← maybe_make_temp arg
          let invc := build_libcall .LIBCALL_INVARIANT [arg]
          -- This does a null pointer check before calling _d_invariant
          pure (build_vcondition (build_boolop .NE_EXPR arg null_pointer_node) invc assert_call)
        else
          pure (build_vcondition (build_boolop .NE_EXPR arg null_pointer_node) void_node
            assert_call)
    else
      -- build: ((bool) e1  ? (void)0 : _d_assert (...))
      --    or: (e1 != null ? e1._invariant() : _d_assert (...))
      let e1_t ← toElem e1
      let inv :=
        if (← get).params.useInvariants && tb1.ty == .Tpointer then
          match tb1.nextOf with
          | some (.TypeStruct sym) => sym.inv
          | _ => none
        else none
      match inv with
      | some inv =>
        let e1_t ← maybe_make_temp e1_t
        let invc ← d_build_call toElem (build_address (function_decl inv)) (some e1_t) []
        pure (build_vcondition (convert_for_condition e1_t e1.type) invc assert_call)
      | none =>
        pure (build_vcondition (convert_for_condition e1_t e1.type) void_node assert_call)
  else
    pure void_node

/-- The virtual call `e->toElem ()`, by recursion on the nesting of the nodes:
`fuel` bounds the depth of the calls. -/
def toElem : Nat → Expression → Lower Tree
  | 0, _ => throw Fault.out_of_fuel
  | fuel + 1, e =>
    match e with
    | .IntegerExp _ value => IntegerExp.toElem value
    | .VarExp type var => SymbolExp.toElem type var
    | .DotVarExp _ e1 var => DotVarExp.toElem (toElem fuel) e1 var
    | .CallExp type e1 arguments => CallExp.toElem (toElem fuel) type e1 arguments
    | .ElemExp _ _ elem _ => pure elem
    | .DeclarationExp _ declaration objfile => DeclarationExp.toElem declaration objfile
    | .CommaExp _ e1 e2 => CommaExp.toElem (toElem fuel) e1 e2
    | .CondExp type econd e1 e2 => CondExp.toElem (toElem fuel) type econd e1 e2
    | .CatExp type e1 e2 => CatExp.toElem (toElem fuel) type e1 e2
    | .EqualExp op _ e1 e2 => EqualExp.toElem (toElem fuel) op e1 e2
    | .SliceExp type e1 lwr upr upperIsInBounds lowerIsLessThanUpper lengthVar =>
      SliceExp.toElem (toElem fuel) type e1 lwr upr upperIsInBounds lowerIsLessThanUpper
        lengthVar
    | .AssignExp op _ e1 e2 ismemset => AssignExp.toElem (toElem fuel) op e1 e2 ismemset
    | .ArrayLengthExp _ e1 => ArrayLengthExp.toElem (toElem fuel) e1
    | .CastExp _ e1 totype => CastExp.toElem (toElem fuel) e1 totype
    | .CatAssignExp type e1 e2 => CatAssignExp.toElem (toElem fuel) type e1 e2
    | .IndexExp _ e1 e2 modifiable indexIsInBounds lengthVar =>
      IndexExp.toElem (toElem fuel) e1 e2 modifiable indexIsInBounds lengthVar
    | .NewExp type newtype thisexp allocator newargs onstack member arguments argprefix =>
      NewExp.toElem (toElem fuel) type newtype thisexp allocator newargs onstack member
        arguments argprefix
    | .FuncExp type fd => do
      let r ← FuncExp.toElem type fd
      pure r.1
    | .CmpExp op _ e1 e2 => CmpExp.toElem (toElem fuel) op e1 e2
    | .IdentityExp op _ e1 e2 => IdentityExp.toElem (toElem fuel) DType.precision op e1 e2
    | .DeleteExp _ e1 => DeleteExp.toElem (toElem fuel) e1
    | .PowExp type e1 e2 => PowExp.toElem (toElem fuel) type e1 e2
    | .AssertExp _ e1 msg => AssertExp.toElem (toElem fuel) e1 msg
    | .AndAndExp _ e1 e2 => AndAndExp.toElem (toElem fuel) e1 e2
    | .OrOrExp _ e1 e2 => OrOrExp.toElem (toElem fuel) e1 e2
    | .AddExp _ e1 e2 => AddExp.toElem (toElem fuel) e1 e2
    | .MinExp _ e1 e2 => MinExp.toElem (toElem fuel) e1 e2

/-- The method `toElemDtor` on the embedded rules. -/
def toElemDtor (fuel : Nat) (e : Expression) : Lower Tree :=
  e.toElemDtor (toElem fuel)

/-! ## Evaluation order of a tree -/

/-- The side-effecting atoms of a tree in the order in which they are
evaluated, along the path on which every operand is evaluated.  Operands are
evaluated left to right, the arguments of a call after its callee, the
variable of a `BIND_EXPR` before its body.  A temporary (`save_expr`, or a
`temp_var` with its initializer) evaluates its operand where it is first
reached and not again: `seen` holds the temporaries evaluated so far. -/
def Tree.eval_order : Tree → List Nat → List String × List Nat
  | atom name side_effects, seen => (if side_effects then [name] else [], seen)
  | save_expr id op0, seen =>
    if id ∈ seen then ([], seen)
    else
      let r := op0.eval_order seen
      (r.1, id :: r.2)
  | build1 _ op0, seen => op0.eval_order seen
  | build2 _ op0 op1, seen =>
    let r0 := op0.eval_order seen
    let r1 := op1.eval_order r0.2
    (r0.1 ++ r1.1, r1.2)
  | build3 _ op0 op1 op2, seen =>
    let r0 := op0.eval_order seen
    let r1 := op1.eval_order r0.2
    let r2 := op2.eval_order r1.2
    (r0.1 ++ r1.1 ++ r2.1, r2.2)
  | component_ref object _, seen => object.eval_order seen
  | call_expr fn args, seen =>
    let r0 := fn.eval_order seen
    let r1 := args.eval_order r0.2
    (r0.1 ++ r1.1, r1.2)
  | tree_list value chain, seen =>
    let r0 := value.eval_order seen
    let r1 := chain.eval_order r0.2
    (r0.1 ++ r1.1, r1.2)
  | constructor elts, seen => elts.eval_order seen
  | constructor_elt _ value chain, seen =>
    let r0 := value.eval_order seen
    let r1 := chain.eval_order r0.2
    (r0.1 ++ r1.1, r1.2)
  | bind_expr var body, seen =>
    let r0 := var.eval_order seen
    let r1 := body.eval_order r0.2
    (r0.1 ++ r1.1, r1.2)
  | temp_var id initial, seen =>
    if id ∈ seen then ([], seen)
    else
      let r := initial.eval_order seen
      (r.1, id :: r.2)
  | statement_list head, seen => head.eval_order seen
  | method_call_expr callee object, seen =>
    let r0 := callee.eval_order seen
    let r1 := object.eval_order r0.2
    (r0.1 ++ r1.1, r1.2)
  | helper _ _ ops, seen => ops.eval_order seen
  | _, seen => ([], seen)

/-- The evaluation order of a tree, no temporary being evaluated before. -/
def Tree.effects (t : Tree) : List String := (t.eval_order []).1

/-- Every temporary of the tree was numbered below `n`. -/
def Tree.temps_below (n : Nat) : Tree → Bool
  | save_expr id op0 => decide (id < n) && op0.temps_below n
  | temp_var id initial => decide (id < n) && initial.temps_below n
  | build1 _ op0 => op0.temps_below n
  | build2 _ op0 op1 => op0.temps_below n && op1.temps_below n
  | build3 _ op0 op1 op2 => op0.temps_below n && op1.temps_below n && op2.temps_below n
  | component_ref object _ => object.temps_below n
  | call_expr fn args => fn.temps_below n && args.temps_below n
  | tree_list value chain => value.temps_below n && chain.temps_below n
  | constructor elts => elts.temps_below n
  | constructor_elt _ value chain => value.temps_below n && chain.temps_below n
  | bind_expr var body => var.temps_below n && body.temps_below n
  | statement_list head => head.temps_below n
  | method_call_expr callee object => callee.temps_below n && object.temps_below n
  | helper _ _ ops => ops.temps_below n
  | _ => true

/-- The tree reads its operands only through the given temporaries: it is
built from them by operations, field reads, calls of builtins and constants. -/
def Tree.reads_only (temps : List Tree) : Tree → Bool
  | integer_cst _ => true
  | null_tree => true
  | builtin_decl _ => true
  | save_expr id op0 => decide (save_expr id op0 ∈ temps)
  | build1 _ op0 => op0.reads_only temps
  | build2 _ op0 op1 => op0.reads_only temps && op1.reads_only temps
  | component_ref object _ => object.reads_only temps
  | call_expr fn args => fn.reads_only temps && args.reads_only temps
  | tree_list value chain => value.reads_only temps && chain.reads_only temps
  | _ => false

/-! ## Values of a tree -/

/-- The value of a tree: an integer (truth values are 0 and 1, pointers are
addresses) or a dynamic array, the pair of its length and data pointer. -/
inductive Val
  | int (i : Int)
  | array (length ptr : Int)
  deriving DecidableEq, Repr

def Val.toInt : Val → Int
  | .int i => i
  | .array _ _ => 0

/-- The truth of a value: not zero. -/
def Val.truth (v : Val) : Bool := v.toInt != 0

def Val.ofBool (b : Bool) : Val := .int (if b then 1 else 0)

/-- What a tree is evaluated against: the bytes of the memory, the address of
the object a tree designates, the value of every operand that is not an
operation the evaluation interprets (a variable, a call, a leaf), and the
result of `memcmp (p1, p2, n)`. -/
structure Machine where
  mem : Nat → Nat
  addr : Tree → Nat
  leaf : Tree → Val
  memcmp : Nat → Nat → Nat → Int

/-- The C function `memcmp` on the memory `mem`: zero iff the two buffers of
`n` bytes at `p1` and `p2` are equal, else the difference of the first two
bytes that differ. -/
def memcmp_bytes (mem : Nat → Nat) (p1 p2 : Nat) : Nat → Int
  | 0 => 0
  | n + 1 =>
    if mem p1 = mem p2 then memcmp_bytes mem (p1 + 1) (p2 + 1) n
    else (mem p1 : Int) - (mem p2 : Int)

/-- The evaluation model of `memcmp`: it returns 0 iff the two byte buffers
of the given size are equal. -/
def Machine.memcmp_ok (m : Machine) : Prop :=
  ∀ p1 p2 n, m.memcmp p1 p2 n = 0 ↔ ∀ k, k < n → m.mem (p1 + k) = m.mem (p2 + k)

/-- The value of a tree on a machine.  Comparisons and the short-circuit
operators yield truth values, a `COMPOUND_EXPR` the value of its second
operand, a temporary the value of its operand; size arithmetic is modulo
`2 ^ SIZE_BITS`; the fields of a dynamic array value are its length and data
pointer; a call of `memcmp` yields what the machine gives for it. -/
def Tree.eval (m : Machine) : Tree → Val
  | integer_cst value => .int value
  | save_expr _ op0 => op0.eval m
  | build1 code op0 =>
    match code with
    | .NOP_EXPR => op0.eval m
    | .ADDR_EXPR => .int (m.addr op0)
    | .TRUTH_NOT_EXPR => .ofBool (!(op0.eval m).truth)
    | _ => m.leaf (build1 code op0)
  | build2 code op0 op1 =>
    match code with
    | .COMPOUND_EXPR => op1.eval m
    | .EQ_EXPR => .ofBool ((op0.eval m).toInt == (op1.eval m).toInt)
    | .NE_EXPR => .ofBool ((op0.eval m).toInt != (op1.eval m).toInt)
    | .TRUTH_ORIF_EXPR => .ofBool ((op0.eval m).truth || (op1.eval m).truth)
    | .TRUTH_ANDIF_EXPR => .ofBool ((op0.eval m).truth && (op1.eval m).truth)
    | .MULT_EXPR => .int (((op0.eval m).toInt * (op1.eval m).toInt) % 2 ^ SIZE_BITS)
    | .MINUS_EXPR => .int (((op0.eval m).toInt - (op1.eval m).toInt) % 2 ^ SIZE_BITS)
    | _ => m.leaf (build2 code op0 op1)
  | constructor (constructor_elt 0 len (constructor_elt 1 data null_tree)) =>
    .array (len.eval m).toInt (data.eval m).toInt
  | component_ref object field =>
    match object.eval m with
    | .array length ptr => if field = "length" then .int length else .int ptr
    | .int _ => m.leaf (component_ref object field)
  | call_expr (build1 .ADDR_EXPR (builtin_decl .BUILT_IN_MEMCMP))
      (tree_list p1 (tree_list p2 (tree_list n null_tree))) =>
    .int (m.memcmp (p1.eval m).toInt.toNat (p2.eval m).toInt.toNat (n.eval m).toInt.toNat)
  | t => m.leaf t

/-- The element `i` of the array at `p` equals that of the array at `q`, for a
bitwise-comparable element type of `elemsize` bytes: "equality is defined as
raw byte-buffer equality". -/
def elem_eq (mem : Nat → Nat) (p q elemsize i : Nat) : Prop :=
  ∀ j, j < elemsize → mem (p + i * elemsize + j) = mem (q + i * elemsize + j)

/-- The element types whose arrays `EqualExp::toElem` compares with `memcmp`:
integral, void, or a struct for which `identity_compare_p` holds. -/
def memcmp_comparable (t : DType) : Bool :=
  t.isintegral || t.ty == .Tvoid
    || (match t with
        | .TypeStruct sd => sd.identity_compare
        | _ => false)

/-! ## Concatenation chains -/

/-- The leaves of the left-leaning chain of concatenations below a node, from
left to right: `((a ~ b) ~ c)` has the leaves `a`, `b`, `c`. -/
def CatExp.leaves : Expression → List Expression
  | .CatExp _ e1 e2 => CatExp.leaves e1 ++ [e2]
  | e => [e]

/-- The lowering of `e` succeeds from every state and its tree calls no
library routine. -/
def lowers_plainly (toElem : Expression → Lower Tree) (e : Expression) : Prop :=
  ∀ s, ∃ t s1, toElem e s = .ok (t, s1) ∧ libcalls t = []

/-! ## Sample inputs -/

/-- A machine with 4-byte elements 7, 8 at address 100 and 7, 9 at address 200,
on which `memcmp` is the C function. -/
def sample_machine : Machine :=
  { mem := fun p => if p = 100 then 7 else if p = 104 then 8
                    else if p = 200 then 7 else if p = 204 then 9 else 0,
    addr := fun t => if t = atom "a" false then 100 else 200,
    leaf := fun _ => .int 0,
    memcmp := fun p1 p2 n =>
      memcmp_bytes (fun p => if p = 100 then 7 else if p = 104 then 8
                    else if p = 200 then 7 else if p = 204 then 9 else 0) p1 p2 n }

/-- The state at the start of the lowering of a function body. -/
def IRState.start (array_bounds_check : Bool) : IRState :=
  { vars_in_scope := [], temps := 0, errors := [], dtors_lowered := [],
    array_bounds_check := array_bounds_check }

/-- A local variable `name` of a struct type with a destructor; its destructor
expression is the call `name.__dtor ()`, of a kind left as a leaf. -/
def scoped_var (name : String) : VarDeclaration :=
  .mk name (.TypeStruct ⟨"S", 4, false, true, false, true, false, none⟩) [] false false false false
    false
    (some (.ElemExp .TOKcall (.TypeBasic .Tvoid) (atom (name ++ ".__dtor ()") true) false))

/-- The declaration expression `S name = S (...)` of such a variable. -/
def scoped_decl (name : String) : Expression :=
  .DeclarationExp (.TypeBasic .Tvoid) (.VarDeclaration (scoped_var name))
    (atom ("S " ++ name) true)

/-- The expression `(S a, (S b, a + b))`: `a` is declared before `b`. -/
def two_scoped : Expression :=
  .CommaExp (.TypeBasic .Tint32) (scoped_decl "a")
    (.CommaExp (.TypeBasic .Tint32) (scoped_decl "b")
      (.ElemExp .TOKadd (.TypeBasic .Tint32) (atom "a + b" false) false))

/-! ## The inline array comparison, as specified -/

/-- The guarded buffer comparison in the words of the specification, over the
two captured operands: for equality `len1 == 0 || memcmp (...) == 0`, for
inequality `len1 != 0 && memcmp (...) != 0`, the buffer size being
`len1 * elemsize`. -/
def spec_buffer_comparison (equal : Bool) (t1saved t2saved : Tree) (elemsize : Nat) : Tree :=
  let memcmp := call_expr (build1 .ADDR_EXPR (builtin_decl .BUILT_IN_MEMCMP))
    (Tree.list [component_ref t1saved "ptr", component_ref t2saved "ptr",
      build2 .MULT_EXPR (component_ref t1saved "length") (integer_cst elemsize)])
  if equal then
    build2 .TRUTH_ORIF_EXPR (build2 .EQ_EXPR (component_ref t1saved "length") (integer_cst 0))
      (build2 .EQ_EXPR memcmp (integer_cst 0))
  else
    build2 .TRUTH_ANDIF_EXPR (build2 .NE_EXPR (component_ref t1saved "length") (integer_cst 0))
      (build2 .NE_EXPR memcmp (integer_cst 0))

/-- The whole comparison in the words of the specification: between two
fixed-size arrays no length comparison is emitted; otherwise a length-equality
term is ANDed in, or for inequality a length-inequality term ORed in. -/
def spec_array_comparison (equal both_fixed : Bool) (t1saved t2saved : Tree)
    (elemsize : Nat) : Tree :=
  if both_fixed then
    spec_buffer_comparison equal t1saved t2saved elemsize
  else if equal then
    build2 .TRUTH_ANDIF_EXPR
      (build2 .EQ_EXPR (component_ref t1saved "length") (component_ref t2saved "length"))
      (spec_buffer_comparison equal t1saved t2saved elemsize)
  else
    build2 .TRUTH_ORIF_EXPR
      (build2 .NE_EXPR (component_ref t1saved "length") (component_ref t2saved "length"))
      (spec_buffer_comparison equal t1saved t2saved elemsize)

/-- The wrappers that evaluate the captured operands up front, left one first,
each present when its operand has side effects. -/
def side_effect_wrappers (t1 t2 t1saved t2saved result : Tree) : Tree :=
  let result := if d_has_side_effects t2 then build2 .COMPOUND_EXPR t2saved result else result
  if d_has_side_effects t1 then build2 .COMPOUND_EXPR t1saved result else result

/-- The dynamic array `name` of 32-bit integers, of a kind left as a leaf. -/
def int_array (name : String) (side_effects : Bool) : Expression :=
  .ElemExp .TOKcall (.TypeDArray (.TypeBasic .Tint32)) (atom name side_effects) false

/-- The fixed-size array `name` of `dim` 32-bit integers, of a kind left as a leaf. -/
def int_sarray (name : String) (dim : Nat) : Expression :=
  .ElemExp .TOKindex (.TypeSArray (.TypeBasic .Tint32) dim) (atom name false) true

/-- The chain `(a ~ f ()) ~ c` of `int[]` operands. -/
def cat3 : Expression :=
  .CatExp (.TypeDArray (.TypeBasic .Tint32))
    (.CatExp (.TypeDArray (.TypeBasic .Tint32)) (int_array "a" false) (int_array "f ()" true))
    (int_array "c" false)

/-! ## The slice of an array, as specified -/

/-- The upper bound `u_checked` of a slice under the bounds checks asked for:
the upper bound checked against the length unless known in bounds, after the
check of the lower bound against it unless known less; no check is made when
bounds checking is off or, for the length, when the base is a pointer. -/
def slice_upper_checked (bounds_check upperIsInBounds lowerIsLessThanUpper : Bool)
    (length : Option Tree) (lwr_tmp upr_tmp : Tree) : Tree :=
  let boundserr := call_expr (libcall_decl .LIBCALL_ARRAY_BOUNDS) null_tree
  let upper :=
    match length with
    | some length =>
      if !upperIsInBounds && bounds_check then
        build3 .COND_EXPR (build2 .GT_EXPR upr_tmp length) boundserr upr_tmp
      else upr_tmp
    | none => upr_tmp
  if !lowerIsLessThanUpper && bounds_check then
    build2 .COMPOUND_EXPR
      (build3 .COND_EXPR (build2 .GT_EXPR lwr_tmp upr_tmp) boundserr lwr_tmp) upper
  else upper

/-- The lowered slice `x[l..u]` as specified, from the captured base `array`
and bounds `l_tmp` and `u_tmp`: the base, then the dynamic array of length
`(l_tmp, u_checked) - l_tmp` and of data pointer `array.ptr + l_tmp`. -/
def spec_slice_result (bounds_check upperIsInBounds lowerIsLessThanUpper : Bool)
    (tb1 next : DType) (array lwr_tmp upr_tmp : Tree) : Tree :=
  let length := if tb1.ty != .Tpointer then some (get_array_length array tb1) else none
  let u_checked := slice_upper_checked bounds_check upperIsInBounds lowerIsLessThanUpper
    length lwr_tmp upr_tmp
  let ptr := build1 .NOP_EXPR
    (build2 .POINTER_PLUS_EXPR (convert_expr array tb1 (.TypePointer next)) lwr_tmp)
  build2 .COMPOUND_EXPR array
    (d_array_value (build2 .MINUS_EXPR (build2 .COMPOUND_EXPR lwr_tmp u_checked) lwr_tmp) ptr)

/-! ## The broadcast to a slice, as specified -/

/-- The fill of a broadcast `a[] = v` where no postblit is run: `memset (ptr,
0, length * elemsize)` for a scalar `t2` that is an integer zero, and the
element-wise fill with `t2` for any other; `t1` is the lowered slice. -/
def spec_broadcast_fill (etype : DType) (t1 t2 : Tree) : Tree :=
  if integer_zerop t2 then
    call_expr (build1 .ADDR_EXPR (builtin_decl .BUILT_IN_MEMSET))
      (Tree.list [component_ref t1 "ptr", integer_cst 0,
        build2 .MULT_EXPR (build1 .NOP_EXPR (component_ref t1 "length"))
          (integer_cst etype.size)])
  else build_array_set (component_ref t1 "ptr") (component_ref t1 "length") t2

/-- The postblit-aware fill of a broadcast `a[] = v`: the call of
`_d_arraysetctor` for a construction and of `_d_arraysetassign` otherwise. -/
def spec_broadcast_postblit (op : TOK) (etype : DType) (t1 t2 : Tree) : Tree :=
  call_expr
    (libcall_decl (if op = .TOKconstruct then .LIBCALL_ARRAYSETCTOR else .LIBCALL_ARRAYSETASSIGN))
    (Tree.list [component_ref t1 "ptr", build1 .ADDR_EXPR t2, component_ref t1 "length",
      build1 .ADDR_EXPR (typeinfo_decl etype)])

/-- A struct `S` with a postblit. -/
def postblit_struct : StructDeclaration :=
  { ident := "S", structsize := 8, postblit := true, identity_compare := false,
    isNested := false, zeroInit := true }

/-- The slice `a ()[]` of an array of `etype`, the array of a kind left as a leaf. -/
def whole_slice (etype : DType) : Expression :=
  .SliceExp (.TypeDArray etype) (.ElemExp .TOKcall (.TypeDArray etype) (atom "a ()" true) false)
    none none true true none

/-! ## The ledger of scoped declarations -/

/-- What a lowering started in `s` may have done to the ledger when it ends in
`s1`: entries were pushed; the entries below the start were left as they were;
the destructor expressions lowered since, `new`, are each lowered once, and
they are those of the entries from the start on that are now `NULL`. -/
def IRState.ledger_extends (s s1 : IRState) : Prop :=
  s.vars_in_scope.length ≤ s1.vars_in_scope.length
  ∧ (∀ i, i < s.vars_in_scope.length → s1.vars_in_scope[i]? = s.vars_in_scope[i]?)
  ∧ ∃ new, s1.dtors_lowered = new ++ s.dtors_lowered ∧ new.Nodup
      ∧ ∀ i, i ∈ new ↔ (s.vars_in_scope.length ≤ i ∧ s1.vars_in_scope[i]? = some none)

/-- The lowering `m` keeps the ledger: whenever it returns, the ledger extends
that of its start. -/
structure Lower.keeps_ledger {α : Type} (m : Lower α) : Prop where
  ok : ∀ s a s1, m s = .ok (a, s1) → s.ledger_extends s1

/-- A local `a` whose destructor expression declares a further local:
`(S b, a.__dtor ())`. -/
def nested_dtor_var : VarDeclaration :=
  .mk "a" (.TypeStruct ⟨"S", 4, false, true, false, true, false, none⟩) [] false false false false
    false
    (some (.CommaExp (.TypeBasic .Tvoid) (scoped_decl "b")
      (.ElemExp .TOKcall (.TypeBasic .Tvoid) (atom "a.__dtor ()" true) false)))

/-- The declaration expression `S a = S (...)` of that local. -/
def nested_dtor_decl : Expression :=
  .DeclarationExp (.TypeBasic .Tvoid) (.VarDeclaration nested_dtor_var) (atom "S a" true)

/-- The state after `(S a, (S b, a + b))` is lowered from the start: `a` and
`b` are pushed. -/
def two_scoped_lowered : IRState :=
  { vars_in_scope := [some (scoped_var "a"), some (scoped_var "b")], temps := 0, errors := [],
    dtors_lowered := [], array_bounds_check := true }

/-- The state when `toElemDtor` returns on `(S a, (S b, a + b))`: both entries
are consumed, `a` first. -/
def two_scoped_cleaned : IRState :=
  { vars_in_scope := [none, none], temps := 1, errors := [],
    dtors_lowered := [1, 0], array_bounds_check := true }

/-! ## Samples and specification terms for appends, indexing and allocation -/

/-- The library routines called when a tree is evaluated, each call listed
where it is reached, along the path on which every operand is evaluated and
with the order of `Tree.eval_order`.  A temporary evaluates its operand where
it is first reached and not again: `seen` holds the temporaries evaluated so
far. -/
def Tree.calls_order : Tree → List Nat → List LibCall × List Nat
  | save_expr id op0, seen =>
    if id ∈ seen then ([], seen)
    else
      let r := op0.calls_order seen
      (r.1, id :: r.2)
  | build1 _ op0, seen => op0.calls_order seen
  | build2 _ op0 op1, seen =>
    let r0 := op0.calls_order seen
    let r1 := op1.calls_order r0.2
    (r0.1 ++ r1.1, r1.2)
  | build3 _ op0 op1 op2, seen =>
    let r0 := op0.calls_order seen
    let r1 := op1.calls_order r0.2
    let r2 := op2.calls_order r1.2
    (r0.1 ++ r1.1 ++ r2.1, r2.2)
  | component_ref object _, seen => object.calls_order seen
  | call_expr fn args, seen =>
    let r0 := fn.calls_order seen
    let r1 := args.calls_order r0.2
    ((match fn with
      | libcall_decl libcall => [libcall]
      | _ => []) ++ r0.1 ++ r1.1, r1.2)
  | tree_list value chain, seen =>
    let r0 := value.calls_order seen
    let r1 := chain.calls_order r0.2
    (r0.1 ++ r1.1, r1.2)
  | constructor elts, seen => elts.calls_order seen
  | constructor_elt _ value chain, seen =>
    let r0 := value.calls_order seen
    let r1 := chain.calls_order r0.2
    (r0.1 ++ r1.1, r1.2)
  | bind_expr var body, seen =>
    let r0 := var.calls_order seen
    let r1 := body.calls_order r0.2
    (r0.1 ++ r1.1, r1.2)
  | temp_var id initial, seen =>
    if id ∈ seen then ([], seen)
    else
      let r := initial.calls_order seen
      (r.1, id :: r.2)
  | statement_list head, seen => head.calls_order seen
  | method_call_expr callee object, seen =>
    let r0 := callee.calls_order seen
    let r1 := object.calls_order r0.2
    (r0.1 ++ r1.1, r1.2)
  | helper _ _ ops, seen => ops.calls_order seen
  | _, seen => ([], seen)

/-- Every temporary of the tree was numbered `n` or above. -/
def Tree.temps_from (n : Nat) : Tree → Bool
  | save_expr id op0 => decide (n ≤ id) && op0.temps_from n
  | temp_var id initial => decide (n ≤ id) && initial.temps_from n
  | build1 _ op0 => op0.temps_from n
  | build2 _ op0 op1 => op0.temps_from n && op1.temps_from n
  | build3 _ op0 op1 op2 => op0.temps_from n && op1.temps_from n && op2.temps_from n
  | component_ref object _ => object.temps_from n
  | call_expr fn args => fn.temps_from n && args.temps_from n
  | tree_list value chain => value.temps_from n && chain.temps_from n
  | constructor elts => elts.temps_from n
  | constructor_elt _ value chain => value.temps_from n && chain.temps_from n
  | bind_expr var body => var.temps_from n && body.temps_from n
  | statement_list head => head.temps_from n
  | method_call_expr callee object => callee.temps_from n && object.temps_from n
  | helper _ _ ops => ops.temps_from n
  | _ => true

/-- The 32-bit integer `name`, of a kind left as a leaf. -/
def int_value (name : String) (side_effects : Bool) : Expression :=
  .ElemExp .TOKcall (.TypeBasic .Tint32) (atom name side_effects) false

/-- A class `C`, not nested. -/
def plain_class : ClassDeclaration :=
  { ident := "C", isNested := false, outer := "", outer_isClass := false, bases := [] }

/-- The constructor `C.__ctor` of the class `C`. -/
def plain_ctor : FuncDeclaration :=
  { ident := "C.__ctor", type := .TypeFunction (.TypeClass plain_class) false, isThis := true,
    needThis := true, isNested := false, isVirtual := false, isFinalFunc := false,
    isCtorDeclaration := true, vtblIndex := 0 }

/-- The dynamic array `name` of 32-bit floats, of a kind left as a leaf. -/
def float_array (name : String) (side_effects : Bool) : Expression :=
  .ElemExp .TOKcall (.TypeDArray (.TypeBasic .Tfloat32)) (atom name side_effects) false

/-- A struct `P` of 8 bytes with user-defined equality: `identity_compare_p`
does not hold. -/
def user_equality_struct : StructDeclaration :=
  { ident := "P", structsize := 8, postblit := false, identity_compare := false,
    isNested := false, zeroInit := true }

/-- The dynamic array `name` of such structs, of a kind left as a leaf. -/
def struct_array (name : String) : Expression :=
  .ElemExp .TOKcall (.TypeDArray (.TypeStruct user_equality_struct)) (atom name false) false

/-- The inline comparison of two arrays of structs compared field by field, as
the rule builds it: the comparison of the elements by
`build_array_struct_comparison` under the length guards of the `memcmp` form. -/
def spec_struct_array_comparison (equal both_fixed : Bool) (t1saved t2saved : Tree) : Tree :=
  let elems := helper
    (if equal then "build_array_struct_comparison (EQ_EXPR)"
      else "build_array_struct_comparison (NE_EXPR)") false
    (Tree.list [component_ref t1saved "length", component_ref t1saved "ptr",
      component_ref t2saved "ptr"])
  let code := if equal then tree_code.EQ_EXPR else tree_code.NE_EXPR
  let guarded :=
    build2 (if equal then .TRUTH_ORIF_EXPR else .TRUTH_ANDIF_EXPR)
      (build2 code (component_ref t1saved "length") (integer_cst 0)) elems
  if both_fixed then guarded
  else
    build2 (if equal then .TRUTH_ANDIF_EXPR else .TRUTH_ORIF_EXPR)
      (build2 code (component_ref t1saved "length") (component_ref t2saved "length")) guarded

/-- The call of the array-element-equality helper, as specified: `_adEq2` on
the two arrays and the type descriptor of the array type of the left element
type, negated for `!=`. -/
def spec_adeq2_comparison (equal : Bool) (t1 t2 : Tree) (t1elem : DType) : Tree :=
  let call := build1 .NOP_EXPR
    (call_expr (libcall_decl .LIBCALL_ADEQ2)
      (Tree.list [t1, t2, build1 .ADDR_EXPR (typeinfo_decl (.TypeDArray t1elem))]))
  if equal then call else build1 .TRUTH_NOT_EXPR call

/-- The call `f ((S a, a))`: lowering the argument declares `a`, a local with a
destructor. -/
def call_with_scoped : Expression :=
  .CallExp (.TypeBasic .Tint32)
    (.ElemExp .TOKvar (.TypePointer (.TypeFunction (.TypeBasic .Tint32) false))
      (atom "f" false) true)
    [.CommaExp (.TypeBasic .Tint32) (scoped_decl "a")
      (.ElemExp .TOKvar (.TypeBasic .Tint32) (var_decl "a") true)]

/-- The lowered call `f ((S a, a))`. -/
def call_with_scoped_tree : Tree :=
  build1 .NOP_EXPR (call_expr (atom "f" false)
    (Tree.list [build2 .COMPOUND_EXPR (atom "S a" true) (var_decl "a")]))

/-- The state after `S a` is lowered from the start: `a` is pushed. -/
def one_scoped_lowered : IRState :=
  { vars_in_scope := [some (scoped_var "a")], temps := 0, errors := [],
    dtors_lowered := [], array_bounds_check := true }

/-- The state after the loop of `toElemDtor` has consumed `a`. -/
def one_scoped_cleaned : IRState :=
  { vars_in_scope := [none], temps := 0, errors := [],
    dtors_lowered := [0], array_bounds_check := true }

/-- The ledger went from `s` to `s1` by pushes at the end and by overwriting
entries with `NULL` in place: it did not shrink, and the entry at an index of
`s` is at that index in `s1`, as it was or `NULL`. -/
def IRState.ledger_nulled_in_place (s s1 : IRState) : Prop :=
  s.vars_in_scope.length ≤ s1.vars_in_scope.length
  ∧ ∀ i, i < s.vars_in_scope.length →
      s1.vars_in_scope[i]? = s.vars_in_scope[i]? ∨ s1.vars_in_scope[i]? = some none

/-- Following the spec (the array-of-arrays built from all leaves): stores the
given leaves, each paired with its index in the array, in the order of the
list: a leaf is converted by `d_array_convert_elem`, captured by
`maybe_make_temp` and appended as the element of its index. -/
def CatExp.spec_store (toElem : Expression → Lower Tree) (etype : Option DType) :
    List (Nat × Expression) → List (Nat × Tree) → List Tree →
      Lower (List (Nat × Tree) × List Tree)
  | [], elms, elemvars => pure (elms, elemvars)
  | (k, leaf) :: rest, elms, elemvars => do
    let (arg, elemvars) ← d_array_convert_elem toElem etype leaf elemvars
    let value ← maybe_make_temp arg
    CatExp.spec_store toElem etype rest (elms ++ [(k, value)]) elemvars

/-- Following the spec: the flattened concatenation of a chain, the `k`-th leaf
from the left stored at index `k`, the leaves taken from right to left. -/
def CatExp.spec_flattened (toElem : Expression → Lower Tree) (type : DType)
    (e1 e2 : Expression) : Lower Tree := do
  let tb1 := e1.type.toBasetype
  let tb2 := e2.type.toBasetype
  let etype := if tb1.ty == .Tarray || tb1.ty == .Tsarray then tb1.nextOf else tb2.nextOf
  let leaves := CatExp.leaves e1 ++ [e2]
  let var ← create_temporary_var
  let (elms, elemvars) ← CatExp.spec_store toElem etype leaves.enum.reverse [] []
  let var := temp_var var (constructor (Tree.elts elms))
  let call := build_libcall .LIBCALL_ARRAYCATNTX
    [build_typeinfo type, d_array_value (size_int leaves.length) (build_address var)]
  pure ((var :: elemvars).foldl (fun result var => bind_expr var result) call)

/-- The tree `value` is what the second loop of `CatExp::toElem` stores for the
operand `leaf`: its conversion by `d_array_convert_elem`, captured by
`maybe_make_temp`, from some state. -/
def CatExp.stored (toElem : Expression → Lower Tree) (etype : Option DType)
    (leaf : Expression) (value : Tree) : Prop :=
  ∃ vars s arg vars1 s1 s2,
    d_array_convert_elem toElem etype leaf vars s = .ok ((arg, vars1), s1)
    ∧ maybe_make_temp arg s1 = .ok (value, s2)

/-! ## Samples and specification terms for assignments, bounds checks, comparisons, deletion -/

/-- A struct `S` without postblit, nested or not. -/
def plain_struct (isNested : Bool) : StructDeclaration :=
  { ident := "S", structsize := 8, postblit := false, identity_compare := true,
    isNested := isNested, zeroInit := true }

/-- The value `name` of the struct `sd`, an lvalue of a kind left as a leaf. -/
def struct_value (sd : StructDeclaration) (name : String) : Expression :=
  .ElemExp .TOKdotvar (.TypeStruct sd) (atom name false) true

/-- The fixed-size array `name` of two structs `sd`, of a kind left as a leaf. -/
def struct_sarray (sd : StructDeclaration) (name : String) (lvalue : Bool) : Expression :=
  .ElemExp .TOKcall (.TypeSArray (.TypeStruct sd) 2) (atom name false) lvalue

/-- The associative array `name` from `int` keys to `int` values, of a kind
left as a leaf. -/
def int_aarray (name : String) (side_effects : Bool) : Expression :=
  .ElemExp .TOKcall (.TypeAArray (.TypeBasic .Tint32) (.TypeBasic .Tint32))
    (atom name side_effects) true

/-- The pointer `name` to `int`, of a kind left as a leaf. -/
def int_pointer (name : String) : Expression :=
  .ElemExp .TOKcall (.TypePointer (.TypeBasic .Tint32)) (atom name false) true

/-- The bound `name` of a slice, of type `size_t` and of a kind left as a leaf. -/
def size_value (name : String) : Expression :=
  .ElemExp .TOKcall (.TypeBasic .Tuns64) (atom name false) false

/-- The slice `p[l..u]` of a pointer to `int`, neither check proven safe. -/
def pointer_slice : Expression :=
  .SliceExp (.TypeDArray (.TypeBasic .Tint32)) (int_pointer "p")
    (some (size_value "l")) (some (size_value "u")) false false none

/-- The slice `a[l..u]` of an `int[]`, neither check proven safe. -/
def array_slice : Expression :=
  .SliceExp (.TypeDArray (.TypeBasic .Tint32)) (int_array "a" false)
    (some (size_value "l")) (some (size_value "u")) false false none

/-- The `double` value `name`, of a kind left as a leaf. -/
def double_value (name : String) (side_effects : Bool) : Expression :=
  .ElemExp .TOKcall (.TypeBasic .Tfloat64) (atom name side_effects) false

/-- Following the spec: the plain integer operator that compares the sign
returned by the array-comparison helper with zero, for a relational token
other than the ordered and unordered queries. -/
def spec_sign_operator : TOK → Option tree_code
  | .TOKlt => some .LT_EXPR
  | .TOKle => some .LE_EXPR
  | .TOKgt => some .GT_EXPR
  | .TOKge => some .GE_EXPR
  | .TOKue => some .EQ_EXPR
  | .TOKlg => some .NE_EXPR
  | .TOKule => some .LE_EXPR
  | .TOKul => some .LT_EXPR
  | .TOKuge => some .GE_EXPR
  | .TOKug => some .GT_EXPR
  | _ => none

/-- The kind of a `TypeBasic` is a basic kind: arrays, pointers, functions,
delegates, classes, structs and enums are types of their own classes. -/
def DType.basic_kind : DType → Bool
  | .TypeBasic ty =>
    match ty with
    | .Tarray | .Tsarray | .Taarray | .Tpointer | .Treference | .Tfunction | .Tdelegate
    | .Tclass | .Tstruct | .Tenum => false
    | _ => true
  | _ => true

/-- A class variable `name` of the class `C`, allocated on the stack or not. -/
def class_var (name : String) (onstack : Bool) : Expression :=
  .VarExp (.TypeClass ⟨"C", false, "", false, [], false, false, false⟩)
    (.VarDeclaration (.mk name (.TypeClass ⟨"C", false, "", false, [], false, false, false⟩) [] false false
      false false onstack none))

/-! ## Samples and specification terms for assertions, calls, short circuits and chains -/

/-- A class `C` with the given answers of `isCOMclass` and `isCPPclass`. -/
def sample_class (isCOMclass isCPPclass : Bool) : ClassDeclaration :=
  { ident := "C", isNested := false, outer := "", outer_isClass := false, bases := [],
    isCOMclass := isCOMclass, isCPPclass := isCPPclass }

/-- The object `name` of a class, of a kind left as a leaf. -/
def class_value (cd : ClassDeclaration) (name : String) : Expression :=
  .ElemExp .TOKcall (.TypeClass cd) (atom name false) false

/-- The loop `while (1)` of `CallExp::toElem` over the receiver `ex`, run for
at most `fuel` iterations: `some is_dottype` when it is left, `none` when the
iterations are used up. -/
def CallExp.is_dottype_loop : Nat → Expression → Option Bool
  | 0, _ => none
  | fuel + 1, ex =>
    if ex.op == TOK.TOKsuper || ex.op == TOK.TOKdottype then
      -- super.member() and type.member() calls directly.
      some true
    else
      match ex with
      | .CastExp _ e1 _ => CallExp.is_dottype_loop fuel e1
      | _ => some false

/-- Following the spec: the receiver after stripping casts. -/
def spec_strip_casts : Expression → Expression
  | .CastExp _ e1 _ => spec_strip_casts e1
  | ex => ex

/-- The number of casts around a receiver. -/
def count_casts : Expression → Nat
  | .CastExp _ e1 _ => count_casts e1 + 1
  | _ => 0

/-- A method `m` of a class, with the given answers of `isVirtual` and
`isFinalFunc`, at slot 3 of the virtual table. -/
def sample_method (isVirtual isFinalFunc : Bool) : FuncDeclaration :=
  { ident := "C.m", type := .TypeFunction (.TypeBasic .Tvoid) false, isThis := true,
    needThis := true, isNested := false, isVirtual := isVirtual, isFinalFunc := isFinalFunc,
    isCtorDeclaration := false, vtblIndex := 3 }

/-- The side-effecting atoms of a tree in the order in which a run on the
machine `m` evaluates them.  It is `Tree.eval_order`, except that a
`COND_EXPR` evaluates its condition and then the one branch that the value of
the condition selects, and a short-circuit operator evaluates its right
operand only where the left one does not decide. -/
def Tree.run_order (m : Machine) : Tree → List Nat → List String × List Nat
  | atom name side_effects, seen => (if side_effects then [name] else [], seen)
  | save_expr id op0, seen =>
    if id ∈ seen then ([], seen)
    else
      let r := op0.run_order m seen
      (r.1, id :: r.2)
  | build1 _ op0, seen => op0.run_order m seen
  | build2 code op0 op1, seen =>
    let r0 := op0.run_order m seen
    if (code = .TRUTH_ANDIF_EXPR ∧ (op0.eval m).truth = false)
        ∨ (code = .TRUTH_ORIF_EXPR ∧ (op0.eval m).truth = true) then r0
    else
      let r1 := op1.run_order m r0.2
      (r0.1 ++ r1.1, r1.2)
  | build3 code op0 op1 op2, seen =>
    let r0 := op0.run_order m seen
    if code = .COND_EXPR then
      if (op0.eval m).truth then
        let r1 := op1.run_order m r0.2
        (r0.1 ++ r1.1, r1.2)
      else
        let r2 := op2.run_order m r0.2
        (r0.1 ++ r2.1, r2.2)
    else
      let r1 := op1.run_order m r0.2
      let r2 := op2.run_order m r1.2
      (r0.1 ++ r1.1 ++ r2.1, r2.2)
  | component_ref object _, seen => object.run_order m seen
  | call_expr fn args, seen =>
    let r0 := fn.run_order m seen
    let r1 := args.run_order m r0.2
    (r0.1 ++ r1.1, r1.2)
  | tree_list value chain, seen =>
    let r0 := value.run_order m seen
    let r1 := chain.run_order m r0.2
    (r0.1 ++ r1.1, r1.2)
  | constructor elts, seen => elts.run_order m seen
  | constructor_elt _ value chain, seen =>
    let r0 := value.run_order m seen
    let r1 := chain.run_order m r0.2
    (r0.1 ++ r1.1, r1.2)
  | bind_expr var body, seen =>
    let r0 := var.run_order m seen
    let r1 := body.run_order m r0.2
    (r0.1 ++ r1.1, r1.2)
  | temp_var id initial, seen =>
    if id ∈ seen then ([], seen)
    else
      let r := initial.run_order m seen
      (r.1, id :: r.2)
  | statement_list head, seen => head.run_order m seen
  | method_call_expr callee object, seen =>
    let r0 := callee.run_order m seen
    let r1 := object.run_order m r0.2
    (r0.1 ++ r1.1, r1.2)
  | helper _ _ ops, seen => ops.run_order m seen
  | _, seen => ([], seen)

/-- A machine on which every operand that the evaluation does not interpret
has the value `v`. -/
def constant_machine (v : Int) : Machine :=
  { mem := fun _ => 0, addr := fun _ => 0, leaf := fun _ => .int v, memcmp := fun _ _ _ => 0 }

/-- The statement call `name ()`, of type `void` and of a kind left as a leaf. -/
def void_call (name : String) : Expression :=
  .ElemExp .TOKcall (.TypeBasic .Tvoid) (atom name true) false

/-- The test of `DeclarationExp::toElem` for a variable that is put on the
list of things needing destruction. -/
def DeclarationExp.pushes (vd : VarDeclaration) : Prop :=
  vd.isStatic = false ∧ STC.STCmanifest ∉ vd.storage_class
    ∧ STC.STCextern ∉ vd.storage_class ∧ STC.STCtls ∉ vd.storage_class
    ∧ STC.STCgshared ∉ vd.storage_class
    ∧ vd.edtor.isSome = true ∧ vd.noscope = false

instance (vd : VarDeclaration) : Decidable (DeclarationExp.pushes vd) := by
  unfold DeclarationExp.pushes
  infer_instance

/-- The `idouble` value `name`, of a kind left as a leaf. -/
def imaginary_value (name : String) (side_effects : Bool) : Expression :=
  .ElemExp .TOKcall (.TypeBasic .Timaginary64) (atom name side_effects) false

/-- The chain `(a () ~ b ()) ~ c ()` of `int[]` calls. -/
def cat3_calls : Expression :=
  .CatExp (.TypeDArray (.TypeBasic .Tint32))
    (.CatExp (.TypeDArray (.TypeBasic .Tint32)) (int_array "a ()" true) (int_array "b ()" true))
    (int_array "c ()" true)

/-- The element type `etype` that `CatExp::toElem` takes from its operands. -/
def CatExp.etype (e1 e2 : Expression) : Option DType :=
  if e1.type.toBasetype.ty == .Tarray || e1.type.toBasetype.ty == .Tsarray then
    e1.type.toBasetype.nextOf
  else e2.type.toBasetype.nextOf

/-- The slice `a[l .. (S u, n)]` of an `int[4]` read as an `int[2]`: the upper
bound declares a local with a destructor. -/
def sarray_slice : Expression :=
  .SliceExp (.TypeSArray (.TypeBasic .Tint32) 2) (int_sarray "a" 4)
    (some (size_value "l"))
    (some (.CommaExp (.TypeBasic .Tuns64) (scoped_decl "u") (size_value "n"))) false false none

/-! ## Lowering a node twice

The trees of two lowerings of a node are compared with the numbers of their
temporaries erased (`Tree.erase_temps`).  `Lower.repeats` relates a lowering to
the one that repeats it from a later state; `toElem_again` is the virtual call
on a node whose function literals have been lowered before. -/

/-- The tree with the numbers of its temporaries erased: what is left is the
structure of the tree, up to the naming of temporaries. -/
def Tree.erase_temps : Tree → Tree
  | save_expr _ op0 => save_expr 0 op0.erase_temps
  | temp_var _ initial => temp_var 0 initial.erase_temps
  | build1 code op0 => build1 code op0.erase_temps
  | build2 code op0 op1 => build2 code op0.erase_temps op1.erase_temps
  | build3 code op0 op1 op2 => build3 code op0.erase_temps op1.erase_temps op2.erase_temps
  | component_ref object field => component_ref object.erase_temps field
  | call_expr fn args => call_expr fn.erase_temps args.erase_temps
  | tree_list value chain => tree_list value.erase_temps chain.erase_temps
  | constructor elts => constructor elts.erase_temps
  | constructor_elt index value chain => constructor_elt index value.erase_temps chain.erase_temps
  | bind_expr var body => bind_expr var.erase_temps body.erase_temps
  | statement_list head => statement_list head.erase_temps
  | method_call_expr callee object => method_call_expr callee.erase_temps object.erase_temps
  | helper name side_effects ops => helper name side_effects ops.erase_temps
  | t => t

/-- Values of the lowering with the names of temporaries erased. -/
class Shape (α : Type) where
  shape : α → α

instance : Shape Tree := ⟨Tree.erase_temps⟩

instance : Shape Unit := ⟨id⟩

instance : Shape PUnit := ⟨id⟩

instance : Shape Bool := ⟨id⟩

instance : Shape Nat := ⟨id⟩

instance : Shape Int := ⟨id⟩

instance : Shape DType := ⟨id⟩

instance : Shape LibCall := ⟨id⟩

instance : Shape Expression := ⟨id⟩

instance : Shape FuncLiteralDeclaration := ⟨id⟩

instance : Shape tree_code := ⟨id⟩

instance : Shape TOK := ⟨id⟩

instance : Shape TY := ⟨id⟩

instance : Shape String := ⟨id⟩

instance : Shape ClassDeclaration := ⟨id⟩

instance : Shape StructDeclaration := ⟨id⟩

instance : Shape FuncDeclaration := ⟨id⟩

instance : Shape VarDeclaration := ⟨id⟩

instance : Shape Dsymbol := ⟨id⟩

instance : Shape built_in_function := ⟨id⟩

instance : Shape type_node := ⟨id⟩

instance {α β : Type} [Shape α] [Shape β] : Shape (α × β) :=
  ⟨fun p => (Shape.shape p.1, Shape.shape p.2)⟩

instance {α : Type} [Shape α] : Shape (Option α) := ⟨Option.map Shape.shape⟩

instance {α : Type} [Shape α] : Shape (List α) := ⟨List.map Shape.shape⟩

/-- Values without temporaries: their shape is the value. -/
class Plain (α : Type) [Shape α] : Prop where
  shape_id : ∀ a : α, Shape.shape a = a

instance : Plain Unit := ⟨fun _ => rfl⟩

instance : Plain Bool := ⟨fun _ => rfl⟩

instance : Plain Nat := ⟨fun _ => rfl⟩

instance : Plain Int := ⟨fun _ => rfl⟩

instance : Plain DType := ⟨fun _ => rfl⟩

instance : Plain LibCall := ⟨fun _ => rfl⟩

instance : Plain Expression := ⟨fun _ => rfl⟩

instance : Plain FuncLiteralDeclaration := ⟨fun _ => rfl⟩

instance : Plain tree_code := ⟨fun _ => rfl⟩

instance : Plain TOK := ⟨fun _ => rfl⟩

instance : Plain TY := ⟨fun _ => rfl⟩

instance : Plain String := ⟨fun _ => rfl⟩

instance : Plain ClassDeclaration := ⟨fun _ => rfl⟩

instance : Plain StructDeclaration := ⟨fun _ => rfl⟩

instance : Plain FuncDeclaration := ⟨fun _ => rfl⟩

instance : Plain VarDeclaration := ⟨fun _ => rfl⟩

instance : Plain Dsymbol := ⟨fun _ => rfl⟩

instance : Plain built_in_function := ⟨fun _ => rfl⟩

instance : Plain type_node := ⟨fun _ => rfl⟩

instance {α β : Type} [Shape α] [Shape β] [Plain α] [Plain β] : Plain (α × β) :=
  ⟨fun p => by
    show (Shape.shape p.1, Shape.shape p.2) = p
    rw [Plain.shape_id, Plain.shape_id]⟩

instance {α : Type} [Shape α] [Plain α] : Plain (Option α) :=
  ⟨fun o => by
    cases o with
    | none => rfl
    | some a => show some (Shape.shape a) = some a; rw [Plain.shape_id]⟩

/-- The two states give a lowering the same context: the same setting of
bounds checking, the same compilation parameters, the same kind of function
compiled, and the same ledger from the bases `b` and `b1` on. -/
def IRState.same_context (b b1 : Nat) (s s1 : IRState) : Prop :=
  s.array_bounds_check = s1.array_bounds_check
  ∧ s.params = s1.params
  ∧ s.isUnitTestDeclaration = s1.isUnitTestDeclaration
  ∧ b ≤ s.vars_in_scope.length ∧ b1 ≤ s1.vars_in_scope.length
  ∧ s.vars_in_scope.drop b = s1.vars_in_scope.drop b1

/-- The state `sa` has the settings of `s`: bounds checking, the compilation
parameters and the kind of function compiled are as they were. -/
def IRState.same_settings (s sa : IRState) : Prop :=
  sa.array_bounds_check = s.array_bounds_check ∧ sa.params = s.params
  ∧ sa.isUnitTestDeclaration = s.isUnitTestDeclaration

/-- The lowering `m1` repeats `m`: from states of the same context, whenever
`m` returns, it has left the settings as they were, `m1` returns too, with a
value of the same shape, and the states they end in are of the same context. -/
structure Lower.repeats {α : Type} [Shape α] (b b1 : Nat) (m m1 : Lower α) : Prop where
  ok : ∀ s s1 a sa, s.same_context b b1 s1 → m s = .ok (a, sa) →
    s.same_settings sa ∧ ∃ a1 sa1, m1 s1 = .ok (a1, sa1) ∧ Shape.shape a = Shape.shape a1
      ∧ sa.same_context b b1 sa1

/-- The test `d_has_side_effects`, asked of the shape of a tree. -/
def Tree.shape_side_effects (t : Tree) : Bool := d_has_side_effects t

/-- The test `integer_zerop`, asked of the shape of a tree. -/
def Tree.shape_zerop (t : Tree) : Bool := integer_zerop t

/-- The fields of the state that make the context of a lowering. -/
def IRState.context (s : IRState) : Bool × Param × Bool × List (Option VarDeclaration) :=
  (s.array_bounds_check, s.params, s.isUnitTestDeclaration, s.vars_in_scope)

/-- The declaration of a function literal as `FuncExp::toElem` leaves it: for a
lambda lowered to a function pointer `fd->tok` is `TOKfunction` and
`fd->vthis` is `NULL`. -/
def FuncExp.lowered_fd (type : DType) (fd : FuncLiteralDeclaration) : FuncLiteralDeclaration :=
  if fd.tok == .TOKreserved && type.toBasetype.ty == .Tpointer then
    { fd with tok := .TOKfunction, vthis := none }
  else fd

/-- The virtual call `e->toElem ()` on a node that has been lowered before:
the function literals picked by `lowered` carry their declaration as
`FuncExp::toElem` left it. -/
def toElem_again (lowered : DType → FuncLiteralDeclaration → Bool) :
    Nat → Expression → Lower Tree
  | 0, _ => throw Fault.out_of_fuel
  | fuel + 1, e =>
    match e with
    | .IntegerExp _ value => IntegerExp.toElem value
    | .VarExp type var => SymbolExp.toElem type var
    | .DotVarExp _ e1 var => DotVarExp.toElem (toElem_again lowered fuel) e1 var
    | .CallExp type e1 arguments =>
      CallExp.toElem (toElem_again lowered fuel) type e1 arguments
    | .ElemExp _ _ elem _ => pure elem
    | .DeclarationExp _ declaration objfile => DeclarationExp.toElem declaration objfile
    | .CommaExp _ e1 e2 => CommaExp.toElem (toElem_again lowered fuel) e1 e2
    | .CondExp type econd e1 e2 => CondExp.toElem (toElem_again lowered fuel) type econd e1 e2
    | .CatExp type e1 e2 => CatExp.toElem (toElem_again lowered fuel) type e1 e2
    | .EqualExp op _ e1 e2 => EqualExp.toElem (toElem_again lowered fuel) op e1 e2
    | .SliceExp type e1 lwr upr upperIsInBounds lowerIsLessThanUpper lengthVar =>
      SliceExp.toElem (toElem_again lowered fuel) type e1 lwr upr upperIsInBounds
        lowerIsLessThanUpper lengthVar
    | .AssignExp op _ e1 e2 ismemset =>
      AssignExp.toElem (toElem_again lowered fuel) op e1 e2 ismemset
    | .ArrayLengthExp _ e1 => ArrayLengthExp.toElem (toElem_again lowered fuel) e1
    | .CastExp _ e1 totype => CastExp.toElem (toElem_again lowered fuel) e1 totype
    | .CatAssignExp type e1 e2 => CatAssignExp.toElem (toElem_again lowered fuel) type e1 e2
    | .IndexExp _ e1 e2 modifiable indexIsInBounds lengthVar =>
      IndexExp.toElem (toElem_again lowered fuel) e1 e2 modifiable indexIsInBounds lengthVar
    | .NewExp type newtype thisexp allocator newargs onstack member arguments argprefix =>
      NewExp.toElem (toElem_again lowered fuel) type newtype thisexp allocator newargs onstack
        member arguments argprefix
    | .FuncExp type fd => do
      let r ← FuncExp.toElem type (if lowered type fd then FuncExp.lowered_fd type fd else fd)
      pure r.1
    | .CmpExp op _ e1 e2 => CmpExp.toElem (toElem_again lowered fuel) op e1 e2
    | .IdentityExp op _ e1 e2 =>
      IdentityExp.toElem (toElem_again lowered fuel) DType.precision op e1 e2
    | .DeleteExp _ e1 => DeleteExp.toElem (toElem_again lowered fuel) e1
    | .PowExp type e1 e2 => PowExp.toElem (toElem_again lowered fuel) type e1 e2
    | .AssertExp _ e1 msg => AssertExp.toElem (toElem_again lowered fuel) e1 msg
    | .AndAndExp _ e1 e2 => AndAndExp.toElem (toElem_again lowered fuel) e1 e2
    | .OrOrExp _ e1 e2 => OrOrExp.toElem (toElem_again lowered fuel) e1 e2
    | .AddExp _ e1 e2 => AddExp.toElem (toElem_again lowered fuel) e1 e2
    | .MinExp _ e1 e2 => MinExp.toElem (toElem_again lowered fuel) e1 e2

/-- A lambda whose kind is still to be inferred: `tok` is `TOKreserved` and a
context parameter is declared.  A function literal is nested unless it is a
plain function (`tok != TOKfunction`). -/
def inferred_lambda : FuncLiteralDeclaration :=
  { ident := "__lambda1", type := .TypeFunction (.TypeBasic .Tint32) false, tok := .TOKreserved,
    vthis := some "this", isNested := fun tok _ => tok != .TOKfunction }

/-- The expression `(__lambda1, (S a, (S b, a + b)))`, the lambda being taken
as a function pointer. -/
def lambda_scoped : Expression :=
  .CommaExp (.TypeBasic .Tint32)
    (.FuncExp (.TypePointer (.TypeFunction (.TypeBasic .Tint32) false)) inferred_lambda)
    two_scoped

/-- The tree of `(__lambda1, (S a, (S b, a + b)))`. -/
def lambda_scoped_tree : Tree :=
  build2 .COMPOUND_EXPR (build1 .NOP_EXPR (build1 .ADDR_EXPR (function_decl "__lambda1")))
    (build2 .COMPOUND_EXPR (atom "S a" true)
      (build2 .COMPOUND_EXPR (atom "S b" true) (atom "a + b" false)))

/-- The tree of `(__lambda1, (S a, (S b, a + b)))` with the destructor calls,
its value being held in the temporary `id`. -/
def lambda_scoped_cleaned (id : Nat) : Tree :=
  compound_expr
    (compound_expr (save_expr id lambda_scoped_tree)
      (compound_expr (atom "a.__dtor ()" true) (atom "b.__dtor ()" true)))
    (save_expr id lambda_scoped_tree)

/-! # Properties of the lowering rules -/

/-! ## Running a lowering -/

@[simp] theorem Lower.bind_apply {α β : Type} (m : Lower α) (f : α → Lower β) (s : IRState) :
    (m >>= f) s = match m s with
      | .ok (a, s1) => f a s1
      | .error err => .error err := by
  show (StateT.bind m f) s = _
  unfold StateT.bind
  show (m s >>= _) = _
  cases m s with
  | error e => rfl
  | ok r => cases r; rfl

@[simp] theorem Lower.map_apply {α β : Type} (m : Lower α) (f : α → β) (s : IRState) :
    (f <$> m) s = match m s with
      | .ok (a, s1) => .ok (f a, s1)
      | .error err => .error err := by
  show (StateT.map f m) s = _
  unfold StateT.map
  show (m s >>= _) = _
  cases m s with
  | error e => rfl
  | ok r => cases r; rfl

@[simp] theorem Lower.pure_apply {α : Type} (a : α) (s : IRState) :
    (pure a : Lower α) s = .ok (a, s) := rfl

@[simp] theorem Lower.get_apply (s : IRState) : (get : Lower IRState) s = .ok (s, s) := rfl

@[simp] theorem Lower.set_apply (s1 s : IRState) : (set s1 : Lower PUnit) s = .ok (⟨⟩, s1) := rfl

@[simp] theorem Lower.modify_apply (f : IRState → IRState) (s : IRState) :
    (modify f : Lower PUnit) s = .ok (⟨⟩, f s) := rfl

@[simp] theorem Lower.throw_apply {α : Type} (err : Fault) (s : IRState) :
    (throw err : Lower α) s = .error err := rfl

@[simp] theorem make_temp_apply (t : Tree) (s : IRState) :
    make_temp t s = .ok (save_expr s.temps t, { s with temps := s.temps + 1 }) := rfl

theorem isintegral_ty_ne_struct (t : DType) (h : t.isintegral = true) : t.ty ≠ .Tstruct := by
  cases t <;> simp_all [DType.isintegral, DType.ty]
  rename_i ty
  cases ty <;> simp_all

theorem memcmp_comparable_cond (t : DType) (h : memcmp_comparable t = true) :
    (t.isintegral || t.ty == .Tvoid || t.ty == .Tstruct) = true := by
  cases t <;> simp_all [memcmp_comparable, DType.isintegral, DType.ty]

theorem memcmp_comparable_memcmp (t : DType) (h : memcmp_comparable t = true) :
    ¬ t.ty = .Tstruct ∨ (t.sym.map (·.identity_compare)).getD false = true := by
  cases t <;> simp_all [memcmp_comparable, DType.isintegral, DType.ty, DType.sym]
  rename_i ty
  cases ty <;> simp_all

/-! ## The cleanup wrapper: order of the destructors -/

/-- C1: on `(S a, (S b, a + b))`, where `a` is declared before `b`, the span of
the ledger holds `a`, `b` in push order and `toElemDtor` builds the cleanup
`(a.__dtor (), b.__dtor ())`: evaluating the result runs the destructor of `a`
before that of `b`, the declaration order, not most-recently-declared first. -/
theorem toElemDtor_cleanup_in_declaration_order :
    (toElemDtor 3 two_scoped (IRState.start true)).map (fun r => r.1)
      = .ok (compound_expr
          (compound_expr
            (save_expr 0 (build2 .COMPOUND_EXPR (atom "S a" true)
              (build2 .COMPOUND_EXPR (atom "S b" true) (atom "a + b" false))))
            (compound_expr (atom "a.__dtor ()" true) (atom "b.__dtor ()" true)))
          (save_expr 0 (build2 .COMPOUND_EXPR (atom "S a" true)
            (build2 .COMPOUND_EXPR (atom "S b" true) (atom "a + b" false)))))
    ∧ (toElemDtor 3 two_scoped (IRState.start true)).map (fun r => r.1.effects)
      = .ok ["S a", "S b", "a.__dtor ()", "b.__dtor ()"]
    ∧ (toElemDtor 3 two_scoped (IRState.start true)).map (fun r => r.1.effects)
      ≠ .ok ["S a", "S b", "b.__dtor ()", "a.__dtor ()"] := by
  refine ⟨rfl, rfl, ?_⟩
  intro h
  have h2 : (toElemDtor 3 two_scoped (IRState.start true)).map (fun r => r.1.effects)
      = .ok ["S a", "S b", "a.__dtor ()", "b.__dtor ()"] := rfl
  rw [h2] at h
  simp at h

/-! ## Equality of arrays: the inline comparison -/

/-- On two array operands of a `memcmp`-comparable element type, the rule
returns the specified comparison of the captured operands under the side-effect
wrappers, and has made two temporaries. -/
theorem EqualExp.toElem_inline (toElem : Expression → Lower Tree) (op : TOK)
    (e1 e2 : Expression) (next : DType) (s s1 s2 : IRState) (t1 t2 : Tree)
    (harr1 : e1.type.toBasetype.ty = .Tsarray ∨ e1.type.toBasetype.ty = .Tarray)
    (harr2 : e2.type.toBasetype.ty = .Tsarray ∨ e2.type.toBasetype.ty = .Tarray)
    (hnext : e1.type.toBasetype.nextOf = some next)
    (helem : memcmp_comparable next.toBasetype = true)
    (hsize : e1.type.toBasetype.ty = .Tsarray → e2.type.toBasetype.ty = .Tsarray →
      e1.type.toBasetype.size = e2.type.toBasetype.size)
    (h1 : d_array_convert toElem e1 s = .ok (t1, s1))
    (h2 : d_array_convert toElem e2 s1 = .ok (t2, s2)) :
    EqualExp.toElem toElem op e1 e2 s
      = .ok (side_effect_wrappers t1 t2 (save_expr s2.temps t1) (save_expr (s2.temps + 1) t2)
              (spec_array_comparison (op == .TOKequal)
                (e1.type.toBasetype.ty == .Tsarray && e2.type.toBasetype.ty == .Tsarray)
                (save_expr s2.temps t1) (save_expr (s2.temps + 1) t2) next.toBasetype.size),
            { s2 with temps := s2.temps + 2 }) := by
  have hcond := memcmp_comparable_cond _ helem
  have hstruct := memcmp_comparable_memcmp _ helem
  by_cases hop : op = .TOKequal
  · rcases harr1 with a1 | a1 <;> rcases harr2 with a2 | a2 <;>
      simp [EqualExp.toElem, a1, a2, hnext, hcond, hstruct, h1, h2, hop, gcc_assert, hsize,
        side_effect_wrappers, spec_array_comparison, spec_buffer_comparison, fold_build2,
        d_array_length, d_array_ptr, d_build_call_nary, build_boolop, compound_expr,
        size_int, size_zero_node, integer_zero_node, build_address]
  · rcases harr1 with a1 | a1 <;> rcases harr2 with a2 | a2 <;>
      simp [EqualExp.toElem, a1, a2, hnext, hcond, hstruct, h1, h2, hop, gcc_assert, hsize,
        side_effect_wrappers, spec_array_comparison, spec_buffer_comparison, fold_build2,
        d_array_length, d_array_ptr, d_build_call_nary, build_boolop, compound_expr,
        size_int, size_zero_node, integer_zero_node, build_address]

/-- C5: on two array operands whose element type (read from the left operand)
is integral or void, `EqualExp::toElem` returns, under the side-effect
wrappers, exactly the comparison of the specification over the two captured
operands: `l1 == 0 || memcmp (p1, p2, l1 * elemsize) == 0` between two
fixed-size arrays and `l1 == l2 && (...)` otherwise, for `!=`
`l1 != 0 && memcmp (...) != 0` and `l1 != l2 || (...)`; the comparison of the
two lengths is its outermost term exactly when an operand is a dynamic array,
and the comparison calls no library routine beyond those of the operands. -/
theorem EqualExp_inline_comparison (toElem : Expression → Lower Tree) (op : TOK)
    (e1 e2 : Expression) (next : DType) (s s1 s2 : IRState) (t1 t2 : Tree)
    (harr1 : e1.type.toBasetype.ty = .Tsarray ∨ e1.type.toBasetype.ty = .Tarray)
    (harr2 : e2.type.toBasetype.ty = .Tsarray ∨ e2.type.toBasetype.ty = .Tarray)
    (hnext : e1.type.toBasetype.nextOf = some next)
    (helem : next.toBasetype.isintegral = true ∨ next.toBasetype.ty = .Tvoid)
    (hsize : e1.type.toBasetype.ty = .Tsarray → e2.type.toBasetype.ty = .Tsarray →
      e1.type.toBasetype.size = e2.type.toBasetype.size)
    (h1 : d_array_convert toElem e1 s = .ok (t1, s1))
    (h2 : d_array_convert toElem e2 s1 = .ok (t2, s2)) :
    EqualExp.toElem toElem op e1 e2 s
      = .ok (side_effect_wrappers t1 t2 (save_expr s2.temps t1) (save_expr (s2.temps + 1) t2)
              (spec_array_comparison (op == .TOKequal)
                (e1.type.toBasetype.ty == .Tsarray && e2.type.toBasetype.ty == .Tsarray)
                (save_expr s2.temps t1) (save_expr (s2.temps + 1) t2) next.toBasetype.size),
            { s2 with temps := s2.temps + 2 })
    ∧ ((∃ code rest, spec_array_comparison (op == .TOKequal)
          (e1.type.toBasetype.ty == .Tsarray && e2.type.toBasetype.ty == .Tsarray)
          (save_expr s2.temps t1) (save_expr (s2.temps + 1) t2) next.toBasetype.size
          = build2 code (build2 (if op == .TOKequal then .EQ_EXPR else .NE_EXPR)
              (component_ref (save_expr s2.temps t1) "length")
              (component_ref (save_expr (s2.temps + 1) t2) "length")) rest)
        ↔ (e1.type.toBasetype.ty = .Tarray ∨ e2.type.toBasetype.ty = .Tarray))
    ∧ (libcalls t1 = [] → libcalls t2 = [] →
        libcalls (spec_array_comparison (op == .TOKequal)
          (e1.type.toBasetype.ty == .Tsarray && e2.type.toBasetype.ty == .Tsarray)
          (save_expr s2.temps t1) (save_expr (s2.temps + 1) t2) next.toBasetype.size) = []) := by
  have hcmp : memcmp_comparable next.toBasetype = true := by
    rcases helem with h | h <;> simp [memcmp_comparable, h]
  refine ⟨EqualExp.toElem_inline toElem op e1 e2 next s s1 s2 t1 t2 harr1 harr2 hnext hcmp
    hsize h1 h2, ?_, ?_⟩
  · by_cases hop : op = .TOKequal <;>
      rcases harr1 with a1 | a1 <;> rcases harr2 with a2 | a2 <;>
      simp [a1, a2, hop, spec_array_comparison, spec_buffer_comparison]
  · intro l1 l2
    by_cases hop : op = .TOKequal <;>
      rcases harr1 with a1 | a1 <;> rcases harr2 with a2 | a2 <;>
      simp [a1, a2, hop, spec_array_comparison, spec_buffer_comparison, libcalls, Tree.list, l1, l2]

/-- The inline comparison of `f () == b` for `int[]` operands, `f ()` having
side effects: `(t1saved, t1saved.length == t2saved.length && (t1saved.length == 0
|| memcmp (t1saved.ptr, t2saved.ptr, t1saved.length * 4) == 0))`. -/
theorem EqualExp_inline_comparison_witness :
    EqualExp.toElem (toElem 1) .TOKequal (int_array "f ()" true) (int_array "b" false)
        (IRState.start true)
      = .ok (build2 .COMPOUND_EXPR (save_expr 0 (atom "f ()" true))
              (build2 .TRUTH_ANDIF_EXPR
                (build2 .EQ_EXPR (component_ref (save_expr 0 (atom "f ()" true)) "length")
                  (component_ref (save_expr 1 (atom "b" false)) "length"))
                (build2 .TRUTH_ORIF_EXPR
                  (build2 .EQ_EXPR (component_ref (save_expr 0 (atom "f ()" true)) "length")
                    (integer_cst 0))
                  (build2 .EQ_EXPR
                    (call_expr (build1 .ADDR_EXPR (builtin_decl .BUILT_IN_MEMCMP))
                      (Tree.list [component_ref (save_expr 0 (atom "f ()" true)) "ptr",
                        component_ref (save_expr 1 (atom "b" false)) "ptr",
                        build2 .MULT_EXPR
                          (component_ref (save_expr 0 (atom "f ()" true)) "length")
                          (integer_cst 4)]))
                    (integer_cst 0)))),
            { IRState.start true with temps := 2 }) :=
  (EqualExp_inline_comparison (toElem 1) .TOKequal (int_array "f ()" true)
    (int_array "b" false) (.TypeBasic .Tint32) (IRState.start true) (IRState.start true)
    (IRState.start true) (atom "f ()" true) (atom "b" false) (Or.inr rfl) (Or.inr rfl) rfl
    (Or.inl rfl) (fun h => by cases h) rfl rfl).1

@[simp] theorem Val.truth_ofBool (b : Bool) : (Val.ofBool b).truth = b := by
  cases b <;> rfl

@[simp] theorem Val.toInt_int (i : Int) : (Val.int i).toInt = i := rfl

/-- C7: for array operands on the inline `memcmp` path, lowered from the same
state, the lowered `a != b` is on every machine, that is for every value of the
two lengths and every result of `memcmp`, the negation of the lowered `a == b`,
in the form without a length comparison and in the form with it. -/
theorem EqualExp_notequal_negates_equal (toElem : Expression → Lower Tree)
    (e1 e2 : Expression) (next : DType) (s s1 s2 : IRState) (t1 t2 : Tree)
    (harr1 : e1.type.toBasetype.ty = .Tsarray ∨ e1.type.toBasetype.ty = .Tarray)
    (harr2 : e2.type.toBasetype.ty = .Tsarray ∨ e2.type.toBasetype.ty = .Tarray)
    (hnext : e1.type.toBasetype.nextOf = some next)
    (helem : memcmp_comparable next.toBasetype = true)
    (hsize : e1.type.toBasetype.ty = .Tsarray → e2.type.toBasetype.ty = .Tsarray →
      e1.type.toBasetype.size = e2.type.toBasetype.size)
    (h1 : d_array_convert toElem e1 s = .ok (t1, s1))
    (h2 : d_array_convert toElem e2 s1 = .ok (t2, s2)) :
    ∃ teq tne s3,
      EqualExp.toElem toElem .TOKequal e1 e2 s = .ok (teq, s3)
      ∧ EqualExp.toElem toElem .TOKnotequal e1 e2 s = .ok (tne, s3)
      ∧ ∀ m : Machine, (tne.eval m).truth = !(teq.eval m).truth := by
  refine ⟨_, _, _,
    EqualExp.toElem_inline toElem .TOKequal e1 e2 next s s1 s2 t1 t2 harr1 harr2 hnext helem
      hsize h1 h2,
    EqualExp.toElem_inline toElem .TOKnotequal e1 e2 next s s1 s2 t1 t2 harr1 harr2 hnext helem
      hsize h1 h2, ?_⟩
  intro m
  by_cases hf : (e1.type.toBasetype.ty == .Tsarray && e2.type.toBasetype.ty == .Tsarray) = true <;>
    by_cases hs1 : d_has_side_effects t1 = true <;>
    by_cases hs2 : d_has_side_effects t2 = true <;>
    simp [side_effect_wrappers, spec_array_comparison, spec_buffer_comparison, Tree.eval, hf,
      hs1, hs2, Tree.list, bne, Bool.not_and, Bool.not_or]

/-- The negation at `a != b` against `a == b` for `a : int[4]`, `b : int[]`. -/
theorem EqualExp_notequal_negates_equal_witness :
    ∃ teq tne s3,
      EqualExp.toElem (toElem 1) .TOKequal (int_sarray "a" 4) (int_array "b" false)
        (IRState.start true) = .ok (teq, s3)
      ∧ EqualExp.toElem (toElem 1) .TOKnotequal (int_sarray "a" 4) (int_array "b" false)
        (IRState.start true) = .ok (tne, s3)
      ∧ ∀ m : Machine, (tne.eval m).truth = !(teq.eval m).truth :=
  EqualExp_notequal_negates_equal (toElem 1) (int_sarray "a" 4) (int_array "b" false)
    (.TypeBasic .Tint32) (IRState.start true) (IRState.start true) (IRState.start true)
    (d_array_value (size_int 4) (build_nop (build_address (atom "a" false)))) (atom "b" false)
    (Or.inl rfl) (Or.inr rfl) rfl rfl (fun _ h => by cases h) rfl rfl

/-- The side-effect wrappers leave the value of the comparison as it is. -/
theorem eval_side_effect_wrappers (m : Machine) (t1 t2 t1saved t2saved result : Tree) :
    (side_effect_wrappers t1 t2 t1saved t2saved result).eval m = result.eval m := by
  unfold side_effect_wrappers
  by_cases hs1 : d_has_side_effects t1 = true <;>
    by_cases hs2 : d_has_side_effects t2 = true <;>
    simp [hs1, hs2, Tree.eval]

/-- A fixed-size array operand is converted to the view of its `dim` elements. -/
theorem d_array_convert_sarray (toElem : Expression → Lower Tree) (e : Expression)
    (elem : DType) (dim : Nat) (s s1 : IRState) (t : Tree)
    (hty : e.type.toBasetype = .TypeSArray elem dim) (h : toElem e s = .ok (t, s1)) :
    d_array_convert toElem e s
      = .ok (d_array_value (size_int dim) (build_nop (build_address t)), s1) := by
  simp [d_array_convert, hty, h, DType.ty, DType.dim]

/-- All bytes of two buffers of `n * elemsize` bytes agree iff every element does. -/
theorem bytes_eq_iff_elems_eq (mem : Nat → Nat) (p q n elemsize : Nat) :
    (∀ k, k < n * elemsize → mem (p + k) = mem (q + k))
      ↔ ∀ i, i < n → elem_eq mem p q elemsize i := by
  constructor
  · intro h i hi j hj
    have hk : i * elemsize + j < n * elemsize := by
      calc i * elemsize + j < i * elemsize + elemsize := by omega
        _ = (i + 1) * elemsize := by ring
        _ ≤ n * elemsize := Nat.mul_le_mul_right _ hi
    have := h (i * elemsize + j) hk
    simpa [Nat.add_assoc] using this
  · intro h k hk
    have hpos : 0 < elemsize := by
      rcases Nat.eq_zero_or_pos elemsize with h0 | h0
      · subst h0; simp at hk
      · exact h0
    have hi : k / elemsize < n := by
      rw [Nat.div_lt_iff_lt_mul hpos]; exact hk
    have := h (k / elemsize) hi (k % elemsize) (Nat.mod_lt _ hpos)
    have hdm : k / elemsize * elemsize + k % elemsize = k := by
      rw [Nat.mul_comm]; exact Nat.div_add_mod k elemsize
    simpa [Nat.add_assoc, hdm] using this

/-- C6: for fixed-size arrays `a`, `b` of the same length `n` and the same
integral element type, whose `n * elemsize` bytes fit `size_t`, the tree that
`EqualExp::toElem` produces for `a == b` evaluates to true iff every element
of `a` equals the element of `b` at its index (always so for `n = 0`), on
every machine whose `memcmp` returns 0 iff the two byte buffers are equal. -/
theorem EqualExp_fixed_arrays_elementwise (toElem : Expression → Lower Tree)
    (e1 e2 : Expression) (elem : DType) (n : Nat) (s s1 s2 : IRState) (ta tb : Tree)
    (m : Machine)
    (hty1 : e1.type.toBasetype = .TypeSArray elem n)
    (hty2 : e2.type.toBasetype = .TypeSArray elem n)
    (helem : elem.toBasetype.isintegral = true)
    (hfits : n * elem.toBasetype.size < 2 ^ SIZE_BITS)
    (hm : m.memcmp_ok)
    (h1 : toElem e1 s = .ok (ta, s1))
    (h2 : toElem e2 s1 = .ok (tb, s2)) :
    ∃ t s3, EqualExp.toElem toElem .TOKequal e1 e2 s = .ok (t, s3)
      ∧ ((t.eval m).truth = true
          ↔ ∀ i, i < n → elem_eq m.mem (m.addr ta) (m.addr tb) elem.toBasetype.size i) := by
  have hcmp : memcmp_comparable elem.toBasetype = true := by
    simp [memcmp_comparable, helem]
  refine ⟨_, _,
    EqualExp.toElem_inline toElem .TOKequal e1 e2 elem s s1 s2 _ _
      (Or.inl (by rw [hty1]; rfl)) (Or.inl (by rw [hty2]; rfl)) (by rw [hty1]; rfl) hcmp
      (fun _ _ => by rw [hty1, hty2])
      (d_array_convert_sarray toElem e1 elem n s s1 ta hty1 h1)
      (d_array_convert_sarray toElem e2 elem n s1 s2 tb hty2 h2), ?_⟩
  rw [← bytes_eq_iff_elems_eq, ← hm]
  have hmod : ((n : Int) * (elem.toBasetype.size : Int) % 2 ^ SIZE_BITS).toNat
      = n * elem.toBasetype.size := by
    have : ((n : Int) * (elem.toBasetype.size : Int)) = ((n * elem.toBasetype.size : Nat) : Int) := by
      push_cast; ring
    rw [this]
    have h2 : ((2 : Int) ^ SIZE_BITS) = ((2 ^ SIZE_BITS : Nat) : Int) := by push_cast; ring
    rw [h2, ← Int.natCast_mod, Int.toNat_natCast, Nat.mod_eq_of_lt hfits]
  rw [eval_side_effect_wrappers]
  simp [spec_array_comparison, spec_buffer_comparison, Tree.eval,
    Tree.list, hty1, hty2, DType.ty, d_array_value, size_int, build_nop, build_address, hmod]
  intro h0
  subst h0
  rw [hm]
  intro k hk
  simp at hk

/-! ## Evaluation order: temporaries -/

/-- Evaluating a tree whose temporaries are numbered below `n` only adds
temporaries numbered below `n` to those evaluated, and removes none. -/
theorem eval_order_seen (n : Nat) (t : Tree) :
    ∀ seen, t.temps_below n = true → (∀ i ∈ seen, i < n) →
      (∀ i ∈ (t.eval_order seen).2, i < n) ∧ (∀ i ∈ seen, i ∈ (t.eval_order seen).2) := by
  induction t with
  | save_expr id op0 ih =>
    intro seen hb hs
    simp only [Tree.temps_below, Bool.and_eq_true, decide_eq_true_eq] at hb
    by_cases hid : id ∈ seen
    · simp only [Tree.eval_order, hid, if_true]
      exact ⟨hs, fun i hi => hi⟩
    · simp only [Tree.eval_order, hid, if_false]
      obtain ⟨a, b⟩ := ih seen hb.2 hs
      refine ⟨fun i hi => ?_, fun i hi => List.mem_cons_of_mem _ (b i hi)⟩
      rcases List.mem_cons.1 hi with h | h
      · rw [h]; exact hb.1
      · exact a i h
  | temp_var id initial ih =>
    intro seen hb hs
    simp only [Tree.temps_below, Bool.and_eq_true, decide_eq_true_eq] at hb
    by_cases hid : id ∈ seen
    · simp only [Tree.eval_order, hid, if_true]
      exact ⟨hs, fun i hi => hi⟩
    · simp only [Tree.eval_order, hid, if_false]
      obtain ⟨a, b⟩ := ih seen hb.2 hs
      refine ⟨fun i hi => ?_, fun i hi => List.mem_cons_of_mem _ (b i hi)⟩
      rcases List.mem_cons.1 hi with h | h
      · rw [h]; exact hb.1
      · exact a i h
  | build1 code op0 ih =>
    intro seen hb hs
    simp only [Tree.temps_below] at hb
    simpa only [Tree.eval_order] using ih seen hb hs
  | component_ref object field ih =>
    intro seen hb hs
    simp only [Tree.temps_below] at hb
    simpa only [Tree.eval_order] using ih seen hb hs
  | constructor elts ih =>
    intro seen hb hs
    simp only [Tree.temps_below] at hb
    simpa only [Tree.eval_order] using ih seen hb hs
  | statement_list head ih =>
    intro seen hb hs
    simp only [Tree.temps_below] at hb
    simpa only [Tree.eval_order] using ih seen hb hs
  | helper name se ops ih =>
    intro seen hb hs
    simp only [Tree.temps_below] at hb
    simpa only [Tree.eval_order] using ih seen hb hs
  | build2 code op0 op1 ih0 ih1 =>
    intro seen hb hs
    simp only [Tree.temps_below, Bool.and_eq_true] at hb
    obtain ⟨a0, b0⟩ := ih0 seen hb.1 hs
    obtain ⟨a1, b1⟩ := ih1 _ hb.2 a0
    simp only [Tree.eval_order]
    exact ⟨a1, fun i hi => b1 i (b0 i hi)⟩
  | call_expr op0 op1 ih0 ih1 =>
    intro seen hb hs
    simp only [Tree.temps_below, Bool.and_eq_true] at hb
    obtain ⟨a0, b0⟩ := ih0 seen hb.1 hs
    obtain ⟨a1, b1⟩ := ih1 _ hb.2 a0
    simp only [Tree.eval_order]
    exact ⟨a1, fun i hi => b1 i (b0 i hi)⟩
  | tree_list op0 op1 ih0 ih1 =>
    intro seen hb hs
    simp only [Tree.temps_below, Bool.and_eq_true] at hb
    obtain ⟨a0, b0⟩ := ih0 seen hb.1 hs
    obtain ⟨a1, b1⟩ := ih1 _ hb.2 a0
    simp only [Tree.eval_order]
    exact ⟨a1, fun i hi => b1 i (b0 i hi)⟩
  | constructor_elt index op0 op1 ih0 ih1 =>
    intro seen hb hs
    simp only [Tree.temps_below, Bool.and_eq_true] at hb
    obtain ⟨a0, b0⟩ := ih0 seen hb.1 hs
    obtain ⟨a1, b1⟩ := ih1 _ hb.2 a0
    simp only [Tree.eval_order]
    exact ⟨a1, fun i hi => b1 i (b0 i hi)⟩
  | bind_expr op0 op1 ih0 ih1 =>
    intro seen hb hs
    simp only [Tree.temps_below, Bool.and_eq_true] at hb
    obtain ⟨a0, b0⟩ := ih0 seen hb.1 hs
    obtain ⟨a1, b1⟩ := ih1 _ hb.2 a0
    simp only [Tree.eval_order]
    exact ⟨a1, fun i hi => b1 i (b0 i hi)⟩
  | method_call_expr op0 op1 ih0 ih1 =>
    intro seen hb hs
    simp only [Tree.temps_below, Bool.and_eq_true] at hb
    obtain ⟨a0, b0⟩ := ih0 seen hb.1 hs
    obtain ⟨a1, b1⟩ := ih1 _ hb.2 a0
    simp only [Tree.eval_order]
    exact ⟨a1, fun i hi => b1 i (b0 i hi)⟩
  | build3 code op0 op1 op2 ih0 ih1 ih2 =>
    intro seen hb hs
    simp only [Tree.temps_below, Bool.and_eq_true] at hb
    obtain ⟨a0, b0⟩ := ih0 seen hb.1.1 hs
    obtain ⟨a1, b1⟩ := ih1 _ hb.1.2 a0
    obtain ⟨a2, b2⟩ := ih2 _ hb.2 a1
    simp only [Tree.eval_order]
    exact ⟨a2, fun i hi => b2 i (b1 i (b0 i hi))⟩
  | _ =>
    intro seen _ hs
    simp only [Tree.eval_order]
    exact ⟨hs, fun i hi => hi⟩

/-- The evaluation order of a tree whose temporaries are numbered below `n`
depends on the temporaries evaluated before only through those below `n`. -/
theorem eval_order_agree (n : Nat) (t : Tree) :
    ∀ seen seen', t.temps_below n = true → (∀ i, i < n → (i ∈ seen ↔ i ∈ seen')) →
      (t.eval_order seen).1 = (t.eval_order seen').1
        ∧ (∀ i, i < n → (i ∈ (t.eval_order seen).2 ↔ i ∈ (t.eval_order seen').2)) := by
  induction t with
  | save_expr id op0 ih =>
    intro seen seen' hb hs
    simp only [Tree.temps_below, Bool.and_eq_true, decide_eq_true_eq] at hb
    by_cases hid : id ∈ seen
    · have hid' : id ∈ seen' := (hs id hb.1).1 hid
      simp only [Tree.eval_order, hid, hid', if_true]
      exact ⟨trivial, hs⟩
    · have hid' : ¬ id ∈ seen' := fun h => hid ((hs id hb.1).2 h)
      simp only [Tree.eval_order, hid, hid', if_false]
      obtain ⟨a, b⟩ := ih seen seen' hb.2 hs
      refine ⟨a, fun i hi => ?_⟩
      simp only [List.mem_cons, b i hi]
  | temp_var id initial ih =>
    intro seen seen' hb hs
    simp only [Tree.temps_below, Bool.and_eq_true, decide_eq_true_eq] at hb
    by_cases hid : id ∈ seen
    · have hid' : id ∈ seen' := (hs id hb.1).1 hid
      simp only [Tree.eval_order, hid, hid', if_true]
      exact ⟨trivial, hs⟩
    · have hid' : ¬ id ∈ seen' := fun h => hid ((hs id hb.1).2 h)
      simp only [Tree.eval_order, hid, hid', if_false]
      obtain ⟨a, b⟩ := ih seen seen' hb.2 hs
      refine ⟨a, fun i hi => ?_⟩
      simp only [List.mem_cons, b i hi]
  | build1 code op0 ih =>
    intro seen seen' hb hs
    simp only [Tree.temps_below] at hb
    simpa only [Tree.eval_order] using ih seen seen' hb hs
  | component_ref object field ih =>
    intro seen seen' hb hs
    simp only [Tree.temps_below] at hb
    simpa only [Tree.eval_order] using ih seen seen' hb hs
  | constructor elts ih =>
    intro seen seen' hb hs
    simp only [Tree.temps_below] at hb
    simpa only [Tree.eval_order] using ih seen seen' hb hs
  | statement_list head ih =>
    intro seen seen' hb hs
    simp only [Tree.temps_below] at hb
    simpa only [Tree.eval_order] using ih seen seen' hb hs
  | helper name se ops ih =>
    intro seen seen' hb hs
    simp only [Tree.temps_below] at hb
    simpa only [Tree.eval_order] using ih seen seen' hb hs
  | build2 code op0 op1 ih0 ih1 =>
    intro seen seen' hb hs
    simp only [Tree.temps_below, Bool.and_eq_true] at hb
    obtain ⟨a0, b0⟩ := ih0 seen seen' hb.1 hs
    obtain ⟨a1, b1⟩ := ih1 _ _ hb.2 b0
    simp only [Tree.eval_order, a0, a1]
    exact ⟨trivial, b1⟩
  | call_expr op0 op1 ih0 ih1 =>
    intro seen seen' hb hs
    simp only [Tree.temps_below, Bool.and_eq_true] at hb
    obtain ⟨a0, b0⟩ := ih0 seen seen' hb.1 hs
    obtain ⟨a1, b1⟩ := ih1 _ _ hb.2 b0
    simp only [Tree.eval_order, a0, a1]
    exact ⟨trivial, b1⟩
  | tree_list op0 op1 ih0 ih1 =>
    intro seen seen' hb hs
    simp only [Tree.temps_below, Bool.and_eq_true] at hb
    obtain ⟨a0, b0⟩ := ih0 seen seen' hb.1 hs
    obtain ⟨a1, b1⟩ := ih1 _ _ hb.2 b0
    simp only [Tree.eval_order, a0, a1]
    exact ⟨trivial, b1⟩
  | constructor_elt index op0 op1 ih0 ih1 =>
    intro seen seen' hb hs
    simp only [Tree.temps_below, Bool.and_eq_true] at hb
    obtain ⟨a0, b0⟩ := ih0 seen seen' hb.1 hs
    obtain ⟨a1, b1⟩ := ih1 _ _ hb.2 b0
    simp only [Tree.eval_order, a0, a1]
    exact ⟨trivial, b1⟩
  | bind_expr op0 op1 ih0 ih1 =>
    intro seen seen' hb hs
    simp only [Tree.temps_below, Bool.and_eq_true] at hb
    obtain ⟨a0, b0⟩ := ih0 seen seen' hb.1 hs
    obtain ⟨a1, b1⟩ := ih1 _ _ hb.2 b0
    simp only [Tree.eval_order, a0, a1]
    exact ⟨trivial, b1⟩
  | method_call_expr op0 op1 ih0 ih1 =>
    intro seen seen' hb hs
    simp only [Tree.temps_below, Bool.and_eq_true] at hb
    obtain ⟨a0, b0⟩ := ih0 seen seen' hb.1 hs
    obtain ⟨a1, b1⟩ := ih1 _ _ hb.2 b0
    simp only [Tree.eval_order, a0, a1]
    exact ⟨trivial, b1⟩
  | build3 code op0 op1 op2 ih0 ih1 ih2 =>
    intro seen seen' hb hs
    simp only [Tree.temps_below, Bool.and_eq_true] at hb
    obtain ⟨a0, b0⟩ := ih0 seen seen' hb.1.1 hs
    obtain ⟨a1, b1⟩ := ih1 _ _ hb.1.2 b0
    obtain ⟨a2, b2⟩ := ih2 _ _ hb.2 b1
    simp only [Tree.eval_order, a0, a1, a2]
    exact ⟨trivial, b2⟩
  | _ =>
    intro seen seen' _ hs
    simp only [Tree.eval_order]
    exact ⟨trivial, hs⟩

theorem temps_below_mono (n k : Nat) (h : n ≤ k) (t : Tree) :
    t.temps_below n = true → t.temps_below k = true := by
  induction t <;> simp_all [Tree.temps_below] <;> omega

/-- A tree that reads its operands only through temporaries that were all
evaluated before evaluates no side effect. -/
theorem eval_order_reads_only (temps : List Tree) (t : Tree) :
    ∀ seen, t.reads_only temps = true →
      (∀ u ∈ temps, ∃ id op0, u = save_expr id op0 ∧ id ∈ seen) →
      t.eval_order seen = ([], seen) := by
  induction t with
  | save_expr id op0 _ =>
    intro seen hr ht
    simp only [Tree.reads_only, decide_eq_true_eq] at hr
    obtain ⟨id', op', heq, hmem⟩ := ht _ hr
    injection heq with h1 h2
    subst h1
    simp only [Tree.eval_order, hmem, if_true]
  | build1 code op0 ih =>
    intro seen hr ht
    simp only [Tree.reads_only] at hr
    simpa only [Tree.eval_order] using ih seen hr ht
  | component_ref object field ih =>
    intro seen hr ht
    simp only [Tree.reads_only] at hr
    simpa only [Tree.eval_order] using ih seen hr ht
  | build2 code op0 op1 ih0 ih1 =>
    intro seen hr ht
    simp only [Tree.reads_only, Bool.and_eq_true] at hr
    simp only [Tree.eval_order, ih0 seen hr.1 ht, ih1 seen hr.2 ht, List.append_nil]
  | call_expr op0 op1 ih0 ih1 =>
    intro seen hr ht
    simp only [Tree.reads_only, Bool.and_eq_true] at hr
    simp only [Tree.eval_order, ih0 seen hr.1 ht, ih1 seen hr.2 ht, List.append_nil]
  | tree_list op0 op1 ih0 ih1 =>
    intro seen hr ht
    simp only [Tree.reads_only, Bool.and_eq_true] at hr
    simp only [Tree.eval_order, ih0 seen hr.1 ht, ih1 seen hr.2 ht, List.append_nil]
  | integer_cst _ => intro seen _ _; simp only [Tree.eval_order]
  | null_tree => intro seen _ _; simp only [Tree.eval_order]
  | builtin_decl _ => intro seen _ _; simp only [Tree.eval_order]
  | _ => intro seen hr _; simp [Tree.reads_only] at hr

/-- Two operands captured in new temporaries and evaluated up front, before a
tree that reads them only through the temporaries, are evaluated like the
sequence of the two operands: each once, the left one first. -/
theorem effects_captured_pair (n : Nat) (t1 t2 cmp : Tree)
    (h1 : t1.temps_below n = true) (h2 : t2.temps_below n = true)
    (hr : cmp.reads_only [save_expr n t1, save_expr (n + 1) t2] = true) :
    (compound_expr (save_expr n t1) (compound_expr (save_expr (n + 1) t2) cmp)).effects
      = (compound_expr t1 t2).effects := by
  obtain ⟨a1, _⟩ := eval_order_seen n t1 [] h1 (by simp)
  have hn1 : ¬ n ∈ (t1.eval_order []).2 := fun h => Nat.lt_irrefl _ (a1 n h)
  have hn2 : ¬ (n + 1) ∈ (t1.eval_order []).2 := fun h => by have := a1 _ h; omega
  obtain ⟨e2, _⟩ := eval_order_agree n t2 (n :: (t1.eval_order []).2) (t1.eval_order []).2 h2
    (fun i hi => by simp only [List.mem_cons]; constructor
                    · rintro (h | h)
                      · omega
                      · exact h
                    · exact fun h => Or.inr h)
  obtain ⟨a2, b2⟩ := eval_order_seen (n + 1) t2 (n :: (t1.eval_order []).2)
    (temps_below_mono n (n + 1) (Nat.le_succ n) t2 h2)
    (fun i hi => by
      rcases List.mem_cons.1 hi with h | h
      · omega
      · have := a1 i h; omega)
  have hn3 : ¬ (n + 1) ∈ n :: (t1.eval_order []).2 := fun h => by
    rcases List.mem_cons.1 h with h | h
    · omega
    · exact hn2 h
  have hcmp := eval_order_reads_only [save_expr n t1, save_expr (n + 1) t2] cmp
    ((n + 1) :: (t2.eval_order (n :: (t1.eval_order []).2)).2) hr
    (fun u hu => by
      rcases List.mem_cons.1 hu with h | h
      · exact ⟨n, t1, h, List.mem_cons_of_mem _ (b2 n (List.mem_cons_self _ _))⟩
      · rw [List.mem_singleton] at h
        exact ⟨n + 1, t2, h, List.mem_cons_self _ _⟩)
  simp only [Tree.effects, compound_expr, Tree.eval_order, List.not_mem_nil, if_false, hn3,
    hcmp, e2, List.append_nil]

/-- The specified comparison reads the operands only through the temporaries. -/
theorem spec_array_comparison_reads_only (equal both_fixed : Bool) (t1saved t2saved : Tree)
    (id1 id2 : Nat) (t1 t2 : Tree) (h1 : t1saved = save_expr id1 t1)
    (h2 : t2saved = save_expr id2 t2) (elemsize : Nat) :
    (spec_array_comparison equal both_fixed t1saved t2saved elemsize).reads_only
      [t1saved, t2saved] = true := by
  subst h1 h2
  cases equal <;> cases both_fixed <;>
    simp [spec_array_comparison, spec_buffer_comparison, Tree.reads_only, Tree.list]

/-- C8: on the inline `memcmp` path with both operands having side effects,
the operands lowered in turn (`e1` from the entry state, then `e2`) are each
captured in a new temporary and the result is `(t1saved, (t2saved, cmp))`, where
the comparison `cmp` reads lengths and pointers only through the two
temporaries; evaluating the result evaluates the operands like the sequence
`(t1, t2)`: the left one once, then the right one once, and nothing else. -/
theorem EqualExp_operands_captured_in_order (toElem : Expression → Lower Tree) (op : TOK)
    (e1 e2 : Expression) (next : DType) (s s1 s2 : IRState) (t1 t2 : Tree)
    (harr1 : e1.type.toBasetype.ty = .Tsarray ∨ e1.type.toBasetype.ty = .Tarray)
    (harr2 : e2.type.toBasetype.ty = .Tsarray ∨ e2.type.toBasetype.ty = .Tarray)
    (hnext : e1.type.toBasetype.nextOf = some next)
    (helem : memcmp_comparable next.toBasetype = true)
    (hsize : e1.type.toBasetype.ty = .Tsarray → e2.type.toBasetype.ty = .Tsarray →
      e1.type.toBasetype.size = e2.type.toBasetype.size)
    (h1 : d_array_convert toElem e1 s = .ok (t1, s1))
    (h2 : d_array_convert toElem e2 s1 = .ok (t2, s2))
    (hse1 : d_has_side_effects t1 = true) (hse2 : d_has_side_effects t2 = true)
    (hb1 : t1.temps_below s2.temps = true) (hb2 : t2.temps_below s2.temps = true) :
    ∃ cmp,
      EqualExp.toElem toElem op e1 e2 s
        = .ok (compound_expr (save_expr s2.temps t1)
                (compound_expr (save_expr (s2.temps + 1) t2) cmp),
              { s2 with temps := s2.temps + 2 })
      ∧ cmp.reads_only [save_expr s2.temps t1, save_expr (s2.temps + 1) t2] = true
      ∧ (compound_expr (save_expr s2.temps t1)
            (compound_expr (save_expr (s2.temps + 1) t2) cmp)).effects
          = (compound_expr t1 t2).effects := by
  have hr := spec_array_comparison_reads_only (op == .TOKequal)
    (e1.type.toBasetype.ty == .Tsarray && e2.type.toBasetype.ty == .Tsarray)
    _ _ s2.temps (s2.temps + 1) t1 t2 rfl rfl next.toBasetype.size
  refine ⟨_, ?_, hr, effects_captured_pair s2.temps t1 t2 _ hb1 hb2 hr⟩
  rw [EqualExp.toElem_inline toElem op e1 e2 next s s1 s2 t1 t2 harr1 harr2 hnext helem
    hsize h1 h2]
  simp [side_effect_wrappers, hse1, hse2, compound_expr]

/-- The capture of the operands of `f () == g ()` for `int[]` operands. -/
theorem EqualExp_operands_captured_in_order_witness :
    ∃ cmp,
      EqualExp.toElem (toElem 1) .TOKequal (int_array "f ()" true) (int_array "g ()" true)
          (IRState.start true)
        = .ok (compound_expr (save_expr 0 (atom "f ()" true))
                (compound_expr (save_expr 1 (atom "g ()" true)) cmp),
              { IRState.start true with temps := 2 })
      ∧ cmp.reads_only [save_expr 0 (atom "f ()" true), save_expr 1 (atom "g ()" true)] = true
      ∧ (compound_expr (save_expr 0 (atom "f ()" true))
            (compound_expr (save_expr 1 (atom "g ()" true)) cmp)).effects
          = (compound_expr (atom "f ()" true) (atom "g ()" true)).effects :=
  EqualExp_operands_captured_in_order (toElem 1) .TOKequal (int_array "f ()" true)
    (int_array "g ()" true) (.TypeBasic .Tint32) (IRState.start true) (IRState.start true)
    (IRState.start true) (atom "f ()" true) (atom "g ()" true) (Or.inr rfl) (Or.inr rfl) rfl
    rfl (fun h => by cases h) rfl rfl rfl rfl rfl rfl

/-- The C function `memcmp` returns 0 iff the buffers are equal. -/
theorem memcmp_bytes_eq_zero (mem : Nat → Nat) (n p1 p2 : Nat) :
    memcmp_bytes mem p1 p2 n = 0 ↔ ∀ k, k < n → mem (p1 + k) = mem (p2 + k) := by
  induction n generalizing p1 p2 with
  | zero => simp [memcmp_bytes]
  | succ n ih =>
    unfold memcmp_bytes
    by_cases h : mem p1 = mem p2
    · rw [if_pos h, ih]
      constructor
      · intro hk k hlt
        cases k with
        | zero => simpa using h
        | succ k =>
          have := hk k (by omega)
          simpa [Nat.add_assoc, Nat.add_comm 1 k] using this
      · intro hk k hlt
        have := hk (k + 1) (by omega)
        simpa [Nat.add_assoc, Nat.add_comm 1 k] using this
    · rw [if_neg h]
      constructor
      · intro h0
        exact absurd (by omega) h
      · intro hk
        exact absurd (by simpa using hk 0 (by omega)) h

/-- The elementwise meaning of `a == b` for `a, b : int[2]` on the sample machine. -/
theorem EqualExp_fixed_arrays_elementwise_witness :
    ∃ t s3, EqualExp.toElem (toElem 1) .TOKequal (int_sarray "a" 2) (int_sarray "b" 2)
        (IRState.start true) = .ok (t, s3)
      ∧ ((t.eval sample_machine).truth = true
          ↔ ∀ i, i < 2 → elem_eq sample_machine.mem (sample_machine.addr (atom "a" false))
              (sample_machine.addr (atom "b" false)) (DType.TypeBasic .Tint32).toBasetype.size i) :=
  EqualExp_fixed_arrays_elementwise (toElem 1) (int_sarray "a" 2) (int_sarray "b" 2)
    (.TypeBasic .Tint32) 2 (IRState.start true) (IRState.start true) (IRState.start true)
    (atom "a" false) (atom "b" false) sample_machine rfl rfl rfl (by decide)
    (fun p1 p2 n => memcmp_bytes_eq_zero _ n p1 p2) rfl rfl

/-! ## Concatenation: flattening of a chain -/

theorem CatExp.leaves_length_pos (e : Expression) : 0 < (CatExp.leaves e).length := by
  cases e <;> simp [CatExp.leaves]

theorem CatExp.ndims_loop_eq (k : Nat) : ∀ (e : Expression) (ndims : Nat),
    (CatExp.leaves e).length = k → CatExp.ndims_loop e ndims = ndims + k - 1 := by
  induction k with
  | zero => intro e _ h; have := CatExp.leaves_length_pos e; omega
  | succ k ih =>
    intro e ndims h
    cases e
    case CatExp t a b =>
      simp only [CatExp.leaves, List.length_append, List.length_singleton] at h
      have hk : (CatExp.leaves a).length = k := by omega
      rw [CatExp.ndims_loop, ih a (ndims + 1) hk]
      have := CatExp.leaves_length_pos a
      omega
    all_goals
      simp only [CatExp.leaves, List.length_singleton] at h
      simp only [CatExp.ndims_loop]
      omega

theorem maybe_make_temp_libcalls (t : Tree) (s : IRState) :
    ∃ t1 s1, maybe_make_temp t s = .ok (t1, s1) ∧ libcalls t1 = libcalls t := by
  unfold maybe_make_temp
  by_cases h : d_has_side_effects t = true
  · simp [h, libcalls]
  · simp [h]

theorem d_array_convert_elem_libcalls (toElem : Expression → Lower Tree) (etype : Option DType)
    (exp : Expression) (h : lowers_plainly toElem exp) (vars : List Tree) (s : IRState) :
    ∃ arg vars1 s1, d_array_convert_elem toElem etype exp vars s = .ok ((arg, vars1), s1)
      ∧ libcalls arg = []
      ∧ ((∀ v ∈ vars, libcalls v = []) → ∀ v ∈ vars1, libcalls v = []) := by
  obtain ⟨t, s1, ht, hl⟩ := h s
  unfold d_array_convert_elem
  by_cases hc : ((exp.type.toBasetype.ty != .Tarray && exp.type.toBasetype.ty != .Tsarray)
      || etype == some exp.type.toBasetype) = true
  · simp only [hc, if_true, Lower.bind_apply, ht]
    cases t with
    | var_decl name =>
      exact ⟨_, _, _, rfl, by simp [libcalls, d_array_value, build_address], fun hv => hv⟩
    | _ =>
      refine ⟨_, _, _, rfl, ?_, ?_⟩
      · simp [libcalls, d_array_value, build_address, compound_expr, modify_expr] at hl ⊢
        try exact hl
      · intro hv v hmem
        rcases List.mem_append.1 hmem with h1 | h1
        · exact hv v h1
        · rw [List.mem_singleton] at h1
          subst h1
          simp [libcalls]
  · have hc2 : ((exp.type.toBasetype.ty != .Tarray && exp.type.toBasetype.ty != .Tsarray)
      || etype == some exp.type.toBasetype) = false := by simpa using hc
    simp only [hc2, Lower.bind_apply, d_array_convert]
    by_cases ha : exp.type.toBasetype.ty = .Tarray
    · refine ⟨t, vars, s1, by simp [ha, ht], hl, fun hv => hv⟩
    · have hs : exp.type.toBasetype.ty = .Tsarray := by
        simp [ha] at hc2
        exact hc2.1
      refine ⟨d_array_value (size_int exp.type.toBasetype.dim) (build_nop (build_address t)),
        vars, s1, by simp [hs, ht], ?_, fun hv => hv⟩
      simp [libcalls, d_array_value, build_address, build_nop, size_int, hl]

theorem CatExp.leaves_leaf (e : Expression) (h : ∀ t a b, e ≠ .CatExp t a b) :
    CatExp.leaves e = [e] := by
  cases e <;> first | (exact absurd rfl (h _ _ _)) | rfl

theorem CatExp.elms_loop_leaf (toElem : Expression → Lower Tree) (etype : Option DType)
    (ce_e1 ce_e2 : Expression) (dim : Int) (elms : List (Nat × Tree)) (vars : List Tree)
    (h : ∀ t a b, ce_e1 ≠ .CatExp t a b) :
    CatExp.elms_loop toElem etype ce_e1 ce_e2 dim elms vars = (do
      let (arg, elemvars) ← d_array_convert_elem toElem etype ce_e2 vars
      let elms := elms ++ [(dim.toNat, ← maybe_make_temp arg)]
      let (arg, elemvars) ← d_array_convert_elem toElem etype ce_e1 elemvars
      let elms := elms ++ [((dim - 1).toNat, ← maybe_make_temp arg)]
      pure (elms, dim - 1, elemvars)) := by
  rw [CatExp.elms_loop]
  split
  · exact absurd rfl (h _ _ _)
  · rfl

theorem CatExp.elms_loop_spec (toElem : Expression → Lower Tree) (etype : Option DType)
    (k : Nat) : ∀ (ce_e1 ce_e2 : Expression) (dim : Int) (elms : List (Nat × Tree))
      (vars : List Tree) (s : IRState),
    (CatExp.leaves ce_e1).length = k →
    (∀ leaf ∈ CatExp.leaves ce_e1 ++ [ce_e2], lowers_plainly toElem leaf) →
    ∃ elms1 vars1 s1,
      CatExp.elms_loop toElem etype ce_e1 ce_e2 dim elms vars s
        = .ok ((elms ++ elms1, dim - k, vars1), s1)
      ∧ elms1.map (·.1) = (List.range (k + 1)).map (fun (j : Nat) => (dim - (j : Int)).toNat)
      ∧ (∀ p ∈ elms1, libcalls p.2 = [])
      ∧ ((∀ v ∈ vars, libcalls v = []) → ∀ v ∈ vars1, libcalls v = []) := by
  induction k with
  | zero => intro ce_e1 _ _ _ _ _ h; have := CatExp.leaves_length_pos ce_e1; omega
  | succ k ih =>
    intro ce_e1 ce_e2 dim elms vars s hk hl
    obtain ⟨arg, varsA, sA, hA, hAl, hAv⟩ :=
      d_array_convert_elem_libcalls toElem etype ce_e2 (hl ce_e2 (by simp)) vars s
    obtain ⟨tA, sA', hT, hTl⟩ := maybe_make_temp_libcalls arg sA
    by_cases hcat : ∃ t a b, ce_e1 = .CatExp t a b
    · obtain ⟨t, a, b, rfl⟩ := hcat
      simp only [CatExp.leaves, List.length_append, List.length_singleton] at hk
      have hk' : (CatExp.leaves a).length = k := by omega
      obtain ⟨elms1, vars1, s1, h1, h1i, h1l, h1v⟩ := ih a b (dim - 1) (elms ++ [(dim.toNat, tA)])
        varsA sA' hk' (fun leaf hleaf => hl leaf (by
          simp only [CatExp.leaves, List.mem_append, List.mem_singleton] at hleaf ⊢
          tauto))
      refine ⟨(dim.toNat, tA) :: elms1, vars1, s1, ?_, ?_, ?_, ?_⟩
      · rw [CatExp.elms_loop]
        simp only [Lower.bind_apply, hA, hT, h1, List.append_assoc, List.singleton_append]
        have hd : dim - 1 - (k : Int) = dim - ((k + 1 : Nat) : Int) := by push_cast; ring
        rw [hd]
      · rw [List.range_succ_eq_map]
        simp only [List.map_cons, List.map_map, h1i]
        simp only [Nat.cast_zero, sub_zero, List.cons.injEq, true_and]
        apply List.map_congr_left
        intro j _
        simp only [Function.comp, Nat.succ_eq_add_one, Nat.cast_add, Nat.cast_one]
        congr 1
        ring
      · intro p hp
        rcases List.mem_cons.1 hp with h | h
        · subst h; simpa [hTl] using hAl
        · exact h1l p h
      · exact fun hv => h1v (hAv hv)
    · have hleaf : ∀ t a b, ce_e1 ≠ .CatExp t a b := fun t a b h => hcat ⟨t, a, b, h⟩
      rw [CatExp.leaves_leaf ce_e1 hleaf] at hk hl
      simp only [List.length_singleton] at hk
      have hk0 : k = 0 := by omega
      subst hk0
      obtain ⟨argB, varsB, sB, hB, hBl, hBv⟩ :=
        d_array_convert_elem_libcalls toElem etype ce_e1 (hl ce_e1 (by simp)) varsA sA'
      obtain ⟨tB, sB', hTB, hTBl⟩ := maybe_make_temp_libcalls argB sB
      refine ⟨[(dim.toNat, tA), ((dim - 1).toNat, tB)], varsB, sB', ?_, ?_, ?_, ?_⟩
      · rw [CatExp.elms_loop_leaf toElem etype ce_e1 ce_e2 dim elms vars hleaf]
        simp only [Lower.bind_apply, hA, hT, hB, hTB, List.append_assoc, List.singleton_append,
          Lower.pure_apply]
        simp
      · simp [List.range_succ]
      · intro p hp
        simp only [List.mem_cons, List.mem_singleton, List.not_mem_nil, or_false] at hp
        rcases hp with h | h
        · subst h; simpa [hTl] using hAl
        · subst h; simpa [hTBl] using hBl
      · exact fun hv => hBv (hAv hv)

theorem libcalls_elts (elms : List (Nat × Tree)) (h : ∀ p ∈ elms, libcalls p.2 = []) :
    libcalls (Tree.elts elms) = [] := by
  induction elms with
  | nil => rfl
  | cons p rest ih =>
    obtain ⟨i, v⟩ := p
    simp only [Tree.elts, libcalls]
    rw [h (i, v) (List.mem_cons_self _ _), ih (fun q hq => h q (List.mem_cons_of_mem _ hq))]
    rfl

theorem chain_length_elts (elms : List (Nat × Tree)) :
    (Tree.elts elms).chain_length = elms.length := by
  induction elms with
  | nil => rfl
  | cons p rest ih =>
    obtain ⟨i, v⟩ := p
    simp [Tree.elts, Tree.chain_length, ih]

theorem libcalls_foldl_bind (vars : List Tree) (h : ∀ v ∈ vars, libcalls v = []) :
    ∀ body, libcalls (vars.foldl (fun r v => bind_expr v r) body) = libcalls body := by
  induction vars with
  | nil => intro body; rfl
  | cons v rest ih =>
    intro body
    simp only [List.foldl_cons]
    rw [ih (fun w hw => h w (List.mem_cons_of_mem _ hw))]
    simp [libcalls, h v (List.mem_cons_self _ _)]

/-- C3: for a left-leaning chain `((a ~ b) ~ ...) ~ e2` (at least three leaves, the
left operand of the root being a concatenation) whose leaves lower without
calling the library, `CatExp::toElem` on the root returns, under the bindings
of its variables, one call of `LIBCALL_ARRAYCATNTX` on the type descriptor and
an array-of-arrays of length `n`, `n` the number of leaves, whose initializer
has `n` elements; this is the only library call of the result, so no
`LIBCALL_ARRAYCATT` call is made for the inner concatenations of the chain. -/
theorem CatExp_flattens_chain (toElem : Expression → Lower Tree) (type t1 : DType)
    (a b e2 : Expression) (s : IRState)
    (hl : ∀ leaf ∈ CatExp.leaves (.CatExp type (.CatExp t1 a b) e2),
      lowers_plainly toElem leaf) :
    ∃ result id elts elemvars s1,
      CatExp.toElem toElem type (.CatExp t1 a b) e2 s = .ok (result, s1)
      ∧ result = (temp_var id (constructor elts) :: elemvars).foldl
          (fun r v => bind_expr v r)
          (build_libcall .LIBCALL_ARRAYCATNTX [build_typeinfo type,
            d_array_value (size_int (CatExp.leaves (.CatExp type (.CatExp t1 a b) e2)).length)
              (build_address (temp_var id (constructor elts)))])
      ∧ elts.chain_length = (CatExp.leaves (.CatExp type (.CatExp t1 a b) e2)).length
      ∧ 3 ≤ (CatExp.leaves (.CatExp type (.CatExp t1 a b) e2)).length
      ∧ libcalls result = [.LIBCALL_ARRAYCATNTX]
      ∧ LibCall.LIBCALL_ARRAYCATT ∉ libcalls result := by
  have hn : (CatExp.leaves (.CatExp type (.CatExp t1 a b) e2)).length
      = (CatExp.leaves (.CatExp t1 a b)).length + 1 := by
    simp [CatExp.leaves]
  have hk2 : 2 ≤ (CatExp.leaves (.CatExp t1 a b)).length := by
    have := CatExp.leaves_length_pos a
    simp [CatExp.leaves]; omega
  have hnd : CatExp.ndims_loop (.CatExp t1 a b) 2 = (CatExp.leaves (.CatExp t1 a b)).length + 1 := by
    rw [CatExp.ndims_loop_eq _ _ 2 rfl]; omega
  obtain ⟨elms1, vars1, s1, h1, h1i, h1l, h1v⟩ :=
    CatExp.elms_loop_spec toElem
      (if ((Expression.CatExp t1 a b).type.toBasetype.ty == .Tarray
          || (Expression.CatExp t1 a b).type.toBasetype.ty == .Tsarray) = true
        then (Expression.CatExp t1 a b).type.toBasetype.nextOf else e2.type.toBasetype.nextOf)
      (CatExp.leaves (.CatExp t1 a b)).length
      (.CatExp t1 a b) e2
      ((CatExp.ndims_loop (.CatExp t1 a b) 2 : Nat) - 1 : Int) [] []
      { s with temps := s.temps + 1 } rfl (by simpa [CatExp.leaves] using hl)
  have hdim : ((CatExp.ndims_loop (.CatExp t1 a b) 2 : Nat) - 1 : Int)
      - ((CatExp.leaves (.CatExp t1 a b)).length : Int) = 0 := by
    rw [hnd]; push_cast; ring
  rw [hdim] at h1
  simp only [List.nil_append] at h1
  have hlen : elms1.length = (CatExp.leaves (.CatExp t1 a b)).length + 1 := by
    have := congrArg List.length h1i
    simpa using this
  refine ⟨_, s.temps, Tree.elts elms1, vars1, s1, ?_, rfl, ?_, by omega, ?_⟩
  · unfold CatExp.toElem
    simp only [Lower.bind_apply, create_temporary_var, Lower.get_apply, Lower.set_apply,
      Lower.pure_apply, h1, gcc_assert]
    simp [hn, hnd]
  · rw [chain_length_elts, hlen, hn]
  · have hvar : libcalls (temp_var s.temps (constructor (Tree.elts elms1))) = [] := by
      simp [libcalls, libcalls_elts elms1 h1l]
    have hvars : ∀ v ∈ temp_var s.temps (constructor (Tree.elts elms1)) :: vars1,
        libcalls v = [] := by
      intro v hv
      rcases List.mem_cons.1 hv with h | h
      · rw [h]; exact hvar
      · exact h1v (by simp) v h
    have hall : libcalls ((temp_var s.temps (constructor (Tree.elts elms1)) :: vars1).foldl
        (fun r v => bind_expr v r)
        (build_libcall .LIBCALL_ARRAYCATNTX [build_typeinfo type,
          d_array_value (size_int (CatExp.leaves (.CatExp type (.CatExp t1 a b) e2)).length)
            (build_address (temp_var s.temps (constructor (Tree.elts elms1))))]))
        = [.LIBCALL_ARRAYCATNTX] := by
      rw [libcalls_foldl_bind _ hvars]
      simp [build_libcall, libcalls, Tree.list, build_typeinfo, build_address, d_array_value,
        size_int, libcalls_elts elms1 h1l]
    rw [hall]
    exact ⟨rfl, by simp⟩

/-- The flattening of `(a ~ f ()) ~ c`. -/
theorem CatExp_flattens_chain_witness :
    ∃ result id elts elemvars s1,
      CatExp.toElem (toElem 1) (.TypeDArray (.TypeBasic .Tint32))
        (.CatExp (.TypeDArray (.TypeBasic .Tint32)) (int_array "a" false)
          (int_array "f ()" true)) (int_array "c" false) (IRState.start true) = .ok (result, s1)
      ∧ result = (temp_var id (constructor elts) :: elemvars).foldl
          (fun r v => bind_expr v r)
          (build_libcall .LIBCALL_ARRAYCATNTX [build_typeinfo (.TypeDArray (.TypeBasic .Tint32)),
            d_array_value (size_int (CatExp.leaves cat3).length)
              (build_address (temp_var id (constructor elts)))])
      ∧ elts.chain_length = (CatExp.leaves cat3).length
      ∧ 3 ≤ (CatExp.leaves cat3).length
      ∧ libcalls result = [.LIBCALL_ARRAYCATNTX]
      ∧ LibCall.LIBCALL_ARRAYCATT ∉ libcalls result :=
  CatExp_flattens_chain (toElem 1) _ _ _ _ _ (IRState.start true) (by
    intro leaf hleaf
    simp only [CatExp.leaves, int_array, List.mem_append, List.mem_singleton, List.mem_cons,
      List.not_mem_nil, or_false] at hleaf
    rcases hleaf with (rfl | rfl) | rfl <;> exact fun s => ⟨_, _, rfl, rfl⟩)

/-! ## Slices: evaluation of the bounds -/

theorem eval_order_mono (t : Tree) : ∀ seen i, i ∈ seen → i ∈ (t.eval_order seen).2 := by
  induction t with
  | save_expr id op0 ih =>
    intro seen i hi
    by_cases hid : id ∈ seen
    · simpa only [Tree.eval_order, hid, if_true] using hi
    · simp only [Tree.eval_order, hid, if_false]
      exact List.mem_cons_of_mem _ (ih seen i hi)
  | temp_var id op0 ih =>
    intro seen i hi
    by_cases hid : id ∈ seen
    · simpa only [Tree.eval_order, hid, if_true] using hi
    · simp only [Tree.eval_order, hid, if_false]
      exact List.mem_cons_of_mem _ (ih seen i hi)
  | build1 _ _ ih => intro seen i hi; simpa only [Tree.eval_order] using ih seen i hi
  | component_ref _ _ ih => intro seen i hi; simpa only [Tree.eval_order] using ih seen i hi
  | constructor _ ih => intro seen i hi; simpa only [Tree.eval_order] using ih seen i hi
  | statement_list _ ih => intro seen i hi; simpa only [Tree.eval_order] using ih seen i hi
  | helper _ _ _ ih => intro seen i hi; simpa only [Tree.eval_order] using ih seen i hi
  | build2 _ _ _ ih0 ih1 =>
    intro seen i hi; simp only [Tree.eval_order]; exact ih1 _ i (ih0 seen i hi)
  | call_expr _ _ ih0 ih1 =>
    intro seen i hi; simp only [Tree.eval_order]; exact ih1 _ i (ih0 seen i hi)
  | tree_list _ _ ih0 ih1 =>
    intro seen i hi; simp only [Tree.eval_order]; exact ih1 _ i (ih0 seen i hi)
  | constructor_elt _ _ _ ih0 ih1 =>
    intro seen i hi; simp only [Tree.eval_order]; exact ih1 _ i (ih0 seen i hi)
  | bind_expr _ _ ih0 ih1 =>
    intro seen i hi; simp only [Tree.eval_order]; exact ih1 _ i (ih0 seen i hi)
  | method_call_expr _ _ ih0 ih1 =>
    intro seen i hi; simp only [Tree.eval_order]; exact ih1 _ i (ih0 seen i hi)
  | build3 _ _ _ _ ih0 ih1 ih2 =>
    intro seen i hi; simp only [Tree.eval_order]; exact ih2 _ i (ih1 _ i (ih0 seen i hi))
  | _ => intro seen i hi; simpa only [Tree.eval_order] using hi

/-- After evaluating a temporary it is among the evaluated ones -/
theorem eval_order_save_mem (id : Nat) (t : Tree) (seen : List Nat) :
    id ∈ ((save_expr id t).eval_order seen).2 := by
  by_cases hid : id ∈ seen
  · simp only [Tree.eval_order, hid, if_true]
  · simp only [Tree.eval_order, hid, if_false]
    exact List.mem_cons_self _ _

theorem eval_order_save_seen (id : Nat) (t : Tree) (seen : List Nat) (h : id ∈ seen) :
    (save_expr id t).eval_order seen = ([], seen) := by
  simp only [Tree.eval_order, h, if_true]


theorem eval_order_convert_expr (t : Tree) (a b : DType) (seen : List Nat) :
    (convert_expr t a b).eval_order seen = t.eval_order seen := by
  unfold convert_expr
  by_cases h : d_types_same a b = true
  · simp [h]
  · rw [if_neg h]
    split <;>
      simp [Tree.eval_order, d_array_value, size_int, build_nop, build_address, d_array_ptr,
        Tree.list]

theorem maybe_make_temp_side_effects (t : Tree) (s : IRState)
    (h : d_has_side_effects t = true) :
    maybe_make_temp t s = .ok (save_expr s.temps t, { s with temps := s.temps + 1 }) := by
  simp [maybe_make_temp, h]

theorem maybe_make_temp_save_expr (id : Nat) (t : Tree) (s : IRState) :
    maybe_make_temp (save_expr id t) s = .ok (save_expr id t, s) := by
  simp [maybe_make_temp, d_has_side_effects]

theorem gcc_assert_true (s : IRState) : gcc_assert true s = .ok ((), s) := rfl

theorem build_bounds_condition_save_expr (id : Nat) (t len : Tree) (inclusive : Bool)
    (s : IRState) :
    build_bounds_condition (save_expr id t) len inclusive s
      = .ok (if s.array_bounds_check then
               build3 .COND_EXPR
                 (build2 (if inclusive then .GT_EXPR else .GE_EXPR) (save_expr id t) len)
                 (call_expr (libcall_decl .LIBCALL_ARRAY_BOUNDS) null_tree) (save_expr id t)
             else save_expr id t, s) := by
  cases hb : s.array_bounds_check <;>
    simp [build_bounds_condition, hb, maybe_make_temp_save_expr, build_condition, build_libcall,
      Tree.list]

theorem SliceExp.toElem_upper_shape (toElem : Expression → Lower Tree) (tb1 : DType)
    (upr : Expression) (upperIsInBounds lowerIsLessThanUpper : Bool)
    (array ptr : Tree) (length : Option Tree) (idl : Nat) (tl : Tree) (s2 s3 : IRState) (tu : Tree)
    (hp : length = none → tb1.ty = .Tpointer)
    (h3 : toElem upr s2 = .ok (tu, s3))
    (hu : d_has_side_effects tu = true) :
    SliceExp.toElem_upper toElem tb1 (some upr) upperIsInBounds lowerIsLessThanUpper array ptr
        length (some (save_expr idl tl)) s2
      = .ok (build2 .COMPOUND_EXPR array
              (d_array_value
                (build2 .MINUS_EXPR
                  (build2 .COMPOUND_EXPR (save_expr idl tl)
                    (slice_upper_checked s3.array_bounds_check upperIsInBounds
                      lowerIsLessThanUpper length (save_expr idl tl) (save_expr s3.temps tu)))
                  (save_expr idl tl)) ptr),
            { s3 with temps := s3.temps + 1 }) := by
  unfold SliceExp.toElem_upper
  simp only [Lower.bind_apply, h3, maybe_make_temp_side_effects _ _ hu]
  cases hb : s3.array_bounds_check <;> cases upperIsInBounds <;> cases lowerIsLessThanUpper <;>
    cases length <;>
    simp [hb, build_bounds_condition_save_expr, slice_upper_checked, fold_build2, compound_expr,
      gcc_assert, hp]
theorem SliceExp_shape (toElem : Expression → Lower Tree) (type : DType) (e1 lwr upr : Expression)
    (upperIsInBounds lowerIsLessThanUpper : Bool) (lengthVar : Option String)
    (next : DType) (s s1 s1a s2 s3 : IRState) (tx array tl tu : Tree)
    (hty : type.toBasetype.ty = .Tarray)
    (hnext : e1.type.toBasetype.nextOf = some next)
    (hptr : e1.type.toBasetype.ty = .Tpointer → lengthVar = none)
    (h1 : toElem e1 s = .ok (tx, s1))
    (ha : maybe_make_temp tx s1 = .ok (array, s1a))
    (h2 : toElem lwr s1a = .ok (tl, s2))
    (hl : d_has_side_effects tl = true)
    (h3 : toElem upr { s2 with temps := s2.temps + 1 } = .ok (tu, s3))
    (hu : d_has_side_effects tu = true) :
    SliceExp.toElem toElem type e1 (some lwr) (some upr) upperIsInBounds lowerIsLessThanUpper
        lengthVar s
      = .ok (spec_slice_result s3.array_bounds_check upperIsInBounds lowerIsLessThanUpper
              e1.type.toBasetype next array (save_expr s2.temps tl) (save_expr s3.temps tu),
            { s3 with temps := s3.temps + 1 }) := by
  unfold SliceExp.toElem
  have hty2 : (type.toBasetype.ty == TY.Tarray || type.toBasetype.ty == TY.Tsarray) = true := by
    simp [hty]
  have hty3 : (type.toBasetype.ty == TY.Tsarray) = false := by simp [hty]
  have hty4 : (type.toBasetype.ty == TY.Tarray) = true := by simp [hty]
  have hz : integer_zerop (save_expr s2.temps tl) = false := rfl
  by_cases hp : e1.type.toBasetype.ty = .Tpointer
  · have hlv := hptr hp
    subst hlv
    have hp2 : (e1.type.toBasetype.ty != TY.Tpointer) = false := by simp [hp]
    simp only [hty2, hty3, hty4, gcc_assert_true, Lower.bind_apply, Lower.pure_apply, h1, ha, h2,
      hnext, Option.isSome_some, maybe_make_temp_side_effects _ _ hl, hz, hp2,
      Bool.not_false, if_true, Bool.false_eq_true, if_false, Option.isNone_none, Bool.or_false, Bool.not_true, ite_true, ite_false]
    rw [SliceExp.toElem_upper_shape toElem _ upr upperIsInBounds lowerIsLessThanUpper _ _ none
      s2.temps tl _ s3 tu (fun _ => hp) h3 hu]
    simp [spec_slice_result, hp, build_nop, build_array_index, void_okay_p, DType.pointerTo]
  · have hp2 : (e1.type.toBasetype.ty != TY.Tpointer) = true := by simp [hp]
    simp only [hty2, hty3, hty4, gcc_assert_true, Lower.bind_apply, Lower.pure_apply, h1, ha, h2,
      hnext, Option.isSome_some, maybe_make_temp_side_effects _ _ hl, hz, hp2,
      Bool.not_false, if_true, Bool.false_eq_true, if_false, Bool.or_false, Bool.not_true, ite_true, ite_false]
    rw [SliceExp.toElem_upper_shape toElem _ upr upperIsInBounds lowerIsLessThanUpper _ _ _
      s2.temps tl _ s3 tu (fun h => by cases h) h3 hu]
    simp [spec_slice_result, hp, build_nop, build_array_index, void_okay_p, DType.pointerTo]

theorem TREE_SIDE_EFFECTS_build2 (code : tree_code) (a b : Tree)
    (h : (build2 code a b).TREE_SIDE_EFFECTS = false) :
    a.TREE_SIDE_EFFECTS = false ∧ b.TREE_SIDE_EFFECTS = false := by
  by_cases hc : code = .MODIFY_EXPR
  · subst hc
    exact Bool.noConfusion h
  · rw [Tree.TREE_SIDE_EFFECTS] at h
    · exact Bool.or_eq_false_iff.mp h
    · exact hc

theorem d_has_side_effects_build1 (code : tree_code) (a : Tree)
    (h : d_has_side_effects (build1 code a) = false) :
    d_has_side_effects a = false ∨ (build1 code a).TREE_SIDE_EFFECTS = false := by
  by_cases h1 : code = .NOP_EXPR
  · subst h1; exact Or.inl h
  by_cases h2 : code = .INDIRECT_REF
  · subst h2; exact Or.inl h
  by_cases h3 : code = .ADDR_EXPR
  · subst h3; exact Or.inl h
  rw [d_has_side_effects] at h
  · exact Or.inr h
  · intro _ _ h; cases h
  · intro _ h; exact h1 (Tree.build1.inj h).1
  · intro _ h; exact h2 (Tree.build1.inj h).1
  · intro _ h; exact h3 (Tree.build1.inj h).1
  · intro _ _ h; cases h

/-- A tree without the flag, once evaluated, evaluates without effect -/
theorem eval_order_again_flag (t : Tree) :
    ∀ seen0 seen, t.TREE_SIDE_EFFECTS = false → (∀ i ∈ (t.eval_order seen0).2, i ∈ seen) →
      t.eval_order seen = ([], seen) := by
  induction t with
  | atom name se => intro seen0 seen h _; simp_all [Tree.TREE_SIDE_EFFECTS, Tree.eval_order]
  | save_expr id op0 _ => intro seen0 seen h _; simp [Tree.TREE_SIDE_EFFECTS] at h
  | call_expr _ _ _ _ => intro seen0 seen h _; simp [Tree.TREE_SIDE_EFFECTS] at h
  | temp_var id initial _ =>
    intro seen0 seen _ hs
    have hid : id ∈ seen := by
      apply hs
      by_cases h0 : id ∈ seen0
      · simp only [Tree.eval_order, h0, if_true]
      · simp only [Tree.eval_order, h0, if_false]; exact List.mem_cons_self _ _
    simp only [Tree.eval_order, hid, if_true]
  | build1 _ op0 ih =>
    intro seen0 seen h hs
    simp only [Tree.TREE_SIDE_EFFECTS] at h
    simpa only [Tree.eval_order] using ih seen0 seen h (by simpa only [Tree.eval_order] using hs)
  | component_ref op0 _ ih =>
    intro seen0 seen h hs
    simp only [Tree.TREE_SIDE_EFFECTS] at h
    simpa only [Tree.eval_order] using ih seen0 seen h (by simpa only [Tree.eval_order] using hs)
  | constructor op0 ih =>
    intro seen0 seen h hs
    simp only [Tree.TREE_SIDE_EFFECTS] at h
    simpa only [Tree.eval_order] using ih seen0 seen h (by simpa only [Tree.eval_order] using hs)
  | statement_list op0 ih =>
    intro seen0 seen h hs
    simp only [Tree.TREE_SIDE_EFFECTS] at h
    simpa only [Tree.eval_order] using ih seen0 seen h (by simpa only [Tree.eval_order] using hs)
  | helper _ se op0 ih =>
    intro seen0 seen h hs
    simp only [Tree.TREE_SIDE_EFFECTS, Bool.or_eq_false_iff] at h
    simpa only [Tree.eval_order] using ih seen0 seen h.2 (by simpa only [Tree.eval_order] using hs)
  | build2 code op0 op1 ih0 ih1 =>
    intro seen0 seen h hs
    have h2 := TREE_SIDE_EFFECTS_build2 code op0 op1 h
    simp only [Tree.eval_order] at hs
    have e0 := ih0 seen0 seen h2.1 (fun i hi => hs i (eval_order_mono op1 _ i hi))
    have e1 := ih1 _ seen h2.2 hs
    simp [Tree.eval_order, e0, e1]
  | tree_list op0 op1 ih0 ih1 =>
    intro seen0 seen h hs
    simp only [Tree.TREE_SIDE_EFFECTS, Bool.or_eq_false_iff] at h
    simp only [Tree.eval_order] at hs
    have e0 := ih0 seen0 seen h.1 (fun i hi => hs i (eval_order_mono op1 _ i hi))
    have e1 := ih1 _ seen h.2 hs
    simp [Tree.eval_order, e0, e1]
  | constructor_elt _ op0 op1 ih0 ih1 =>
    intro seen0 seen h hs
    simp only [Tree.TREE_SIDE_EFFECTS, Bool.or_eq_false_iff] at h
    simp only [Tree.eval_order] at hs
    have e0 := ih0 seen0 seen h.1 (fun i hi => hs i (eval_order_mono op1 _ i hi))
    have e1 := ih1 _ seen h.2 hs
    simp [Tree.eval_order, e0, e1]
  | bind_expr op0 op1 ih0 ih1 =>
    intro seen0 seen h hs
    simp only [Tree.TREE_SIDE_EFFECTS, Bool.or_eq_false_iff] at h
    simp only [Tree.eval_order] at hs
    have e0 := ih0 seen0 seen h.1 (fun i hi => hs i (eval_order_mono op1 _ i hi))
    have e1 := ih1 _ seen h.2 hs
    simp [Tree.eval_order, e0, e1]
  | method_call_expr op0 op1 ih0 ih1 =>
    intro seen0 seen h hs
    simp only [Tree.TREE_SIDE_EFFECTS, Bool.or_eq_false_iff] at h
    simp only [Tree.eval_order] at hs
    have e0 := ih0 seen0 seen h.1 (fun i hi => hs i (eval_order_mono op1 _ i hi))
    have e1 := ih1 _ seen h.2 hs
    simp [Tree.eval_order, e0, e1]
  | build3 _ op0 op1 op2 ih0 ih1 ih2 =>
    intro seen0 seen h hs
    simp only [Tree.TREE_SIDE_EFFECTS, Bool.or_eq_false_iff] at h
    simp only [Tree.eval_order] at hs
    have e0 := ih0 seen0 seen h.1.1
      (fun i hi => hs i (eval_order_mono op2 _ i (eval_order_mono op1 _ i hi)))
    have e1 := ih1 _ seen h.1.2 (fun i hi => hs i (eval_order_mono op2 _ i hi))
    have e2 := ih2 _ seen h.2 hs
    simp [Tree.eval_order, e0, e1, e2]
  | _ => intro seen0 seen _ _; simp only [Tree.eval_order]

/-- A tree without side effects, once evaluated, evaluates without effect -/
theorem eval_order_again (t : Tree) :
    ∀ seen0 seen, d_has_side_effects t = false → (∀ i ∈ (t.eval_order seen0).2, i ∈ seen) →
      t.eval_order seen = ([], seen) := by
  induction t with
  | save_expr id op0 _ =>
    intro seen0 seen _ hs
    exact eval_order_save_seen id op0 seen (hs _ (eval_order_save_mem id op0 seen0))
  | build1 code op0 ih =>
    intro seen0 seen h hs
    have h2 := d_has_side_effects_build1 code op0 h
    rcases h2 with h2 | h2
    · simpa only [Tree.eval_order] using ih seen0 seen h2 (by simpa only [Tree.eval_order] using hs)
    · exact eval_order_again_flag _ seen0 seen h2 hs
  | component_ref op0 _ ih =>
    intro seen0 seen h hs
    simp only [d_has_side_effects] at h
    simpa only [Tree.eval_order] using ih seen0 seen h (by simpa only [Tree.eval_order] using hs)
  | _ =>
    intro seen0 seen h hs
    exact eval_order_again_flag _ seen0 seen (by simpa only [d_has_side_effects] using h) hs

theorem maybe_make_temp_no_side_effects (t a : Tree) (s s1 : IRState)
    (h : maybe_make_temp t s = .ok (a, s1)) : d_has_side_effects a = false := by
  by_cases ht : d_has_side_effects t = true
  · rw [maybe_make_temp_side_effects t s ht] at h
    cases h; rfl
  · simp [maybe_make_temp, ht] at h
    rw [← h.1]; simpa using ht

theorem eval_order_get_array_length (array : Tree) (tb1 : DType) (seen : List Nat)
    (h : array.eval_order seen = ([], seen)) :
    (get_array_length array tb1).eval_order seen = ([], seen) := by
  unfold get_array_length
  cases tb1.toBasetype <;> simp [Tree.eval_order, size_int, d_array_length, h]

/-- The effects of the slice result are those of the base, the lower bound and
the upper bound, when the temporaries evaluate once -/
theorem spec_slice_result_effects (bc uib llu : Bool) (tb1 next : DType) (array L U : Tree)
    (S0 S1 Sf : List Nat) (ex el eu : List String)
    (hA : array.eval_order [] = (ex, S0)) (hL : L.eval_order S0 = (el, S1))
    (hU : U.eval_order S1 = (eu, Sf))
    (hL1 : L.eval_order S1 = ([], S1)) (hLf : L.eval_order Sf = ([], Sf))
    (hUf : U.eval_order Sf = ([], Sf)) (hAf : array.eval_order Sf = ([], Sf)) :
    (spec_slice_result bc uib llu tb1 next array L U).effects = ex ++ el ++ eu := by
  have hlen := eval_order_get_array_length array tb1 Sf hAf
  cases bc <;> cases uib <;> cases llu <;> by_cases hp : tb1.ty = .Tpointer <;>
    simp [spec_slice_result, slice_upper_checked, Tree.effects, Tree.eval_order, d_array_value,
      eval_order_convert_expr, hA, hL, hU, hL1, hLf, hUf, hAf, hlen, hp]

/-! ## Assignment: broadcast of a scalar to a slice -/

/-- The lowering of the broadcast from the lowered operands. -/
theorem AssignExp.toElem_broadcast (toElem : Expression → Lower Tree) (op : TOK)
    (type : DType) (se_e1 : Expression) (lwr upr : Option Expression) (uib llu : Bool)
    (lengthVar : Option String) (e2 : Expression) (next : DType) (s s1 s1a s2 : IRState)
    (tr t1 t2 : Tree)
    (hnext : se_e1.type.toBasetype.nextOf = some next)
    (h1 : toElem (.SliceExp type se_e1 lwr upr uib llu lengthVar) s = .ok (tr, s1))
    (ht : maybe_make_temp tr s1 = .ok (t1, s1a))
    (h2 : toElem e2 s1a = .ok (t2, s2)) :
    AssignExp.toElem toElem op (.SliceExp type se_e1 lwr upr uib llu lengthVar) e2 true s
      = .ok (compound_expr
              (if needsPostblit next.toBasetype && rhs_isLvalue e2 && op != .TOKblit then
                spec_broadcast_postblit op next.toBasetype t1 t2
               else spec_broadcast_fill next.toBasetype t1 t2) t1, s2) := by
  unfold AssignExp.toElem AssignExp.toElem_slice
  simp only [hnext, Lower.bind_apply, Lower.pure_apply, h1, ht, h2, if_true]
  by_cases hc : (needsPostblit next.toBasetype && rhs_isLvalue e2 && op != .TOKblit) = true
  · simp only [hc, if_true, Lower.pure_apply]
    by_cases ho : op = .TOKconstruct <;>
      simp [spec_broadcast_postblit, ho, build_libcall, d_array_ptr, d_array_length,
        build_address, build_typeinfo]
  · simp only [hc, Lower.pure_apply]
    by_cases hz : integer_zerop t2 = true
    · cases t2 <;> simp [integer_zerop] at hz
      simp [spec_broadcast_fill, integer_zerop, hz, d_build_call_nary, d_array_ptr,
        d_array_length, build_address, fold_build2, d_convert, size_int, integer_zero_node]
    · simp [spec_broadcast_fill, hz, d_array_ptr, d_array_length]

/-- The effects of a fill through a re-readable slice are those of the slice
and then of the scalar. -/
theorem spec_broadcast_fill_effects (etype : DType) (t1 t2 : Tree)
    (h : d_has_side_effects t1 = false) :
    (compound_expr (spec_broadcast_fill etype t1 t2) t1).effects
      = (compound_expr t1 t2).effects := by
  have hs := eval_order_again t1 [] (t1.eval_order []).2 h (fun i hi => hi)
  have hs2 := eval_order_again t1 [] (t2.eval_order (t1.eval_order []).2).2 h
    (fun i hi => eval_order_mono t2 _ i hi)
  by_cases hz : integer_zerop t2 = true
  · cases t2 <;> simp [integer_zerop] at hz
    simp [spec_broadcast_fill, integer_zerop, hz, Tree.effects, Tree.eval_order, compound_expr,
      Tree.list, hs]
  · simp [spec_broadcast_fill, hz, Tree.effects, Tree.eval_order, compound_expr, Tree.list,
      build_array_set, hs, hs2]

/-- C9: for a slice broadcast `a[] = v` (`ismemset`) whose element type does
not need postblit, `AssignExp::toElem` lowers the slice, captures it where it
has side effects, lowers the scalar, and returns `(fill, t1)` where the fill is
`memset (ptr, 0, length * elemsize)` when the lowered scalar is an integer zero
and the element-wise fill `build_array_set (ptr, length, v)` for every other
scalar; the value of the result is that of the lowered slice, and evaluating
the result evaluates the slice once, then the scalar. -/
theorem AssignExp_broadcast_zero_or_fill (toElem : Expression → Lower Tree) (op : TOK)
    (type : DType) (se_e1 : Expression) (lwr upr : Option Expression) (uib llu : Bool)
    (lengthVar : Option String) (e2 : Expression) (next : DType) (s s1 s1a s2 : IRState)
    (tr t1 t2 : Tree)
    (hnext : se_e1.type.toBasetype.nextOf = some next)
    (hpb : needsPostblit next.toBasetype = false)
    (h1 : toElem (.SliceExp type se_e1 lwr upr uib llu lengthVar) s = .ok (tr, s1))
    (ht : maybe_make_temp tr s1 = .ok (t1, s1a))
    (h2 : toElem e2 s1a = .ok (t2, s2)) :
    ∃ result,
      AssignExp.toElem toElem op (.SliceExp type se_e1 lwr upr uib llu lengthVar) e2 true s
        = .ok (result, s2)
      ∧ result = compound_expr
          (if integer_zerop t2 then
            d_build_call_nary .BUILT_IN_MEMSET
              [d_array_ptr t1, integer_zero_node,
                build2 .MULT_EXPR (d_convert (d_array_length t1))
                  (size_int next.toBasetype.size)]
           else build_array_set (d_array_ptr t1) (d_array_length t1) t2) t1
      ∧ (∀ m : Machine, result.eval m = tr.eval m)
      ∧ result.effects = (compound_expr t1 t2).effects := by
  refine ⟨compound_expr (spec_broadcast_fill next.toBasetype t1 t2) t1, ?_, ?_, ?_,
    spec_broadcast_fill_effects _ t1 t2 (maybe_make_temp_no_side_effects tr t1 s1 s1a ht)⟩
  · rw [AssignExp.toElem_broadcast toElem op type se_e1 lwr upr uib llu lengthVar e2 next
      s s1 s1a s2 tr t1 t2 hnext h1 ht h2]
    simp [hpb]
  · simp [spec_broadcast_fill, d_build_call_nary, d_array_ptr, d_array_length, d_convert,
      size_int, integer_zero_node, build_address]
  · intro m
    by_cases hse : d_has_side_effects tr = true
    · rw [maybe_make_temp_side_effects tr s1 hse] at ht
      cases ht
      simp [compound_expr, Tree.eval]
    · simp [maybe_make_temp, hse] at ht
      rw [← ht.1]
      simp [compound_expr, Tree.eval]

/-- The broadcasts `a ()[] = 0` and `a ()[] = v ()` on an `int[]`: zero fill and
element-wise fill. -/
theorem AssignExp_broadcast_zero_or_fill_witness :
    (∃ result,
      AssignExp.toElem (toElem 2) .TOKassign (whole_slice (.TypeBasic .Tint32))
          (.IntegerExp (.TypeBasic .Tint32) 0) true (IRState.start true)
        = .ok (result, { IRState.start true with temps := 1 })
      ∧ result = compound_expr
          (if integer_zerop (integer_cst 0) then
            d_build_call_nary .BUILT_IN_MEMSET
              [d_array_ptr (save_expr 0 (atom "a ()" true)), integer_zero_node,
                build2 .MULT_EXPR (d_convert (d_array_length (save_expr 0 (atom "a ()" true))))
                  (size_int 4)]
           else build_array_set (d_array_ptr (save_expr 0 (atom "a ()" true)))
             (d_array_length (save_expr 0 (atom "a ()" true))) (integer_cst 0))
          (save_expr 0 (atom "a ()" true))
      ∧ (∀ m : Machine, result.eval m = (atom "a ()" true).eval m)
      ∧ result.effects
          = (compound_expr (save_expr 0 (atom "a ()" true)) (integer_cst 0)).effects) :=
  AssignExp_broadcast_zero_or_fill (toElem 2) .TOKassign (.TypeDArray (.TypeBasic .Tint32))
    (.ElemExp .TOKcall (.TypeDArray (.TypeBasic .Tint32)) (atom "a ()" true) false)
    none none true true none (.IntegerExp (.TypeBasic .Tint32) 0) (.TypeBasic .Tint32)
    (IRState.start true) (IRState.start true) { IRState.start true with temps := 1 }
    { IRState.start true with temps := 1 } (atom "a ()" true) (save_expr 0 (atom "a ()" true))
    (integer_cst 0) rfl rfl rfl rfl rfl

/-- C10, amended: for a slice broadcast (`ismemset`) whose element type requires
postblit, `AssignExp::toElem` uses the postblit-aware helper
(`LIBCALL_ARRAYSETCTOR` for a construct, `LIBCALL_ARRAYSETASSIGN` otherwise)
exactly when the scalar, or the operand of a scalar that is a slice or cast,
is an lvalue and the assignment is not a blit, whatever the bit pattern of the
scalar; for any other scalar and for a blit it selects `memset` or the
element-wise fill as for an element type without postblit. -/
theorem AssignExp_broadcast_postblit_helper (toElem : Expression → Lower Tree) (op : TOK)
    (type : DType) (se_e1 : Expression) (lwr upr : Option Expression) (uib llu : Bool)
    (lengthVar : Option String) (e2 : Expression) (next : DType) (s s1 s1a s2 : IRState)
    (tr t1 t2 : Tree)
    (hnext : se_e1.type.toBasetype.nextOf = some next)
    (hpb : needsPostblit next.toBasetype = true)
    (h1 : toElem (.SliceExp type se_e1 lwr upr uib llu lengthVar) s = .ok (tr, s1))
    (ht : maybe_make_temp tr s1 = .ok (t1, s1a))
    (h2 : toElem e2 s1a = .ok (t2, s2)) :
    AssignExp.toElem toElem op (.SliceExp type se_e1 lwr upr uib llu lengthVar) e2 true s
      = .ok (compound_expr
              (if rhs_isLvalue e2 && op != .TOKblit then
                build_libcall
                  (if op = .TOKconstruct then .LIBCALL_ARRAYSETCTOR
                   else .LIBCALL_ARRAYSETASSIGN)
                  [d_array_ptr t1, build_address t2, d_array_length t1,
                    build_typeinfo next.toBasetype]
               else if integer_zerop t2 then
                d_build_call_nary .BUILT_IN_MEMSET
                  [d_array_ptr t1, integer_zero_node,
                    build2 .MULT_EXPR (d_convert (d_array_length t1))
                      (size_int next.toBasetype.size)]
               else build_array_set (d_array_ptr t1) (d_array_length t1) t2) t1, s2) := by
  rw [AssignExp.toElem_broadcast toElem op type se_e1 lwr upr uib llu lengthVar e2 next
    s s1 s1a s2 tr t1 t2 hnext h1 ht h2]
  simp [hpb, spec_broadcast_fill, spec_broadcast_postblit, build_libcall, d_build_call_nary,
    d_array_ptr, d_array_length, d_convert, size_int, integer_zero_node, build_address,
    build_typeinfo]

/-- The broadcast `a ()[] = v` of an lvalue `v` to elements of a struct with a
postblit: the helper `_d_arraysetassign` is called. -/
theorem AssignExp_broadcast_postblit_helper_witness :
    AssignExp.toElem (toElem 2) .TOKassign (whole_slice (.TypeStruct postblit_struct))
        (.ElemExp .TOKvar (.TypeStruct postblit_struct) (var_decl "v") true) true
        (IRState.start true)
      = .ok (compound_expr
              (build_libcall .LIBCALL_ARRAYSETASSIGN
                [d_array_ptr (save_expr 0 (atom "a ()" true)), build_address (var_decl "v"),
                  d_array_length (save_expr 0 (atom "a ()" true)),
                  build_typeinfo (.TypeStruct postblit_struct)])
              (save_expr 0 (atom "a ()" true)),
            { IRState.start true with temps := 1 }) :=
  AssignExp_broadcast_postblit_helper (toElem 2) .TOKassign
    (.TypeDArray (.TypeStruct postblit_struct))
    (.ElemExp .TOKcall (.TypeDArray (.TypeStruct postblit_struct)) (atom "a ()" true) false)
    none none true true none
    (.ElemExp .TOKvar (.TypeStruct postblit_struct) (var_decl "v") true)
    (.TypeStruct postblit_struct)
    (IRState.start true) (IRState.start true) { IRState.start true with temps := 1 }
    { IRState.start true with temps := 1 } (atom "a ()" true) (save_expr 0 (atom "a ()" true))
    (var_decl "v") rfl rfl rfl rfl rfl

/-- C10 as claimed fails: the element type `S` requires postblit, and yet the
broadcast `a ()[] = v ()` of an rvalue, and the blit of an lvalue `v`, are
lowered to the element-wise fill; no library routine is called. -/
theorem AssignExp_broadcast_postblit_not_always_helper :
    needsPostblit (DType.TypeStruct postblit_struct) = true
    ∧ AssignExp.toElem (toElem 2) .TOKassign (whole_slice (.TypeStruct postblit_struct))
          (.ElemExp .TOKcall (.TypeStruct postblit_struct) (atom "v ()" true) false) true
          (IRState.start true)
        = .ok (compound_expr
                (build_array_set (d_array_ptr (save_expr 0 (atom "a ()" true)))
                  (d_array_length (save_expr 0 (atom "a ()" true))) (atom "v ()" true))
                (save_expr 0 (atom "a ()" true)),
              { IRState.start true with temps := 1 })
    ∧ AssignExp.toElem (toElem 2) .TOKblit (whole_slice (.TypeStruct postblit_struct))
          (.ElemExp .TOKvar (.TypeStruct postblit_struct) (var_decl "v") true) true
          (IRState.start true)
        = .ok (compound_expr
                (build_array_set (d_array_ptr (save_expr 0 (atom "a ()" true)))
                  (d_array_length (save_expr 0 (atom "a ()" true))) (var_decl "v"))
                (save_expr 0 (atom "a ()" true)),
              { IRState.start true with temps := 1 })
    ∧ libcalls (compound_expr
        (build_array_set (d_array_ptr (save_expr 0 (atom "a ()" true)))
          (d_array_length (save_expr 0 (atom "a ()" true))) (atom "v ()" true))
        (save_expr 0 (atom "a ()" true))) = [] :=
  ⟨rfl, rfl, rfl, rfl⟩

/-! ## The ledger of scoped declarations: consumption by the cleanup wrapper -/

theorem ledger_extends_of_eq (s s1 : IRState) (hv : s1.vars_in_scope = s.vars_in_scope)
    (hd : s1.dtors_lowered = s.dtors_lowered) :
    s.ledger_extends s1 := by
  refine ⟨by rw [hv], fun i _ => by rw [hv], [], by simpa using hd, List.nodup_nil, ?_⟩
  intro i
  simp only [List.not_mem_nil, false_iff, not_and]
  intro hi
  rw [hv]
  simp [List.getElem?_eq_none hi]

theorem ledger_extends_refl (s : IRState) : s.ledger_extends s :=
  ledger_extends_of_eq s s rfl rfl

theorem ledger_extends_trans (s s1 s2 : IRState) (h1 : s.ledger_extends s1)
    (h2 : s1.ledger_extends s2) : s.ledger_extends s2 := by
  obtain ⟨hl1, hf1, new1, hd1, hn1, hm1⟩ := h1
  obtain ⟨hl2, hf2, new2, hd2, hn2, hm2⟩ := h2
  refine ⟨le_trans hl1 hl2, fun i hi => ?_, new2 ++ new1, ?_, ?_, ?_⟩
  · rw [hf2 i (lt_of_lt_of_le hi hl1), hf1 i hi]
  · rw [hd2, hd1, List.append_assoc]
  · rw [List.nodup_append]
    refine ⟨hn2, hn1, ?_⟩
    intro i hi2 hi1
    have a := ((hm2 i).1 hi2).1
    have b := ((hm1 i).1 hi1).2
    have c : i < s1.vars_in_scope.length := by
      by_contra hc
      rw [List.getElem?_eq_none (not_lt.1 hc)] at b
      cases b
    omega
  · intro i
    rw [List.mem_append, hm2, hm1]
    constructor
    · rintro (⟨a, b⟩ | ⟨a, b⟩)
      · exact ⟨le_trans hl1 a, b⟩
      · have c : i < s1.vars_in_scope.length := by
          by_contra hc
          rw [List.getElem?_eq_none (not_lt.1 hc)] at b
          cases b
        exact ⟨a, by rw [hf2 i c, b]⟩
    · rintro ⟨a, b⟩
      by_cases c : i < s1.vars_in_scope.length
      · right
        exact ⟨a, by rw [← hf2 i c, b]⟩
      · left
        exact ⟨not_lt.1 c, b⟩

theorem keeps_ledger_pure {α : Type} (a : α) : (pure a : Lower α).keeps_ledger := by
  refine ⟨fun s b s1 h => ?_⟩
  cases h
  exact ledger_extends_refl s

theorem keeps_ledger_throw {α : Type} (err : Fault) : (throw err : Lower α).keeps_ledger := by
  refine ⟨fun s b s1 h => ?_⟩
  cases h

theorem keeps_ledger_get : (get : Lower IRState).keeps_ledger := by
  refine ⟨fun s b s1 h => ?_⟩
  cases h
  exact ledger_extends_refl s

theorem keeps_ledger_bind {α β : Type} (m : Lower α) (f : α → Lower β)
    (hm : m.keeps_ledger) (hf : ∀ a, (f a).keeps_ledger) : (m >>= f).keeps_ledger := by
  refine ⟨fun s b s2 h => ?_⟩
  rw [Lower.bind_apply] at h
  cases hms : m s with
  | error e => rw [hms] at h; cases h
  | ok r =>
    obtain ⟨a, s1⟩ := r
    rw [hms] at h
    exact ledger_extends_trans s s1 s2 (hm.ok s a s1 hms) ((hf a).ok s1 b s2 h)

theorem keeps_ledger_ite {α : Type} (c : Prop) [Decidable c] (a b : Lower α)
    (ha : a.keeps_ledger) (hb : b.keeps_ledger) : (if c then a else b).keeps_ledger := by
  split
  · exact ha
  · exact hb

theorem keeps_ledger_gcc_assert (c : Bool) : (gcc_assert c).keeps_ledger := by
  unfold gcc_assert
  split
  · exact keeps_ledger_pure _
  · exact keeps_ledger_throw _

theorem keeps_ledger_error (msg : String) : (error msg).keeps_ledger := by
  refine ⟨fun s b s1 h => ?_⟩
  cases h
  exact ledger_extends_of_eq _ _ rfl rfl

theorem keeps_ledger_make_temp (t : Tree) : (make_temp t).keeps_ledger := by
  refine ⟨fun s b s1 h => ?_⟩
  cases h
  exact ledger_extends_of_eq _ _ rfl rfl

theorem keeps_ledger_create_temporary_var : create_temporary_var.keeps_ledger := by
  refine ⟨fun s b s1 h => ?_⟩
  cases h
  exact ledger_extends_of_eq _ _ rfl rfl

theorem keeps_ledger_maybe_make_temp (t : Tree) : (maybe_make_temp t).keeps_ledger := by
  unfold maybe_make_temp
  split
  · exact keeps_ledger_make_temp _
  · exact keeps_ledger_pure _

theorem keeps_ledger_build_bounds_condition (index len : Tree) (inclusive : Bool) :
    (build_bounds_condition index len inclusive).keeps_ledger := by
  unfold build_bounds_condition
  repeat' first
    | with_reducible exact keeps_ledger_pure _
    | with_reducible exact keeps_ledger_get
    | with_reducible exact keeps_ledger_maybe_make_temp _
    | with_reducible apply keeps_ledger_bind
    | with_reducible apply keeps_ledger_ite
    | intro _

theorem keeps_ledger_d_array_convert (toElem : Expression → Lower Tree)
    (hf : ∀ e, (toElem e).keeps_ledger) (exp : Expression) :
    (d_array_convert toElem exp).keeps_ledger := by
  unfold d_array_convert
  repeat' first
    | with_reducible exact hf _
    | with_reducible exact keeps_ledger_pure _
    | with_reducible exact keeps_ledger_throw _
    | with_reducible exact keeps_ledger_get
    | with_reducible exact keeps_ledger_maybe_make_temp _
    | with_reducible exact keeps_ledger_make_temp _
    | with_reducible exact keeps_ledger_gcc_assert _
    | with_reducible exact keeps_ledger_error _
    | with_reducible exact keeps_ledger_create_temporary_var
    | with_reducible exact keeps_ledger_build_bounds_condition _ _ _
    | with_reducible apply keeps_ledger_bind
    | with_reducible apply keeps_ledger_ite
    | intro _

theorem keeps_ledger_CommaExp_toElem (toElem : Expression → Lower Tree)
    (hf : ∀ e, (toElem e).keeps_ledger) (e1 e2 : Expression) :
    (CommaExp.toElem toElem e1 e2).keeps_ledger := by
  unfold CommaExp.toElem
  repeat' first
    | with_reducible exact hf _
    | with_reducible exact keeps_ledger_pure _
    | with_reducible exact keeps_ledger_throw _
    | with_reducible exact keeps_ledger_get
    | with_reducible exact keeps_ledger_maybe_make_temp _
    | with_reducible exact keeps_ledger_make_temp _
    | with_reducible exact keeps_ledger_gcc_assert _
    | with_reducible exact keeps_ledger_error _
    | with_reducible exact keeps_ledger_create_temporary_var
    | with_reducible exact keeps_ledger_build_bounds_condition _ _ _
    | with_reducible apply keeps_ledger_bind
    | with_reducible apply keeps_ledger_ite
    | intro _

theorem keeps_ledger_DotVarExp_toElem (toElem : Expression → Lower Tree)
    (hf : ∀ e, (toElem e).keeps_ledger) (e1 : Expression) (var : Dsymbol) :
    (DotVarExp.toElem toElem e1 var).keeps_ledger := by
  unfold DotVarExp.toElem
  repeat' first
    | with_reducible exact hf _
    | with_reducible exact keeps_ledger_pure _
    | with_reducible exact keeps_ledger_throw _
    | with_reducible exact keeps_ledger_get
    | with_reducible exact keeps_ledger_maybe_make_temp _
    | with_reducible exact keeps_ledger_make_temp _
    | with_reducible exact keeps_ledger_gcc_assert _
    | with_reducible exact keeps_ledger_error _
    | with_reducible exact keeps_ledger_create_temporary_var
    | with_reducible exact keeps_ledger_build_bounds_condition _ _ _
    | with_reducible apply keeps_ledger_bind
    | with_reducible apply keeps_ledger_ite
    | intro _
    | dsimp only
    | split

theorem keeps_ledger_ArrayLengthExp_toElem (toElem : Expression → Lower Tree)
    (hf : ∀ e, (toElem e).keeps_ledger) (e1 : Expression) :
    (ArrayLengthExp.toElem toElem e1).keeps_ledger := by
  unfold ArrayLengthExp.toElem
  repeat' first
    | with_reducible exact hf _
    | with_reducible exact keeps_ledger_pure _
    | with_reducible exact keeps_ledger_throw _
    | with_reducible exact keeps_ledger_get
    | with_reducible exact keeps_ledger_maybe_make_temp _
    | with_reducible exact keeps_ledger_make_temp _
    | with_reducible exact keeps_ledger_gcc_assert _
    | with_reducible exact keeps_ledger_error _
    | with_reducible exact keeps_ledger_create_temporary_var
    | with_reducible exact keeps_ledger_build_bounds_condition _ _ _
    | with_reducible apply keeps_ledger_bind
    | with_reducible apply keeps_ledger_ite
    | intro _

theorem keeps_ledger_CastExp_toElem (toElem : Expression → Lower Tree)
    (hf : ∀ e, (toElem e).keeps_ledger) (e1 : Expression) (totype : DType) :
    (CastExp.toElem toElem e1 totype).keeps_ledger := by
  unfold CastExp.toElem
  repeat' first
    | with_reducible exact hf _
    | with_reducible exact keeps_ledger_pure _
    | with_reducible exact keeps_ledger_throw _
    | with_reducible exact keeps_ledger_get
    | with_reducible exact keeps_ledger_maybe_make_temp _
    | with_reducible exact keeps_ledger_make_temp _
    | with_reducible exact keeps_ledger_gcc_assert _
    | with_reducible exact keeps_ledger_error _
    | with_reducible exact keeps_ledger_create_temporary_var
    | with_reducible exact keeps_ledger_build_bounds_condition _ _ _
    | with_reducible apply keeps_ledger_bind
    | with_reducible apply keeps_ledger_ite
    | intro _

theorem keeps_ledger_EqualExp_toElem (toElem : Expression → Lower Tree)
    (hf : ∀ e, (toElem e).keeps_ledger) (op : TOK) (e1 e2 : Expression) :
    (EqualExp.toElem toElem op e1 e2).keeps_ledger := by
  unfold EqualExp.toElem
  repeat' first
    | with_reducible exact hf _
    | with_reducible exact keeps_ledger_pure _
    | with_reducible exact keeps_ledger_throw _
    | with_reducible exact keeps_ledger_get
    | with_reducible exact keeps_ledger_maybe_make_temp _
    | with_reducible exact keeps_ledger_make_temp _
    | with_reducible exact keeps_ledger_gcc_assert _
    | with_reducible exact keeps_ledger_error _
    | with_reducible exact keeps_ledger_create_temporary_var
    | with_reducible exact keeps_ledger_build_bounds_condition _ _ _
    | with_reducible exact keeps_ledger_d_array_convert toElem hf _
    | with_reducible apply keeps_ledger_bind
    | with_reducible apply keeps_ledger_ite
    | intro _
    | dsimp only
    | split

theorem keeps_ledger_d_array_convert_elem (toElem : Expression → Lower Tree)
    (hf : ∀ e, (toElem e).keeps_ledger) (etype : Option DType) (exp : Expression) (vars : List Tree) :
    (d_array_convert_elem toElem etype exp vars).keeps_ledger := by
  unfold d_array_convert_elem
  repeat' first
    | with_reducible exact hf _
    | with_reducible exact keeps_ledger_pure _
    | with_reducible exact keeps_ledger_throw _
    | with_reducible exact keeps_ledger_get
    | with_reducible exact keeps_ledger_maybe_make_temp _
    | with_reducible exact keeps_ledger_make_temp _
    | with_reducible exact keeps_ledger_gcc_assert _
    | with_reducible exact keeps_ledger_error _
    | with_reducible exact keeps_ledger_create_temporary_var
    | with_reducible exact keeps_ledger_build_bounds_condition _ _ _
    | with_reducible exact keeps_ledger_d_array_convert toElem hf _
    | with_reducible apply keeps_ledger_bind
    | with_reducible apply keeps_ledger_ite
    | intro _
    | dsimp only
    | split

theorem keeps_ledger_SliceExp_toElem_upper (toElem : Expression → Lower Tree)
    (hf : ∀ e, (toElem e).keeps_ledger) (tb1 : DType) (upr : Option Expression) (a b : Bool) (array ptr : Tree) (length lwr_tree : Option Tree) :
    (SliceExp.toElem_upper toElem tb1 upr a b array ptr length lwr_tree).keeps_ledger := by
  unfold SliceExp.toElem_upper
  repeat' first
    | with_reducible exact hf _
    | with_reducible exact keeps_ledger_pure _
    | with_reducible exact keeps_ledger_throw _
    | with_reducible exact keeps_ledger_get
    | with_reducible exact keeps_ledger_maybe_make_temp _
    | with_reducible exact keeps_ledger_make_temp _
    | with_reducible exact keeps_ledger_gcc_assert _
    | with_reducible exact keeps_ledger_error _
    | with_reducible exact keeps_ledger_create_temporary_var
    | with_reducible exact keeps_ledger_build_bounds_condition _ _ _
    | with_reducible apply keeps_ledger_bind
    | with_reducible apply keeps_ledger_ite
    | intro _
    | dsimp only
    | split

theorem keeps_ledger_SliceExp_toElem (toElem : Expression → Lower Tree)
    (hf : ∀ e, (toElem e).keeps_ledger) (type : DType) (e1 : Expression) (lwr upr : Option Expression) (a b : Bool) (lengthVar : Option String) :
    (SliceExp.toElem toElem type e1 lwr upr a b lengthVar).keeps_ledger := by
  unfold SliceExp.toElem
  repeat' first
    | with_reducible exact hf _
    | with_reducible exact keeps_ledger_pure _
    | with_reducible exact keeps_ledger_throw _
    | with_reducible exact keeps_ledger_get
    | with_reducible exact keeps_ledger_maybe_make_temp _
    | with_reducible exact keeps_ledger_make_temp _
    | with_reducible exact keeps_ledger_gcc_assert _
    | with_reducible exact keeps_ledger_error _
    | with_reducible exact keeps_ledger_create_temporary_var
    | with_reducible exact keeps_ledger_build_bounds_condition _ _ _
    | with_reducible exact keeps_ledger_SliceExp_toElem_upper toElem hf _ _ _ _ _ _ _ _
    | with_reducible apply keeps_ledger_bind
    | with_reducible apply keeps_ledger_ite
    | intro _
    | dsimp only
    | split

theorem keeps_ledger_AssignExp_toElem_slice (toElem : Expression → Lower Tree)
    (hf : ∀ e, (toElem e).keeps_ledger) (op : TOK) (e1 e2 : Expression) (ismemset : Bool) (se_e1 : Expression) :
    (AssignExp.toElem_slice toElem op e1 e2 ismemset se_e1).keeps_ledger := by
  unfold AssignExp.toElem_slice
  repeat' first
    | with_reducible exact hf _
    | with_reducible exact keeps_ledger_pure _
    | with_reducible exact keeps_ledger_throw _
    | with_reducible exact keeps_ledger_get
    | with_reducible exact keeps_ledger_maybe_make_temp _
    | with_reducible exact keeps_ledger_make_temp _
    | with_reducible exact keeps_ledger_gcc_assert _
    | with_reducible exact keeps_ledger_error _
    | with_reducible exact keeps_ledger_create_temporary_var
    | with_reducible exact keeps_ledger_build_bounds_condition _ _ _
    | with_reducible exact keeps_ledger_d_array_convert toElem hf _
    | with_reducible apply keeps_ledger_bind
    | with_reducible apply keeps_ledger_ite
    | intro _
    | dsimp only
    | split

theorem keeps_ledger_AssignExp_toElem_rest (toElem : Expression → Lower Tree)
    (hf : ∀ e, (toElem e).keeps_ledger) (op : TOK) (e1 e2 : Expression) :
    (AssignExp.toElem_rest toElem op e1 e2).keeps_ledger := by
  unfold AssignExp.toElem_rest
  repeat' first
    | with_reducible exact hf _
    | with_reducible exact keeps_ledger_pure _
    | with_reducible exact keeps_ledger_throw _
    | with_reducible exact keeps_ledger_get
    | with_reducible exact keeps_ledger_maybe_make_temp _
    | with_reducible exact keeps_ledger_make_temp _
    | with_reducible exact keeps_ledger_gcc_assert _
    | with_reducible exact keeps_ledger_error _
    | with_reducible exact keeps_ledger_create_temporary_var
    | with_reducible exact keeps_ledger_build_bounds_condition _ _ _
    | with_reducible exact keeps_ledger_d_array_convert toElem hf _
    | with_reducible apply keeps_ledger_bind
    | with_reducible apply keeps_ledger_ite
    | intro _
    | dsimp only
    | split

theorem keeps_ledger_AssignExp_toElem (toElem : Expression → Lower Tree)
    (hf : ∀ e, (toElem e).keeps_ledger) (op : TOK) (e1 e2 : Expression) (ismemset : Bool) :
    (AssignExp.toElem toElem op e1 e2 ismemset).keeps_ledger := by
  unfold AssignExp.toElem
  repeat' first
    | with_reducible exact hf _
    | with_reducible exact keeps_ledger_pure _
    | with_reducible exact keeps_ledger_throw _
    | with_reducible exact keeps_ledger_get
    | with_reducible exact keeps_ledger_maybe_make_temp _
    | with_reducible exact keeps_ledger_make_temp _
    | with_reducible exact keeps_ledger_gcc_assert _
    | with_reducible exact keeps_ledger_error _
    | with_reducible exact keeps_ledger_create_temporary_var
    | with_reducible exact keeps_ledger_build_bounds_condition _ _ _
    | with_reducible exact keeps_ledger_d_array_convert toElem hf _
    | with_reducible exact keeps_ledger_AssignExp_toElem_slice toElem hf _ _ _ _ _
    | with_reducible exact keeps_ledger_AssignExp_toElem_rest toElem hf _ _ _
    | with_reducible apply keeps_ledger_bind
    | with_reducible apply keeps_ledger_ite
    | intro _
    | dsimp only
    | split

theorem keeps_ledger_IntegerExp_toElem (value : Nat) : (IntegerExp.toElem value).keeps_ledger :=
  keeps_ledger_pure _

theorem keeps_ledger_SymbolExp_toElem (type : DType) (var : Dsymbol) :
    (SymbolExp.toElem type var).keeps_ledger := by
  unfold SymbolExp.toElem
  repeat' first
    | with_reducible exact keeps_ledger_pure _
    | with_reducible exact keeps_ledger_throw _
    | with_reducible exact keeps_ledger_get
    | with_reducible exact keeps_ledger_maybe_make_temp _
    | with_reducible exact keeps_ledger_make_temp _
    | with_reducible exact keeps_ledger_gcc_assert _
    | with_reducible exact keeps_ledger_error _
    | with_reducible exact keeps_ledger_create_temporary_var
    | with_reducible exact keeps_ledger_build_bounds_condition _ _ _
    | with_reducible apply keeps_ledger_bind
    | with_reducible apply keeps_ledger_ite
    | intro _

theorem keeps_ledger_push (vd : VarDeclaration) :
    (modify fun s => { s with vars_in_scope := s.vars_in_scope ++ [some vd] }
      : Lower PUnit).keeps_ledger := by
  refine ⟨fun s b s1 h => ?_⟩
  cases h
  refine ⟨by simp, fun i hi => by simp [List.getElem?_append_left hi], [], by simp,
    List.nodup_nil, ?_⟩
  intro i
  simp only [List.not_mem_nil, false_iff, not_and]
  intro hi
  rcases Nat.eq_or_lt_of_le hi with h | h
  · simp [← h]
  · rw [List.getElem?_eq_none (by simp; omega)]
    simp

theorem keeps_ledger_DeclarationExp_toElem (declaration : Dsymbol) (objfile : Tree) :
    (DeclarationExp.toElem declaration objfile).keeps_ledger := by
  unfold DeclarationExp.toElem
  repeat' first
    | with_reducible exact keeps_ledger_pure _
    | with_reducible exact keeps_ledger_push _
    | with_reducible apply keeps_ledger_bind
    | with_reducible apply keeps_ledger_ite
    | intro _
    | dsimp only
    | split

theorem keeps_ledger_toElem_arguments (toElem : Expression → Lower Tree)
    (hf : ∀ e, (toElem e).keeps_ledger) (arguments : List Expression) :
    (toElem_arguments toElem arguments).keeps_ledger := by
  induction arguments with
  | nil => exact keeps_ledger_pure _
  | cons arg rest ih =>
    unfold toElem_arguments
    exact keeps_ledger_bind _ _ (hf _) (fun _ => keeps_ledger_bind _ _ ih
      (fun _ => keeps_ledger_pure _))

theorem keeps_ledger_d_build_call (toElem : Expression → Lower Tree)
    (hf : ∀ e, (toElem e).keeps_ledger) (callee : Tree) (object : Option Tree)
    (arguments : List Expression) :
    (d_build_call toElem callee object arguments).keeps_ledger := by
  unfold d_build_call
  repeat' first
    | with_reducible exact hf _
    | with_reducible exact keeps_ledger_pure _
    | with_reducible exact keeps_ledger_throw _
    | with_reducible exact keeps_ledger_get
    | with_reducible exact keeps_ledger_maybe_make_temp _
    | with_reducible exact keeps_ledger_make_temp _
    | with_reducible exact keeps_ledger_gcc_assert _
    | with_reducible exact keeps_ledger_error _
    | with_reducible exact keeps_ledger_create_temporary_var
    | with_reducible exact keeps_ledger_build_bounds_condition _ _ _
    | with_reducible exact keeps_ledger_d_array_convert toElem hf _
    | with_reducible exact keeps_ledger_d_array_convert_elem toElem hf _ _ _
    | with_reducible exact keeps_ledger_toElem_arguments toElem hf _
    | with_reducible apply keeps_ledger_bind
    | with_reducible apply keeps_ledger_ite
    | intro _
    | dsimp only
    | split

theorem keeps_ledger_CallExp_toElem (toElem : Expression → Lower Tree)
    (hf : ∀ e, (toElem e).keeps_ledger) (type : DType) (e1 : Expression)
    (arguments : List Expression) :
    (CallExp.toElem toElem type e1 arguments).keeps_ledger := by
  unfold CallExp.toElem
  lift_lets
  intro tb j4 j1
  have h4 : ∀ d, (j4 d).keeps_ledger := by
    intro d
    unfold j4
    repeat' first
      | intro _
      | with_reducible exact hf _
      | with_reducible apply keeps_ledger_bind
      | with_reducible apply keeps_ledger_ite
      | with_reducible exact keeps_ledger_pure _
      | with_reducible exact keeps_ledger_throw _
      | with_reducible exact keeps_ledger_get
      | with_reducible exact keeps_ledger_maybe_make_temp _
      | with_reducible exact keeps_ledger_make_temp _
      | with_reducible exact keeps_ledger_gcc_assert _
      | with_reducible exact keeps_ledger_error _
      | with_reducible exact keeps_ledger_create_temporary_var
      | with_reducible exact keeps_ledger_build_bounds_condition _ _ _
      | with_reducible exact keeps_ledger_d_array_convert toElem hf _
      | with_reducible exact keeps_ledger_d_array_convert_elem toElem hf _ _ _
      | with_reducible exact keeps_ledger_d_build_call toElem hf _ _ _
      | dsimp only
      | split
  clear_value j4
  have h1 : ∀ e1b, (j1 e1b).keeps_ledger := by
    intro e1b
    unfold j1
    lift_lets
    intro j3 j2
    have h3 : ∀ c, (j3 c).keeps_ledger := by
      intro c
      unfold j3
      repeat' first
        | intro _
        | with_reducible exact hf _
        | with_reducible exact h4 _
        | with_reducible apply keeps_ledger_bind
        | with_reducible apply keeps_ledger_ite
        | with_reducible exact keeps_ledger_pure _
        | with_reducible exact keeps_ledger_throw _
        | with_reducible exact keeps_ledger_get
        | with_reducible exact keeps_ledger_maybe_make_temp _
        | with_reducible exact keeps_ledger_make_temp _
        | with_reducible exact keeps_ledger_gcc_assert _
        | with_reducible exact keeps_ledger_error _
        | with_reducible exact keeps_ledger_create_temporary_var
        | with_reducible exact keeps_ledger_build_bounds_condition _ _ _
        | with_reducible exact keeps_ledger_d_array_convert toElem hf _
        | with_reducible exact keeps_ledger_d_array_convert_elem toElem hf _ _ _
        | with_reducible exact keeps_ledger_d_build_call toElem hf _ _ _
        | dsimp only
        | split
    clear_value j3
    have h2 : ∀ c, (j2 c).keeps_ledger := by
      intro c
      unfold j2
      repeat' first
        | intro _
        | with_reducible exact hf _
        | with_reducible exact h3 _
        | with_reducible apply keeps_ledger_bind
        | with_reducible apply keeps_ledger_ite
        | with_reducible exact keeps_ledger_pure _
        | with_reducible exact keeps_ledger_throw _
        | with_reducible exact keeps_ledger_get
        | with_reducible exact keeps_ledger_maybe_make_temp _
        | with_reducible exact keeps_ledger_make_temp _
        | with_reducible exact keeps_ledger_gcc_assert _
        | with_reducible exact keeps_ledger_error _
        | with_reducible exact keeps_ledger_create_temporary_var
        | with_reducible exact keeps_ledger_build_bounds_condition _ _ _
        | with_reducible exact keeps_ledger_d_array_convert toElem hf _
        | with_reducible exact keeps_ledger_d_array_convert_elem toElem hf _ _ _
        | with_reducible exact keeps_ledger_d_build_call toElem hf _ _ _
        | dsimp only
        | split
    clear_value j2
    repeat' first
      | intro _
      | with_reducible exact hf _
      | with_reducible exact h2 _
      | with_reducible apply keeps_ledger_bind
      | with_reducible apply keeps_ledger_ite
      | with_reducible exact keeps_ledger_pure _
      | with_reducible exact keeps_ledger_throw _
      | with_reducible exact keeps_ledger_get
      | with_reducible exact keeps_ledger_maybe_make_temp _
      | with_reducible exact keeps_ledger_make_temp _
      | with_reducible exact keeps_ledger_gcc_assert _
      | with_reducible exact keeps_ledger_error _
      | with_reducible exact keeps_ledger_create_temporary_var
      | with_reducible exact keeps_ledger_build_bounds_condition _ _ _
      | with_reducible exact keeps_ledger_d_array_convert toElem hf _
      | with_reducible exact keeps_ledger_d_array_convert_elem toElem hf _ _ _
      | with_reducible exact keeps_ledger_d_build_call toElem hf _ _ _
      | dsimp only
      | split
  clear_value j1
  repeat' first
    | intro _
    | with_reducible exact hf _
    | with_reducible exact h1 _
    | with_reducible apply keeps_ledger_bind
    | with_reducible apply keeps_ledger_ite
    | with_reducible exact keeps_ledger_pure _
    | with_reducible exact keeps_ledger_throw _
    | with_reducible exact keeps_ledger_get
    | with_reducible exact keeps_ledger_maybe_make_temp _
    | with_reducible exact keeps_ledger_make_temp _
    | with_reducible exact keeps_ledger_gcc_assert _
    | with_reducible exact keeps_ledger_error _
    | with_reducible exact keeps_ledger_create_temporary_var
    | with_reducible exact keeps_ledger_build_bounds_condition _ _ _
    | with_reducible exact keeps_ledger_d_array_convert toElem hf _
    | with_reducible exact keeps_ledger_d_array_convert_elem toElem hf _ _ _
    | with_reducible exact keeps_ledger_d_build_call toElem hf _ _ _
    | dsimp only
    | split

theorem keeps_ledger_CatExp_elms_loop (toElem : Expression → Lower Tree)
    (hf : ∀ e, (toElem e).keeps_ledger) (etype : Option DType) (k : Nat) :
    ∀ (ce_e1 ce_e2 : Expression) (dim : Int) (elms : List (Nat × Tree)) (vars : List Tree),
      (CatExp.leaves ce_e1).length = k →
      (CatExp.elms_loop toElem etype ce_e1 ce_e2 dim elms vars).keeps_ledger := by
  induction k with
  | zero => intro ce_e1 _ _ _ _ h; have := CatExp.leaves_length_pos ce_e1; omega
  | succ k ih =>
    intro ce_e1 ce_e2 dim elms vars hk
    by_cases hcat : ∃ t a b, ce_e1 = .CatExp t a b
    · obtain ⟨t, a, b, rfl⟩ := hcat
      simp only [CatExp.leaves, List.length_append, List.length_singleton] at hk
      have hk2 : (CatExp.leaves a).length = k := by omega
      rw [CatExp.elms_loop]
      repeat' first
        | with_reducible exact hf _
        | with_reducible exact keeps_ledger_pure _
        | with_reducible exact keeps_ledger_throw _
        | with_reducible exact keeps_ledger_get
        | with_reducible exact keeps_ledger_maybe_make_temp _
        | with_reducible exact keeps_ledger_make_temp _
        | with_reducible exact keeps_ledger_gcc_assert _
        | with_reducible exact keeps_ledger_error _
        | with_reducible exact keeps_ledger_create_temporary_var
        | with_reducible exact keeps_ledger_build_bounds_condition _ _ _
        | with_reducible exact keeps_ledger_d_array_convert toElem hf _
        | with_reducible exact keeps_ledger_d_array_convert_elem toElem hf _ _ _
        | with_reducible exact ih _ _ _ _ _ hk2
        | with_reducible apply keeps_ledger_bind
        | with_reducible apply keeps_ledger_ite
        | intro _
    · rw [CatExp.elms_loop_leaf toElem etype ce_e1 ce_e2 dim elms vars
        (fun t a b h => hcat ⟨t, a, b, h⟩)]
      repeat' first
        | with_reducible exact hf _
        | with_reducible exact keeps_ledger_pure _
        | with_reducible exact keeps_ledger_throw _
        | with_reducible exact keeps_ledger_get
        | with_reducible exact keeps_ledger_maybe_make_temp _
        | with_reducible exact keeps_ledger_make_temp _
        | with_reducible exact keeps_ledger_gcc_assert _
        | with_reducible exact keeps_ledger_error _
        | with_reducible exact keeps_ledger_create_temporary_var
        | with_reducible exact keeps_ledger_build_bounds_condition _ _ _
        | with_reducible exact keeps_ledger_d_array_convert toElem hf _
        | with_reducible exact keeps_ledger_d_array_convert_elem toElem hf _ _ _
        | with_reducible apply keeps_ledger_bind
        | with_reducible apply keeps_ledger_ite
        | intro _

theorem keeps_ledger_CatExp_toElem (toElem : Expression → Lower Tree)
    (hf : ∀ e, (toElem e).keeps_ledger) (type : DType) (e1 e2 : Expression) :
    (CatExp.toElem toElem type e1 e2).keeps_ledger := by
  unfold CatExp.toElem
  repeat' first
    | with_reducible exact hf _
    | with_reducible exact keeps_ledger_pure _
    | with_reducible exact keeps_ledger_throw _
    | with_reducible exact keeps_ledger_get
    | with_reducible exact keeps_ledger_maybe_make_temp _
    | with_reducible exact keeps_ledger_make_temp _
    | with_reducible exact keeps_ledger_gcc_assert _
    | with_reducible exact keeps_ledger_error _
    | with_reducible exact keeps_ledger_create_temporary_var
    | with_reducible exact keeps_ledger_build_bounds_condition _ _ _
    | with_reducible exact keeps_ledger_d_array_convert toElem hf _
    | with_reducible exact keeps_ledger_d_array_convert_elem toElem hf _ _ _
    | with_reducible exact keeps_ledger_CatExp_elms_loop toElem hf _ _ _ _ _ _ _ rfl
    | with_reducible apply keeps_ledger_bind
    | with_reducible apply keeps_ledger_ite
    | intro _
    | dsimp only
    | split

/-- The consumption of the entry `i` by the loop of `toElemDtor`. -/
theorem ledger_extends_consume (s0 sk : IRState) (i : Nat) (vd : VarDeclaration)
    (h : s0.ledger_extends sk) (hi : s0.vars_in_scope.length ≤ i)
    (hv : sk.vars_in_scope[i]? = some (some vd)) :
    s0.ledger_extends { sk with vars_in_scope := sk.vars_in_scope.set i none,
                                dtors_lowered := i :: sk.dtors_lowered } := by
  obtain ⟨hl, hf, new, hd, hn, hm⟩ := h
  have hlt : i < sk.vars_in_scope.length := by
    by_contra hc
    rw [List.getElem?_eq_none (not_lt.1 hc)] at hv
    cases hv
  refine ⟨by simpa using hl, fun j hj => ?_, i :: new, by simp [hd], ?_, ?_⟩
  · have hne : i ≠ j := by omega
    simp only [List.getElem?_set_ne hne]
    exact hf j hj
  · rw [List.nodup_cons]
    refine ⟨fun hin => ?_, hn⟩
    have := ((hm i).1 hin).2
    rw [hv] at this
    cases this
  · intro j
    by_cases hji : j = i
    · subst hji
      simp [hi, hlt]
    · have hne : i ≠ j := fun h => hji h.symm
      simp only [List.mem_cons, hji, false_or, List.getElem?_set_ne hne]
      exact hm j

/-- The loop of `toElemDtor` over the entries `i, ..., i + count - 1`, entered
with the entries from the start `s0` of the wrapper up to `i` consumed. -/
theorem toElemDtor_loop_ledger (toElem : Expression → Lower Tree)
    (hf : ∀ e, (toElem e).keeps_ledger) (s0 : IRState) (count : Nat) :
    ∀ (i : Nat) (tdtors : Option Tree) (sk : IRState) (r : Option Tree) (sf : IRState),
      s0.ledger_extends sk → s0.vars_in_scope.length ≤ i →
      (∀ j, s0.vars_in_scope.length ≤ j → j < i → sk.vars_in_scope[j]? = some none) →
      toElemDtor_loop toElem count i tdtors sk = .ok (r, sf) →
      s0.ledger_extends sf ∧ sk.vars_in_scope.length ≤ sf.vars_in_scope.length
        ∧ (∀ j, s0.vars_in_scope.length ≤ j → j < i + count →
            sf.vars_in_scope[j]? = some none) := by
  induction count with
  | zero =>
    intro i tdtors sk r sf he hi hnull h
    simp only [toElemDtor_loop, Lower.pure_apply, Except.ok.injEq, Prod.mk.injEq] at h
    obtain ⟨_, rfl⟩ := h
    exact ⟨he, le_refl _, by simpa using hnull⟩
  | succ count ih =>
    intro i tdtors sk r sf he hi hnull h
    rw [toElemDtor_loop] at h
    simp only [Lower.bind_apply, Lower.get_apply] at h
    cases hv : sk.vars_in_scope[i]? with
    | none => simp [hv] at h
    | some entry =>
      cases entry with
      | none =>
        simp only [hv, Lower.bind_apply] at h
        have hnull2 : ∀ j, s0.vars_in_scope.length ≤ j → j < i + 1 →
            sk.vars_in_scope[j]? = some none := by
          intro j hj hlt
          rcases Nat.lt_succ_iff_lt_or_eq.1 hlt with h1 | h1
          · exact hnull j hj h1
          · rw [h1]; exact hv
        obtain ⟨a, b, c⟩ := ih (i + 1) tdtors sk r sf he (by omega) hnull2 h
        exact ⟨a, b, fun j hj hlt => c j hj (by omega)⟩
      | some vd =>
        simp only [hv, Lower.bind_apply, Lower.set_apply] at h
        cases hed : vd.edtor with
        | none => simp [hed] at h
        | some edtor =>
          simp only [hed, Lower.bind_apply, Lower.set_apply] at h
          rcases hte : toElem edtor (IRState.mk (sk.vars_in_scope.set i none) sk.temps
                sk.errors (i :: sk.dtors_lowered) sk.array_bounds_check sk.deferred_fns sk.params
                sk.isUnitTestDeclaration) with err | ⟨td, sk2⟩
          · simp [hte] at h
          · simp only [hte] at h
            have hlt : i < sk.vars_in_scope.length := by
              by_contra hc
              rw [List.getElem?_eq_none (not_lt.1 hc)] at hv
              cases hv
            have he1 := ledger_extends_consume s0 sk i vd he hi hv
            have he2 := (hf edtor).ok _ _ _ hte
            have he3 := ledger_extends_trans _ _ _ he1 he2
            have hlen : sk.vars_in_scope.length ≤ sk2.vars_in_scope.length := by
              simpa using he2.1
            have hnull2 : ∀ j, s0.vars_in_scope.length ≤ j → j < i + 1 →
                sk2.vars_in_scope[j]? = some none := by
              intro j hj hjlt
              rw [he2.2.1 j (by simp; omega)]
              rcases Nat.lt_succ_iff_lt_or_eq.1 hjlt with h1 | h1
              · have hne : i ≠ j := by omega
                simp only [List.getElem?_set_ne hne]
                exact hnull j hj h1
              · subst h1
                simp [hlt]
            obtain ⟨a, b, c⟩ := ih (i + 1) _ sk2 r sf he3 (by omega) hnull2 h
            exact ⟨a, le_trans hlen b, fun j hj hjlt => c j hj (by omega)⟩

theorem ledger_extends_congr (s s1 s2 : IRState) (h : s.ledger_extends s1)
    (hv : s2.vars_in_scope = s1.vars_in_scope) (hd : s2.dtors_lowered = s1.dtors_lowered) :
    s.ledger_extends s2 := by
  unfold IRState.ledger_extends
  rw [hv, hd]
  exact h

theorem maybe_make_temp_ledger (t a : Tree) (s s1 : IRState)
    (h : maybe_make_temp t s = .ok (a, s1)) :
    s1.vars_in_scope = s.vars_in_scope ∧ s1.dtors_lowered = s.dtors_lowered := by
  unfold maybe_make_temp at h
  split at h
  · cases h; exact ⟨rfl, rfl⟩
  · cases h; exact ⟨rfl, rfl⟩

/-- The wrapper `toElemDtor`: when it returns, the sub-expression was lowered,
the entries pushed meanwhile are all consumed, and the ledger extends that of
the start. -/
theorem Expression.toElemDtor_ledger (toElem : Expression → Lower Tree)
    (hf : ∀ e, (toElem e).keeps_ledger) (this : Expression) (s s2 : IRState) (t : Tree)
    (h : this.toElemDtor toElem s = .ok (t, s2)) :
    ∃ exp s1, toElem this s = .ok (exp, s1) ∧ s.ledger_extends s1 ∧ s.ledger_extends s2
      ∧ s1.vars_in_scope.length ≤ s2.vars_in_scope.length
      ∧ (∀ j, s.vars_in_scope.length ≤ j → j < s1.vars_in_scope.length →
          s2.vars_in_scope[j]? = some none)
      ∧ ∃ r sf, toElemDtor_loop toElem (s1.vars_in_scope.length - s.vars_in_scope.length)
            s.vars_in_scope.length none s1 = .ok (r, sf)
          ∧ s2.vars_in_scope = sf.vars_in_scope := by
  unfold Expression.toElemDtor at h
  simp only [Lower.bind_apply, Lower.get_apply] at h
  rcases h1 : toElem this s with err | ⟨exp, s1⟩
  · simp [h1] at h
  · simp only [h1] at h
    have he1 := (hf this).ok _ _ _ h1
    have hlen : ¬ s1.vars_in_scope.length < s.vars_in_scope.length := not_lt.2 he1.1
    simp only [hlen, if_false, Lower.bind_apply, Lower.pure_apply] at h
    rcases hl : toElemDtor_loop toElem (s1.vars_in_scope.length - s.vars_in_scope.length)
        s.vars_in_scope.length none s1 with err | ⟨r, sf⟩
    · simp [hl] at h
    · simp only [hl] at h
      obtain ⟨a, b, c⟩ := toElemDtor_loop_ledger toElem hf s _ _ none s1 r sf he1 (le_refl _)
        (fun j h1 h2 => absurd h2 (not_lt.2 h1)) hl
      have hs : s2.vars_in_scope = sf.vars_in_scope ∧ s2.dtors_lowered = sf.dtors_lowered := by
        cases r with
        | none => simp only [Lower.pure_apply, Except.ok.injEq, Prod.mk.injEq] at h
                  rw [← h.2]; exact ⟨rfl, rfl⟩
        | some tdtors =>
          simp only at h
          split at h
          · split at h
            · cases h; exact ⟨rfl, rfl⟩
            · simp only [Lower.bind_apply, Lower.pure_apply] at h
              rcases hm : maybe_make_temp exp sf with err | ⟨body, sg⟩
              · simp [hm] at h
              · simp only [hm, Except.ok.injEq, Prod.mk.injEq] at h
                rw [← h.2]; exact maybe_make_temp_ledger _ _ _ _ hm
          · split at h
            · rcases h0 : TREE_OPERAND exp 0 with _ | lexp <;>
                rcases h01 : TREE_OPERAND exp 1 with _ | rvalue <;>
                simp [h0, h01] at h
              rw [← h.2]; exact ⟨rfl, rfl⟩
            · simp only [Lower.bind_apply, Lower.pure_apply] at h
              rcases hm : maybe_make_temp exp sf with err | ⟨body, sg⟩
              · simp [hm] at h
              · simp only [hm, Except.ok.injEq, Prod.mk.injEq] at h
                rw [← h.2]; exact maybe_make_temp_ledger _ _ _ _ hm
      refine ⟨exp, s1, rfl, he1, ledger_extends_congr _ _ _ a hs.1 hs.2, ?_, ?_,
        r, sf, hl, hs.1⟩
      · rw [hs.1]; exact b
      · intro j hj hjlt
        rw [hs.1]
        exact c j hj (by omega)

theorem keeps_ledger_toElemDtor (toElem : Expression → Lower Tree)
    (hf : ∀ e, (toElem e).keeps_ledger) (this : Expression) :
    (this.toElemDtor toElem).keeps_ledger := by
  refine ⟨fun s t s2 h => ?_⟩
  obtain ⟨_, _, _, _, h2, _⟩ := Expression.toElemDtor_ledger toElem hf this s s2 t h
  exact h2

theorem keeps_ledger_CondExp_toElem (toElem : Expression → Lower Tree)
    (hf : ∀ e, (toElem e).keeps_ledger) (type : DType) (econd e1 e2 : Expression) :
    (CondExp.toElem toElem type econd e1 e2).keeps_ledger := by
  unfold CondExp.toElem
  repeat' first
    | with_reducible exact hf _
    | with_reducible exact keeps_ledger_pure _
    | with_reducible exact keeps_ledger_toElemDtor toElem hf _
    | with_reducible apply keeps_ledger_bind
    | with_reducible apply keeps_ledger_ite
    | intro _

theorem keeps_ledger_CatAssignExp_toElem (toElem : Expression → Lower Tree)
    (hf : ∀ e, (toElem e).keeps_ledger) (type : DType) (e1 e2 : Expression) :
    (CatAssignExp.toElem toElem type e1 e2).keeps_ledger := by
  unfold CatAssignExp.toElem
  repeat' first
    | with_reducible exact hf _
    | with_reducible exact keeps_ledger_pure _
    | with_reducible exact keeps_ledger_throw _
    | with_reducible exact keeps_ledger_get
    | with_reducible exact keeps_ledger_maybe_make_temp _
    | with_reducible exact keeps_ledger_make_temp _
    | with_reducible exact keeps_ledger_gcc_assert _
    | with_reducible exact keeps_ledger_create_temporary_var
    | with_reducible exact keeps_ledger_build_bounds_condition _ _ _
    | with_reducible exact keeps_ledger_d_array_convert toElem hf _
    | with_reducible apply keeps_ledger_bind
    | with_reducible apply keeps_ledger_ite
    | intro _
    | dsimp only
    | split

theorem keeps_ledger_IndexExp_toElem (toElem : Expression → Lower Tree)
    (hf : ∀ e, (toElem e).keeps_ledger) (e1 e2 : Expression) (a b : Bool) (lengthVar : Option String) :
    (IndexExp.toElem toElem e1 e2 a b lengthVar).keeps_ledger := by
  unfold IndexExp.toElem
  repeat' first
    | with_reducible exact hf _
    | with_reducible exact keeps_ledger_pure _
    | with_reducible exact keeps_ledger_throw _
    | with_reducible exact keeps_ledger_get
    | with_reducible exact keeps_ledger_maybe_make_temp _
    | with_reducible exact keeps_ledger_make_temp _
    | with_reducible exact keeps_ledger_gcc_assert _
    | with_reducible exact keeps_ledger_create_temporary_var
    | with_reducible exact keeps_ledger_build_bounds_condition _ _ _
    | with_reducible exact keeps_ledger_d_array_convert toElem hf _
    | with_reducible apply keeps_ledger_bind
    | with_reducible apply keeps_ledger_ite
    | intro _
    | dsimp only
    | split

theorem keeps_ledger_d_build_call_fd (toElem : Expression → Lower Tree)
    (hf : ∀ e, (toElem e).keeps_ledger) (fd : FuncDeclaration) (object : Option Tree)
    (arguments : Option (List Expression)) :
    (d_build_call_fd toElem fd object arguments).keeps_ledger :=
  keeps_ledger_d_build_call toElem hf _ _ _

theorem keeps_ledger_NewExp_finish (toElem : Expression → Lower Tree)
    (hf : ∀ e, (toElem e).keeps_ledger) (type tb : DType) ( argprefix : Option Expression) (result : Tree) :
    (NewExp.finish toElem type tb argprefix result).keeps_ledger := by
  unfold NewExp.finish
  repeat' first
    | with_reducible exact hf _
    | with_reducible exact keeps_ledger_pure _
    | with_reducible exact keeps_ledger_throw _
    | with_reducible exact keeps_ledger_get
    | with_reducible exact keeps_ledger_maybe_make_temp _
    | with_reducible exact keeps_ledger_make_temp _
    | with_reducible exact keeps_ledger_gcc_assert _
    | with_reducible exact keeps_ledger_create_temporary_var
    | with_reducible exact keeps_ledger_build_bounds_condition _ _ _
    | with_reducible exact keeps_ledger_d_array_convert toElem hf _
    | with_reducible apply keeps_ledger_bind
    | with_reducible apply keeps_ledger_ite
    | intro _
    | dsimp only
    | split

theorem keeps_ledger_NewExp_dims_loop (toElem : Expression → Lower Tree)
    (hf : ∀ e, (toElem e).keeps_ledger) (arguments : List Expression) :
    ∀ (i : Nat) (telem : DType) (elms : List (Nat × Tree)),
      (NewExp.dims_loop toElem arguments i telem elms).keeps_ledger := by
  induction arguments with
  | nil => intro i telem elms; exact keeps_ledger_pure _
  | cons arg rest ih =>
    intro i telem elms
    unfold NewExp.dims_loop
    repeat' first
      | with_reducible exact hf _
      | with_reducible exact keeps_ledger_pure _
      | with_reducible exact keeps_ledger_throw _
      | with_reducible exact keeps_ledger_get
      | with_reducible exact keeps_ledger_maybe_make_temp _
      | with_reducible exact keeps_ledger_make_temp _
      | with_reducible exact keeps_ledger_gcc_assert _
      | with_reducible exact keeps_ledger_create_temporary_var
      | with_reducible exact keeps_ledger_build_bounds_condition _ _ _
      | with_reducible exact keeps_ledger_d_array_convert toElem hf _
      | with_reducible exact ih _ _ _
      | with_reducible apply keeps_ledger_bind
      | with_reducible apply keeps_ledger_ite
      | intro _
      | dsimp only
      | split

theorem keeps_ledger_NewExp_toElem_class (toElem : Expression → Lower Tree)
    (hf : ∀ e, (toElem e).keeps_ledger) (type newtype : DType) (thisexp : Option Expression)
    (allocator : Option FuncDeclaration) (newargs : Option (List Expression)) (onstack : Bool)
    (member : Option FuncDeclaration) (arguments : Option (List Expression))
    ( argprefix : Option Expression) :
    (NewExp.toElem_class toElem type newtype thisexp allocator newargs onstack member
      arguments argprefix).keeps_ledger := by
  unfold NewExp.toElem_class
  repeat' first
    | with_reducible exact hf _
    | with_reducible exact keeps_ledger_pure _
    | with_reducible exact keeps_ledger_throw _
    | with_reducible exact keeps_ledger_get
    | with_reducible exact keeps_ledger_maybe_make_temp _
    | with_reducible exact keeps_ledger_make_temp _
    | with_reducible exact keeps_ledger_gcc_assert _
    | with_reducible exact keeps_ledger_create_temporary_var
    | with_reducible exact keeps_ledger_build_bounds_condition _ _ _
    | with_reducible exact keeps_ledger_d_array_convert toElem hf _
    | with_reducible exact keeps_ledger_d_build_call_fd toElem hf _ _ _
    | with_reducible exact keeps_ledger_NewExp_finish toElem hf _ _ _ _
    | with_reducible apply keeps_ledger_bind
    | with_reducible apply keeps_ledger_ite
    | intro _
    | dsimp only
    | split

theorem keeps_ledger_NewExp_toElem_struct (toElem : Expression → Lower Tree)
    (hf : ∀ e, (toElem e).keeps_ledger) (type newtype : DType)
    (allocator : Option FuncDeclaration) (newargs : Option (List Expression)) (onstack : Bool)
    (member : Option FuncDeclaration) (arguments : Option (List Expression))
    ( argprefix : Option Expression) :
    (NewExp.toElem_struct toElem type newtype allocator newargs onstack member arguments
      argprefix).keeps_ledger := by
  unfold NewExp.toElem_struct
  repeat' first
    | with_reducible exact hf _
    | with_reducible exact keeps_ledger_pure _
    | with_reducible exact keeps_ledger_throw _
    | with_reducible exact keeps_ledger_get
    | with_reducible exact keeps_ledger_maybe_make_temp _
    | with_reducible exact keeps_ledger_make_temp _
    | with_reducible exact keeps_ledger_gcc_assert _
    | with_reducible exact keeps_ledger_create_temporary_var
    | with_reducible exact keeps_ledger_build_bounds_condition _ _ _
    | with_reducible exact keeps_ledger_d_array_convert toElem hf _
    | with_reducible exact keeps_ledger_d_build_call_fd toElem hf _ _ _
    | with_reducible exact keeps_ledger_NewExp_finish toElem hf _ _ _ _
    | with_reducible apply keeps_ledger_bind
    | with_reducible apply keeps_ledger_ite
    | intro _
    | dsimp only
    | split

theorem keeps_ledger_NewExp_toElem_array (toElem : Expression → Lower Tree)
    (hf : ∀ e, (toElem e).keeps_ledger) (type newtype : DType)
    (allocator : Option FuncDeclaration) (arguments : Option (List Expression))
    ( argprefix : Option Expression) :
    (NewExp.toElem_array toElem type newtype allocator arguments argprefix).keeps_ledger := by
  unfold NewExp.toElem_array
  repeat' first
    | with_reducible exact hf _
    | with_reducible exact keeps_ledger_pure _
    | with_reducible exact keeps_ledger_throw _
    | with_reducible exact keeps_ledger_get
    | with_reducible exact keeps_ledger_maybe_make_temp _
    | with_reducible exact keeps_ledger_make_temp _
    | with_reducible exact keeps_ledger_gcc_assert _
    | with_reducible exact keeps_ledger_create_temporary_var
    | with_reducible exact keeps_ledger_build_bounds_condition _ _ _
    | with_reducible exact keeps_ledger_d_array_convert toElem hf _
    | with_reducible exact keeps_ledger_NewExp_finish toElem hf _ _ _ _
    | with_reducible exact keeps_ledger_NewExp_dims_loop toElem hf _ _ _ _
    | with_reducible apply keeps_ledger_bind
    | with_reducible apply keeps_ledger_ite
    | intro _
    | dsimp only
    | split

theorem keeps_ledger_NewExp_toElem_pointer (toElem : Expression → Lower Tree)
    (hf : ∀ e, (toElem e).keeps_ledger) (type newtype : DType)
    (arguments : Option (List Expression)) ( argprefix : Option Expression) :
    (NewExp.toElem_pointer toElem type newtype arguments argprefix).keeps_ledger := by
  unfold NewExp.toElem_pointer
  repeat' first
    | with_reducible exact hf _
    | with_reducible exact keeps_ledger_pure _
    | with_reducible exact keeps_ledger_throw _
    | with_reducible exact keeps_ledger_get
    | with_reducible exact keeps_ledger_maybe_make_temp _
    | with_reducible exact keeps_ledger_make_temp _
    | with_reducible exact keeps_ledger_gcc_assert _
    | with_reducible exact keeps_ledger_create_temporary_var
    | with_reducible exact keeps_ledger_build_bounds_condition _ _ _
    | with_reducible exact keeps_ledger_d_array_convert toElem hf _
    | with_reducible exact keeps_ledger_NewExp_finish toElem hf _ _ _ _
    | with_reducible apply keeps_ledger_bind
    | with_reducible apply keeps_ledger_ite
    | intro _
    | dsimp only
    | split

theorem keeps_ledger_NewExp_toElem (toElem : Expression → Lower Tree)
    (hf : ∀ e, (toElem e).keeps_ledger) (type newtype : DType) (thisexp : Option Expression)
    (allocator : Option FuncDeclaration) (newargs : Option (List Expression)) (onstack : Bool)
    (member : Option FuncDeclaration) (arguments : Option (List Expression))
    ( argprefix : Option Expression) :
    (NewExp.toElem toElem type newtype thisexp allocator newargs onstack member arguments
      argprefix).keeps_ledger := by
  unfold NewExp.toElem
  repeat' first
    | with_reducible exact hf _
    | with_reducible exact keeps_ledger_pure _
    | with_reducible exact keeps_ledger_throw _
    | with_reducible exact keeps_ledger_get
    | with_reducible exact keeps_ledger_maybe_make_temp _
    | with_reducible exact keeps_ledger_make_temp _
    | with_reducible exact keeps_ledger_gcc_assert _
    | with_reducible exact keeps_ledger_create_temporary_var
    | with_reducible exact keeps_ledger_build_bounds_condition _ _ _
    | with_reducible exact keeps_ledger_d_array_convert toElem hf _
    | with_reducible exact keeps_ledger_NewExp_toElem_class toElem hf _ _ _ _ _ _ _ _ _
    | with_reducible exact keeps_ledger_NewExp_toElem_struct toElem hf _ _ _ _ _ _ _ _
    | with_reducible exact keeps_ledger_NewExp_toElem_array toElem hf _ _ _ _ _
    | with_reducible exact keeps_ledger_NewExp_toElem_pointer toElem hf _ _ _ _
    | with_reducible apply keeps_ledger_bind
    | with_reducible apply keeps_ledger_ite
    | intro _

theorem keeps_ledger_defer (ident : String) :
    (modify fun s => { s with deferred_fns := s.deferred_fns ++ [ident] }
      : Lower PUnit).keeps_ledger := by
  refine ⟨fun s b s1 h => ?_⟩
  cases h
  exact ledger_extends_of_eq _ _ rfl rfl

theorem keeps_ledger_FuncExp_toElem (type : DType) (fd : FuncLiteralDeclaration) :
    (FuncExp.toElem type fd).keeps_ledger := by
  unfold FuncExp.toElem
  repeat' first
    | with_reducible exact keeps_ledger_pure _
    | with_reducible exact keeps_ledger_defer _
    | with_reducible apply keeps_ledger_bind
    | with_reducible apply keeps_ledger_ite
    | intro _

theorem keeps_ledger_IdentityExp_toElem (toElem : Expression → Lower Tree)
    (hf : ∀ e, (toElem e).keeps_ledger) (precision : DType → Nat) (op : TOK)
    (e1 e2 : Expression) : (IdentityExp.toElem toElem precision op e1 e2).keeps_ledger := by
  unfold IdentityExp.toElem
  repeat' first
    | with_reducible exact hf _
    | with_reducible exact keeps_ledger_pure _
    | with_reducible exact keeps_ledger_throw _
    | with_reducible exact keeps_ledger_gcc_assert _
    | with_reducible exact keeps_ledger_error _
    | with_reducible exact keeps_ledger_d_array_convert toElem hf _
    | with_reducible apply keeps_ledger_bind
    | with_reducible apply keeps_ledger_ite
    | intro _

theorem keeps_ledger_CmpExp_toElem (toElem : Expression → Lower Tree)
    (hf : ∀ e, (toElem e).keeps_ledger) (op : TOK) (e1 e2 : Expression) :
    (CmpExp.toElem toElem op e1 e2).keeps_ledger := by
  unfold CmpExp.toElem
  repeat' first
    | with_reducible exact hf _
    | with_reducible exact keeps_ledger_pure _
    | with_reducible exact keeps_ledger_throw _
    | with_reducible exact keeps_ledger_gcc_assert _
    | with_reducible exact keeps_ledger_error _
    | with_reducible exact keeps_ledger_d_array_convert toElem hf _
    | with_reducible apply keeps_ledger_bind
    | with_reducible apply keeps_ledger_ite
    | intro _
    | dsimp only
    | split

theorem keeps_ledger_DeleteExp_toElem (toElem : Expression → Lower Tree)
    (hf : ∀ e, (toElem e).keeps_ledger) (e1 : Expression) :
    (DeleteExp.toElem toElem e1).keeps_ledger := by
  unfold DeleteExp.toElem
  repeat' first
    | with_reducible exact hf _
    | with_reducible exact keeps_ledger_pure _
    | with_reducible exact keeps_ledger_throw _
    | with_reducible exact keeps_ledger_gcc_assert _
    | with_reducible exact keeps_ledger_error _
    | with_reducible exact keeps_ledger_d_array_convert toElem hf _
    | with_reducible apply keeps_ledger_bind
    | with_reducible apply keeps_ledger_ite
    | intro _
    | dsimp only
    | split

theorem keeps_ledger_PowExp_toElem (toElem : Expression → Lower Tree)
    (hf : ∀ e, (toElem e).keeps_ledger) (type : DType) (e1 e2 : Expression) :
    (PowExp.toElem toElem type e1 e2).keeps_ledger := by
  unfold PowExp.toElem
  repeat' first
    | with_reducible exact hf _
    | with_reducible exact keeps_ledger_pure _
    | with_reducible exact keeps_ledger_throw _
    | with_reducible exact keeps_ledger_gcc_assert _
    | with_reducible exact keeps_ledger_error _
    | with_reducible exact keeps_ledger_d_array_convert toElem hf _
    | with_reducible apply keeps_ledger_bind
    | with_reducible apply keeps_ledger_ite
    | intro _
    | dsimp only
    | split

theorem keeps_ledger_AndAndExp_toElem (toElem : Expression → Lower Tree)
    (hf : ∀ e, (toElem e).keeps_ledger) (e1 e2 : Expression) :
    (AndAndExp.toElem toElem e1 e2).keeps_ledger := by
  unfold AndAndExp.toElem
  repeat' first
    | with_reducible exact hf _
    | with_reducible exact keeps_ledger_pure _
    | with_reducible exact keeps_ledger_throw _
    | with_reducible exact keeps_ledger_get
    | with_reducible exact keeps_ledger_maybe_make_temp _
    | with_reducible exact keeps_ledger_toElemDtor toElem hf _
    | with_reducible exact keeps_ledger_d_build_call toElem hf _ _ _
    | with_reducible apply keeps_ledger_bind
    | with_reducible apply keeps_ledger_ite
    | intro _

theorem keeps_ledger_OrOrExp_toElem (toElem : Expression → Lower Tree)
    (hf : ∀ e, (toElem e).keeps_ledger) (e1 e2 : Expression) :
    (OrOrExp.toElem toElem e1 e2).keeps_ledger := by
  unfold OrOrExp.toElem
  repeat' first
    | with_reducible exact hf _
    | with_reducible exact keeps_ledger_pure _
    | with_reducible exact keeps_ledger_throw _
    | with_reducible exact keeps_ledger_get
    | with_reducible exact keeps_ledger_maybe_make_temp _
    | with_reducible exact keeps_ledger_toElemDtor toElem hf _
    | with_reducible exact keeps_ledger_d_build_call toElem hf _ _ _
    | with_reducible apply keeps_ledger_bind
    | with_reducible apply keeps_ledger_ite
    | intro _

theorem keeps_ledger_AddExp_toElem (toElem : Expression → Lower Tree)
    (hf : ∀ e, (toElem e).keeps_ledger) (e1 e2 : Expression) :
    (AddExp.toElem toElem e1 e2).keeps_ledger := by
  unfold AddExp.toElem
  repeat' first
    | with_reducible exact hf _
    | with_reducible exact keeps_ledger_pure _
    | with_reducible exact keeps_ledger_throw _
    | with_reducible exact keeps_ledger_get
    | with_reducible exact keeps_ledger_maybe_make_temp _
    | with_reducible exact keeps_ledger_toElemDtor toElem hf _
    | with_reducible exact keeps_ledger_d_build_call toElem hf _ _ _
    | with_reducible apply keeps_ledger_bind
    | with_reducible apply keeps_ledger_ite
    | intro _

theorem keeps_ledger_MinExp_toElem (toElem : Expression → Lower Tree)
    (hf : ∀ e, (toElem e).keeps_ledger) (e1 e2 : Expression) :
    (MinExp.toElem toElem e1 e2).keeps_ledger := by
  unfold MinExp.toElem
  repeat' first
    | with_reducible exact hf _
    | with_reducible exact keeps_ledger_pure _
    | with_reducible exact keeps_ledger_throw _
    | with_reducible exact keeps_ledger_get
    | with_reducible exact keeps_ledger_maybe_make_temp _
    | with_reducible exact keeps_ledger_toElemDtor toElem hf _
    | with_reducible exact keeps_ledger_d_build_call toElem hf _ _ _
    | with_reducible apply keeps_ledger_bind
    | with_reducible apply keeps_ledger_ite
    | intro _

theorem keeps_ledger_AssertExp_toElem (toElem : Expression → Lower Tree)
    (hf : ∀ e, (toElem e).keeps_ledger) (e1 : Expression) (msg : Option Expression) :
    (AssertExp.toElem toElem e1 msg).keeps_ledger := by
  unfold AssertExp.toElem
  repeat' first
    | with_reducible exact hf _
    | with_reducible exact keeps_ledger_pure _
    | with_reducible exact keeps_ledger_throw _
    | with_reducible exact keeps_ledger_get
    | with_reducible exact keeps_ledger_maybe_make_temp _
    | with_reducible exact keeps_ledger_toElemDtor toElem hf _
    | with_reducible exact keeps_ledger_d_build_call toElem hf _ _ _
    | with_reducible apply keeps_ledger_bind
    | with_reducible apply keeps_ledger_ite
    | intro _
    | dsimp only
    | split

/-- Every lowering keeps the ledger. -/
theorem keeps_ledger_toElem (fuel : Nat) : ∀ e, (toElem fuel e).keeps_ledger := by
  induction fuel with
  | zero => intro e; exact keeps_ledger_throw _
  | succ fuel ih =>
    intro e
    cases e with
    | IntegerExp _ value => exact keeps_ledger_IntegerExp_toElem value
    | VarExp type var => exact keeps_ledger_SymbolExp_toElem type var
    | DotVarExp _ e1 var => exact keeps_ledger_DotVarExp_toElem _ ih e1 var
    | CallExp type e1 arguments => exact keeps_ledger_CallExp_toElem _ ih type e1 arguments
    | ElemExp _ _ elem _ => exact keeps_ledger_pure _
    | DeclarationExp _ declaration objfile =>
      exact keeps_ledger_DeclarationExp_toElem declaration objfile
    | CommaExp _ e1 e2 => exact keeps_ledger_CommaExp_toElem _ ih e1 e2
    | CondExp type econd e1 e2 => exact keeps_ledger_CondExp_toElem _ ih type econd e1 e2
    | CatExp type e1 e2 => exact keeps_ledger_CatExp_toElem _ ih type e1 e2
    | EqualExp op _ e1 e2 => exact keeps_ledger_EqualExp_toElem _ ih op e1 e2
    | SliceExp type e1 lwr upr a b lengthVar =>
      exact keeps_ledger_SliceExp_toElem _ ih type e1 lwr upr a b lengthVar
    | AssignExp op _ e1 e2 ismemset => exact keeps_ledger_AssignExp_toElem _ ih op e1 e2 ismemset
    | ArrayLengthExp _ e1 => exact keeps_ledger_ArrayLengthExp_toElem _ ih e1
    | CastExp _ e1 totype => exact keeps_ledger_CastExp_toElem _ ih e1 totype
    | CatAssignExp type e1 e2 => exact keeps_ledger_CatAssignExp_toElem _ ih type e1 e2
    | IndexExp _ e1 e2 a b lengthVar => exact keeps_ledger_IndexExp_toElem _ ih e1 e2 a b lengthVar
    | NewExp type newtype thisexp allocator newargs onstack member arguments argprefix =>
      exact keeps_ledger_NewExp_toElem _ ih type newtype thisexp allocator newargs onstack
        member arguments argprefix
    | FuncExp type fd =>
      exact keeps_ledger_bind _ _ (keeps_ledger_FuncExp_toElem type fd)
        (fun _ => keeps_ledger_pure _)
    | CmpExp op type e1 e2 => exact keeps_ledger_CmpExp_toElem _ ih op e1 e2
    | IdentityExp op type e1 e2 => exact keeps_ledger_IdentityExp_toElem _ ih _ op e1 e2
    | DeleteExp type e1 => exact keeps_ledger_DeleteExp_toElem _ ih e1
    | PowExp type e1 e2 => exact keeps_ledger_PowExp_toElem _ ih type e1 e2
    | AssertExp type e1 msg => exact keeps_ledger_AssertExp_toElem _ ih e1 msg
    | AndAndExp type e1 e2 => exact keeps_ledger_AndAndExp_toElem _ ih e1 e2
    | OrOrExp type e1 e2 => exact keeps_ledger_OrOrExp_toElem _ ih e1 e2
    | AddExp type e1 e2 => exact keeps_ledger_AddExp_toElem _ ih e1 e2
    | MinExp type e1 e2 => exact keeps_ledger_MinExp_toElem _ ih e1 e2

/-- The loop of `toElemDtor` pushes nothing when the lowering of the
destructor expressions of the entries pushes nothing. -/
theorem toElemDtor_loop_length (toElem : Expression → Lower Tree)
    (hf : ∀ e, (toElem e).keeps_ledger) (s1 : IRState)
    (hd : ∀ (i : Nat) (vd : VarDeclaration) (ed : Expression),
      s1.vars_in_scope[i]? = some (some vd) → vd.edtor = some ed →
      ∀ s0 t0 s3, toElem ed s0 = .ok (t0, s3) →
        s3.vars_in_scope.length = s0.vars_in_scope.length)
    (count : Nat) :
    ∀ (i : Nat) (tdtors : Option Tree) (sk : IRState) (r : Option Tree) (sf : IRState),
      sk.vars_in_scope.length = s1.vars_in_scope.length →
      (∀ j, i ≤ j → sk.vars_in_scope[j]? = s1.vars_in_scope[j]?) →
      toElemDtor_loop toElem count i tdtors sk = .ok (r, sf) →
      sf.vars_in_scope.length = s1.vars_in_scope.length := by
  induction count with
  | zero =>
    intro i tdtors sk r sf hlen _ h
    simp only [toElemDtor_loop, Lower.pure_apply, Except.ok.injEq, Prod.mk.injEq] at h
    rw [← h.2]; exact hlen
  | succ count ih =>
    intro i tdtors sk r sf hlen hsame h
    rw [toElemDtor_loop] at h
    simp only [Lower.bind_apply, Lower.get_apply] at h
    cases hv : sk.vars_in_scope[i]? with
    | none => simp [hv] at h
    | some entry =>
      cases entry with
      | none =>
        simp only [hv, Lower.bind_apply] at h
        exact ih (i + 1) tdtors sk r sf hlen (fun j hj => hsame j (by omega)) h
      | some vd =>
        simp only [hv, Lower.bind_apply, Lower.set_apply] at h
        cases hed : vd.edtor with
        | none => simp [hed] at h
        | some edtor =>
          simp only [hed, Lower.bind_apply, Lower.set_apply] at h
          rcases hte : toElem edtor (IRState.mk (sk.vars_in_scope.set i none) sk.temps
                sk.errors (i :: sk.dtors_lowered) sk.array_bounds_check sk.deferred_fns sk.params
                sk.isUnitTestDeclaration) with err | ⟨td, sk2⟩
          · simp [hte] at h
          · simp only [hte] at h
            have hv1 : s1.vars_in_scope[i]? = some (some vd) := by
              rw [← hsame i (le_refl _)]; exact hv
            have hl2 := hd i vd edtor hv1 hed _ _ _ hte
            simp only [List.length_set] at hl2
            have he2 := (hf edtor).ok _ _ _ hte
            refine ih (i + 1) _ sk2 r sf (by rw [hl2]; exact hlen) (fun j hj => ?_) h
            rw [← hsame j (by omega)]
            by_cases hjl : j < sk.vars_in_scope.length
            · rw [he2.2.1 j (by simpa using hjl)]
              have hne : i ≠ j := by omega
              simp only [List.getElem?_set_ne hne]
            · rw [List.getElem?_eq_none (by omega), List.getElem?_eq_none (by omega)]

/-- Why C2 asks the destructor expressions to push no declaration: were the
destructor expression of `a` to declare a local `b`, which no destructor call
does, `b` would be pushed while the loop of `toElemDtor` lowers that
expression, past `endi`, and its entry would be left to an enclosing wrapper. -/
theorem toElemDtor_leaves_entry_pushed_by_destructor :
    (toElemDtor 3 nested_dtor_decl (IRState.start true)).map (fun r => r.2.vars_in_scope)
      = .ok [none, some (scoped_var "b")]
    ∧ (toElemDtor 3 nested_dtor_decl (IRState.start true)).map (fun r => r.2.dtors_lowered)
      = .ok [0] :=
  ⟨rfl, rfl⟩

/-! ## Appends, indexing, allocation, comparison of mixed arrays, protected regions -/

theorem calls_order_seen (t : Tree) : ∀ seen, (t.calls_order seen).2 = (t.eval_order seen).2 := by
  induction t with
  | save_expr id op0 ih =>
    intro seen
    by_cases hid : id ∈ seen
    · simp only [Tree.calls_order, Tree.eval_order, hid, if_true]
    · simp only [Tree.calls_order, Tree.eval_order, hid, if_false, ih]
  | temp_var id op0 ih =>
    intro seen
    by_cases hid : id ∈ seen
    · simp only [Tree.calls_order, Tree.eval_order, hid, if_true]
    · simp only [Tree.calls_order, Tree.eval_order, hid, if_false, ih]
  | build1 _ _ ih => intro seen; simp only [Tree.calls_order, Tree.eval_order, ih]
  | component_ref _ _ ih => intro seen; simp only [Tree.calls_order, Tree.eval_order, ih]
  | constructor _ ih => intro seen; simp only [Tree.calls_order, Tree.eval_order, ih]
  | statement_list _ ih => intro seen; simp only [Tree.calls_order, Tree.eval_order, ih]
  | helper _ _ _ ih => intro seen; simp only [Tree.calls_order, Tree.eval_order, ih]
  | build2 _ _ _ ih0 ih1 => intro seen; simp only [Tree.calls_order, Tree.eval_order, ih0, ih1]
  | call_expr _ _ ih0 ih1 => intro seen; simp only [Tree.calls_order, Tree.eval_order, ih0, ih1]
  | tree_list _ _ ih0 ih1 => intro seen; simp only [Tree.calls_order, Tree.eval_order, ih0, ih1]
  | constructor_elt _ _ _ ih0 ih1 =>
    intro seen; simp only [Tree.calls_order, Tree.eval_order, ih0, ih1]
  | bind_expr _ _ ih0 ih1 => intro seen; simp only [Tree.calls_order, Tree.eval_order, ih0, ih1]
  | method_call_expr _ _ ih0 ih1 =>
    intro seen; simp only [Tree.calls_order, Tree.eval_order, ih0, ih1]
  | build3 _ _ _ _ ih0 ih1 ih2 =>
    intro seen; simp only [Tree.calls_order, Tree.eval_order, ih0, ih1, ih2]
  | _ => intro seen; simp only [Tree.calls_order, Tree.eval_order]

theorem calls_order_eq (t : Tree) (seen : List Nat) :
    t.calls_order seen = ((t.calls_order seen).1, (t.eval_order seen).2) := by
  rw [← calls_order_seen]

/-- A tree without the flag, once evaluated, evaluates without a call -/
theorem calls_order_again_flag (t : Tree) :
    ∀ seen0 seen, t.TREE_SIDE_EFFECTS = false → (∀ i ∈ (t.eval_order seen0).2, i ∈ seen) →
      (t.calls_order seen).1 = [] := by
  induction t with
  | save_expr id op0 _ => intro seen0 seen h _; simp [Tree.TREE_SIDE_EFFECTS] at h
  | call_expr _ _ _ _ => intro seen0 seen h _; simp [Tree.TREE_SIDE_EFFECTS] at h
  | temp_var id initial _ =>
    intro seen0 seen _ hs
    have hid : id ∈ seen := by
      apply hs
      by_cases h0 : id ∈ seen0
      · simp only [Tree.eval_order, h0, if_true]
      · simp only [Tree.eval_order, h0, if_false]; exact List.mem_cons_self _ _
    simp only [Tree.calls_order, hid, if_true]
  | build1 _ op0 ih =>
    intro seen0 seen h hs
    simp only [Tree.TREE_SIDE_EFFECTS] at h
    simpa only [Tree.calls_order] using ih seen0 seen h (by simpa only [Tree.eval_order] using hs)
  | component_ref op0 _ ih =>
    intro seen0 seen h hs
    simp only [Tree.TREE_SIDE_EFFECTS] at h
    simpa only [Tree.calls_order] using ih seen0 seen h (by simpa only [Tree.eval_order] using hs)
  | constructor op0 ih =>
    intro seen0 seen h hs
    simp only [Tree.TREE_SIDE_EFFECTS] at h
    simpa only [Tree.calls_order] using ih seen0 seen h (by simpa only [Tree.eval_order] using hs)
  | statement_list op0 ih =>
    intro seen0 seen h hs
    simp only [Tree.TREE_SIDE_EFFECTS] at h
    simpa only [Tree.calls_order] using ih seen0 seen h (by simpa only [Tree.eval_order] using hs)
  | helper _ se op0 ih =>
    intro seen0 seen h hs
    simp only [Tree.TREE_SIDE_EFFECTS, Bool.or_eq_false_iff] at h
    simpa only [Tree.calls_order] using ih seen0 seen h.2 (by simpa only [Tree.eval_order] using hs)
  | build2 code op0 op1 ih0 ih1 =>
    intro seen0 seen h hs
    have h2 := TREE_SIDE_EFFECTS_build2 code op0 op1 h
    simp only [Tree.eval_order] at hs
    have e0 := ih0 seen0 seen h2.1 (fun i hi => hs i (eval_order_mono op1 _ i hi))
    have a0 := eval_order_again_flag op0 seen0 seen h2.1
      (fun i hi => hs i (eval_order_mono op1 _ i hi))
    have e1 := ih1 _ seen h2.2 hs
    simp [Tree.calls_order, calls_order_seen, e0, e1, a0]
  | tree_list op0 op1 ih0 ih1 =>
    intro seen0 seen h hs
    simp only [Tree.TREE_SIDE_EFFECTS, Bool.or_eq_false_iff] at h
    simp only [Tree.eval_order] at hs
    have e0 := ih0 seen0 seen h.1 (fun i hi => hs i (eval_order_mono op1 _ i hi))
    have a0 := eval_order_again_flag op0 seen0 seen h.1
      (fun i hi => hs i (eval_order_mono op1 _ i hi))
    have e1 := ih1 _ seen h.2 hs
    simp [Tree.calls_order, calls_order_seen, e0, e1, a0]
  | constructor_elt _ op0 op1 ih0 ih1 =>
    intro seen0 seen h hs
    simp only [Tree.TREE_SIDE_EFFECTS, Bool.or_eq_false_iff] at h
    simp only [Tree.eval_order] at hs
    have e0 := ih0 seen0 seen h.1 (fun i hi => hs i (eval_order_mono op1 _ i hi))
    have a0 := eval_order_again_flag op0 seen0 seen h.1
      (fun i hi => hs i (eval_order_mono op1 _ i hi))
    have e1 := ih1 _ seen h.2 hs
    simp [Tree.calls_order, calls_order_seen, e0, e1, a0]
  | bind_expr op0 op1 ih0 ih1 =>
    intro seen0 seen h hs
    simp only [Tree.TREE_SIDE_EFFECTS, Bool.or_eq_false_iff] at h
    simp only [Tree.eval_order] at hs
    have e0 := ih0 seen0 seen h.1 (fun i hi => hs i (eval_order_mono op1 _ i hi))
    have a0 := eval_order_again_flag op0 seen0 seen h.1
      (fun i hi => hs i (eval_order_mono op1 _ i hi))
    have e1 := ih1 _ seen h.2 hs
    simp [Tree.calls_order, calls_order_seen, e0, e1, a0]
  | method_call_expr op0 op1 ih0 ih1 =>
    intro seen0 seen h hs
    simp only [Tree.TREE_SIDE_EFFECTS, Bool.or_eq_false_iff] at h
    simp only [Tree.eval_order] at hs
    have e0 := ih0 seen0 seen h.1 (fun i hi => hs i (eval_order_mono op1 _ i hi))
    have a0 := eval_order_again_flag op0 seen0 seen h.1
      (fun i hi => hs i (eval_order_mono op1 _ i hi))
    have e1 := ih1 _ seen h.2 hs
    simp [Tree.calls_order, calls_order_seen, e0, e1, a0]
  | build3 _ op0 op1 op2 ih0 ih1 ih2 =>
    intro seen0 seen h hs
    simp only [Tree.TREE_SIDE_EFFECTS, Bool.or_eq_false_iff] at h
    simp only [Tree.eval_order] at hs
    have e0 := ih0 seen0 seen h.1.1
      (fun i hi => hs i (eval_order_mono op2 _ i (eval_order_mono op1 _ i hi)))
    have a0 := eval_order_again_flag op0 seen0 seen h.1.1
      (fun i hi => hs i (eval_order_mono op2 _ i (eval_order_mono op1 _ i hi)))
    have e1 := ih1 _ seen h.1.2 (fun i hi => hs i (eval_order_mono op2 _ i hi))
    have a1 := eval_order_again_flag op1 _ seen h.1.2
      (fun i hi => hs i (eval_order_mono op2 _ i hi))
    have e2 := ih2 _ seen h.2 hs
    simp [Tree.calls_order, calls_order_seen, e0, e1, e2, a0, a1]
  | _ => intro seen0 seen _ _; simp only [Tree.calls_order]

/-- A tree without side effects, once evaluated, evaluates without a call -/
theorem calls_order_again (t : Tree) :
    ∀ seen0 seen, d_has_side_effects t = false → (∀ i ∈ (t.eval_order seen0).2, i ∈ seen) →
      (t.calls_order seen).1 = [] := by
  induction t with
  | save_expr id op0 _ =>
    intro seen0 seen _ hs
    have hid : id ∈ seen := hs _ (eval_order_save_mem id op0 seen0)
    simp only [Tree.calls_order, hid, if_true]
  | build1 code op0 ih =>
    intro seen0 seen h hs
    have h2 := d_has_side_effects_build1 code op0 h
    rcases h2 with h2 | h2
    · simpa only [Tree.calls_order] using ih seen0 seen h2 (by simpa only [Tree.eval_order] using hs)
    · exact calls_order_again_flag _ seen0 seen h2 hs
  | component_ref op0 _ ih =>
    intro seen0 seen h hs
    simp only [d_has_side_effects] at h
    simpa only [Tree.calls_order] using ih seen0 seen h (by simpa only [Tree.eval_order] using hs)
  | _ =>
    intro seen0 seen h hs
    exact calls_order_again_flag _ seen0 seen (by simpa only [d_has_side_effects] using h) hs

theorem eval_order_seen_below (n : Nat) (t : Tree) :
    ∀ seen, t.temps_below n = true → ∀ i ∈ (t.eval_order seen).2, i ∈ seen ∨ i < n := by
  induction t with
  | save_expr id op0 ih =>
    intro seen hb i hi
    simp only [Tree.temps_below, Bool.and_eq_true, decide_eq_true_eq] at hb
    by_cases hid : id ∈ seen
    · simp only [Tree.eval_order, hid, if_true] at hi
      exact Or.inl hi
    · simp only [Tree.eval_order, hid, if_false] at hi
      rcases List.mem_cons.1 hi with h | h
      · rw [h]; exact Or.inr hb.1
      · exact ih seen hb.2 i h
  | temp_var id op0 ih =>
    intro seen hb i hi
    simp only [Tree.temps_below, Bool.and_eq_true, decide_eq_true_eq] at hb
    by_cases hid : id ∈ seen
    · simp only [Tree.eval_order, hid, if_true] at hi
      exact Or.inl hi
    · simp only [Tree.eval_order, hid, if_false] at hi
      rcases List.mem_cons.1 hi with h | h
      · rw [h]; exact Or.inr hb.1
      · exact ih seen hb.2 i h
  | build1 _ _ ih =>
    intro seen hb i hi
    simp only [Tree.temps_below] at hb
    exact ih seen hb i (by simpa only [Tree.eval_order] using hi)
  | component_ref _ _ ih =>
    intro seen hb i hi
    simp only [Tree.temps_below] at hb
    exact ih seen hb i (by simpa only [Tree.eval_order] using hi)
  | constructor _ ih =>
    intro seen hb i hi
    simp only [Tree.temps_below] at hb
    exact ih seen hb i (by simpa only [Tree.eval_order] using hi)
  | statement_list _ ih =>
    intro seen hb i hi
    simp only [Tree.temps_below] at hb
    exact ih seen hb i (by simpa only [Tree.eval_order] using hi)
  | helper _ _ _ ih =>
    intro seen hb i hi
    simp only [Tree.temps_below] at hb
    exact ih seen hb i (by simpa only [Tree.eval_order] using hi)
  | build2 _ _ _ ih0 ih1 =>
    intro seen hb i hi
    simp only [Tree.temps_below, Bool.and_eq_true] at hb
    simp only [Tree.eval_order] at hi
    rcases ih1 _ hb.2 i hi with h | h
    · exact ih0 seen hb.1 i h
    · exact Or.inr h
  | call_expr _ _ ih0 ih1 =>
    intro seen hb i hi
    simp only [Tree.temps_below, Bool.and_eq_true] at hb
    simp only [Tree.eval_order] at hi
    rcases ih1 _ hb.2 i hi with h | h
    · exact ih0 seen hb.1 i h
    · exact Or.inr h
  | tree_list _ _ ih0 ih1 =>
    intro seen hb i hi
    simp only [Tree.temps_below, Bool.and_eq_true] at hb
    simp only [Tree.eval_order] at hi
    rcases ih1 _ hb.2 i hi with h | h
    · exact ih0 seen hb.1 i h
    · exact Or.inr h
  | constructor_elt _ _ _ ih0 ih1 =>
    intro seen hb i hi
    simp only [Tree.temps_below, Bool.and_eq_true] at hb
    simp only [Tree.eval_order] at hi
    rcases ih1 _ hb.2 i hi with h | h
    · exact ih0 seen hb.1 i h
    · exact Or.inr h
  | bind_expr _ _ ih0 ih1 =>
    intro seen hb i hi
    simp only [Tree.temps_below, Bool.and_eq_true] at hb
    simp only [Tree.eval_order] at hi
    rcases ih1 _ hb.2 i hi with h | h
    · exact ih0 seen hb.1 i h
    · exact Or.inr h
  | method_call_expr _ _ ih0 ih1 =>
    intro seen hb i hi
    simp only [Tree.temps_below, Bool.and_eq_true] at hb
    simp only [Tree.eval_order] at hi
    rcases ih1 _ hb.2 i hi with h | h
    · exact ih0 seen hb.1 i h
    · exact Or.inr h
  | build3 _ _ _ _ ih0 ih1 ih2 =>
    intro seen hb i hi
    simp only [Tree.temps_below, Bool.and_eq_true] at hb
    simp only [Tree.eval_order] at hi
    rcases ih2 _ hb.2 i hi with h | h
    · rcases ih1 _ hb.1.2 i h with h | h
      · exact ih0 seen hb.1.1 i h
      · exact Or.inr h
    · exact Or.inr h
  | _ =>
    intro seen _ i hi
    simp only [Tree.eval_order] at hi
    exact Or.inl hi

theorem eval_order_seen_from (n : Nat) (t : Tree) :
    ∀ seen, t.temps_from n = true → ∀ i ∈ (t.eval_order seen).2, i ∈ seen ∨ n ≤ i := by
  induction t with
  | save_expr id op0 ih =>
    intro seen hb i hi
    simp only [Tree.temps_from, Bool.and_eq_true, decide_eq_true_eq] at hb
    by_cases hid : id ∈ seen
    · simp only [Tree.eval_order, hid, if_true] at hi
      exact Or.inl hi
    · simp only [Tree.eval_order, hid, if_false] at hi
      rcases List.mem_cons.1 hi with h | h
      · rw [h]; exact Or.inr hb.1
      · exact ih seen hb.2 i h
  | temp_var id op0 ih =>
    intro seen hb i hi
    simp only [Tree.temps_from, Bool.and_eq_true, decide_eq_true_eq] at hb
    by_cases hid : id ∈ seen
    · simp only [Tree.eval_order, hid, if_true] at hi
      exact Or.inl hi
    · simp only [Tree.eval_order, hid, if_false] at hi
      rcases List.mem_cons.1 hi with h | h
      · rw [h]; exact Or.inr hb.1
      · exact ih seen hb.2 i h
  | build1 _ _ ih =>
    intro seen hb i hi
    simp only [Tree.temps_from] at hb
    exact ih seen hb i (by simpa only [Tree.eval_order] using hi)
  | component_ref _ _ ih =>
    intro seen hb i hi
    simp only [Tree.temps_from] at hb
    exact ih seen hb i (by simpa only [Tree.eval_order] using hi)
  | constructor _ ih =>
    intro seen hb i hi
    simp only [Tree.temps_from] at hb
    exact ih seen hb i (by simpa only [Tree.eval_order] using hi)
  | statement_list _ ih =>
    intro seen hb i hi
    simp only [Tree.temps_from] at hb
    exact ih seen hb i (by simpa only [Tree.eval_order] using hi)
  | helper _ _ _ ih =>
    intro seen hb i hi
    simp only [Tree.temps_from] at hb
    exact ih seen hb i (by simpa only [Tree.eval_order] using hi)
  | build2 _ _ _ ih0 ih1 =>
    intro seen hb i hi
    simp only [Tree.temps_from, Bool.and_eq_true] at hb
    simp only [Tree.eval_order] at hi
    rcases ih1 _ hb.2 i hi with h | h
    · exact ih0 seen hb.1 i h
    · exact Or.inr h
  | call_expr _ _ ih0 ih1 =>
    intro seen hb i hi
    simp only [Tree.temps_from, Bool.and_eq_true] at hb
    simp only [Tree.eval_order] at hi
    rcases ih1 _ hb.2 i hi with h | h
    · exact ih0 seen hb.1 i h
    · exact Or.inr h
  | tree_list _ _ ih0 ih1 =>
    intro seen hb i hi
    simp only [Tree.temps_from, Bool.and_eq_true] at hb
    simp only [Tree.eval_order] at hi
    rcases ih1 _ hb.2 i hi with h | h
    · exact ih0 seen hb.1 i h
    · exact Or.inr h
  | constructor_elt _ _ _ ih0 ih1 =>
    intro seen hb i hi
    simp only [Tree.temps_from, Bool.and_eq_true] at hb
    simp only [Tree.eval_order] at hi
    rcases ih1 _ hb.2 i hi with h | h
    · exact ih0 seen hb.1 i h
    · exact Or.inr h
  | bind_expr _ _ ih0 ih1 =>
    intro seen hb i hi
    simp only [Tree.temps_from, Bool.and_eq_true] at hb
    simp only [Tree.eval_order] at hi
    rcases ih1 _ hb.2 i hi with h | h
    · exact ih0 seen hb.1 i h
    · exact Or.inr h
  | method_call_expr _ _ ih0 ih1 =>
    intro seen hb i hi
    simp only [Tree.temps_from, Bool.and_eq_true] at hb
    simp only [Tree.eval_order] at hi
    rcases ih1 _ hb.2 i hi with h | h
    · exact ih0 seen hb.1 i h
    · exact Or.inr h
  | build3 _ _ _ _ ih0 ih1 ih2 =>
    intro seen hb i hi
    simp only [Tree.temps_from, Bool.and_eq_true] at hb
    simp only [Tree.eval_order] at hi
    rcases ih2 _ hb.2 i hi with h | h
    · rcases ih1 _ hb.1.2 i h with h | h
      · exact ih0 seen hb.1.1 i h
      · exact Or.inr h
    · exact Or.inr h
  | _ =>
    intro seen _ i hi
    simp only [Tree.eval_order] at hi
    exact Or.inl hi

theorem DType.sizeOf_toBasetype_le (t : DType) : sizeOf t.toBasetype ≤ sizeOf t := by
  induction t with
  | TypeEnum memtype ih =>
    simp only [DType.toBasetype, DType.TypeEnum.sizeOf_spec]
    omega
  | _ => simp only [DType.toBasetype]; exact le_refl _

theorem DType.sizeOf_nextOf_lt (t : DType) : ∀ next, t.nextOf = some next → sizeOf next < sizeOf t := by
  induction t with
  | TypeEnum memtype ih =>
    intro next h
    simp only [DType.nextOf] at h
    have := ih next h
    simp only [DType.TypeEnum.sizeOf_spec]
    omega
  | TypeSArray n d => intro next h; simp only [DType.nextOf, Option.some.injEq] at h; subst h; simp; omega
  | TypeDArray n => intro next h; simp only [DType.nextOf, Option.some.injEq] at h; subst h; simp
  | TypeAArray n k => intro next h; simp only [DType.nextOf, Option.some.injEq] at h; subst h; simp; omega
  | TypePointer n => intro next h; simp only [DType.nextOf, Option.some.injEq] at h; subst h; simp
  | TypeFunction n v => intro next h; simp only [DType.nextOf, Option.some.injEq] at h; subst h; simp; omega
  | TypeDelegate n => intro next h; simp only [DType.nextOf, Option.some.injEq] at h; subst h; simp
  | _ => intro next h; simp [DType.nextOf] at h

/-- No type is the base type of its own element type. -/
theorem DType.nextOf_toBasetype_ne (t next : DType) (h : t.nextOf = some next) :
    next.toBasetype ≠ t := by
  intro heq
  have h1 := DType.sizeOf_toBasetype_le next
  have h2 := DType.sizeOf_nextOf_lt t next h
  rw [heq] at h1
  omega

/-- The element-append form of `CatAssignExp::toElem` over the address operand
`t1`, the captured element `e2e` and the first free temporary `n`. -/
theorem CatAssignExp.toElem_element (toElem : Expression → Lower Tree) (type : DType)
    (e1 e2 : Expression) (next : DType) (s s1 s2 s3 : IRState) (t1 t2 e2e : Tree)
    (harr : e1.type.toBasetype.ty = .Tarray)
    (hnext : e1.type.toBasetype.nextOf = some next)
    (hsame : e2.type.toBasetype = next.toBasetype)
    (hwf : e2.type.toBasetype.ty = .Tarray ∨ e2.type.toBasetype.ty = .Tsarray →
      e2.type.toBasetype.nextOf ≠ none)
    (h1 : toElem e1 s = .ok (t1, s1))
    (h2 : toElem e2 { s1 with temps := s1.temps + 2 } = .ok (t2, s2))
    (hm : maybe_make_temp t2 s2 = .ok (e2e, s3)) :
    CatAssignExp.toElem toElem type e1 e2 s
      = .ok (compound_expr e2e
          (modify_expr
            (build_deref (build_array_index
              (d_array_ptr (save_expr s1.temps (build_libcall .LIBCALL_ARRAYAPPENDCTX
                [build_typeinfo type, build_address t1, size_one_node])))
              (save_expr (s1.temps + 1) (build2 .MINUS_EXPR
                (d_array_length (save_expr s1.temps (build_libcall .LIBCALL_ARRAYAPPENDCTX
                  [build_typeinfo type, build_address t1, size_one_node])))
                size_one_node))))
            e2e), s3) := by
  have hdchar : (e1.type.toBasetype.ty == .Tarray && e2.type.toBasetype.ty == .Tdchar
      && (next.toBasetype.ty == .Tchar || next.toBasetype.ty == .Twchar)) = false := by
    rw [hsame]
    cases next.toBasetype.ty <;> simp
  have happ : ∀ next2, e2.type.toBasetype.nextOf = some next2 →
      d_types_same next.toBasetype next2.toBasetype = false := by
    intro next2 hn
    have := DType.nextOf_toBasetype_ne _ _ hn
    rw [hsame] at this
    simp only [d_types_same, decide_eq_false_iff_not]
    exact fun h => this h.symm
  have hself : d_types_same next.toBasetype e2.type.toBasetype = true := by
    simp [d_types_same, hsame]
  have hoff : d_has_side_effects (build2 .MINUS_EXPR
      (d_array_length (save_expr s1.temps (build_libcall .LIBCALL_ARRAYAPPENDCTX
        [build_typeinfo type, build_address t1, size_one_node]))) size_one_node) = true := rfl
  unfold CatAssignExp.toElem
  simp only [Lower.bind_apply, hnext, Lower.pure_apply, hdchar, Bool.false_eq_true, if_false]
  simp only [harr, beq_self_eq_true, Bool.true_or, gcc_assert_true, Lower.bind_apply]
  by_cases ha : (e2.type.toBasetype.ty == .Tarray || e2.type.toBasetype.ty == .Tsarray) = true
  · have hne := hwf (by simpa using ha)
    rcases hn : e2.type.toBasetype.nextOf with _ | next2
    · exact absurd hn hne
    · simp only [ha, if_true, hn, Lower.pure_apply, happ next2 hn, Bool.false_eq_true, if_false,
        hself, h1, make_temp, Lower.bind_apply, Lower.get_apply, Lower.set_apply,
        maybe_make_temp_side_effects _ _ hoff, h2, hm]
      rfl
  · simp only [ha, if_false, Lower.pure_apply, Bool.false_eq_true,
      hself, h1, make_temp, Lower.bind_apply, Lower.get_apply, Lower.set_apply, if_true,
      maybe_make_temp_side_effects _ _ hoff, h2, hm]
    rfl

theorem maybe_make_temp_effects (t a : Tree) (s s1 : IRState)
    (h : maybe_make_temp t s = .ok (a, s1)) : a.effects = t.effects := by
  by_cases ht : d_has_side_effects t = true
  · rw [maybe_make_temp_side_effects t s ht] at h
    cases h
    simp [Tree.effects, Tree.eval_order]
  · simp [maybe_make_temp, ht] at h
    rw [← h.1]

/-- C11: for `arr ~= elem`, `arr` a dynamic array and the type of `elem` the
element type of the array, `CatAssignExp::toElem` lowers `arr` and then `elem`,
each once, and returns `(e2e, *(res.ptr + off) = e2e)`: `res` is the temporary
holding the one call of `LIBCALL_ARRAYAPPENDCTX` on the type descriptor, the
address of the array and the element count 1, `off` the temporary holding
`res.length - 1`, and `e2e` the captured element.  Evaluated, the result calls
the library for the element, then `LIBCALL_ARRAYAPPENDCTX` once, then for the
array operand; its side effects are those of the element, once and first, then
those of the array operand. -/
theorem CatAssignExp_appends_one_element (toElem : Expression → Lower Tree) (type : DType)
    (e1 e2 : Expression) (next : DType) (s s1 s2 s3 : IRState) (t1 t2 e2e : Tree)
    (harr : e1.type.toBasetype.ty = .Tarray)
    (hnext : e1.type.toBasetype.nextOf = some next)
    (hsame : e2.type.toBasetype = next.toBasetype)
    (hwf : e2.type.toBasetype.ty = .Tarray ∨ e2.type.toBasetype.ty = .Tsarray →
      e2.type.toBasetype.nextOf ≠ none)
    (h1 : toElem e1 s = .ok (t1, s1))
    (h2 : toElem e2 { s1 with temps := s1.temps + 2 } = .ok (t2, s2))
    (hm : maybe_make_temp t2 s2 = .ok (e2e, s3))
    (hb1 : t1.temps_below s1.temps = true)
    (hb2 : e2e.temps_from (s1.temps + 2) = true) :
    ∃ res off result,
      res = save_expr s1.temps (build_libcall .LIBCALL_ARRAYAPPENDCTX
        [build_typeinfo type, build_address t1, size_one_node])
      ∧ off = save_expr (s1.temps + 1) (build2 .MINUS_EXPR (d_array_length res) size_one_node)
      ∧ result = compound_expr e2e
          (modify_expr (build_deref (build_array_index (d_array_ptr res) off)) e2e)
      ∧ CatAssignExp.toElem toElem type e1 e2 s = .ok (result, s3)
      ∧ (result.calls_order []).1
          = (e2e.calls_order []).1
            ++ LibCall.LIBCALL_ARRAYAPPENDCTX :: (t1.calls_order (e2e.eval_order []).2).1
      ∧ result.effects = e2e.effects ++ t1.effects
      ∧ e2e.effects = t2.effects := by
  refine ⟨_, _, _, rfl, rfl, rfl,
    CatAssignExp.toElem_element toElem type e1 e2 next s s1 s2 s3 t1 t2 e2e harr hnext hsame hwf
      h1 h2 hm, ?_, ?_, maybe_make_temp_effects t2 e2e s2 s3 hm⟩
  all_goals
    have hs2 : ∀ i ∈ (e2e.eval_order []).2, s1.temps + 2 ≤ i := fun i hi =>
      (eval_order_seen_from _ e2e [] hb2 i hi).resolve_left (List.not_mem_nil i)
    have hs3 := eval_order_seen_below _ t1 (e2e.eval_order []).2 hb1
    have hn : s1.temps ∉ (e2e.eval_order []).2 := fun h => by have := hs2 _ h; omega
    have hn1 : s1.temps + 1 ∉ (t1.eval_order (e2e.eval_order []).2).2 := fun h => by
      rcases hs3 _ h with h | h
      · have := hs2 _ h; omega
      · omega
    have hnse := maybe_make_temp_no_side_effects t2 e2e s2 s3 hm
    have hsub : ∀ i ∈ (e2e.eval_order []).2,
        i ∈ (s1.temps + 1) :: s1.temps :: (t1.eval_order (e2e.eval_order []).2).2 :=
      fun i hi => List.mem_cons_of_mem _ (List.mem_cons_of_mem _ (eval_order_mono t1 _ i hi))
  · have hagain := calls_order_again e2e [] _ hnse hsub
    simp [compound_expr, modify_expr, build_deref, build_array_index, d_array_ptr,
      d_array_length, build_libcall, build_typeinfo, build_address, size_one_node, Tree.list,
      Tree.calls_order, calls_order_seen, Tree.eval_order, hn, hn1, hagain]
  · have hagain := eval_order_again e2e [] _ hnse hsub
    have hagree := (eval_order_agree s1.temps t1 (e2e.eval_order []).2 [] hb1 (fun i hi =>
      ⟨fun h => by have := hs2 _ h; omega, fun h => absurd h (List.not_mem_nil i)⟩)).1
    simp [Tree.effects, compound_expr, modify_expr, build_deref, build_array_index, d_array_ptr,
      d_array_length, build_libcall, build_typeinfo, build_address, size_one_node, Tree.list,
      Tree.eval_order, hn, hn1, hagain, hagree]

/-- The append `a ~= g ()` of an `int` to an `int[]`. -/
theorem CatAssignExp_appends_one_element_witness :
    ∃ res off result,
      res = save_expr 0 (build_libcall .LIBCALL_ARRAYAPPENDCTX
        [build_typeinfo (.TypeDArray (.TypeBasic .Tint32)), build_address (atom "a" false),
          size_one_node])
      ∧ off = save_expr (0 + 1) (build2 .MINUS_EXPR (d_array_length res) size_one_node)
      ∧ result = compound_expr (save_expr 2 (atom "g ()" true))
          (modify_expr (build_deref (build_array_index (d_array_ptr res) off))
            (save_expr 2 (atom "g ()" true)))
      ∧ CatAssignExp.toElem (toElem 1) (.TypeDArray (.TypeBasic .Tint32)) (int_array "a" false)
          (int_value "g ()" true) (IRState.start true)
          = .ok (result, { IRState.start true with temps := 3 })
      ∧ (result.calls_order []).1
          = ((save_expr 2 (atom "g ()" true)).calls_order []).1
            ++ LibCall.LIBCALL_ARRAYAPPENDCTX
              :: ((atom "a" false).calls_order
                  ((save_expr 2 (atom "g ()" true)).eval_order []).2).1
      ∧ result.effects = (save_expr 2 (atom "g ()" true)).effects ++ (atom "a" false).effects
      ∧ (save_expr 2 (atom "g ()" true)).effects = (atom "g ()" true).effects :=
  CatAssignExp_appends_one_element (toElem 1) (.TypeDArray (.TypeBasic .Tint32))
    (int_array "a" false) (int_value "g ()" true) (.TypeBasic .Tint32) (IRState.start true)
    (IRState.start true) { IRState.start true with temps := 2 }
    { IRState.start true with temps := 3 } (atom "a" false) (atom "g ()" true)
    (save_expr 2 (atom "g ()" true)) rfl rfl rfl (fun h => by rcases h with h | h <;> cases h)
    rfl rfl rfl rfl rfl

/-- C12, amended: for `arr[i]` on a base that is no associative array,
`IndexExp::toElem` lowers the base once, captures it, lowers the index, and
dereferences `ptr + index`, `ptr` the data pointer of the captured base.  When
the base is no pointer and `indexIsInBounds` is false the index is the one
returned by `build_bounds_condition (index, length, false)`, `length` the
length of the captured base; otherwise, that is exactly when the base is a
pointer or `indexIsInBounds` is true, it is the lowered index itself.  With
bounds checking on the checked index is
`idx >= length ? _d_array_bounds () : idx` over the captured index `idx`, and
the effects of the result are those of the base, once, followed by those of
the index; with bounds checking off `build_bounds_condition` returns the index
and the element is dereferenced without a check. -/
theorem IndexExp_bounds_check_routing (toElem : Expression → Lower Tree) (e1 e2 : Expression)
    (modifiable indexIsInBounds : Bool) (lengthVar : Option String) (next : DType)
    (s s1 s2 s3 s4 : IRState) (t1 array index checked : Tree)
    (hna : e1.type.toBasetype.ty ≠ .Taarray)
    (hnext : e1.type.toBasetype.nextOf = some next)
    (hlen : e1.type.toBasetype.ty = .Tpointer → lengthVar = none)
    (h1 : toElem e1 s = .ok (t1, s1))
    (hm : maybe_make_temp t1 s1 = .ok (array, s2))
    (h2 : toElem e2 s2 = .ok (index, s3))
    (hc : build_bounds_condition index (get_array_length array e1.type.toBasetype) false s3
      = .ok (checked, s4)) :
    IndexExp.toElem toElem e1 e2 modifiable indexIsInBounds lengthVar s
      = (if e1.type.toBasetype.ty ≠ .Tpointer ∧ indexIsInBounds = false then
          .ok (indirect_ref (build_array_index
            (convert_expr array e1.type.toBasetype next.pointerTo) checked), s4)
        else
          .ok (indirect_ref (build_array_index
            (convert_expr array e1.type.toBasetype next.pointerTo) index), s3))
    ∧ (s3.array_bounds_check = true →
        ∃ idx, maybe_make_temp index s3 = .ok (idx, s4)
          ∧ checked = build_condition
              (build2 .GE_EXPR idx (get_array_length array e1.type.toBasetype))
              (build_libcall .LIBCALL_ARRAY_BOUNDS []) idx
          ∧ (indirect_ref (build_array_index
              (convert_expr array e1.type.toBasetype next.pointerTo) checked)).effects
            = array.effects ++ (idx.eval_order (array.eval_order []).2).1)
    ∧ (s3.array_bounds_check = false → checked = index ∧ s4 = s3) := by
  refine ⟨?_, ?_, ?_⟩
  · unfold IndexExp.toElem
    have hna2 : (e1.type.toBasetype.ty == .Taarray) = false := by simpa using hna
    simp only [hna2, Bool.false_eq_true, if_false, Lower.bind_apply, h1, hm, hnext,
      Lower.pure_apply]
    by_cases hp : e1.type.toBasetype.ty = .Tpointer
    · simp [hp, hlen hp, gcc_assert, h2, void_okay_p]
    · have hp2 : (e1.type.toBasetype.ty == .Tpointer) = false := by simpa using hp
      cases indexIsInBounds
      · simp [hp, hp2, h2, hc, void_okay_p]
      · simp [hp, hp2, h2, void_okay_p]
  · intro hbc
    unfold build_bounds_condition at hc
    simp only [Lower.bind_apply, Lower.get_apply, hbc, Bool.not_true, Bool.false_eq_true,
      if_false] at hc
    rcases hmi : maybe_make_temp index s3 with err | ⟨idx, s4b⟩
    · simp [hmi] at hc
    · simp only [hmi, Lower.pure_apply, Except.ok.injEq, Prod.mk.injEq] at hc
      obtain ⟨hc1, hc2⟩ := hc
      subst hc2
      refine ⟨idx, rfl, by rw [← hc1], ?_⟩
      rw [← hc1]
      have hidx := eval_order_again idx (array.eval_order []).2
        (idx.eval_order (array.eval_order []).2).2
        (maybe_make_temp_no_side_effects index idx s3 _ hmi) (fun i hi => hi)
      have hlen2 := eval_order_get_array_length array e1.type.toBasetype
        (idx.eval_order (array.eval_order []).2).2
        (eval_order_again array [] _ (maybe_make_temp_no_side_effects t1 array s1 s2 hm)
          (fun i hi => eval_order_mono idx _ i hi))
      simp [Tree.effects, indirect_ref, build_array_index, build_condition, build_libcall,
        Tree.list, Tree.eval_order, eval_order_convert_expr, hlen2, hidx]
  · intro hbc
    unfold build_bounds_condition at hc
    simp only [Lower.bind_apply, Lower.get_apply, hbc, Bool.not_false, if_true,
      Lower.pure_apply, Except.ok.injEq, Prod.mk.injEq] at hc
    exact ⟨hc.1.symm, hc.2.symm⟩

/-- The element `f ()[i]` of an `int[]`, bounds checking on: the base is
captured and the index checked against its length. -/
theorem IndexExp_bounds_check_routing_witness :
    IndexExp.toElem (toElem 1) (int_array "f ()" true) (int_value "i" false) false false none
        (IRState.start true)
      = .ok (build1 .INDIRECT_REF (build2 .POINTER_PLUS_EXPR
          (build1 .NOP_EXPR (component_ref (save_expr 0 (atom "f ()" true)) "ptr"))
          (build3 .COND_EXPR
            (build2 .GE_EXPR (atom "i" false)
              (component_ref (save_expr 0 (atom "f ()" true)) "length"))
            (call_expr (libcall_decl .LIBCALL_ARRAY_BOUNDS) null_tree)
            (atom "i" false))), { IRState.start true with temps := 1 }) :=
  (IndexExp_bounds_check_routing (toElem 1) (int_array "f ()" true) (int_value "i" false)
    false false none (.TypeBasic .Tint32) (IRState.start true) (IRState.start true)
    { IRState.start true with temps := 1 } { IRState.start true with temps := 1 }
    { IRState.start true with temps := 1 } (atom "f ()" true) (save_expr 0 (atom "f ()" true))
    (atom "i" false)
    (build3 .COND_EXPR
      (build2 .GE_EXPR (atom "i" false)
        (component_ref (save_expr 0 (atom "f ()" true)) "length"))
      (call_expr (libcall_decl .LIBCALL_ARRAY_BOUNDS) null_tree)
      (atom "i" false))
    (by decide) rfl (fun h => by cases h) rfl rfl rfl rfl).1

/-- C13: for `new C (args)` on a class `C` that is not nested, with no custom
allocator and not allocated on the stack, `NewExp::toElem` builds the
allocation `_d_newclass (&C)`, the one call of `LIBCALL_NEWCLASS`, on the
address of the class symbol.  With a constructor it lowers the arguments in
order and the result is the one call of the constructor on the allocation
followed by the lowered arguments; with no constructor the result is the
allocation alone, no argument being lowered.  The result is then put after the
lowered `argprefix`, when there is one, and converted to the type of the node
(`NewExp.finish`); with no `argprefix` that is the conversion alone. -/
theorem NewExp_class_default_allocation (toElem : Expression → Lower Tree)
    (type newtype : DType) (thisexp : Option Expression) (newargs : Option (List Expression))
    (arguments : Option (List Expression)) ( argprefix : Option Expression)
    (cd : ClassDeclaration) (ctor : FuncDeclaration) (s s1 : IRState) (targs : List Tree)
    (hty : type.toBasetype.ty = .Tclass)
    (hcd : newtype.toBasetype = .TypeClass cd)
    (hnest : cd.isNested = false)
    (hargs : toElem_arguments toElem (arguments.getD []) s = .ok (targs, s1)) :
    NewExp.toElem toElem type newtype thisexp none newargs false (some ctor) arguments
        argprefix s
      = NewExp.finish toElem type (.TypeClass cd) argprefix
          (call_expr (build_address (function_decl ctor.ident))
            (Tree.list (build_nop (build_libcall .LIBCALL_NEWCLASS
              [build_address (var_decl cd.ident)]) :: targs))) s1
    ∧ NewExp.toElem toElem type newtype thisexp none newargs false none arguments argprefix s
      = NewExp.finish toElem type (.TypeClass cd) argprefix
          (build_nop (build_libcall .LIBCALL_NEWCLASS [build_address (var_decl cd.ident)])) s
    ∧ (∀ result sk, NewExp.finish toElem type (.TypeClass cd) none result sk
        = .ok (convert_expr result (.TypeClass cd) type, sk))
    ∧ libcalls (call_expr (build_address (function_decl ctor.ident))
          (Tree.list (build_nop (build_libcall .LIBCALL_NEWCLASS
            [build_address (var_decl cd.ident)]) :: targs)))
        = .LIBCALL_NEWCLASS :: libcalls (Tree.list targs)
    ∧ libcalls (build_nop (build_libcall .LIBCALL_NEWCLASS [build_address (var_decl cd.ident)]))
        = [.LIBCALL_NEWCLASS] := by
  have hty2 : (type.toBasetype.ty == .Tclass) = true := by simp [hty]
  have htb : (newtype.toBasetype.ty == .Tclass) = true := by rw [hcd]; rfl
  refine ⟨?_, ?_, fun _ _ => rfl, ?_, rfl⟩
  · unfold NewExp.toElem NewExp.toElem_class
    simp only [Option.isSome_none, Bool.false_eq_true, if_false, Lower.bind_apply,
      Lower.pure_apply, hty2, if_true, htb, gcc_assert_true]
    rw [hcd]
    simp only [hnest, Bool.false_eq_true, if_false, Lower.bind_apply, Lower.pure_apply,
      maybe_compound_expr, d_build_call_fd, d_build_call, hargs]
  · unfold NewExp.toElem NewExp.toElem_class
    simp only [Option.isSome_none, Bool.false_eq_true, if_false, Lower.bind_apply,
      Lower.pure_apply, hty2, if_true, htb, gcc_assert_true]
    rw [hcd]
    simp only [hnest, Bool.false_eq_true, if_false, Lower.bind_apply, Lower.pure_apply,
      maybe_compound_expr]
  · simp [libcalls, build_nop, build_libcall, build_address, Tree.list]

/-- The allocation `new C (i, g ())`. -/
theorem NewExp_class_default_allocation_witness :
    NewExp.toElem (toElem 1) (.TypeClass plain_class) (.TypeClass plain_class) none none none
        false (some plain_ctor) (some [int_value "i" false, int_value "g ()" true]) none
        (IRState.start true)
      = .ok (call_expr (build1 .ADDR_EXPR (function_decl "C.__ctor"))
          (Tree.list [build1 .NOP_EXPR (call_expr (libcall_decl .LIBCALL_NEWCLASS)
              (Tree.list [build1 .ADDR_EXPR (var_decl "C")])),
            atom "i" false, atom "g ()" true]), IRState.start true) :=
  (NewExp_class_default_allocation (toElem 1) (.TypeClass plain_class) (.TypeClass plain_class)
    none none (some [int_value "i" false, int_value "g ()" true]) none plain_class plain_ctor
    (IRState.start true) (IRState.start true) [atom "i" false, atom "g ()" true]
    rfl rfl rfl rfl).1

/-- C15: on `a == b` with `a : int[]` and `b : float[]`, operands whose element
kinds differ, `EqualExp::toElem` returns the inline `memcmp` comparison over
the two captured operands and calls no library routine, not `_adEq2`: the
element type of the right operand is read from the left operand, so the test
`t1elem->ty == t2elem->ty` holds for any right operand. -/
theorem EqualExp_mismatched_elements_inline :
    EqualExp.toElem (toElem 1) .TOKequal (int_array "a" false) (float_array "b" false)
        (IRState.start true)
      = .ok (spec_array_comparison true false (save_expr 0 (atom "a" false))
              (save_expr 1 (atom "b" false)) 4,
            { IRState.start true with temps := 2 })
    ∧ libcalls (spec_array_comparison true false (save_expr 0 (atom "a" false))
        (save_expr 1 (atom "b" false)) 4) = []
    ∧ EqualExp.toElem (toElem 1) .TOKequal (int_array "a" false) (float_array "b" false)
        (IRState.start true)
      ≠ .ok (spec_adeq2_comparison true (atom "a" false) (atom "b" false) (.TypeBasic .Tint32),
            IRState.start true) := by
  refine ⟨rfl, rfl, ?_⟩
  intro h
  have h2 : EqualExp.toElem (toElem 1) .TOKequal (int_array "a" false) (float_array "b" false)
      (IRState.start true)
      = .ok (spec_array_comparison true false (save_expr 0 (atom "a" false))
              (save_expr 1 (atom "b" false)) 4,
            { IRState.start true with temps := 2 }) := rfl
  rw [h2] at h
  simp [spec_array_comparison, spec_buffer_comparison, spec_adeq2_comparison] at h

/-- C16, amended: on two array operands whose element type (read from the left
operand) is a struct with user-defined equality (`identity_compare_p` false),
`EqualExp::toElem` stays inline: it compares the elements field by field
through `build_array_struct_comparison` under the length guards of the
`memcmp` form, and calls no library routine; it calls `_adEq2`, on the two
operands converted to dynamic arrays and a type descriptor, exactly for an
element type that is neither integral, void nor a struct. -/
theorem EqualExp_struct_elements_inline (toElem : Expression → Lower Tree) (op : TOK)
    (e1 e2 : Expression) (next : DType) (s s1 s2 : IRState) (t1 t2 : Tree)
    (harr1 : e1.type.toBasetype.ty = .Tsarray ∨ e1.type.toBasetype.ty = .Tarray)
    (harr2 : e2.type.toBasetype.ty = .Tsarray ∨ e2.type.toBasetype.ty = .Tarray)
    (hnext : e1.type.toBasetype.nextOf = some next)
    (hsize : e1.type.toBasetype.ty = .Tsarray → e2.type.toBasetype.ty = .Tsarray →
      e1.type.toBasetype.size = e2.type.toBasetype.size)
    (h1 : d_array_convert toElem e1 s = .ok (t1, s1))
    (h2 : d_array_convert toElem e2 s1 = .ok (t2, s2)) :
    (∀ sd, next.toBasetype = .TypeStruct sd → sd.identity_compare = false →
      EqualExp.toElem toElem op e1 e2 s
        = .ok (side_effect_wrappers t1 t2 (save_expr s2.temps t1) (save_expr (s2.temps + 1) t2)
                (spec_struct_array_comparison (op == .TOKequal)
                  (e1.type.toBasetype.ty == .Tsarray && e2.type.toBasetype.ty == .Tsarray)
                  (save_expr s2.temps t1) (save_expr (s2.temps + 1) t2)),
              { s2 with temps := s2.temps + 2 })
      ∧ (libcalls t1 = [] → libcalls t2 = [] →
          libcalls (spec_struct_array_comparison (op == .TOKequal)
            (e1.type.toBasetype.ty == .Tsarray && e2.type.toBasetype.ty == .Tsarray)
            (save_expr s2.temps t1) (save_expr (s2.temps + 1) t2)) = []))
    ∧ ((op = .TOKequal ∨ op = .TOKnotequal) →
        (EqualExp.toElem toElem op e1 e2 s
            = .ok (spec_adeq2_comparison (op == .TOKequal) t1 t2 next.toBasetype, s2)
          ↔ ¬ (next.toBasetype.isintegral = true ∨ next.toBasetype.ty = .Tvoid
                ∨ next.toBasetype.ty = .Tstruct))) := by
  have hne : ∀ (a b : Tree), (Except.ok (a, { s2 with temps := s2.temps + 2 })
      : Except Fault (Tree × IRState)) ≠ .ok (b, s2) := by
    intro a b h
    simp only [Except.ok.injEq, Prod.mk.injEq] at h
    have := congrArg IRState.temps h.2
    simp at this
  have hstructcase : next.toBasetype.ty = .Tstruct →
      next.toBasetype.isintegral = false →
      (next.toBasetype.sym.map (·.identity_compare)).getD false = false →
      EqualExp.toElem toElem op e1 e2 s
        = .ok (side_effect_wrappers t1 t2 (save_expr s2.temps t1) (save_expr (s2.temps + 1) t2)
                (spec_struct_array_comparison (op == .TOKequal)
                  (e1.type.toBasetype.ty == .Tsarray && e2.type.toBasetype.ty == .Tsarray)
                  (save_expr s2.temps t1) (save_expr (s2.temps + 1) t2)),
              { s2 with temps := s2.temps + 2 }) := by
    intro hty hint hsym
    by_cases hop : op = .TOKequal
    · rcases harr1 with a1 | a1 <;> rcases harr2 with a2 | a2 <;>
        simp [EqualExp.toElem, a1, a2, hnext, hty, hint, hsym, h1, h2, hop, gcc_assert,
          hsize, side_effect_wrappers, spec_struct_array_comparison,
          d_array_length, d_array_ptr, build_boolop, compound_expr, size_zero_node]
    · rcases harr1 with a1 | a1 <;> rcases harr2 with a2 | a2 <;>
        simp [EqualExp.toElem, a1, a2, hnext, hty, hint, hsym, h1, h2, hop, gcc_assert,
          hsize, side_effect_wrappers, spec_struct_array_comparison,
          d_array_length, d_array_ptr, build_boolop, compound_expr, size_zero_node]
  refine ⟨fun sd hsd hid => ⟨hstructcase (by rw [hsd]; rfl) (by rw [hsd]; rfl)
    (by rw [hsd]; simpa [DType.sym] using hid), ?_⟩, fun hop => ⟨fun h hc => ?_, fun hc => ?_⟩⟩
  · intro l1 l2
    by_cases hop : op = .TOKequal <;>
      rcases harr1 with a1 | a1 <;> rcases harr2 with a2 | a2 <;>
      simp [a1, a2, hop, spec_struct_array_comparison, libcalls, Tree.list, l1, l2]
  · by_cases hm : memcmp_comparable next.toBasetype = true
    · rw [EqualExp.toElem_inline toElem op e1 e2 next s s1 s2 t1 t2 harr1 harr2 hnext hm
        hsize h1 h2] at h
      exact hne _ _ h
    · have hst : next.toBasetype.ty = .Tstruct := by
        rcases hc with h | h | h
        · simp [memcmp_comparable, h] at hm
        · simp [memcmp_comparable, h] at hm
        · exact h
      have hint : next.toBasetype.isintegral = false := by
        cases h : next.toBasetype.isintegral
        · rfl
        · simp [memcmp_comparable, h] at hm
      have hsym : (next.toBasetype.sym.map (·.identity_compare)).getD false = false := by
        cases hb : next.toBasetype <;> simp_all [memcmp_comparable, DType.sym]
      rw [hstructcase hst hint hsym] at h
      exact hne _ _ h
  · have c1 : next.toBasetype.isintegral = false := by
      cases h : next.toBasetype.isintegral
      · rfl
      · exact absurd (Or.inl h) hc
    have c2 : ¬ next.toBasetype.ty = .Tvoid := fun h => hc (Or.inr (Or.inl h))
    have c3 : ¬ next.toBasetype.ty = .Tstruct := fun h => hc (Or.inr (Or.inr h))
    rcases hop with hop | hop <;>
      rcases harr1 with a1 | a1 <;> rcases harr2 with a2 | a2 <;>
      simp [EqualExp.toElem, a1, a2, hnext, c1, c2, c3, h1, h2, hop, spec_adeq2_comparison,
        d_convert, build_libcall, Tree.list, build_typeinfo, build_address, DType.arrayOf]

/-- The comparisons `p == q` of arrays of a struct with user-defined equality
and `x == y` of arrays of floats. -/
theorem EqualExp_struct_elements_inline_witness :
    (∀ sd, DType.TypeStruct user_equality_struct = .TypeStruct sd → sd.identity_compare = false →
      EqualExp.toElem (toElem 1) .TOKequal (struct_array "p") (struct_array "q")
          (IRState.start true)
        = .ok (side_effect_wrappers (atom "p" false) (atom "q" false)
                (save_expr 0 (atom "p" false)) (save_expr 1 (atom "q" false))
                (spec_struct_array_comparison true false
                  (save_expr 0 (atom "p" false)) (save_expr 1 (atom "q" false))),
              { IRState.start true with temps := 2 })
      ∧ (libcalls (atom "p" false) = [] → libcalls (atom "q" false) = [] →
          libcalls (spec_struct_array_comparison true false
            (save_expr 0 (atom "p" false)) (save_expr 1 (atom "q" false))) = []))
    ∧ ((TOK.TOKequal = .TOKequal ∨ TOK.TOKequal = .TOKnotequal) →
        (EqualExp.toElem (toElem 1) .TOKequal (struct_array "p") (struct_array "q")
            (IRState.start true)
            = .ok (spec_adeq2_comparison true (atom "p" false) (atom "q" false)
                (.TypeStruct user_equality_struct), IRState.start true)
          ↔ ¬ ((DType.TypeStruct user_equality_struct).isintegral = true
                ∨ (DType.TypeStruct user_equality_struct).ty = .Tvoid
                ∨ (DType.TypeStruct user_equality_struct).ty = .Tstruct))) :=
  EqualExp_struct_elements_inline (toElem 1) .TOKequal (struct_array "p") (struct_array "q")
    (.TypeStruct user_equality_struct) (IRState.start true) (IRState.start true)
    (IRState.start true) (atom "p" false) (atom "q" false) (Or.inr rfl) (Or.inr rfl) rfl
    (fun h => by cases h) rfl rfl

/-- C16 as claimed fails: `p == q` on arrays of a struct with user-defined
equality is lowered inline to `build_array_struct_comparison` under the length
guards; `_adEq2` is not called. -/
theorem EqualExp_struct_elements_no_adeq2 :
    user_equality_struct.identity_compare = false
    ∧ EqualExp.toElem (toElem 1) .TOKequal (struct_array "p") (struct_array "q")
        (IRState.start true)
      = .ok (spec_struct_array_comparison true false
              (save_expr 0 (atom "p" false)) (save_expr 1 (atom "q" false)),
            { IRState.start true with temps := 2 })
    ∧ libcalls (spec_struct_array_comparison true false
        (save_expr 0 (atom "p" false)) (save_expr 1 (atom "q" false))) = [] :=
  ⟨rfl, rfl, rfl⟩

/-- The wrapper from the lowered sub-expression and the cleanup built by its
loop. -/
theorem Expression.toElemDtor_of_loop (toElem : Expression → Lower Tree) (this : Expression)
    (s s1 s2 : IRState) (exp tdtors : Tree)
    (h1 : toElem this s = .ok (exp, s1))
    (hlen : s.vars_in_scope.length ≤ s1.vars_in_scope.length)
    (hl : toElemDtor_loop toElem (s1.vars_in_scope.length - s.vars_in_scope.length)
      s.vars_in_scope.length none s1 = .ok (some tdtors, s2)) :
    this.toElemDtor toElem s =
      (if catchCtor this && (rtoken this == .TOKcall || rtoken this == .TOKnew) then
        if this.type.ty == .Tvoid then
          pure (build2 .TRY_FINALLY_EXPR exp tdtors)
        else do
          let body ← maybe_make_temp exp
          pure (compound_expr (build2 .TRY_FINALLY_EXPR body tdtors) body)
      else if this.op == .TOKcomma && rtoken this == .TOKvar then
        match TREE_OPERAND exp 0, TREE_OPERAND exp 1 with
        | some lexp, some rvalue => pure (compound_expr (compound_expr lexp tdtors) rvalue)
        | _, _ => throw Fault.gcc_assert
      else do
        let exp ← maybe_make_temp exp
        pure (compound_expr (compound_expr exp tdtors) exp) : Lower Tree) s2 := by
  unfold Expression.toElemDtor
  have hlt : ¬ s1.vars_in_scope.length < s.vars_in_scope.length := not_lt.2 hlen
  simp only [Lower.bind_apply, Lower.get_apply, h1, hlt, if_false, hl, Lower.pure_apply]

/-- The loop of `toElemDtor` yields a cleanup when it has one already or an
entry of its span is pending. -/
theorem toElemDtor_loop_pending (toElem : Expression → Lower Tree) (count : Nat) :
    ∀ (i : Nat) (tdtors : Option Tree) (sk : IRState) (r : Option Tree) (sf : IRState),
      toElemDtor_loop toElem count i tdtors sk = .ok (r, sf) →
      (tdtors.isSome = true ∨ ∃ j vd, i ≤ j ∧ j < i + count
        ∧ sk.vars_in_scope[j]? = some (some vd)) →
      r.isSome = true := by
  induction count with
  | zero =>
    intro i tdtors sk r sf h hp
    simp only [toElemDtor_loop, Lower.pure_apply, Except.ok.injEq, Prod.mk.injEq] at h
    rcases hp with hp | ⟨j, vd, h1, h2, _⟩
    · rw [← h.1]; exact hp
    · omega
  | succ count ih =>
    intro i tdtors sk r sf h hp
    rw [toElemDtor_loop] at h
    simp only [Lower.bind_apply, Lower.get_apply] at h
    cases hv : sk.vars_in_scope[i]? with
    | none => simp [hv] at h
    | some entry =>
      cases entry with
      | none =>
        simp only [hv, Lower.bind_apply] at h
        refine ih (i + 1) tdtors sk r sf h ?_
        rcases hp with hp | ⟨j, vd, h1, h2, h3⟩
        · exact Or.inl hp
        · refine Or.inr ⟨j, vd, ?_, by omega, h3⟩
          rcases Nat.eq_or_lt_of_le h1 with e | e
          · rw [← e, hv] at h3; cases h3
          · exact e
      | some vd =>
        simp only [hv, Lower.bind_apply, Lower.set_apply] at h
        cases hed : vd.edtor with
        | none => simp [hed] at h
        | some edtor =>
          simp only [hed, Lower.bind_apply, Lower.set_apply] at h
          rcases hte : toElem edtor (IRState.mk (sk.vars_in_scope.set i none) sk.temps
                sk.errors (i :: sk.dtors_lowered) sk.array_bounds_check sk.deferred_fns sk.params
                sk.isUnitTestDeclaration)
            with err | ⟨td, sk2⟩
          · simp [hte] at h
          · simp only [hte] at h
            exact ih (i + 1) _ sk2 r sf h (Or.inl rfl)

theorem catchCtor_eq_false (this : Expression) :
    catchCtor this = false ↔
      ∃ type dtype ctype ce1 ce2 var arguments,
        this = .CallExp type (.DotVarExp dtype (.CommaExp ctype ce1 ce2) var) arguments
        ∧ var.isCtorDeclaration = true ∧ ce1.op = .TOKdeclaration ∧ ce2.op = .TOKvar := by
  unfold catchCtor
  split
  · rename_i type dtype ctype ce1 ce2 var arguments
    constructor
    · intro h
      refine ⟨type, dtype, ctype, ce1, ce2, var, arguments, rfl, ?_⟩
      simpa [and_assoc] using h
    · rintro ⟨_, _, _, _, _, _, _, h, a, b, c⟩
      cases h
      simp [a, b, c]
  · rename_i hno
    constructor
    · intro h; cases h
    · rintro ⟨type, dtype, ctype, ce1, ce2, var, arguments, h, _⟩
      exact absurd h (hno _ _ _ _ _ _ _)

theorem rtoken_of_not_comma (this : Expression) (h : this.op ≠ .TOKcomma) :
    rtoken this = this.op := by
  unfold rtoken
  split
  · exact absurd rfl h
  · rfl

/-- C17: for a call expression (`op == TOKcall`) or a new-expression with at
least one pending destructor in its ledger span, `toElemDtor` returns the
protected region `TRY_FINALLY (body, destructors)` over the lowered expression,
for a non-void type through a temporary `body` that is returned after the
region, unless `catchCtor` is cleared, and then the unprotected form
`((value, destructors), value)`; `catchCtor` is cleared exactly for a call
whose callee is a `DotVarExp` naming a constructor on the comma form
`(declaration, variable)`, so never for a new-expression. -/
theorem toElemDtor_protects_call (fuel : Nat) (this : Expression) (s s1 s2 s3 : IRState)
    (exp body : Tree) (r : Option Tree)
    (hop : this.op = .TOKcall ∨ this.op = .TOKnew)
    (h1 : toElem fuel this s = .ok (exp, s1))
    (hl : toElemDtor_loop (toElem fuel) (s1.vars_in_scope.length - s.vars_in_scope.length)
      s.vars_in_scope.length none s1 = .ok (r, s2))
    (hpend : ∃ j vd, s.vars_in_scope.length ≤ j ∧ j < s1.vars_in_scope.length
      ∧ s1.vars_in_scope[j]? = some (some vd))
    (hm : maybe_make_temp exp s2 = .ok (body, s3)) :
    (∃ tdtors, r = some tdtors
      ∧ toElemDtor fuel this s =
          if catchCtor this then
            if this.type.ty == .Tvoid then .ok (build2 .TRY_FINALLY_EXPR exp tdtors, s2)
            else .ok (compound_expr (build2 .TRY_FINALLY_EXPR body tdtors) body, s3)
          else .ok (compound_expr (compound_expr body tdtors) body, s3))
    ∧ (catchCtor this = false ↔
        ∃ type dtype ctype ce1 ce2 var arguments,
          this = .CallExp type (.DotVarExp dtype (.CommaExp ctype ce1 ce2) var) arguments
          ∧ var.isCtorDeclaration = true ∧ ce1.op = .TOKdeclaration ∧ ce2.op = .TOKvar)
    ∧ (this.op = .TOKnew → catchCtor this = true) := by
  have hlen := ((keeps_ledger_toElem fuel this).ok _ _ _ h1).1
  have hsome : r.isSome = true := by
    refine toElemDtor_loop_pending (toElem fuel) _ _ none s1 r s2 hl (Or.inr ?_)
    obtain ⟨j, vd, a, b, c⟩ := hpend
    exact ⟨j, vd, a, by omega, c⟩
  obtain ⟨tdtors, rfl⟩ := Option.isSome_iff_exists.1 hsome
  have hne : this.op ≠ .TOKcomma := by
    rcases hop with h | h <;> rw [h] <;> decide
  have hrt := rtoken_of_not_comma this hne
  have hcall : (rtoken this == .TOKcall || rtoken this == .TOKnew) = true := by
    rw [hrt]; rcases hop with h | h <;> rw [h] <;> rfl
  have hnc : (this.op == .TOKcomma && rtoken this == .TOKvar) = false := by
    have : (this.op == .TOKcomma) = false := by simpa using hne
    rw [this]; rfl
  refine ⟨⟨tdtors, rfl, ?_⟩, catchCtor_eq_false this, fun hnew => ?_⟩
  · unfold toElemDtor
    rw [Expression.toElemDtor_of_loop (toElem fuel) this s s1 s2 exp tdtors h1 hlen hl]
    cases hc : catchCtor this <;> cases hv : (this.type.ty == TY.Tvoid) <;>
      simp [hc, hv, hcall, hnc, hm]
  · cases hc : catchCtor this
    · obtain ⟨_, _, _, _, _, _, _, h, _⟩ := (catchCtor_eq_false this).1 hc
      rw [h] at hnew
      cases hnew
    · rfl

/-- C18: for a comma expression whose right operand is a plain variable read
(`e2->op == TOKvar`) with a non-empty pending destructor sequence `D`,
`toElemDtor` returns `((lowered-left, D), lowered-right)` in the state left by
the loop: no temporary is made for the value. -/
theorem toElemDtor_splits_comma (fuel : Nat) (type : DType) (e1 e2 : Expression)
    (s sa s1 s2 : IRState) (t1 t2 D : Tree)
    (hvar : e2.op = .TOKvar)
    (h1 : toElem fuel e1 s = .ok (t1, sa))
    (h2 : toElem fuel e2 sa = .ok (t2, s1))
    (hl : toElemDtor_loop (toElem (fuel + 1))
      (s1.vars_in_scope.length - s.vars_in_scope.length) s.vars_in_scope.length none s1
        = .ok (some D, s2)) :
    toElemDtor (fuel + 1) (.CommaExp type e1 e2) s
      = .ok (compound_expr (compound_expr t1 D) t2, s2) := by
  have hc : toElem (fuel + 1) (.CommaExp type e1 e2) s = .ok (build2 .COMPOUND_EXPR t1 t2, s1) := by
    simp [toElem, CommaExp.toElem, h1, h2]
  have hlen := ((keeps_ledger_toElem (fuel + 1) _).ok _ _ _ hc).1
  have hop : (Expression.CommaExp type e1 e2).op = .TOKcomma := rfl
  have hrt : rtoken (.CommaExp type e1 e2) = e2.op := rfl
  have hcc : catchCtor (.CommaExp type e1 e2) = true := rfl
  unfold toElemDtor
  rw [Expression.toElemDtor_of_loop (toElem (fuel + 1)) _ s s1 s2 _ D hc hlen hl]
  simp [hop, hrt, hcc, hvar, TREE_OPERAND]

/-- The protected region for the call `f ((S a, a))`. -/
theorem toElemDtor_protects_call_witness :
    (∃ tdtors, some (atom "a.__dtor ()" true) = some tdtors
      ∧ toElemDtor 3 call_with_scoped (IRState.start true) =
          if catchCtor call_with_scoped then
            if call_with_scoped.type.ty == .Tvoid then
              .ok (build2 .TRY_FINALLY_EXPR call_with_scoped_tree tdtors, one_scoped_cleaned)
            else
              .ok (compound_expr
                (build2 .TRY_FINALLY_EXPR (save_expr 0 call_with_scoped_tree) tdtors)
                (save_expr 0 call_with_scoped_tree), { one_scoped_cleaned with temps := 1 })
          else
            .ok (compound_expr (compound_expr (save_expr 0 call_with_scoped_tree) tdtors)
              (save_expr 0 call_with_scoped_tree), { one_scoped_cleaned with temps := 1 }))
    ∧ (catchCtor call_with_scoped = false ↔
        ∃ type dtype ctype ce1 ce2 var arguments,
          call_with_scoped
            = .CallExp type (.DotVarExp dtype (.CommaExp ctype ce1 ce2) var) arguments
          ∧ var.isCtorDeclaration = true ∧ ce1.op = .TOKdeclaration ∧ ce2.op = .TOKvar)
    ∧ (call_with_scoped.op = .TOKnew → catchCtor call_with_scoped = true) :=
  toElemDtor_protects_call 3 call_with_scoped (IRState.start true) one_scoped_lowered
    one_scoped_cleaned { one_scoped_cleaned with temps := 1 } call_with_scoped_tree
    (save_expr 0 call_with_scoped_tree) (some (atom "a.__dtor ()" true)) (Or.inl rfl) rfl rfl
    ⟨0, scoped_var "a", Nat.le_refl 0, Nat.zero_lt_one, rfl⟩ rfl

/-- The cleanup of `(S a, a)` is put after `S a`. -/
theorem toElemDtor_splits_comma_witness :
    toElemDtor 2 (.CommaExp (.TypeBasic .Tint32) (scoped_decl "a")
        (.ElemExp .TOKvar (.TypeBasic .Tint32) (var_decl "a") true)) (IRState.start true)
      = .ok (compound_expr (compound_expr (atom "S a" true) (atom "a.__dtor ()" true))
          (var_decl "a"), one_scoped_cleaned) :=
  toElemDtor_splits_comma 1 (.TypeBasic .Tint32) (scoped_decl "a")
    (.ElemExp .TOKvar (.TypeBasic .Tint32) (var_decl "a") true) (IRState.start true)
    one_scoped_lowered one_scoped_lowered one_scoped_cleaned (atom "S a" true) (var_decl "a")
    (atom "a.__dtor ()" true) rfl rfl rfl rfl

theorem ledger_nulled_in_place_refl (s : IRState) : s.ledger_nulled_in_place s :=
  ⟨le_refl _, fun _ _ => Or.inl rfl⟩

theorem ledger_nulled_in_place_trans (s s1 s2 : IRState) (h1 : s.ledger_nulled_in_place s1)
    (h2 : s1.ledger_nulled_in_place s2) : s.ledger_nulled_in_place s2 := by
  refine ⟨le_trans h1.1 h2.1, fun i hi => ?_⟩
  rcases h2.2 i (lt_of_lt_of_le hi h1.1) with a | a
  · rw [a]; exact h1.2 i hi
  · exact Or.inr a

theorem ledger_nulled_in_place_of_extends (s s1 : IRState) (h : s.ledger_extends s1) :
    s.ledger_nulled_in_place s1 :=
  ⟨h.1, fun i hi => Or.inl (h.2.1 i hi)⟩

/-- The loop of `toElemDtor` overwrites entries with `NULL` in place. -/
theorem toElemDtor_loop_nulls_in_place (toElem : Expression → Lower Tree)
    (hf : ∀ e, (toElem e).keeps_ledger) (count : Nat) :
    ∀ (i : Nat) (tdtors : Option Tree) (sk : IRState) (r : Option Tree) (sf : IRState),
      toElemDtor_loop toElem count i tdtors sk = .ok (r, sf) →
      sk.ledger_nulled_in_place sf := by
  induction count with
  | zero =>
    intro i tdtors sk r sf h
    simp only [toElemDtor_loop, Lower.pure_apply, Except.ok.injEq, Prod.mk.injEq] at h
    rw [← h.2]; exact ledger_nulled_in_place_refl sk
  | succ count ih =>
    intro i tdtors sk r sf h
    rw [toElemDtor_loop] at h
    simp only [Lower.bind_apply, Lower.get_apply] at h
    cases hv : sk.vars_in_scope[i]? with
    | none => simp [hv] at h
    | some entry =>
      cases entry with
      | none =>
        simp only [hv, Lower.bind_apply] at h
        exact ih (i + 1) tdtors sk r sf h
      | some vd =>
        simp only [hv, Lower.bind_apply, Lower.set_apply] at h
        cases hed : vd.edtor with
        | none => simp [hed] at h
        | some edtor =>
          simp only [hed, Lower.bind_apply, Lower.set_apply] at h
          rcases hte : toElem edtor (IRState.mk (sk.vars_in_scope.set i none) sk.temps
                sk.errors (i :: sk.dtors_lowered) sk.array_bounds_check sk.deferred_fns sk.params
                sk.isUnitTestDeclaration)
            with err | ⟨td, sk2⟩
          · simp [hte] at h
          · simp only [hte] at h
            have hlt : i < sk.vars_in_scope.length := by
              by_contra hc
              rw [List.getElem?_eq_none (not_lt.1 hc)] at hv
              cases hv
            have hset : sk.ledger_nulled_in_place (IRState.mk (sk.vars_in_scope.set i none)
                sk.temps sk.errors (i :: sk.dtors_lowered) sk.array_bounds_check
                sk.deferred_fns sk.params sk.isUnitTestDeclaration) := by
              refine ⟨by simp, fun j hj => ?_⟩
              by_cases hji : i = j
              · subst hji; right; simp [hlt]
              · left; simp [List.getElem?_set_ne hji]
            exact ledger_nulled_in_place_trans _ _ _ hset
              (ledger_nulled_in_place_trans _ _ _
                (ledger_nulled_in_place_of_extends _ _ ((hf edtor).ok _ _ _ hte))
                (ih (i + 1) _ sk2 r sf h))

/-- C19: `toElemDtor` consumes ledger entries only by overwriting them with
`NULL` in place.  From the start `s` over the lowering of the sub-expression
(state `s1`, nested wrappers included) to the return (state `s2`) the ledger
never shrinks, every entry below `starti`, the length in `s`, is the same in
all three states, and every entry of `s1` is, in `s2`, at its index, as it was
or `NULL`. -/
theorem toElemDtor_nulls_in_place (fuel : Nat) (e : Expression) (s s1 s2 : IRState)
    (exp t : Tree)
    (h1 : toElem fuel e s = .ok (exp, s1))
    (h : toElemDtor fuel e s = .ok (t, s2)) :
    s.vars_in_scope.length ≤ s1.vars_in_scope.length
    ∧ s1.vars_in_scope.length ≤ s2.vars_in_scope.length
    ∧ (∀ i, i < s.vars_in_scope.length →
        s1.vars_in_scope[i]? = s.vars_in_scope[i]? ∧ s2.vars_in_scope[i]? = s.vars_in_scope[i]?)
    ∧ s.ledger_nulled_in_place s1 ∧ s1.ledger_nulled_in_place s2 := by
  obtain ⟨exp1, s1b, h1b, he1, he2, hlen, _, r, sf, hl, hsf⟩ :=
    Expression.toElemDtor_ledger (toElem fuel) (keeps_ledger_toElem fuel) e s s2 t h
  rw [h1] at h1b
  cases h1b
  have hn := toElemDtor_loop_nulls_in_place (toElem fuel) (keeps_ledger_toElem fuel) _ _ none
    s1 r sf hl
  refine ⟨he1.1, hlen, fun i hi => ⟨he1.2.1 i hi, he2.2.1 i hi⟩,
    ledger_nulled_in_place_of_extends _ _ he1, ?_⟩
  unfold IRState.ledger_nulled_in_place
  rw [hsf]
  exact hn

/-- The wrapper on `(S a, (S b, a + b))` from the start. -/
theorem toElemDtor_nulls_in_place_witness :
    (IRState.start true).vars_in_scope.length ≤ two_scoped_lowered.vars_in_scope.length
    ∧ two_scoped_lowered.vars_in_scope.length ≤ two_scoped_cleaned.vars_in_scope.length
    ∧ (∀ i, i < (IRState.start true).vars_in_scope.length →
        two_scoped_lowered.vars_in_scope[i]? = (IRState.start true).vars_in_scope[i]?
        ∧ two_scoped_cleaned.vars_in_scope[i]? = (IRState.start true).vars_in_scope[i]?)
    ∧ (IRState.start true).ledger_nulled_in_place two_scoped_lowered
    ∧ two_scoped_lowered.ledger_nulled_in_place two_scoped_cleaned :=
  toElemDtor_nulls_in_place 3 two_scoped (IRState.start true) two_scoped_lowered
    two_scoped_cleaned
    (build2 .COMPOUND_EXPR (atom "S a" true)
      (build2 .COMPOUND_EXPR (atom "S b" true) (atom "a + b" false)))
    (compound_expr
      (compound_expr
        (save_expr 0 (build2 .COMPOUND_EXPR (atom "S a" true)
          (build2 .COMPOUND_EXPR (atom "S b" true) (atom "a + b" false))))
        (compound_expr (atom "a.__dtor ()" true) (atom "b.__dtor ()" true)))
      (save_expr 0 (build2 .COMPOUND_EXPR (atom "S a" true)
        (build2 .COMPOUND_EXPR (atom "S b" true) (atom "a + b" false)))))
    rfl rfl

theorem CatExp.elms_loop_eq_spec_store (toElem : Expression → Lower Tree)
    (etype : Option DType) (k : Nat) :
    ∀ (ce_e1 ce_e2 : Expression) (lo : Nat) (elms : List (Nat × Tree)) (vars : List Tree)
      (s : IRState),
    (CatExp.leaves ce_e1).length = k →
    CatExp.elms_loop toElem etype ce_e1 ce_e2 ((lo + k : Nat) : Int) elms vars s
      = (do
          let (elms, vars) ← CatExp.spec_store toElem etype
            (List.enumFrom lo (CatExp.leaves ce_e1 ++ [ce_e2])).reverse elms vars
          pure (elms, (lo : Int), vars)) s := by
  induction k with
  | zero => intro ce_e1 _ _ _ _ _ h; have := CatExp.leaves_length_pos ce_e1; omega
  | succ k ih =>
    intro ce_e1 ce_e2 lo elms vars s hk
    by_cases hcat : ∃ t a b, ce_e1 = .CatExp t a b
    · obtain ⟨t, a, b, rfl⟩ := hcat
      simp only [CatExp.leaves, List.length_append, List.length_singleton] at hk
      have hk' : (CatExp.leaves a).length = k := by omega
      have hrev : (List.enumFrom lo (CatExp.leaves (.CatExp t a b) ++ [ce_e2])).reverse
          = (lo + (k + 1), ce_e2) :: (List.enumFrom lo (CatExp.leaves a ++ [b])).reverse := by
        simp only [CatExp.leaves, List.enumFrom_append, List.reverse_append, List.enumFrom_cons,
          List.enumFrom_nil, List.reverse_cons, List.reverse_nil, List.nil_append,
          List.length_append, List.length_singleton, List.singleton_append, hk',
          List.cons_append]
      rw [hrev, CatExp.elms_loop]
      simp only [CatExp.spec_store, Lower.bind_apply]
      rcases d_array_convert_elem toElem etype ce_e2 vars s with err | ⟨⟨arg, vars1⟩, sA⟩
      · rfl
      · simp only []
        rcases maybe_make_temp arg sA with err | ⟨tA, sA1⟩
        · rfl
        · simp only []
          have hd : (((lo + (k + 1) : Nat) : Int) - 1) = ((lo + k : Nat) : Int) := by
            push_cast; ring
          rw [hd, ih a b lo _ vars1 sA1 hk']
          simp only [Lower.bind_apply, Int.toNat_ofNat]
    · have hleaf : ∀ t a b, ce_e1 ≠ .CatExp t a b := fun t a b h => hcat ⟨t, a, b, h⟩
      rw [CatExp.leaves_leaf ce_e1 hleaf] at hk ⊢
      simp only [List.length_singleton] at hk
      have hk0 : k = 0 := by omega
      subst hk0
      rw [CatExp.elms_loop_leaf toElem etype ce_e1 ce_e2 _ elms vars hleaf]
      simp only [CatExp.spec_store, Lower.bind_apply, List.singleton_append, List.enumFrom_cons,
        List.enumFrom_nil, List.reverse_cons, List.reverse_nil, List.nil_append,
        List.cons_append]
      rcases d_array_convert_elem toElem etype ce_e2 vars s with err | ⟨⟨arg, vars1⟩, sA⟩
      · rfl
      · simp only []
        rcases maybe_make_temp arg sA with err | ⟨tA, sA1⟩
        · rfl
        · simp only []
          rcases d_array_convert_elem toElem etype ce_e1 vars1 sA1 with err | ⟨⟨arg2, vars2⟩, sB⟩
          · rfl
          · simp only []
            rcases maybe_make_temp arg2 sB with err | ⟨tB, sB1⟩
            · rfl
            · simp [Lower.pure_apply]

theorem CatExp.spec_store_indices (toElem : Expression → Lower Tree) (etype : Option DType) :
    ∀ (pairs : List (Nat × Expression)) (elms : List (Nat × Tree)) (vars : List Tree)
      (s : IRState) (r : List (Nat × Tree) × List Tree) (s1 : IRState),
    CatExp.spec_store toElem etype pairs elms vars s = .ok (r, s1) →
    r.1.map (·.1) = elms.map (·.1) ++ pairs.map (·.1) := by
  intro pairs
  induction pairs with
  | nil =>
    intro elms vars s r s1 h
    simp only [CatExp.spec_store, Lower.pure_apply, Except.ok.injEq, Prod.mk.injEq] at h
    rw [← h.1]; simp
  | cons p rest ih =>
    intro elms vars s r s1 h
    obtain ⟨k, leaf⟩ := p
    simp only [CatExp.spec_store, Lower.bind_apply] at h
    rcases hA : d_array_convert_elem toElem etype leaf vars s with err | ⟨⟨arg, vars1⟩, sA⟩
    · simp [hA] at h
    · simp only [hA] at h
      rcases hT : maybe_make_temp arg sA with err | ⟨tA, sA1⟩
      · simp [hT] at h
      · simp only [hT] at h
        rw [ih _ _ _ _ _ h]
        simp

theorem CatExp.spec_store_stored (toElem : Expression → Lower Tree) (etype : Option DType) :
    ∀ (pairs : List (Nat × Expression)) (elms : List (Nat × Tree)) (vars : List Tree)
      (s : IRState) (r : List (Nat × Tree) × List Tree) (s1 : IRState),
    CatExp.spec_store toElem etype pairs elms vars s = .ok (r, s1) →
    ∃ added, r.1 = elms ++ added
      ∧ List.Forall₂ (fun p q => p.1 = q.1 ∧ CatExp.stored toElem etype q.2 p.2) added pairs := by
  intro pairs
  induction pairs with
  | nil =>
    intro elms vars s r s1 h
    simp only [CatExp.spec_store, Lower.pure_apply, Except.ok.injEq, Prod.mk.injEq] at h
    exact ⟨[], by rw [← h.1]; simp, List.Forall₂.nil⟩
  | cons p rest ih =>
    intro elms vars s r s1 h
    obtain ⟨k, leaf⟩ := p
    simp only [CatExp.spec_store, Lower.bind_apply] at h
    rcases hA : d_array_convert_elem toElem etype leaf vars s with err | ⟨⟨arg, vars1⟩, sA⟩
    · simp [hA] at h
    · simp only [hA] at h
      rcases hT : maybe_make_temp arg sA with err | ⟨tA, sA1⟩
      · simp [hT] at h
      · simp only [hT] at h
        obtain ⟨added, hr, hall⟩ := ih _ _ _ _ _ h
        exact ⟨(k, tA) :: added, by rw [hr]; simp,
          List.Forall₂.cons ⟨rfl, vars, s, arg, vars1, sA, sA1, hA, hT⟩ hall⟩

/-- C20: in the flattened concatenation of a chain `((a ~ b) ~ ...) ~ e2` of `n`
leaves the `k`-th leaf counted from the left is stored at index `k` of the
array-of-arrays.  `CatExp::toElem` is, from every state, the computation that
stores the leaves paired with their positions from the left, taken from right
to left; the indices of these pairs are `n-1, ..., 0`, every index below `n`
once, the pair of index `k` holding the `k`-th leaf; and when the rule returns,
the initializer of the array-of-arrays has for each pair, at the index of the
pair, the converted and captured leaf of the pair. -/
theorem CatExp_leaf_k_at_index_k (toElem : Expression → Lower Tree) (type t1 : DType)
    (a b e2 : Expression) :
    (∀ s, CatExp.toElem toElem type (.CatExp t1 a b) e2 s
        = CatExp.spec_flattened toElem type (.CatExp t1 a b) e2 s)
    ∧ (CatExp.leaves (.CatExp type (.CatExp t1 a b) e2)).enum.reverse.map (·.1)
        = (List.range (CatExp.leaves (.CatExp type (.CatExp t1 a b) e2)).length).reverse
    ∧ (∀ k leaf, (CatExp.leaves (.CatExp type (.CatExp t1 a b) e2))[k]? = some leaf ↔
        (k, leaf) ∈ (CatExp.leaves (.CatExp type (.CatExp t1 a b) e2)).enum.reverse)
    ∧ (CatExp.leaves (.CatExp type (.CatExp t1 a b) e2)).enum.reverse.head?
        = some ((CatExp.leaves (.CatExp type (.CatExp t1 a b) e2)).length - 1, e2)
    ∧ (∀ s result s1, CatExp.toElem toElem type (.CatExp t1 a b) e2 s = .ok (result, s1) →
        ∃ elms elemvars,
          result = (temp_var s.temps (constructor (Tree.elts elms)) :: elemvars).foldl
            (fun r v => bind_expr v r)
            (build_libcall .LIBCALL_ARRAYCATNTX [build_typeinfo type,
              d_array_value (size_int (CatExp.leaves (.CatExp type (.CatExp t1 a b) e2)).length)
                (build_address (temp_var s.temps (constructor (Tree.elts elms))))])
          ∧ List.Forall₂
              (fun p q => p.1 = q.1
                ∧ CatExp.stored toElem
                    (if (Expression.CatExp t1 a b).type.toBasetype.ty == .Tarray
                        || (Expression.CatExp t1 a b).type.toBasetype.ty == .Tsarray
                      then (Expression.CatExp t1 a b).type.toBasetype.nextOf
                      else e2.type.toBasetype.nextOf) q.2 p.2)
              elms (CatExp.leaves (.CatExp type (.CatExp t1 a b) e2)).enum.reverse) := by
  have hleaves : CatExp.leaves (.CatExp type (.CatExp t1 a b) e2)
      = CatExp.leaves (.CatExp t1 a b) ++ [e2] := rfl
  have hnd : CatExp.ndims_loop (.CatExp t1 a b) 2 = (CatExp.leaves (.CatExp t1 a b)).length + 1 := by
    have := CatExp.leaves_length_pos (.CatExp t1 a b)
    rw [CatExp.ndims_loop_eq _ _ 2 rfl]; omega
  have heq : ∀ s, CatExp.toElem toElem type (.CatExp t1 a b) e2 s
        = CatExp.spec_flattened toElem type (.CatExp t1 a b) e2 s := by
    intro s
    unfold CatExp.toElem CatExp.spec_flattened
    simp only [Lower.bind_apply, create_temporary_var, Lower.get_apply, Lower.set_apply,
      Lower.pure_apply, hnd]
    have hd : (((CatExp.leaves (.CatExp t1 a b)).length + 1 : Nat) : Int) - 1
        = ((0 + (CatExp.leaves (.CatExp t1 a b)).length : Nat) : Int) := by
      push_cast; ring
    rw [hd, CatExp.elms_loop_eq_spec_store toElem _ _ (.CatExp t1 a b) e2 0 [] [] _ rfl]
    simp only [Lower.bind_apply, List.enum]
    rcases CatExp.spec_store toElem _
      (List.enumFrom 0 (CatExp.leaves (.CatExp t1 a b) ++ [e2])).reverse [] []
      { s with temps := s.temps + 1 } with err | ⟨⟨elms, vars⟩, sA⟩
    · rfl
    · simp [gcc_assert]
  refine ⟨heq, ?_, ?_, ?_, ?_⟩
  · rw [List.map_reverse, List.enum_map_fst]
  · intro k leaf
    rw [List.mem_reverse, List.mk_mem_enum_iff_getElem?]
  · rw [hleaves]
    simp [List.enum, List.enumFrom_append]
  · intro s result s1 h
    rw [heq s] at h
    unfold CatExp.spec_flattened at h
    simp only [Lower.bind_apply, create_temporary_var, Lower.get_apply, Lower.set_apply,
      Lower.pure_apply] at h
    generalize hS : CatExp.spec_store toElem _ _ [] [] _ = r at h
    rcases r with err | ⟨⟨elms, vars⟩, sA⟩
    · simp at h
    · simp only [Except.ok.injEq, Prod.mk.injEq] at h
      obtain ⟨added, hr, hall⟩ := CatExp.spec_store_stored toElem _ _ _ _ _ _ _ hS
      simp only [List.nil_append] at hr
      subst hr
      exact ⟨elms, vars, by rw [← h.1, hleaves], by rw [hleaves]; exact hall⟩

/-! ## Assignments, bounds checks, ordering comparisons, identity, deletion and powers -/

/-- C21, amended: for a slice array copy `a[] = b` (not `ismemset`), with
`postblit` the flag of the rule (the element type needs postblit and the
source, or the operand of a source that is a slice or a cast, is an lvalue):
with `postblit` clear and bounds checking off the rule lowers the target and
then the source and returns `(memcpy (t1.ptr, t2.ptr, t1.length * size), t1)`;
with `postblit` set and an operation that is no blit it lowers the source and
then the target and returns the call of `_d_arrayctor` for a construct and of
`_d_arrayassign` otherwise; in the remaining cases it returns the call of
`_d_arraycopy`. -/
theorem AssignExp_slice_copy_selection (toElem : Expression → Lower Tree) (op : TOK)
    (type : DType) (se_e1 : Expression) (lwr upr : Option Expression)
    (upperIsInBounds lowerIsLessThanUpper : Bool) (lengthVar : Option String)
    (e2 : Expression) (next : DType)
    (hnext : se_e1.type.toBasetype.nextOf = some next)
    (hptr : e2.type.ty ≠ .Tpointer) :
    (∀ s s1 s2 s3 a1 t1 t2,
      (needsPostblit next.toBasetype && rhs_isLvalue e2) = false →
      s.array_bounds_check = false →
      d_array_convert toElem
        (.SliceExp type se_e1 lwr upr upperIsInBounds lowerIsLessThanUpper lengthVar) s
          = .ok (a1, s1) →
      maybe_make_temp a1 s1 = .ok (t1, s2) →
      d_array_convert toElem e2 s2 = .ok (t2, s3) →
      AssignExp.toElem toElem op
          (.SliceExp type se_e1 lwr upr upperIsInBounds lowerIsLessThanUpper lengthVar)
          e2 false s
        = .ok (compound_expr
            (d_build_call_nary .BUILT_IN_MEMCPY [d_array_ptr t1, d_array_ptr t2,
              fold_build2 .MULT_EXPR (d_convert (d_array_length t1))
                (size_int next.toBasetype.size)]) t1, s3))
    ∧ (∀ s s1 s2 s3 a2 arg1 arg2,
      (needsPostblit next.toBasetype && rhs_isLvalue e2) = true →
      op ≠ .TOKblit →
      d_array_convert toElem e2 s = .ok (a2, s1) →
      maybe_make_temp a2 s1 = .ok (arg1, s2) →
      d_array_convert toElem
        (.SliceExp type se_e1 lwr upr upperIsInBounds lowerIsLessThanUpper lengthVar) s2
          = .ok (arg2, s3) →
      AssignExp.toElem toElem op
          (.SliceExp type se_e1 lwr upr upperIsInBounds lowerIsLessThanUpper lengthVar)
          e2 false s
        = .ok (build_libcall
            (if op = .TOKconstruct then .LIBCALL_ARRAYCTOR else .LIBCALL_ARRAYASSIGN)
            [build_typeinfo next.toBasetype, arg1, arg2], s3))
    ∧ (∀ s s1 s2 s3 a2 arg1 arg2,
      ((needsPostblit next.toBasetype && rhs_isLvalue e2) = true ∧ op = .TOKblit
        ∨ (needsPostblit next.toBasetype && rhs_isLvalue e2) = false
          ∧ s.array_bounds_check = true) →
      d_array_convert toElem e2 s = .ok (a2, s1) →
      maybe_make_temp a2 s1 = .ok (arg1, s2) →
      d_array_convert toElem
        (.SliceExp type se_e1 lwr upr upperIsInBounds lowerIsLessThanUpper lengthVar) s2
          = .ok (arg2, s3) →
      AssignExp.toElem toElem op
          (.SliceExp type se_e1 lwr upr upperIsInBounds lowerIsLessThanUpper lengthVar)
          e2 false s
        = .ok (build_libcall .LIBCALL_ARRAYCOPY
            [size_int next.toBasetype.size, arg1, arg2], s3)) := by
  have hp : (e2.type.ty != .Tpointer) = true := by simpa using hptr
  refine ⟨?_, ?_, ?_⟩
  · intro s s1 s2 s3 a1 t1 t2 hpb habc h1 hm h2
    simp only [AssignExp.toElem, AssignExp.toElem_slice, hnext, Lower.bind_apply,
      Lower.pure_apply, Bool.false_eq_true, if_false, hp, gcc_assert_true, Lower.get_apply,
      hpb, habc, Bool.not_false, Bool.and_self, if_true, h1, hm, h2]
  · intro s s1 s2 s3 a2 arg1 arg2 hpb hop h2 hm h1
    have hop2 : (op != .TOKblit) = true := by simpa using hop
    simp only [AssignExp.toElem, AssignExp.toElem_slice, hnext, Lower.bind_apply,
      Lower.pure_apply, Bool.false_eq_true, if_false, hp, gcc_assert_true, Lower.get_apply,
      hpb, Bool.not_true, Bool.false_and, Bool.true_and, hop2, if_true, h1, hm, h2]
    by_cases hc : op = .TOKconstruct <;> simp [hc]
  · intro s s1 s2 s3 a2 arg1 arg2 hcase h2 hm h1
    rcases hcase with ⟨hpb, hop⟩ | ⟨hpb, habc⟩
    · subst hop
      simp only [AssignExp.toElem, AssignExp.toElem_slice, hnext, Lower.bind_apply,
        Lower.pure_apply, Bool.false_eq_true, if_false, hp, gcc_assert_true, Lower.get_apply,
        hpb, Bool.not_true, Bool.false_and, Bool.true_and, if_true, h1, hm, h2]
      simp [h1, hm, h2]
    · simp only [AssignExp.toElem, AssignExp.toElem_slice, hnext, Lower.bind_apply,
        Lower.pure_apply, Bool.false_eq_true, if_false, hp, gcc_assert_true, Lower.get_apply,
        hpb, habc, Bool.not_true, Bool.not_false, Bool.and_false, Bool.false_and, if_true, h1,
        hm, h2]

/-- The copy `a ()[] = b` of `int[]` operands with bounds checking off. -/
theorem AssignExp_slice_copy_selection_witness :
    AssignExp.toElem (toElem 2) .TOKassign (whole_slice (.TypeBasic .Tint32))
        (int_array "b" false) false (IRState.start false)
      = .ok (compound_expr
          (d_build_call_nary .BUILT_IN_MEMCPY
            [d_array_ptr (save_expr 0 (atom "a ()" true)), d_array_ptr (atom "b" false),
              fold_build2 .MULT_EXPR (d_convert (d_array_length (save_expr 0 (atom "a ()" true))))
                (size_int 4)])
          (save_expr 0 (atom "a ()" true)), { IRState.start false with temps := 1 }) :=
  (AssignExp_slice_copy_selection (toElem 2) .TOKassign (.TypeDArray (.TypeBasic .Tint32))
    (.ElemExp .TOKcall (.TypeDArray (.TypeBasic .Tint32)) (atom "a ()" true) false) none none
    true true none (int_array "b" false) (.TypeBasic .Tint32) rfl (by decide)).1
    (IRState.start false) (IRState.start false) { IRState.start false with temps := 1 }
    { IRState.start false with temps := 1 } (atom "a ()" true) (save_expr 0 (atom "a ()" true))
    (atom "b" false) rfl rfl rfl rfl rfl

/-- C21 as claimed fails: the elements of `a ()[] = b ()` are structs with a
postblit, and yet, the source being no lvalue and bounds checking off, the
copy is a raw `memcpy`. -/
theorem AssignExp_slice_copy_memcpy_despite_postblit :
    needsPostblit (DType.TypeStruct postblit_struct) = true
    ∧ AssignExp.toElem (toElem 2) .TOKassign (whole_slice (.TypeStruct postblit_struct))
        (.ElemExp .TOKcall (.TypeDArray (.TypeStruct postblit_struct)) (atom "b ()" true) false)
        false (IRState.start false)
      = .ok (compound_expr
          (d_build_call_nary .BUILT_IN_MEMCPY
            [d_array_ptr (save_expr 0 (atom "a ()" true)), d_array_ptr (atom "b ()" true),
              fold_build2 .MULT_EXPR (d_convert (d_array_length (save_expr 0 (atom "a ()" true))))
                (size_int 8)])
          (save_expr 0 (atom "a ()" true)), { IRState.start false with temps := 1 }) :=
  ⟨rfl, rfl⟩

theorem AssignExp.toElem_eq_rest (toElem : Expression → Lower Tree) (op : TOK)
    (e1 e2 : Expression) (ismemset : Bool)
    (hs : e1.op ≠ .TOKslice) (ha : e1.op ≠ .TOKarraylength) :
    AssignExp.toElem toElem op e1 e2 ismemset = AssignExp.toElem_rest toElem op e1 e2 := by
  cases e1 <;> first | rfl | exact absurd rfl hs | exact absurd rfl ha

/-- C22: for an assignment that is no reference initialization, whose left
side has the struct type `sd` and whose right side is an integer literal,
`AssignExp::toElem` lowers the left side and then the literal and returns
`(memset (&t1, t2, sd->structsize), t1)`, `t2` the converted literal, with the
assignment `t1.this = build_vthis (sd)` after the `memset` exactly when the
struct is nested: the value is the lowered left side and there is no
assignment of the struct. -/
theorem AssignExp_struct_literal_memset (toElem : Expression → Lower Tree) (op : TOK)
    (e1 e2 : Expression) (ismemset : Bool) (sd : StructDeclaration) (s s1 s2 : IRState)
    (t1 t2 : Tree)
    (hs : e1.op ≠ .TOKslice) (ha : e1.op ≠ .TOKarraylength)
    (href : ∀ t decl, e1 = .VarExp t decl → op = .TOKconstruct →
      decl.storage_class.contains .STCout = false ∧ decl.storage_class.contains .STCref = false)
    (hsd : e1.type.toBasetype = .TypeStruct sd)
    (hint : e2.op = .TOKint64)
    (h1 : toElem e1 s = .ok (t1, s1))
    (h2 : toElem e2 s1 = .ok (t2, s2)) :
    AssignExp.toElem toElem op e1 e2 ismemset s
      = .ok (compound_expr
          (if sd.isNested then
            compound_expr
              (d_build_call_nary .BUILT_IN_MEMSET [build_address t1,
                convert_for_assignment t2 e2.type e1.type, size_int sd.structsize])
              (modify_expr (component_ref t1 "this") (build_vthis sd))
          else
            d_build_call_nary .BUILT_IN_MEMSET [build_address t1,
              convert_for_assignment t2 e2.type e1.type, size_int sd.structsize])
          t1, s2) := by
  rw [AssignExp.toElem_eq_rest toElem op e1 e2 ismemset hs ha]
  unfold AssignExp.toElem_rest
  split
  · rename_i h
    exfalso
    cases e1 <;> simp at h
    obtain ⟨a, b⟩ := href _ _ rfl h.1
    simp only [List.contains_eq_any_beq, List.any_eq_false, beq_iff_eq] at a b
    rcases h.2 with h3 | h3
    · exact a _ h3 rfl
    · exact b _ h3 rfl
  · simp only [hsd, Lower.bind_apply, h1, h2, hint, beq_self_eq_true, if_true,
      Lower.pure_apply]

/-- The initialization `s = 0` of a nested struct. -/
theorem AssignExp_struct_literal_memset_witness :
    AssignExp.toElem (toElem 1) .TOKconstruct (struct_value (plain_struct true) "s")
        (.IntegerExp (.TypeBasic .Tint32) 0) false (IRState.start true)
      = .ok (build2 .COMPOUND_EXPR
          (build2 .COMPOUND_EXPR
            (call_expr (build1 .ADDR_EXPR (builtin_decl .BUILT_IN_MEMSET))
              (Tree.list [build1 .ADDR_EXPR (atom "s" false),
                helper "convert_for_assignment" false (Tree.list [integer_cst 0]),
                integer_cst 8]))
            (build2 .MODIFY_EXPR (component_ref (atom "s" false) "this")
              (build_vthis (plain_struct true))))
          (atom "s" false), IRState.start true) :=
  AssignExp_struct_literal_memset (toElem 1) .TOKconstruct (struct_value (plain_struct true) "s")
    (.IntegerExp (.TypeBasic .Tint32) 0) false (plain_struct true) (IRState.start true)
    (IRState.start true) (IRState.start true) (atom "s" false) (integer_cst 0)
    (by decide) (by decide) (fun t decl h => by cases h) rfl rfl rfl rfl

/-- C23: for an assignment that is no reference initialization to a
fixed-size array of element type `etype` (the left side no slice), with
`plain` the test of the rule (the element type needs no postblit, or the
operation is a construct from a source that is no lvalue, or a blit, or the
array has size 0): when `plain` holds the rule lowers both sides and returns
the assignment `t1 = t2`; otherwise, for a construct, the call of
`_d_arrayctor` and, for any other operation, the call of `_d_arrayassign_l`
for an lvalue source and of `_d_arrayassign_r` for any other, each followed by
the lowered left side.  The construct helper is reached only with an element
type that needs postblit and an lvalue source. -/
theorem AssignExp_sarray_selection (toElem : Expression → Lower Tree) (op : TOK)
    (e1 e2 : Expression) (ismemset : Bool) (etype : DType) (dim : Nat)
    (hs : e1.op ≠ .TOKslice) (ha : e1.op ≠ .TOKarraylength)
    (href : ∀ t decl, e1 = .VarExp t decl → op = .TOKconstruct →
      decl.storage_class.contains .STCout = false ∧ decl.storage_class.contains .STCref = false)
    (hsa : e1.type.toBasetype = .TypeSArray etype dim)
    (h2sa : e2.type.toBasetype.ty = .Tsarray) :
    (∀ s s1 s2 t1 t2,
      (!needsPostblit etype
        || (op == .TOKconstruct && !rhs_isLvalue e2 && needsPostblit etype)
        || (op == .TOKblit || e1.type.size == 0)) = true →
      toElem e1 s = .ok (t1, s1) → toElem e2 s1 = .ok (t2, s2) →
      AssignExp.toElem toElem op e1 e2 ismemset s
        = .ok (modify_expr t1 (convert_for_assignment t2 e2.type e1.type), s2))
    ∧ (∀ s s1 s2 s3 arg1 arg2 t1,
      (!needsPostblit etype
        || (op == .TOKconstruct && !rhs_isLvalue e2 && needsPostblit etype)
        || (op == .TOKblit || e1.type.size == 0)) = false →
      op = .TOKconstruct →
      d_array_convert toElem e2 s = .ok (arg1, s1) →
      d_array_convert toElem e1 s1 = .ok (arg2, s2) →
      toElem e1 s2 = .ok (t1, s3) →
      AssignExp.toElem toElem op e1 e2 ismemset s
        = .ok (compound_expr
            (build_libcall .LIBCALL_ARRAYCTOR [build_typeinfo etype, arg1, arg2]) t1, s3))
    ∧ (∀ s s1 s2 s3 arg1 arg2 t1,
      (!needsPostblit etype
        || (op == .TOKconstruct && !rhs_isLvalue e2 && needsPostblit etype)
        || (op == .TOKblit || e1.type.size == 0)) = false →
      op ≠ .TOKconstruct →
      d_array_convert toElem e2 { s with temps := s.temps + 1 } = .ok (arg1, s1) →
      d_array_convert toElem e1 s1 = .ok (arg2, s2) →
      toElem e1 s2 = .ok (t1, s3) →
      AssignExp.toElem toElem op e1 e2 ismemset s
        = .ok (compound_expr
            (build_libcall
              (if rhs_isLvalue e2 then .LIBCALL_ARRAYASSIGN_L else .LIBCALL_ARRAYASSIGN_R)
              [build_typeinfo etype, arg1, arg2,
                build_address (temp_var s.temps null_tree)]) t1, s3))
    ∧ ((!needsPostblit etype
        || (op == .TOKconstruct && !rhs_isLvalue e2 && needsPostblit etype)
        || (op == .TOKblit || e1.type.size == 0)) = false →
      op = .TOKconstruct → needsPostblit etype = true ∧ rhs_isLvalue e2 = true) := by
  have h2sa2 : (e2.type.toBasetype.ty == .Tsarray) = true := by simp [h2sa]
  refine ⟨?_, ?_, ?_, ?_⟩
  · intro s s1 s2 t1 t2 hplain h1 h2
    rw [AssignExp.toElem_eq_rest toElem op e1 e2 ismemset hs ha]
    unfold AssignExp.toElem_rest
    split
    · rename_i h
      exfalso
      cases e1 <;> simp at h
      obtain ⟨a, b⟩ := href _ _ rfl h.1
      simp only [List.contains_eq_any_beq, List.any_eq_false, beq_iff_eq] at a b
      rcases h.2 with h3 | h3
      · exact a _ h3 rfl
      · exact b _ h3 rfl
    · simp only [hsa, Lower.bind_apply, h2sa2, gcc_assert_true, hplain, if_true, h1, h2,
        Lower.pure_apply]
  · intro s s1 s2 s3 arg1 arg2 t1 hplain hop h2 h1 h1b
    rw [AssignExp.toElem_eq_rest toElem op e1 e2 ismemset hs ha]
    unfold AssignExp.toElem_rest
    split
    · rename_i h
      exfalso
      cases e1 <;> simp at h
      obtain ⟨a, b⟩ := href _ _ rfl h.1
      simp only [List.contains_eq_any_beq, List.any_eq_false, beq_iff_eq] at a b
      rcases h.2 with h3 | h3
      · exact a _ h3 rfl
      · exact b _ h3 rfl
    · simp only [hsa, Lower.bind_apply, h2sa2, gcc_assert_true, hplain]
      simp only [hop, beq_self_eq_true, if_true, h1, h2, h1b, Lower.pure_apply,
        Bool.false_eq_true, if_false, Lower.bind_apply]
  · intro s s1 s2 s3 arg1 arg2 t1 hplain hop h2 h1 h1b
    have hop2 : (op == .TOKconstruct) = false := by simpa using hop
    rw [AssignExp.toElem_eq_rest toElem op e1 e2 ismemset hs ha]
    unfold AssignExp.toElem_rest
    split
    · rename_i h
      exfalso
      cases e1 <;> simp at h
      obtain ⟨a, b⟩ := href _ _ rfl h.1
      simp only [List.contains_eq_any_beq, List.any_eq_false, beq_iff_eq] at a b
      rcases h.2 with h3 | h3
      · exact a _ h3 rfl
      · exact b _ h3 rfl
    · simp only [hsa, Lower.bind_apply, h2sa2, gcc_assert_true, hplain]
      simp only [hop2, create_temporary_var, Lower.get_apply, Lower.set_apply, if_true, h1, h2,
        h1b, Lower.pure_apply, Bool.false_eq_true, if_false, Lower.bind_apply]
  · intro hplain hop
    subst hop
    cases hp : needsPostblit etype <;> cases hl : rhs_isLvalue e2 <;> simp [hp, hl] at hplain ⊢

/-- The assignment `a = b` of fixed-size arrays of a struct with a postblit,
`b` an lvalue: the elements are assigned by `_d_arrayassign_l`. -/
theorem AssignExp_sarray_selection_witness :
    AssignExp.toElem (toElem 1) .TOKassign (struct_sarray postblit_struct "a" true)
        (struct_sarray postblit_struct "b" true) false (IRState.start true)
      = .ok (compound_expr
          (build_libcall .LIBCALL_ARRAYASSIGN_L
            [build_typeinfo (.TypeStruct postblit_struct),
              d_array_value (size_int 2) (build_nop (build_address (atom "b" false))),
              d_array_value (size_int 2) (build_nop (build_address (atom "a" false))),
              build_address (temp_var 0 null_tree)])
          (atom "a" false), { IRState.start true with temps := 1 }) :=
  (AssignExp_sarray_selection (toElem 1) .TOKassign (struct_sarray postblit_struct "a" true)
    (struct_sarray postblit_struct "b" true) false (.TypeStruct postblit_struct) 2
    (by decide) (by decide) (fun t decl h => by cases h) rfl rfl).2.2.1
    (IRState.start true) { IRState.start true with temps := 1 }
    { IRState.start true with temps := 1 } { IRState.start true with temps := 1 }
    (d_array_value (size_int 2) (build_nop (build_address (atom "b" false))))
    (d_array_value (size_int 2) (build_nop (build_address (atom "a" false))))
    (atom "a" false) (by decide) (by decide) rfl rfl rfl

/-- C24, amended: for an index into an associative array `IndexExp::toElem`
lowers the key and then the array and calls the runtime helper for the slot
pointer.  With `indexIsInBounds` false and bounds checking on, the call is
captured in a temporary `res` and the result is
`*(res != 0 ? res : _d_array_bounds ())`, whose effects are those of the call,
once; with bounds checking off, or `indexIsInBounds` true, the result is the
dereference of the call, with no test. -/
theorem IndexExp_aa_null_test (toElem : Expression → Lower Tree) (e1 e2 : Expression)
    (modifiable indexIsInBounds : Bool) (lengthVar : Option String) (next index : DType)
    (s s1 s2 : IRState) (tk ta : Tree)
    (haa : e1.type.toBasetype = .TypeAArray next index)
    (h2 : toElem e2 s = .ok (tk, s1))
    (h1 : toElem e1 s1 = .ok (ta, s2)) :
    ∃ call,
      call = build_libcall
          (if modifiable then .LIBCALL_AAGETY else .LIBCALL_AAGETRVALUEX)
          [if modifiable then build_address ta else ta,
            if modifiable then build_typeinfo e1.type.toBasetype
            else build_typeinfo index.toBasetype,
            size_int next.size,
            build_address (convert_expr tk e2.type index.toBasetype)]
      ∧ IndexExp.toElem toElem e1 e2 modifiable indexIsInBounds lengthVar s
        = (if indexIsInBounds = false ∧ s2.array_bounds_check = true then
            .ok (indirect_ref (build_condition
                (d_truthvalue_conversion (save_expr s2.temps call))
                (save_expr s2.temps call) (d_assert_call .LIBCALL_ARRAY_BOUNDS)),
              { s2 with temps := s2.temps + 1 })
          else .ok (indirect_ref call, s2))
      ∧ (indirect_ref (build_condition
            (d_truthvalue_conversion (save_expr s2.temps call))
            (save_expr s2.temps call) (d_assert_call .LIBCALL_ARRAY_BOUNDS))).effects
          = call.effects
      ∧ (Tree.calls_order (indirect_ref (build_condition
            (d_truthvalue_conversion (save_expr s2.temps call))
            (save_expr s2.temps call) (d_assert_call .LIBCALL_ARRAY_BOUNDS))) []).1
          = (call.calls_order []).1 ++ [.LIBCALL_ARRAY_BOUNDS] := by
  refine ⟨_, rfl, ?_, ?_, ?_⟩
  · unfold IndexExp.toElem
    simp only [haa, DType.ty, beq_self_eq_true, if_true, Lower.bind_apply, h2, h1,
      Lower.pure_apply, Lower.get_apply]
    cases modifiable <;> cases indexIsInBounds <;> cases hb : s2.array_bounds_check <;>
      simp [hb, make_temp, h1, h2]
  · simp [Tree.effects, indirect_ref, build_condition, d_truthvalue_conversion, d_assert_call,
      build_libcall, Tree.list, Tree.eval_order]
  · simp [indirect_ref, build_condition, d_truthvalue_conversion, d_assert_call,
      build_libcall, Tree.list, Tree.calls_order, calls_order_seen]

/-- The element `aa[k]` read with bounds checking on. -/
theorem IndexExp_aa_null_test_witness :
    ∃ call,
      call = build_libcall .LIBCALL_AAGETRVALUEX
          [atom "aa" false, build_typeinfo (.TypeBasic .Tint32), size_int 4,
            build_address (atom "k" false)]
      ∧ IndexExp.toElem (toElem 1) (int_aarray "aa" false) (int_value "k" false) false false
          none (IRState.start true)
        = .ok (indirect_ref (build_condition
              (d_truthvalue_conversion (save_expr 0 call))
              (save_expr 0 call) (d_assert_call .LIBCALL_ARRAY_BOUNDS)),
            { IRState.start true with temps := 1 }) := by
  obtain ⟨call, hc, h, _⟩ := IndexExp_aa_null_test (toElem 1) (int_aarray "aa" false)
    (int_value "k" false) false false none (.TypeBasic .Tint32) (.TypeBasic .Tint32)
    (IRState.start true) (IRState.start true) (IRState.start true) (atom "k" false)
    (atom "aa" false) rfl rfl rfl
  exact ⟨call, hc, h⟩

/-- C24 as claimed fails: with bounds checking off the slot pointer of
`aa[k]`, `indexIsInBounds` false, is dereferenced without a null test, and
`_d_array_bounds` is not called. -/
theorem IndexExp_aa_no_test_when_unchecked :
    IndexExp.toElem (toElem 1) (int_aarray "aa" false) (int_value "k" false) false false none
        (IRState.start false)
      = .ok (indirect_ref (build_libcall .LIBCALL_AAGETRVALUEX
          [atom "aa" false, build_typeinfo (.TypeBasic .Tint32), size_int 4,
            build_address (atom "k" false)]), IRState.start false)
    ∧ LibCall.LIBCALL_ARRAY_BOUNDS ∉ libcalls (indirect_ref (build_libcall .LIBCALL_AAGETRVALUEX
          [atom "aa" false, build_typeinfo (.TypeBasic .Tint32), size_int 4,
            build_address (atom "k" false)])) :=
  ⟨rfl, by decide⟩

theorem build_bounds_condition_captured (t len : Tree) (inclusive : Bool) (s : IRState)
    (h : d_has_side_effects t = false) :
    build_bounds_condition t len inclusive s
      = .ok (if s.array_bounds_check then
               build3 .COND_EXPR (build2 (if inclusive then .GT_EXPR else .GE_EXPR) t len)
                 (call_expr (libcall_decl .LIBCALL_ARRAY_BOUNDS) null_tree) t
             else t, s) := by
  cases hb : s.array_bounds_check <;>
    simp [build_bounds_condition, hb, maybe_make_temp, h, build_condition, build_libcall,
      Tree.list]

theorem SliceExp.toElem_upper_some (toElem : Expression → Lower Tree) (tb1 : DType)
    (upr : Expression) (upperIsInBounds lowerIsLessThanUpper : Bool) (array ptr : Tree)
    (length : Option Tree) (l : Tree) (s s1 s2 : IRState) (tu upr_tree : Tree)
    (hp : length = none → tb1.ty = .Tpointer)
    (hl : d_has_side_effects l = false)
    (h3 : toElem upr s = .ok (tu, s1))
    (hm : maybe_make_temp tu s1 = .ok (upr_tree, s2)) :
    SliceExp.toElem_upper toElem tb1 (some upr) upperIsInBounds lowerIsLessThanUpper array ptr
        length (some l) s
      = .ok (compound_expr array (d_array_value
          (build2 .MINUS_EXPR
            (compound_expr l (slice_upper_checked s2.array_bounds_check upperIsInBounds
              lowerIsLessThanUpper length l upr_tree)) l) ptr), s2) := by
  have hu := maybe_make_temp_no_side_effects tu upr_tree s1 s2 hm
  unfold SliceExp.toElem_upper
  simp only [Lower.bind_apply, h3, hm, Lower.pure_apply]
  cases upperIsInBounds <;> cases lowerIsLessThanUpper <;> cases hb : s2.array_bounds_check <;>
    rcases length with _ | len <;>
    simp [hb, build_bounds_condition_captured, hu, hl, hp, gcc_assert,
      slice_upper_checked, fold_build2, compound_expr]

theorem SliceExp.toElem_upper_none (toElem : Expression → Lower Tree) (tb1 : DType)
    (upr : Expression) (upperIsInBounds lowerIsLessThanUpper : Bool) (array ptr : Tree)
    (length : Option Tree) (s s1 s2 : IRState) (tu upr_tree : Tree)
    (hp : length = none → tb1.ty = .Tpointer)
    (h3 : toElem upr s = .ok (tu, s1))
    (hm : maybe_make_temp tu s1 = .ok (upr_tree, s2)) :
    SliceExp.toElem_upper toElem tb1 (some upr) upperIsInBounds lowerIsLessThanUpper array ptr
        length none s
      = .ok (compound_expr array (d_array_value
          (slice_upper_checked s2.array_bounds_check upperIsInBounds true length upr_tree
            upr_tree) ptr), s2) := by
  have hu := maybe_make_temp_no_side_effects tu upr_tree s1 s2 hm
  unfold SliceExp.toElem_upper
  simp only [Lower.bind_apply, h3, hm, Lower.pure_apply]
  cases upperIsInBounds <;> cases hb : s2.array_bounds_check <;>
    rcases length with _ | len <;>
    simp [hb, build_bounds_condition_captured, hu, hp, gcc_assert,
      slice_upper_checked, compound_expr]

/-- C25, amended: for a slice with both bounds given and a dynamic-array
result, `SliceExp::toElem` lowers and captures the base, the lower bound `l`
and the upper bound `u` in turn and returns the base followed by the array of
the new length and the pointer.  The new length holds the check
`u > length ? _d_array_bounds () : u` exactly when `upperIsInBounds` is false,
the base is no pointer and bounds checking is on, and before it the check
`l > u ? _d_array_bounds () : l` exactly when the lower bound is not the
constant zero, `lowerIsLessThanUpper` is false and bounds checking is on; it
holds no other call of `_d_array_bounds`. -/
theorem SliceExp_bounds_checks (toElem : Expression → Lower Tree) (type : DType)
    (e1 lwr upr : Expression) (upperIsInBounds lowerIsLessThanUpper : Bool)
    (lengthVar : Option String) (next : DType) (s s1 s1a s2 s2a s3 s3a : IRState)
    (tx array tl l tu u : Tree)
    (hty : type.toBasetype.ty = .Tarray)
    (hnext : e1.type.toBasetype.nextOf = some next)
    (hptr : e1.type.toBasetype.ty = .Tpointer → lengthVar = none)
    (h1 : toElem e1 s = .ok (tx, s1))
    (ha : maybe_make_temp tx s1 = .ok (array, s1a))
    (h2 : toElem lwr s1a = .ok (tl, s2))
    (hl : maybe_make_temp tl s2 = .ok (l, s2a))
    (h3 : toElem upr s2a = .ok (tu, s3))
    (hu : maybe_make_temp tu s3 = .ok (u, s3a)) :
    (∃ length checked,
      length = (if e1.type.toBasetype.ty = .Tpointer then none
                else some (get_array_length array e1.type.toBasetype))
      ∧ checked = slice_upper_checked s3a.array_bounds_check upperIsInBounds
          (lowerIsLessThanUpper || integer_zerop l) length l u
      ∧ SliceExp.toElem toElem type e1 (some lwr) (some upr) upperIsInBounds
          lowerIsLessThanUpper lengthVar s
        = .ok (compound_expr array
            (if integer_zerop l = true then
               d_array_value checked (convert_expr array e1.type.toBasetype next.pointerTo)
             else
               d_array_value (build2 .MINUS_EXPR (compound_expr l checked) l)
                 (build_nop (build_array_index
                   (void_okay_p (convert_expr array e1.type.toBasetype next.pointerTo)) l))),
            s3a)
      ∧ (libcalls l = [] → libcalls u = [] → libcalls array = [] →
          libcalls checked
            = (if lowerIsLessThanUpper = false ∧ integer_zerop l = false
                  ∧ s3a.array_bounds_check = true then [LibCall.LIBCALL_ARRAY_BOUNDS] else [])
              ++ (if upperIsInBounds = false ∧ e1.type.toBasetype.ty ≠ .Tpointer
                  ∧ s3a.array_bounds_check = true then [LibCall.LIBCALL_ARRAY_BOUNDS] else []))) := by
  refine ⟨_, _, rfl, rfl, ?_, ?_⟩
  · unfold SliceExp.toElem
    have hty2 : (type.toBasetype.ty == TY.Tarray || type.toBasetype.ty == TY.Tsarray) = true := by
      simp [hty]
    have hty3 : (type.toBasetype.ty == TY.Tsarray) = false := by simp [hty]
    have hty4 : (type.toBasetype.ty == TY.Tarray) = true := by simp [hty]
    have hls := maybe_make_temp_no_side_effects tl l s2 s2a hl
    by_cases hp : e1.type.toBasetype.ty = .Tpointer
    · have hlv := hptr hp
      subst hlv
      have hp2 : (e1.type.toBasetype.ty != TY.Tpointer) = false := by simp [hp]
      simp only [hty2, hty3, hty4, gcc_assert_true, Lower.bind_apply, Lower.pure_apply, h1, ha,
        h2, hl, hnext, Option.isSome_some, hp2, Bool.not_false, if_true, Bool.false_eq_true,
        if_false, Option.isNone_none, Bool.or_false, Bool.not_true, ite_true, ite_false]
      cases hz : integer_zerop l
      · simp only [Bool.not_false, if_true, Bool.false_eq_true, if_false, Bool.or_false, hp]
        rw [SliceExp.toElem_upper_some toElem _ upr upperIsInBounds lowerIsLessThanUpper _ _ none
          l s2a s3 s3a tu u (fun _ => hp) hls h3 hu]
      · simp only [Bool.not_true, if_true, Bool.false_eq_true, if_false, Bool.or_true, hp]
        rw [SliceExp.toElem_upper_none toElem _ upr upperIsInBounds lowerIsLessThanUpper _ _ none
          s2a s3 s3a tu u (fun _ => hp) h3 hu]
        simp [slice_upper_checked]
    · have hp2 : (e1.type.toBasetype.ty != TY.Tpointer) = true := by simp [hp]
      simp only [hty2, hty3, hty4, gcc_assert_true, Lower.bind_apply, Lower.pure_apply, h1, ha,
        h2, hl, hnext, Option.isSome_some, hp2, Bool.not_false, if_true, Bool.false_eq_true,
        if_false, Bool.or_false, Bool.not_true, ite_true, ite_false]
      cases hz : integer_zerop l
      · simp only [Bool.not_false, if_true, Bool.false_eq_true, if_false, Bool.or_false, hp]
        rw [SliceExp.toElem_upper_some toElem _ upr upperIsInBounds lowerIsLessThanUpper _ _ _
          l s2a s3 s3a tu u (fun h => by cases h) hls h3 hu]
      · simp only [Bool.not_true, if_true, Bool.false_eq_true, if_false, Bool.or_true, hp]
        rw [SliceExp.toElem_upper_none toElem _ upr upperIsInBounds lowerIsLessThanUpper _ _ _
          s2a s3 s3a tu u (fun h => by cases h) h3 hu]
        simp [slice_upper_checked]
  · intro h1 h2 h3
    have hg : libcalls (get_array_length array e1.type.toBasetype) = [] := by
      unfold get_array_length
      split <;> simp [libcalls, size_int, d_array_length, component_ref, error_mark_node, h3]
    by_cases hp : e1.type.toBasetype.ty = .Tpointer <;>
      cases upperIsInBounds <;> cases lowerIsLessThanUpper <;>
      cases hb : s3a.array_bounds_check <;> cases hz : integer_zerop l <;>
      simp [slice_upper_checked, libcalls, h1, h2, hg, hp]

/-- The slice `a[l..u]` of an `int[]` with bounds checking on and neither check
proven safe: both checks are made. -/
theorem SliceExp_bounds_checks_witness :
    ∃ checked,
      checked = slice_upper_checked true false false (some (d_array_length (atom "a" false)))
          (atom "l" false) (atom "u" false)
      ∧ SliceExp.toElem (toElem 1) (.TypeDArray (.TypeBasic .Tint32)) (int_array "a" false)
          (some (size_value "l")) (some (size_value "u")) false false none (IRState.start true)
        = .ok (compound_expr (atom "a" false)
            (d_array_value
              (build2 .MINUS_EXPR (compound_expr (atom "l" false) checked) (atom "l" false))
              (build_nop (build_array_index
                (void_okay_p (convert_expr (atom "a" false) (.TypeDArray (.TypeBasic .Tint32))
                  (DType.pointerTo (.TypeBasic .Tint32)))) (atom "l" false)))),
            IRState.start true)
      ∧ libcalls checked = [LibCall.LIBCALL_ARRAY_BOUNDS, LibCall.LIBCALL_ARRAY_BOUNDS] := by
  obtain ⟨length, checked, hlen, hc, h, hcalls⟩ :=
    SliceExp_bounds_checks (toElem 1) (.TypeDArray (.TypeBasic .Tint32)) (int_array "a" false)
      (size_value "l") (size_value "u") false false none (.TypeBasic .Tint32)
      (IRState.start true) (IRState.start true) (IRState.start true) (IRState.start true)
      (IRState.start true) (IRState.start true) (IRState.start true)
      (atom "a" false) (atom "a" false) (atom "l" false) (atom "l" false) (atom "u" false)
      (atom "u" false) rfl rfl (fun _ => rfl) rfl rfl rfl rfl rfl rfl
  subst hlen
  exact ⟨checked, hc, h, hcalls rfl rfl rfl⟩

/-- C25 as claimed fails: with bounds checking off the slice `a[l..u]` of an
`int[]`, neither check proven safe, is lowered without a check, and with bounds
checking on the slice `p[l..u]` of a pointer, `upperIsInBounds` false, is
lowered with the check `l > u` only. -/
theorem SliceExp_checks_left_out_unproven :
    toElem 2 array_slice (IRState.start false)
      = .ok (compound_expr (atom "a" false)
          (d_array_value
            (build2 .MINUS_EXPR (compound_expr (atom "l" false) (atom "u" false))
              (atom "l" false))
            (build_nop (build_array_index
              (void_okay_p (convert_expr (atom "a" false) (.TypeDArray (.TypeBasic .Tint32))
                (DType.pointerTo (.TypeBasic .Tint32)))) (atom "l" false)))),
          IRState.start false)
    ∧ toElem 2 pointer_slice (IRState.start true)
      = .ok (compound_expr (atom "p" false)
          (d_array_value
            (build2 .MINUS_EXPR
              (compound_expr (atom "l" false)
                (compound_expr
                  (build_condition (build2 .GT_EXPR (atom "l" false) (atom "u" false))
                    (build_libcall .LIBCALL_ARRAY_BOUNDS []) (atom "l" false))
                  (atom "u" false)))
              (atom "l" false))
            (build_nop (build_array_index
              (void_okay_p (convert_expr (atom "p" false) (.TypePointer (.TypeBasic .Tint32))
                (DType.pointerTo (.TypeBasic .Tint32)))) (atom "l" false)))),
          IRState.start true) :=
  ⟨rfl, rfl⟩

theorem DType.isfloating_of_array (t : DType) (h : t.ty = .Tsarray ∨ t.ty = .Tarray) :
    t.isfloating = false := by
  cases t with
  | TypeBasic ty => rcases h with h | h <;> (simp only [DType.ty] at h; subst h; rfl)
  | TypeEnum m => rcases h with h | h <;> simp [DType.ty] at h
  | _ => rfl

/-- C26: on operands that are not both arrays and of which one is non-floating,
hence on two scalar operands that are both non-floating, `CmpExp::toElem`
lowers the ordered query (`TOKleg`) to the constant true and the unordered
query (`TOKunord`) to the constant false: it returns the constant from the
state it was entered in, for every lowering of the operands, so neither
operand is lowered and no comparison is built. -/
theorem CmpExp_ordered_query_constant (toElem : Expression → Lower Tree)
    (e1 e2 : Expression) (s : IRState)
    (hscalar : ¬ ((e1.type.toBasetype.ty = .Tsarray ∨ e1.type.toBasetype.ty = .Tarray)
      ∧ (e2.type.toBasetype.ty = .Tsarray ∨ e2.type.toBasetype.ty = .Tarray)))
    (hf : e1.type.toBasetype.isfloating = false ∨ e2.type.toBasetype.isfloating = false) :
    CmpExp.toElem toElem .TOKleg e1 e2 s = .ok (boolean_true_node, s)
    ∧ CmpExp.toElem toElem .TOKunord e1 e2 s = .ok (boolean_false_node, s) := by
  have hc : ((e1.type.toBasetype.ty == .Tsarray || e1.type.toBasetype.ty == .Tarray)
      && (e2.type.toBasetype.ty == .Tsarray || e2.type.toBasetype.ty == .Tarray)) = false := by
    simpa using hscalar
  have hnf : (!e1.type.toBasetype.isfloating || !e2.type.toBasetype.isfloating) = true := by
    rcases hf with h | h <;> simp [h]
  constructor
  · unfold CmpExp.toElem
    simp [CmpExp.code, hc, hnf, convert_bool, integer_one_node, boolean_true_node]
  · unfold CmpExp.toElem
    simp [CmpExp.code, hc, hnf, convert_bool, integer_zero_node, boolean_false_node]

/-- The queries `a <>= f ()` and `a !<>= f ()` on `int` operands: the call
`f ()` is not lowered. -/
theorem CmpExp_ordered_query_constant_witness :
    CmpExp.toElem (toElem 1) .TOKleg (int_value "a" false) (int_value "f ()" true)
        (IRState.start true) = .ok (boolean_true_node, IRState.start true)
    ∧ CmpExp.toElem (toElem 1) .TOKunord (int_value "a" false) (int_value "f ()" true)
        (IRState.start true) = .ok (boolean_false_node, IRState.start true) :=
  CmpExp_ordered_query_constant (toElem 1) (int_value "a" false) (int_value "f ()" true)
    (IRState.start true) (by decide) (Or.inl rfl)

/-- C27: on two array operands and a relational token other than the ordered
and unordered queries, `CmpExp::toElem` converts the operands to dynamic
arrays, left one first, and returns `_adCmp2 (a, b, ti) OP 0`: one call of
`LIBCALL_ADCMP2` on the converted operands and the type descriptor of the
array of the left element type, compared with zero by the plain integer
operator of the token (`<`, `<=`, `>`, `>=` for `lt`, `le`, `gt`, `ge` and `==`,
`!=`, `<=`, `<`, `>=`, `>` for `ue`, `lg`, `ule`, `ul`, `uge`, `ug`). -/
theorem CmpExp_arrays_call_adcmp2 (toElem : Expression → Lower Tree) (op : TOK)
    (code : tree_code) (e1 e2 : Expression) (next : DType) (s s1 s2 : IRState) (t1 t2 : Tree)
    (harr1 : e1.type.toBasetype.ty = .Tsarray ∨ e1.type.toBasetype.ty = .Tarray)
    (harr2 : e2.type.toBasetype.ty = .Tsarray ∨ e2.type.toBasetype.ty = .Tarray)
    (hnext : e1.type.toBasetype.nextOf = some next)
    (hop : spec_sign_operator op = some code)
    (h1 : d_array_convert toElem e1 s = .ok (t1, s1))
    (h2 : d_array_convert toElem e2 s1 = .ok (t2, s2)) :
    CmpExp.toElem toElem op e1 e2 s
      = .ok (d_convert (build2 code
          (build_libcall .LIBCALL_ADCMP2 [t1, t2, build_typeinfo next.toBasetype.arrayOf])
          integer_zero_node), s2)
    ∧ libcalls (d_convert (build2 code
          (build_libcall .LIBCALL_ADCMP2 [t1, t2, build_typeinfo next.toBasetype.arrayOf])
          integer_zero_node))
        = .LIBCALL_ADCMP2 :: (libcalls t1 ++ libcalls t2) := by
  have hc : ((e1.type.toBasetype.ty == .Tsarray || e1.type.toBasetype.ty == .Tarray)
      && (e2.type.toBasetype.ty == .Tsarray || e2.type.toBasetype.ty == .Tarray)) = true := by
    simpa using ⟨harr1, harr2⟩
  have hf1 := DType.isfloating_of_array _ harr1
  constructor
  · unfold CmpExp.toElem
    cases op <;> simp [spec_sign_operator] at hop <;> subst hop <;>
      simp [CmpExp.code, hc, hf1, hnext, h1, h2, build_boolop]
  · simp [libcalls, d_convert, build_libcall, Tree.list, build_typeinfo, build_address,
      integer_zero_node]

/-- The comparison `f () < b` of `int[]` operands. -/
theorem CmpExp_arrays_call_adcmp2_witness :
    CmpExp.toElem (toElem 1) .TOKlt (int_array "f ()" true) (int_array "b" false)
        (IRState.start true)
      = .ok (build1 .NOP_EXPR (build2 .LT_EXPR
          (call_expr (libcall_decl .LIBCALL_ADCMP2)
            (Tree.list [atom "f ()" true, atom "b" false,
              build1 .ADDR_EXPR (typeinfo_decl (.TypeDArray (.TypeBasic .Tint32)))]))
          (integer_cst 0)), IRState.start true) :=
  (CmpExp_arrays_call_adcmp2 (toElem 1) .TOKlt .LT_EXPR (int_array "f ()" true)
    (int_array "b" false) (.TypeBasic .Tint32) (IRState.start true) (IRState.start true)
    (IRState.start true) (atom "f ()" true) (atom "b" false) (Or.inr rfl) (Or.inr rfl) rfl rfl
    rfl rfl).1

/-- C28: on floating operands `IdentityExp::toElem` lowers both operands, left
one first, and returns `memcmp (&e1, &e2, size) == 0` for `is` and
`memcmp (&e1, &e2, size) != 0` for `!is`, `size` being the precision of the
type of the left operand in bytes: the operands are compared through their
addresses only. -/
theorem IdentityExp_floating_bit_compare (toElem : Expression → Lower Tree)
    (precision : DType → Nat) (op : TOK) (e1 e2 : Expression) (s s1 s2 : IRState)
    (t1 t2 : Tree)
    (hf1 : e1.type.toBasetype.isfloating = true)
    (h1 : toElem e1 s = .ok (t1, s1))
    (h2 : toElem e2 s1 = .ok (t2, s2)) :
    IdentityExp.toElem toElem precision op e1 e2 s
      = .ok (build2 (if op = .TOKidentity then .EQ_EXPR else .NE_EXPR)
          (call_expr (build_address (builtin_decl .BUILT_IN_MEMCMP))
            (Tree.list [build_address t1, build_address t2,
              size_int (precision e1.type / BITS_PER_UNIT)]))
          (integer_cst 0), s2) := by
  have hna : ¬ (e1.type.toBasetype.ty = .Tsarray ∨ e1.type.toBasetype.ty = .Tarray) := by
    intro h
    rw [DType.isfloating_of_array _ h] at hf1
    cases hf1
  have hc : ((e1.type.toBasetype.ty == .Tsarray || e1.type.toBasetype.ty == .Tarray)
      && (e2.type.toBasetype.ty == .Tsarray || e2.type.toBasetype.ty == .Tarray)) = false := by
    simp only [Bool.and_eq_false_iff]
    left
    simpa using hna
  unfold IdentityExp.toElem
  simp only [hc, hf1, Bool.false_eq_true, if_false, if_true, Lower.bind_apply, h1, h2,
    Lower.pure_apply, build_boolop, d_build_call_nary, integer_zero_node]
  by_cases hop : op = .TOKidentity <;> simp [hop]

/-- The identity `x is f ()` of `double` operands. -/
theorem IdentityExp_floating_bit_compare_witness :
    IdentityExp.toElem (toElem 1) DType.precision .TOKidentity (double_value "x" false)
        (double_value "f ()" true) (IRState.start true)
      = .ok (build2 .EQ_EXPR
          (call_expr (build1 .ADDR_EXPR (builtin_decl .BUILT_IN_MEMCMP))
            (Tree.list [build1 .ADDR_EXPR (atom "x" false),
              build1 .ADDR_EXPR (atom "f ()" true), integer_cst 8]))
          (integer_cst 0), IRState.start true) :=
  IdentityExp_floating_bit_compare (toElem 1) DType.precision .TOKidentity
    (double_value "x" false) (double_value "f ()" true) (IRState.start true)
    (IRState.start true) (IRState.start true) (atom "x" false) (atom "f ()" true) rfl rfl rfl

/-- C29: `DeleteExp::toElem` lowers the operand and then, by its base type:
for a class, one call of the finalizer-only helper (`_d_callfinalizer`, for an
interface `_d_callinterfacefinalizer`) on a variable known to be on the stack,
and else one call of the deallocating helper on its address; for a dynamic
array one call of `_d_delarray_t`; for a pointer one call of `_d_delstruct` or
`_d_delmemory`; in these cases it reports nothing.  For any other base type it
reports an error and returns the error placeholder, and only then. -/
theorem DeleteExp_helper_or_error (toElem : Expression → Lower Tree) (e1 : Expression)
    (s s1 : IRState) (t1 : Tree)
    (hk : e1.type.toBasetype.basic_kind = true)
    (h1 : toElem e1 s = .ok (t1, s1)) :
    (∀ cd, e1.type.toBasetype = .TypeClass cd →
      DeleteExp.toElem toElem e1 s
        = .ok (if DeleteExp.onstack e1 then
            build_libcall (if cd.isInterfaceDeclaration then .LIBCALL_CALLINTERFACEFINALIZER
              else .LIBCALL_CALLFINALIZER) [t1]
          else
            build_libcall (if cd.isInterfaceDeclaration then .LIBCALL_DELINTERFACE
              else .LIBCALL_DELCLASS) [build_address t1], s1))
    ∧ (∀ next, e1.type.toBasetype = .TypeDArray next →
      DeleteExp.toElem toElem e1 s
        = .ok (build_libcall .LIBCALL_DELARRAYT [build_address t1,
            if (next.baseElemOf.sym.map (·.dtor)).getD false then getTypeInfo_toElem next
            else null_pointer_node], s1))
    ∧ (∀ next, e1.type.toBasetype = .TypePointer next →
      DeleteExp.toElem toElem e1 s
        = .ok (if (next.toBasetype.sym.map (·.dtor)).getD false then
            build_libcall .LIBCALL_DELSTRUCT
              [build_address t1, getTypeInfo_toElem next.toBasetype]
          else build_libcall .LIBCALL_DELMEMORY [build_address t1], s1))
    ∧ (e1.type.toBasetype.ty ≠ .Tclass → e1.type.toBasetype.ty ≠ .Tarray →
        e1.type.toBasetype.ty ≠ .Tpointer →
      DeleteExp.toElem toElem e1 s
        = .ok (error_mark_node,
            { s1 with errors := "don\x27t know how to delete" :: s1.errors }))
    ∧ ((∃ sf, DeleteExp.toElem toElem e1 s = .ok (error_mark_node, sf))
        ↔ (e1.type.toBasetype.ty ≠ .Tclass ∧ e1.type.toBasetype.ty ≠ .Tarray
            ∧ e1.type.toBasetype.ty ≠ .Tpointer))
    ∧ ((e1.type.toBasetype.ty = .Tclass ∨ e1.type.toBasetype.ty = .Tarray
          ∨ e1.type.toBasetype.ty = .Tpointer) →
        ∃ libcall args, DeleteExp.toElem toElem e1 s = .ok (build_libcall libcall args, s1)
          ∧ libcalls (build_libcall libcall args) = libcall :: libcalls t1) := by
  have hclass : ∀ cd, e1.type.toBasetype = .TypeClass cd →
      DeleteExp.toElem toElem e1 s
        = .ok (if DeleteExp.onstack e1 then
            build_libcall (if cd.isInterfaceDeclaration then .LIBCALL_CALLINTERFACEFINALIZER
              else .LIBCALL_CALLFINALIZER) [t1]
          else
            build_libcall (if cd.isInterfaceDeclaration then .LIBCALL_DELINTERFACE
              else .LIBCALL_DELCLASS) [build_address t1], s1) := by
    intro cd hcd
    unfold DeleteExp.toElem
    simp only [Lower.bind_apply, h1, hcd, DType.ty, beq_self_eq_true, if_true,
      DType.isClassHandle, Lower.pure_apply]
    by_cases ho : DeleteExp.onstack e1 = true <;> simp [ho]
  have harray : ∀ next, e1.type.toBasetype = .TypeDArray next →
      DeleteExp.toElem toElem e1 s
        = .ok (build_libcall .LIBCALL_DELARRAYT [build_address t1,
            if (next.baseElemOf.sym.map (·.dtor)).getD false then getTypeInfo_toElem next
            else null_pointer_node], s1) := by
    intro next hn
    unfold DeleteExp.toElem
    simp only [Lower.bind_apply, h1, hn, DType.ty, DType.nextOf, Lower.pure_apply]
    cases hb : next.baseElemOf <;> simp [DType.sym, hb]
  have hpointer : ∀ next, e1.type.toBasetype = .TypePointer next →
      DeleteExp.toElem toElem e1 s
        = .ok (if (next.toBasetype.sym.map (·.dtor)).getD false then
            build_libcall .LIBCALL_DELSTRUCT
              [build_address t1, getTypeInfo_toElem next.toBasetype]
          else build_libcall .LIBCALL_DELMEMORY [build_address t1], s1) := by
    intro next hn
    unfold DeleteExp.toElem
    simp only [Lower.bind_apply, h1, hn, DType.ty, DType.nextOf, Lower.pure_apply]
    cases hb : next.toBasetype <;> simp [DType.sym, hb]
    split <;> rfl
  have herr : e1.type.toBasetype.ty ≠ .Tclass → e1.type.toBasetype.ty ≠ .Tarray →
        e1.type.toBasetype.ty ≠ .Tpointer →
      DeleteExp.toElem toElem e1 s
        = .ok (error_mark_node,
            { s1 with errors := "don\x27t know how to delete" :: s1.errors }) := by
    intro hc ha hp
    unfold DeleteExp.toElem
    simp [Lower.bind_apply, h1, hc, ha, hp, error]
  have hcall : (e1.type.toBasetype.ty = .Tclass ∨ e1.type.toBasetype.ty = .Tarray
          ∨ e1.type.toBasetype.ty = .Tpointer) →
        ∃ libcall args, DeleteExp.toElem toElem e1 s = .ok (build_libcall libcall args, s1)
          ∧ libcalls (build_libcall libcall args) = libcall :: libcalls t1 := by
    intro h
    cases hb : e1.type.toBasetype with
    | TypeClass cd =>
      rw [hclass cd hb]
      by_cases ho : DeleteExp.onstack e1 = true
      · simp only [ho, if_true]
        exact ⟨_, _, rfl, by simp [libcalls, build_libcall, Tree.list]⟩
      · simp only [ho, Bool.false_eq_true, if_false]
        exact ⟨_, _, rfl, by simp [libcalls, build_libcall, Tree.list, build_address]⟩
    | TypeDArray next =>
      rw [harray next hb]
      refine ⟨_, _, rfl, ?_⟩
      split <;> simp [libcalls, build_libcall, Tree.list, build_address, getTypeInfo_toElem,
        build_typeinfo, null_pointer_node]
    | TypePointer next =>
      rw [hpointer next hb]
      split
      · exact ⟨_, _, rfl, by
          simp [libcalls, build_libcall, Tree.list, build_address, getTypeInfo_toElem,
            build_typeinfo]⟩
      · exact ⟨_, _, rfl, by simp [libcalls, build_libcall, Tree.list, build_address]⟩
    | TypeBasic ty =>
      rw [hb] at hk h
      cases ty <;> simp [DType.basic_kind, DType.ty] at hk h
    | _ => rw [hb] at h; simp [DType.ty] at h
  refine ⟨hclass, harray, hpointer, herr, ?_, hcall⟩
  constructor
  · rintro ⟨sf, hsf⟩
    by_contra hcon
    have h3 : e1.type.toBasetype.ty = .Tclass ∨ e1.type.toBasetype.ty = .Tarray
          ∨ e1.type.toBasetype.ty = .Tpointer := by
      by_contra h4
      exact hcon ⟨fun h => h4 (Or.inl h), fun h => h4 (Or.inr (Or.inl h)),
        fun h => h4 (Or.inr (Or.inr h))⟩
    obtain ⟨libcall, args, hr, _⟩ := hcall h3
    rw [hr] at hsf
    simp [build_libcall] at hsf
  · rintro ⟨hc, ha, hp⟩
    exact ⟨_, herr hc ha hp⟩

/-- The deletion of a class variable on the stack runs the finalizer only. -/
theorem DeleteExp_helper_or_error_witness :
    DeleteExp.toElem (toElem 1) (class_var "c" true) (IRState.start true)
      = .ok (call_expr (libcall_decl .LIBCALL_CALLFINALIZER) (Tree.list [var_decl "c"]),
          IRState.start true) :=
  (DeleteExp_helper_or_error (toElem 1) (class_var "c" true) (IRState.start true)
    (IRState.start true) (var_decl "c") rfl rfl).1 _ rfl

/-- C30: `PowExp::toElem` looks up the builtin for the result type, an integral
type counting as `double`.  When there is none, that is when the type is none
of `double`, `float` and `real`, it reports a diagnostic and returns the error
placeholder from the state it was entered in, whatever the lowering of the
operands does: neither operand is lowered.  When there is one it reports
nothing, lowers the operands, left one first, and returns the conversion of
the call of the builtin on the two converted operands.  It stops with no
fault of its own. -/
theorem PowExp_builtin_or_error (toElem : Expression → Lower Tree) (type : DType)
    (e1 e2 : Expression) :
    (PowExp.powfn (if type.isintegral then .double_type_node else build_ctype type.toBasetype)
        = none →
      ∀ s, ∃ msg, PowExp.toElem toElem type e1 e2 s
        = .ok (error_mark_node, { s with errors := msg :: s.errors }))
    ∧ (∀ powfn,
      PowExp.powfn (if type.isintegral then .double_type_node else build_ctype type.toBasetype)
        = some powfn →
      ∀ s s1 s2 t1 t2, toElem e1 s = .ok (t1, s1) → toElem e2 s1 = .ok (t2, s2) →
        PowExp.toElem toElem type e1 e2 s
          = .ok (d_convert (d_build_call_nary powfn [d_convert t1, d_convert t2]), s2))
    ∧ (PowExp.powfn (if type.isintegral then .double_type_node else build_ctype type.toBasetype)
        = none ↔
      ((if type.isintegral then type_node.double_type_node else build_ctype type.toBasetype)
          ≠ .double_type_node
        ∧ (if type.isintegral then type_node.double_type_node else build_ctype type.toBasetype)
          ≠ .float_type_node
        ∧ (if type.isintegral then type_node.double_type_node else build_ctype type.toBasetype)
          ≠ .long_double_type_node))
    ∧ (PowExp.powfn .double_type_node = some .BUILT_IN_POW
        ∧ PowExp.powfn .float_type_node = some .BUILT_IN_POWF
        ∧ PowExp.powfn .long_double_type_node = some .BUILT_IN_POWL)
    ∧ (∀ s, (∀ s0, ∃ t sa, toElem e1 s0 = .ok (t, sa)) →
        (∀ s0, ∃ t sa, toElem e2 s0 = .ok (t, sa)) →
        ∃ r sf, PowExp.toElem toElem type e1 e2 s = .ok (r, sf)) := by
  have hnone : PowExp.powfn
      (if type.isintegral then .double_type_node else build_ctype type.toBasetype) = none →
      ∀ s, ∃ msg, PowExp.toElem toElem type e1 e2 s
        = .ok (error_mark_node, { s with errors := msg :: s.errors }) := by
    intro h s
    unfold PowExp.toElem
    simp only [h]
    by_cases ha : (e1.type.toBasetype.ty == .Tarray || e1.type.toBasetype.ty == .Tsarray) = true
    · exact ⟨"Array operation not implemented", by simp [ha, error]⟩
    · exact ⟨"^^ is not supported", by simp [ha, error]⟩
  have hsome : ∀ powfn, PowExp.powfn
      (if type.isintegral then .double_type_node else build_ctype type.toBasetype)
        = some powfn →
      ∀ s s1 s2 t1 t2, toElem e1 s = .ok (t1, s1) → toElem e2 s1 = .ok (t2, s2) →
        PowExp.toElem toElem type e1 e2 s
          = .ok (d_convert (d_build_call_nary powfn [d_convert t1, d_convert t2]), s2) := by
    intro powfn h s s1 s2 t1 t2 h1 h2
    unfold PowExp.toElem
    simp only [h, Lower.bind_apply, h1, h2, Lower.pure_apply]
  refine ⟨hnone, hsome, ?_, ⟨rfl, rfl, rfl⟩, ?_⟩
  · generalize (if type.isintegral then type_node.double_type_node
      else build_ctype type.toBasetype) = pt
    cases pt <;> simp [PowExp.powfn]
  · intro s he1 he2
    cases hp : PowExp.powfn
      (if type.isintegral then .double_type_node else build_ctype type.toBasetype) with
    | none =>
      obtain ⟨msg, hm⟩ := hnone hp s
      exact ⟨_, _, hm⟩
    | some powfn =>
      obtain ⟨t1, s1, h1⟩ := he1 s
      obtain ⟨t2, s2, h2⟩ := he2 s1
      exact ⟨_, _, hsome powfn hp s s1 s2 t1 t2 h1 h2⟩

/-! ## Assertions, member calls, short circuits, complex values, declarations, chains -/

/-- C31: with assertions enabled, `AssertExp::toElem` on an operand of class
type builds the assertion-failure call `fail` (the message, when there is one,
lowered first), lowers the operand and returns `arg != null ? X : fail`.  For
a COM class `X` is `void` and `arg` the lowered operand, whatever the setting
of the invariants.  For any other class `arg` is the lowered operand,
converted to `Object` for an interface; with invariants enabled and a class
that is no C++ class `arg` is captured and `X` is the call of `_d_invariant`
on it, and otherwise `X` is `void`. -/
theorem AssertExp_class_null_check (toElem : Expression → Lower Tree) (e1 : Expression)
    (msg : Option Expression) (cd : ClassDeclaration) (s s0 s1 : IRState) (tm t1 : Tree)
    (hassert : s.params.useAssert = true)
    (hcd : e1.type.toBasetype = .TypeClass cd)
    (hmsg : ∀ m, msg = some m → m.toElemDtor toElem s = .ok (tm, s0))
    (hnomsg : msg = none → s0 = s)
    (h1 : toElem e1 s0 = .ok (t1, s1)) :
    ∃ fail arg0,
      fail = d_assert_call_msg
          (if s.isUnitTestDeclaration then
            (if msg.isSome then .LIBCALL_UNITTEST_MSG else .LIBCALL_UNITTEST)
           else (if msg.isSome then .LIBCALL_ASSERT_MSG else .LIBCALL_ASSERT))
          (msg.map fun _ => tm)
      ∧ arg0 = (if cd.isInterfaceDeclaration then
                  convert_expr t1 e1.type.toBasetype build_object_type else t1)
      ∧ (cd.isCOMclass = true →
          AssertExp.toElem toElem e1 msg s
            = .ok (build3 .COND_EXPR (build2 .NE_EXPR t1 null_pointer_node) void_node fail, s1))
      ∧ (cd.isCOMclass = false → s1.params.useInvariants = true → cd.isCPPclass = false →
          ∀ arg s2, maybe_make_temp arg0 s1 = .ok (arg, s2) →
          AssertExp.toElem toElem e1 msg s
            = .ok (build3 .COND_EXPR (build2 .NE_EXPR arg null_pointer_node)
                (build_libcall .LIBCALL_INVARIANT [arg]) fail, s2))
      ∧ (cd.isCOMclass = false → (s1.params.useInvariants = false ∨ cd.isCPPclass = true) →
          AssertExp.toElem toElem e1 msg s
            = .ok (build3 .COND_EXPR (build2 .NE_EXPR arg0 null_pointer_node) void_node fail,
                s1)) := by
  refine ⟨_, _, rfl, rfl, ?_, ?_, ?_⟩
  · intro hcom
    unfold AssertExp.toElem
    cases msg with
    | none =>
      have := hnomsg rfl
      subst this
      cases hu : s0.isUnitTestDeclaration <;>
        simp [hassert, hu, hcd, DType.ty, DType.isClassHandle, h1, hcom, build_vcondition,
          build_boolop]
    | some m =>
      have hm := hmsg m rfl
      cases hu : s.isUnitTestDeclaration <;>
        simp [hassert, hu, hcd, DType.ty, DType.isClassHandle, h1, hcom, hm, build_vcondition,
          build_boolop]
  · intro hcom hinv hcpp arg s2 hmt
    rw [hcd] at hmt
    unfold AssertExp.toElem
    cases msg with
    | none =>
      have := hnomsg rfl
      subst this
      cases hu : s0.isUnitTestDeclaration <;>
        simp [hassert, hu, hcd, DType.ty, DType.isClassHandle, h1, hcom, hinv, hcpp, hmt,
          build_vcondition, build_boolop]
    | some m =>
      have hm := hmsg m rfl
      cases hu : s.isUnitTestDeclaration <;>
        simp [hassert, hu, hcd, DType.ty, DType.isClassHandle, h1, hcom, hinv, hcpp, hmt, hm,
          build_vcondition, build_boolop]
  · intro hcom hor
    have hc : ¬ (s1.params.useInvariants = true ∧ cd.isCPPclass = false) := by
      rcases hor with h | h <;> simp [h]
    unfold AssertExp.toElem
    cases msg with
    | none =>
      have := hnomsg rfl
      subst this
      cases hu : s0.isUnitTestDeclaration <;>
        simp [hassert, hu, hcd, DType.ty, DType.isClassHandle, h1, hcom, hc,
          build_vcondition, build_boolop]
    | some m =>
      have hm := hmsg m rfl
      cases hu : s.isUnitTestDeclaration <;>
        simp [hassert, hu, hcd, DType.ty, DType.isClassHandle, h1, hcom, hc, hm,
          build_vcondition, build_boolop]

/-- The assertion `assert (c)` on an object of a D class, invariants enabled:
`c != null ? _d_invariant (c) : _d_assert ()`. -/
theorem AssertExp_class_null_check_witness :
    AssertExp.toElem (toElem 1) (class_value (sample_class false false) "c") none
        (IRState.start true)
      = .ok (build3 .COND_EXPR (build2 .NE_EXPR (atom "c" false) null_pointer_node)
          (build_libcall .LIBCALL_INVARIANT [atom "c" false])
          (build_libcall .LIBCALL_ASSERT []), IRState.start true) := by
  obtain ⟨fail, arg0, hf, ha, _, h, _⟩ :=
    AssertExp_class_null_check (toElem 1) (class_value (sample_class false false) "c") none
      (sample_class false false) (IRState.start true) (IRState.start true) (IRState.start true)
      void_node (atom "c" false) rfl rfl (fun m hm => by cases hm) (fun _ => rfl) rfl
  subst hf ha
  exact h rfl rfl rfl _ _ rfl

theorem count_casts_zero (ex : Expression) (h : count_casts ex = 0) :
    ∀ t e1 tt, ex = .CastExp t e1 tt → False := by
  intro t e1 tt he
  subst he
  simp [count_casts] at h

theorem count_casts_succ (ex : Expression) (n : Nat) (h : count_casts ex = n + 1) :
    ∃ t e1 tt, ex = .CastExp t e1 tt ∧ count_casts e1 = n := by
  unfold count_casts at h
  split at h
  · exact ⟨_, _, _, rfl, by omega⟩
  · omega

theorem CallExp.is_dottype_eq_spec (ex : Expression) :
    CallExp.is_dottype ex
      = ((spec_strip_casts ex).op == .TOKsuper || (spec_strip_casts ex).op == .TOKdottype) := by
  generalize hn : count_casts ex = n
  induction n generalizing ex with
  | zero =>
    have hc := count_casts_zero ex hn
    rw [CallExp.is_dottype, spec_strip_casts]
    · exact hc
    · exact hc
  | succ n ih =>
    obtain ⟨t, e1, tt, rfl, hn1⟩ := count_casts_succ ex n hn
    rw [CallExp.is_dottype, spec_strip_casts]
    exact ih e1 hn1

theorem CallExp.is_dottype_loop_eq (ex : Expression) :
    ∀ fuel, count_casts ex < fuel →
      CallExp.is_dottype_loop fuel ex = some (CallExp.is_dottype ex) := by
  generalize hn : count_casts ex = n
  induction n generalizing ex with
  | zero =>
    intro fuel hf
    obtain ⟨k, rfl⟩ : ∃ k, fuel = k + 1 := ⟨fuel - 1, by omega⟩
    have hc := count_casts_zero ex hn
    rw [CallExp.is_dottype_loop, CallExp.is_dottype]
    · by_cases hop : (ex.op == TOK.TOKsuper || ex.op == TOK.TOKdottype) = true
      · rw [if_pos hop, hop]
      · rw [if_neg hop]
        simp only [Bool.not_eq_true] at hop
        rw [hop]
    · exact hc
    · exact hc
  | succ n ih =>
    intro fuel hf
    obtain ⟨k, rfl⟩ : ∃ k, fuel = k + 1 := ⟨fuel - 1, by omega⟩
    obtain ⟨t, e1, tt, rfl, hn1⟩ := count_casts_succ ex n hn
    rw [CallExp.is_dottype_loop, CallExp.is_dottype]
    simp only [Expression.op, beq_iff_eq, Bool.or_self, Bool.false_eq_true, if_false]
    exact ih e1 hn1 k (by omega)

/-- C32: for a call through a `DotVarExp` on a member function (`isThis`),
`CallExp::toElem` lowers the receiver, takes its address unless it is of class
or pointer type, and calls, on the receiver followed by the lowered
arguments, the entry of the virtual table of the receiver at the slot
`fd->vtblIndex` exactly when the function is virtual, not final, and the
receiver after stripping casts is neither `super` nor a type-qualified form;
in every other case it calls the address of the function.  The loop that
strips the casts is left after at most one iteration more than the receiver
has casts, with the answer the rule uses. -/
theorem CallExp_member_dispatch (toElem : Expression → Lower Tree) (type dvetype : DType)
    (dve_e1 : Expression) (fd : FuncDeclaration) (arguments : List Expression)
    (next : DType) (isref : Bool) (s s1 s2 : IRState) (tobj : Tree) (targs : List Tree)
    (hdg : dvetype.toBasetype.ty ≠ .Tdelegate)
    (hthis : fd.isThis = true)
    (htf : get_function_type fd.type = some (.TypeFunction next isref))
    (h1 : toElem dve_e1 s = .ok (tobj, s1))
    (hargs : toElem_arguments toElem arguments s1 = .ok (targs, s2)) :
    ∃ thisexp callee call,
      thisexp = (if dve_e1.type.ty ≠ .Tclass ∧ dve_e1.type.ty ≠ .Tpointer then
                   build_address tobj else tobj)
      ∧ callee = (if fd.isVirtual = true ∧ fd.isFinalFunc = false
                      ∧ (spec_strip_casts dve_e1).op ≠ .TOKsuper
                      ∧ (spec_strip_casts dve_e1).op ≠ .TOKdottype then
                    build_vindex_ref thisexp fd.vtblIndex
                  else build_address (function_decl fd.ident))
      ∧ call = (if isref = true then
                  build_deref (call_expr callee (Tree.list (thisexp :: targs)))
                else call_expr callee (Tree.list (thisexp :: targs)))
      ∧ (∀ ty, type = .TypeBasic ty →
          CallExp.toElem toElem type (.DotVarExp dvetype dve_e1 (.FuncDeclaration fd))
            arguments s = .ok (d_convert call, s2))
      ∧ ((∀ ty, type ≠ .TypeBasic ty) →
          CallExp.toElem toElem type (.DotVarExp dvetype dve_e1 (.FuncDeclaration fd))
            arguments s = .ok (call, s2))
      ∧ (∀ fuel, count_casts dve_e1 < fuel →
          CallExp.is_dottype_loop fuel dve_e1
            = some ((spec_strip_casts dve_e1).op == .TOKsuper
                || (spec_strip_casts dve_e1).op == .TOKdottype)) := by
  have hdg2 : ((Expression.DotVarExp dvetype dve_e1 (.FuncDeclaration fd)).type.toBasetype.ty
      != TY.Tdelegate) = true := by
    simpa [Expression.type] using hdg
  have hcallee : (if (fd.isVirtual && !fd.isFinalFunc && !CallExp.is_dottype dve_e1) = true then
        build_vindex_ref
          (if (dve_e1.type.ty != TY.Tclass && dve_e1.type.ty != TY.Tpointer) = true then
            build_address tobj else tobj) fd.vtblIndex
      else build_address (function_decl fd.ident))
      = (if fd.isVirtual = true ∧ fd.isFinalFunc = false
            ∧ (spec_strip_casts dve_e1).op ≠ .TOKsuper
            ∧ (spec_strip_casts dve_e1).op ≠ .TOKdottype then
          build_vindex_ref
            (if dve_e1.type.ty ≠ .Tclass ∧ dve_e1.type.ty ≠ .Tpointer then
              build_address tobj else tobj) fd.vtblIndex
        else build_address (function_decl fd.ident)) := by
    rw [CallExp.is_dottype_eq_spec]
    cases fd.isVirtual <;> cases fd.isFinalFunc <;>
      by_cases ha : (spec_strip_casts dve_e1).op = .TOKsuper <;>
      by_cases hb : (spec_strip_casts dve_e1).op = .TOKdottype <;>
      simp [ha, hb]
  refine ⟨_, _, _, rfl, rfl, rfl, ?_, ?_, ?_⟩
  · rintro ty rfl
    unfold CallExp.toElem
    simp only [hdg2, if_true, Lower.bind_apply, Lower.pure_apply, Dsymbol.isFuncDeclaration, hthis,
      Bool.not_true, Bool.false_eq_true, if_false, h1, Dsymbol.type, htf, d_build_call, hargs,
      hcallee]
    cases isref <;> simp
  · intro hnb
    cases type <;> first
      | exact absurd rfl (hnb _)
      | (unfold CallExp.toElem
         simp only [hdg2, if_true, Lower.bind_apply, Lower.pure_apply, Dsymbol.isFuncDeclaration,
           hthis, Bool.not_true, Bool.false_eq_true, if_false, h1, Dsymbol.type, htf,
           d_build_call, hargs, hcallee]
         cases isref <;> simp)
  · intro fuel hf
    rw [CallExp.is_dottype_loop_eq dve_e1 fuel hf, CallExp.is_dottype_eq_spec]

/-- The call `this.m ()` of a virtual method that is not final goes through
slot 3 of the virtual table of `this`. -/
theorem CallExp_member_dispatch_witness :
    CallExp.toElem (toElem 1) (.TypeBasic .Tvoid)
        (.DotVarExp (.TypeFunction (.TypeBasic .Tvoid) false)
          (.ElemExp .TOKthis (class_handle "C") (atom "this" false) false)
          (.FuncDeclaration (sample_method true false))) [] (IRState.start true)
      = .ok (d_convert (call_expr (build_vindex_ref (atom "this" false) 3)
          (Tree.list [atom "this" false])), IRState.start true) := by
  obtain ⟨thisexp, callee, call, h1, h2, h3, h, _⟩ :=
    CallExp_member_dispatch (toElem 1) (.TypeBasic .Tvoid)
      (.TypeFunction (.TypeBasic .Tvoid) false)
      (.ElemExp .TOKthis (class_handle "C") (atom "this" false) false)
      (sample_method true false) [] (.TypeBasic .Tvoid) false (IRState.start true)
      (IRState.start true) (IRState.start true) (atom "this" false) [] (by decide) rfl rfl rfl
      rfl
  subst h1 h2 h3
  exact h _ rfl

/-- C33: when the right operand has type `void`, `AndAndExp::toElem` lowers
`a && b` to `cond (a) ? b : void` and `OrOrExp::toElem` lowers `a || b` to
`!cond (a) ? b : void`, `b` lowered with its cleanups; on every run the
effects of the result are those of `a` followed by those of `b` exactly when
the condition of `a` is true, respectively false.  When the right operand is
not `void` they lower to the converted `TRUTH_ANDIF_EXPR`, respectively
`TRUTH_ORIF_EXPR`, of the conditions of both operands. -/
theorem AndAndExp_OrOrExp_short_circuit (toElem : Expression → Lower Tree)
    (e1 e2 : Expression) (s s1 : IRState) (t1 : Tree)
    (h1 : toElem e1 s = .ok (t1, s1)) :
    (e2.type.toBasetype.ty = .Tvoid →
      ∀ t2 s2, e2.toElemDtor toElem s1 = .ok (t2, s2) →
        AndAndExp.toElem toElem e1 e2 s
          = .ok (build3 .COND_EXPR (convert_for_condition t1 e1.type) t2 void_node, s2)
        ∧ OrOrExp.toElem toElem e1 e2 s
          = .ok (build3 .COND_EXPR (build1 .TRUTH_NOT_EXPR (convert_for_condition t1 e1.type))
              t2 void_node, s2)
        ∧ (∀ m seen,
            ((build3 .COND_EXPR (convert_for_condition t1 e1.type) t2 void_node).run_order
                m seen).1
              = (t1.run_order m seen).1
                ++ (if ((convert_for_condition t1 e1.type).eval m).truth = true then
                      (t2.run_order m (t1.run_order m seen).2).1 else [])
            ∧ ((build3 .COND_EXPR (build1 .TRUTH_NOT_EXPR (convert_for_condition t1 e1.type))
                  t2 void_node).run_order m seen).1
              = (t1.run_order m seen).1
                ++ (if ((convert_for_condition t1 e1.type).eval m).truth = false then
                      (t2.run_order m (t1.run_order m seen).2).1 else [])))
    ∧ (e2.type.toBasetype.ty ≠ .Tvoid →
      ∀ t2 s2, toElem e2 s1 = .ok (t2, s2) →
        AndAndExp.toElem toElem e1 e2 s
          = .ok (d_convert (build2 .TRUTH_ANDIF_EXPR (convert_for_condition t1 e1.type)
              (convert_for_condition t2 e2.type)), s2)
        ∧ OrOrExp.toElem toElem e1 e2 s
          = .ok (d_convert (build2 .TRUTH_ORIF_EXPR (convert_for_condition t1 e1.type)
              (convert_for_condition t2 e2.type)), s2)) := by
  constructor
  · intro hv t2 s2 h2
    refine ⟨?_, ?_, ?_⟩
    · simp [AndAndExp.toElem, hv, h1, h2, build_condition]
    · simp [OrOrExp.toElem, hv, h1, h2, build_condition]
    · intro m seen
      have hrun : ((convert_for_condition t1 e1.type).run_order m seen) = t1.run_order m seen := by
        simp [convert_for_condition, Tree.run_order, Tree.list]
      constructor
      · rw [Tree.run_order]
        simp only [if_true, hrun]
        by_cases hc : ((convert_for_condition t1 e1.type).eval m).truth = true
        · simp [hc]
        · simp [hc, Tree.run_order]
      · rw [Tree.run_order]
        have hnot : (build1 .TRUTH_NOT_EXPR (convert_for_condition t1 e1.type)).run_order m seen
            = t1.run_order m seen := by
          rw [Tree.run_order, hrun]
        have hev : ((build1 .TRUTH_NOT_EXPR (convert_for_condition t1 e1.type)).eval m).truth
            = !((convert_for_condition t1 e1.type).eval m).truth := by
          simp [convert_for_condition, Tree.eval, Val.truth_ofBool]
        simp only [if_true, hnot, hev]
        cases hc : ((convert_for_condition t1 e1.type).eval m).truth <;>
          simp [Tree.run_order]
  · intro hv t2 s2 h2
    have hv2 : (e2.type.toBasetype.ty != .Tvoid) = true := by simpa using hv
    constructor
    · simp [AndAndExp.toElem, hv2, h1, h2, d_convert, build_boolop]
    · simp [OrOrExp.toElem, hv2, h1, h2, d_convert, build_boolop]

/-- The statement `a && b ()` with `b ()` of type `void`: the call is in the
branch taken when `a` is true. -/
theorem AndAndExp_OrOrExp_short_circuit_witness :
    AndAndExp.toElem (toElem 1) (int_value "a" false) (void_call "b ()") (IRState.start true)
      = .ok (build3 .COND_EXPR (convert_for_condition (atom "a" false) (.TypeBasic .Tint32))
          (atom "b ()" true) void_node, IRState.start true)
    ∧ OrOrExp.toElem (toElem 1) (int_value "a" false) (void_call "b ()") (IRState.start true)
      = .ok (build3 .COND_EXPR
          (build1 .TRUTH_NOT_EXPR
            (convert_for_condition (atom "a" false) (.TypeBasic .Tint32)))
          (atom "b ()" true) void_node, IRState.start true)
    ∧ ((build3 .COND_EXPR (convert_for_condition (atom "a" false) (.TypeBasic .Tint32))
          (atom "b ()" true) void_node).run_order (constant_machine 1) []).1 = ["b ()"]
    ∧ ((build3 .COND_EXPR (convert_for_condition (atom "a" false) (.TypeBasic .Tint32))
          (atom "b ()" true) void_node).run_order (constant_machine 0) []).1 = [] :=
  ⟨((AndAndExp_OrOrExp_short_circuit (toElem 1) (int_value "a" false) (void_call "b ()")
      (IRState.start true) (IRState.start true) (atom "a" false) rfl).1 rfl (atom "b ()" true)
      (IRState.start true) rfl).1,
   ((AndAndExp_OrOrExp_short_circuit (toElem 1) (int_value "a" false) (void_call "b ()")
      (IRState.start true) (IRState.start true) (atom "a" false) rfl).1 rfl (atom "b ()" true)
      (IRState.start true) rfl).2.1, by decide, by decide⟩

/-- C35: `DeclarationExp::toElem` returns from every state.  For a variable
that is not static, not manifest, not extern, TLS or gshared, has a destructor
expression and has `noscope` clear, the ledger it leaves is the ledger of the
start with the variable appended, once; for any other variable, and for a
declaration that is no variable, it leaves the state of the start.  Nothing
else of the state is written, and the entries of the start are at their
indices, unchanged. -/
theorem DeclarationExp_pushes_once (declaration : Dsymbol) (objfile : Tree) (s : IRState) :
    (∀ vd, declaration = .VarDeclaration vd → DeclarationExp.pushes vd →
      ∃ t, DeclarationExp.toElem declaration objfile s
        = .ok (t, { s with vars_in_scope := s.vars_in_scope ++ [some vd] }))
    ∧ (∀ vd, declaration = .VarDeclaration vd → ¬ DeclarationExp.pushes vd →
      ∃ t, DeclarationExp.toElem declaration objfile s = .ok (t, s))
    ∧ (declaration.isVarDeclaration = none →
      ∃ t, DeclarationExp.toElem declaration objfile s = .ok (t, s))
    ∧ (∃ t s1, DeclarationExp.toElem declaration objfile s = .ok (t, s1)
        ∧ ∀ i, i < s.vars_in_scope.length → s1.vars_in_scope[i]? = s.vars_in_scope[i]?) := by
  have hA : ∀ vd, declaration = .VarDeclaration vd → DeclarationExp.pushes vd →
      ∃ t, DeclarationExp.toElem declaration objfile s
        = .ok (t, { s with vars_in_scope := s.vars_in_scope ++ [some vd] }) := by
    rintro vd rfl ⟨h1, h2, h3, h4, h5, h6, h7⟩
    unfold DeclarationExp.toElem
    have h6b : vd.edtor.isSome = true := h6
    have hc : (!vd.isStatic && !vd.storage_class.contains .STCmanifest
        && !(vd.storage_class.contains STC.STCextern || vd.storage_class.contains .STCtls
              || vd.storage_class.contains .STCgshared)) = true := by
      simp [h1, h2, h3, h4, h5]
    have hd : (vd.edtor.isSome && !vd.noscope) = true := by simp [h6b, h7]
    simp only [Dsymbol.isVarDeclaration, hc, hd, if_true, Lower.bind_apply, Lower.modify_apply]
    split <;> exact ⟨_, rfl⟩
  have hB : ∀ vd, declaration = .VarDeclaration vd → ¬ DeclarationExp.pushes vd →
      ∃ t, DeclarationExp.toElem declaration objfile s = .ok (t, s) := by
    rintro vd rfl hn
    unfold DeclarationExp.toElem
    simp only [Dsymbol.isVarDeclaration]
    split
    · rename_i hc
      split
      · rename_i hd
        exfalso
        apply hn
        simp only [Bool.and_eq_true, Bool.not_eq_true', Bool.or_eq_false_iff,
          List.contains_eq_any_beq, List.any_eq_false, beq_iff_eq]
          at hc hd
        refine ⟨hc.1.1, ?_, ?_, ?_, ?_, hd.1, hd.2⟩
        · intro hm; exact hc.1.2 _ hm rfl
        · intro hm; exact hc.2.1.1 _ hm rfl
        · intro hm; exact hc.2.1.2 _ hm rfl
        · intro hm; exact hc.2.2 _ hm rfl
      · simp only [Lower.bind_apply, Lower.pure_apply]
        split <;> exact ⟨_, rfl⟩
    · simp only [Lower.bind_apply, Lower.pure_apply]
      split <;> exact ⟨_, rfl⟩
  have hC : declaration.isVarDeclaration = none →
      ∃ t, DeclarationExp.toElem declaration objfile s = .ok (t, s) := by
    intro h
    unfold DeclarationExp.toElem
    simp only [h, Lower.bind_apply, Lower.pure_apply]
    split <;> exact ⟨_, rfl⟩
  refine ⟨hA, hB, hC, ?_⟩
  cases hd : declaration with
  | VarDeclaration vd =>
    by_cases hp : DeclarationExp.pushes vd
    · obtain ⟨t, ht⟩ := hA vd hd hp
      rw [← hd]
      exact ⟨t, _, ht, fun i hi => by simp [List.getElem?_append_left hi]⟩
    · obtain ⟨t, ht⟩ := hB vd hd hp
      rw [← hd]
      exact ⟨t, _, ht, fun i _ => rfl⟩
  | FuncDeclaration fd =>
    obtain ⟨t, ht⟩ := hC (by rw [hd]; rfl)
    rw [← hd]
    exact ⟨t, _, ht, fun i _ => rfl⟩
  | other ident type =>
    obtain ⟨t, ht⟩ := hC (by rw [hd]; rfl)
    rw [← hd]
    exact ⟨t, _, ht, fun i _ => rfl⟩

theorem DType.isreal_not_isimaginary (t : DType) (h : t.isreal = true) :
    t.isimaginary = false := by
  induction t with
  | TypeBasic ty => cases ty <;> simp [DType.isreal] at h <;> rfl
  | TypeEnum memtype ih => exact ih h
  | _ => rfl

/-- C34: on a real and an imaginary operand `MinExp::toElem` and
`AddExp::toElem` lower the operands, left one first, and return the complex
value of the two trees, the right one negated for the subtraction:
`real - imag` gives `(e1, -e2)` and `real + imag` gives `(e1, e2)`,
`imag - real` gives `(-e2, e1)` and `imag + real` gives `(e2, e1)`.  The real
part is the tree of the real operand and the imaginary part that of the
imaginary operand; the node built is a `COMPLEX_EXPR`. -/
theorem AddExp_MinExp_complex_value (toElem : Expression → Lower Tree) (e1 e2 : Expression)
    (s s1 s2 : IRState) (t1 t2 : Tree)
    (hmixed : (e1.type.isreal = true ∧ e2.type.isimaginary = true)
      ∨ (e1.type.isimaginary = true ∧ e2.type.isreal = true))
    (h1 : toElem e1 s = .ok (t1, s1))
    (h2 : toElem e2 s1 = .ok (t2, s2)) :
    (e1.type.isreal = true →
      MinExp.toElem toElem e1 e2 s
          = .ok (build2 .COMPLEX_EXPR t1 (build1 .NEGATE_EXPR t2), s2)
      ∧ AddExp.toElem toElem e1 e2 s = .ok (build2 .COMPLEX_EXPR t1 t2, s2))
    ∧ (e1.type.isimaginary = true →
      MinExp.toElem toElem e1 e2 s
          = .ok (build2 .COMPLEX_EXPR (build1 .NEGATE_EXPR t2) t1, s2)
      ∧ AddExp.toElem toElem e1 e2 s = .ok (build2 .COMPLEX_EXPR t2 t1, s2)) := by
  constructor
  · intro hr
    have hi : e2.type.isimaginary = true := by
      rcases hmixed with h | h
      · exact h.2
      · rw [DType.isreal_not_isimaginary _ hr] at h
        exact absurd h.1 (by simp)
    simp [MinExp.toElem, AddExp.toElem, hr, hi, h1, h2, complex_expr]
  · intro hi
    have hr : e1.type.isreal = false := by
      cases h : e1.type.isreal
      · rfl
      · rw [DType.isreal_not_isimaginary _ h] at hi
        exact absurd hi (by simp)
    have hr2 : e2.type.isreal = true := by
      rcases hmixed with h | h
      · rw [hr] at h
        exact absurd h.1 (by simp)
      · exact h.2
    simp [MinExp.toElem, AddExp.toElem, hr, hi, hr2, h1, h2, complex_expr]

/-- The difference `x - f ()` of a `double` and an `idouble`. -/
theorem AddExp_MinExp_complex_value_witness :
    MinExp.toElem (toElem 1) (double_value "x" false) (imaginary_value "f ()" true)
        (IRState.start true)
      = .ok (build2 .COMPLEX_EXPR (atom "x" false) (build1 .NEGATE_EXPR (atom "f ()" true)),
          IRState.start true)
    ∧ AddExp.toElem (toElem 1) (double_value "x" false) (imaginary_value "f ()" true)
        (IRState.start true)
      = .ok (build2 .COMPLEX_EXPR (atom "x" false) (atom "f ()" true), IRState.start true) :=
  (AddExp_MinExp_complex_value (toElem 1) (double_value "x" false)
    (imaginary_value "f ()" true) (IRState.start true) (IRState.start true)
    (IRState.start true) (atom "x" false) (atom "f ()" true) (Or.inl ⟨rfl, rfl⟩) rfl rfl).1 rfl

theorem CatExp.toElem_eq_spec_flattened (toElem : Expression → Lower Tree) (type t1 : DType)
    (a b e2 : Expression) (s : IRState) :
    CatExp.toElem toElem type (.CatExp t1 a b) e2 s
      = CatExp.spec_flattened toElem type (.CatExp t1 a b) e2 s := by
  have hnd : CatExp.ndims_loop (.CatExp t1 a b) 2 = (CatExp.leaves (.CatExp t1 a b)).length + 1 := by
    have := CatExp.leaves_length_pos (.CatExp t1 a b)
    rw [CatExp.ndims_loop_eq _ _ 2 rfl]; omega
  unfold CatExp.toElem CatExp.spec_flattened
  simp only [Lower.bind_apply, create_temporary_var, Lower.get_apply, Lower.set_apply,
    Lower.pure_apply, hnd]
  have hd : (((CatExp.leaves (.CatExp t1 a b)).length + 1 : Nat) : Int) - 1
      = ((0 + (CatExp.leaves (.CatExp t1 a b)).length : Nat) : Int) := by
    push_cast; ring
  rw [hd, CatExp.elms_loop_eq_spec_store toElem _ _ (.CatExp t1 a b) e2 0 [] [] _ rfl]
  simp only [Lower.bind_apply, List.enum]
  rcases CatExp.spec_store toElem _
    (List.enumFrom 0 (CatExp.leaves (.CatExp t1 a b) ++ [e2])).reverse [] []
    { s with temps := s.temps + 1 } with err | ⟨⟨elms, vars⟩, sA⟩
  · rfl
  · simp [gcc_assert]

/-- What the flattened path of `CatExp::toElem` does with the leaves: it
handles them from right to left.  When `CatExp::toElem` returns on a chain
`((a ~ b) ~ ...) ~ e2` of `n` leaves, its run is the run that converts,
captures and appends the leaves in the order of the reversed list of leaves,
the rightmost leaf `e2` first and the leftmost leaf last; the elements of the
initializer are, in the order appended, those of the reversed leaves, and
their indices are `n-1, ..., 0`, every leaf at the index of its position from
the left. -/
theorem CatExp_leaves_right_to_left (toElem : Expression → Lower Tree) (type t1 : DType)
    (a b e2 : Expression) (s : IRState) (result : Tree) (s1 : IRState)
    (h : CatExp.toElem toElem type (.CatExp t1 a b) e2 s = .ok (result, s1)) :
    ∃ elms elemvars,
      result = (temp_var s.temps (constructor (Tree.elts elms)) :: elemvars).foldl
          (fun r v => bind_expr v r)
          (build_libcall .LIBCALL_ARRAYCATNTX [build_typeinfo type,
            d_array_value (size_int (CatExp.leaves (.CatExp type (.CatExp t1 a b) e2)).length)
              (build_address (temp_var s.temps (constructor (Tree.elts elms))))])
      ∧ CatExp.spec_store toElem (CatExp.etype (.CatExp t1 a b) e2)
          (CatExp.leaves (.CatExp type (.CatExp t1 a b) e2)).enum.reverse [] []
          { s with temps := s.temps + 1 } = .ok ((elms, elemvars), s1)
      ∧ elms.map (·.1)
          = (List.range (CatExp.leaves (.CatExp type (.CatExp t1 a b) e2)).length).reverse
      ∧ List.Forall₂
          (fun p leaf => CatExp.stored toElem (CatExp.etype (.CatExp t1 a b) e2) leaf p.2)
          elms (CatExp.leaves (.CatExp type (.CatExp t1 a b) e2)).reverse
      ∧ (CatExp.leaves (.CatExp type (.CatExp t1 a b) e2)).reverse.head? = some e2 := by
  have hleaves : CatExp.leaves (.CatExp type (.CatExp t1 a b) e2)
      = CatExp.leaves (.CatExp t1 a b) ++ [e2] := rfl
  rw [CatExp.toElem_eq_spec_flattened] at h
  unfold CatExp.spec_flattened at h
  simp only [Lower.bind_apply, create_temporary_var, Lower.get_apply, Lower.set_apply,
    Lower.pure_apply] at h
  generalize hS : CatExp.spec_store toElem _ _ [] [] _ = r at h
  rcases r with err | ⟨⟨elms, vars⟩, sA⟩
  · simp at h
  · simp only [Except.ok.injEq, Prod.mk.injEq] at h
    obtain ⟨hres, hst⟩ := h
    subst hst
    have hidx := CatExp.spec_store_indices toElem _ _ _ _ _ _ _ hS
    obtain ⟨added, hr, hall⟩ := CatExp.spec_store_stored toElem _ _ _ _ _ _ _ hS
    simp only [List.nil_append] at hr
    subst hr
    refine ⟨elms, vars, by rw [← hres, hleaves], ?_, ?_, ?_, ?_⟩
    · rw [hleaves]; exact hS
    · rw [hidx, hleaves]
      simp only [List.map_nil, List.nil_append, List.map_reverse, List.enum_map_fst]
    · rw [hleaves]
      have hsnd : ((CatExp.leaves (.CatExp t1 a b) ++ [e2]).enum.reverse).map (·.2)
          = (CatExp.leaves (.CatExp t1 a b) ++ [e2]).reverse := by
        rw [List.map_reverse, List.enum_map_snd]
      rw [← hsnd, List.forall₂_map_right_iff]
      exact hall.imp (fun _ _ h => h.2)
    · rw [hleaves]; simp

/-- The flattening of `(a () ~ b ()) ~ c ()`: `c ()` is captured first, in the
temporary 1, and appended first, at index 2. -/
theorem CatExp_leaves_right_to_left_witness :
    ∃ elms elemvars,
      CatExp.spec_store (toElem 1) (some (.TypeBasic .Tint32))
          [(2, int_array "c ()" true), (1, int_array "b ()" true), (0, int_array "a ()" true)]
          [] [] { IRState.start true with temps := 1 }
        = .ok ((elms, elemvars), { IRState.start true with temps := 4 })
      ∧ elms.map (·.1) = [2, 1, 0] := by
  obtain ⟨elms, elemvars, _, h2, h3, _⟩ :=
    CatExp_leaves_right_to_left (toElem 1) (.TypeDArray (.TypeBasic .Tint32))
      (.TypeDArray (.TypeBasic .Tint32)) (int_array "a ()" true) (int_array "b ()" true)
      (int_array "c ()" true) (IRState.start true) _ _ rfl
  exact ⟨elms, elemvars, h2, h3⟩

/-- C36, where the code departs from it: the children of a flattened
concatenation are to be handled in source left-to-right order, leftmost leaf
first.  In the lowered `(a () ~ b ()) ~ c ()` the rightmost leaf `c ()` is
captured first (temporary 1) and is the first element of the initializer, at
index 2, and the leftmost leaf `a ()` is captured last and is the last
element, at index 0; the initializer evaluates `c ()`, `b ()`, `a ()` in this
order, the reverse of the source order. -/
theorem CatExp_rightmost_leaf_first :
    toElem 2 cat3_calls (IRState.start true)
      = .ok (bind_expr
          (temp_var 0 (constructor
            (constructor_elt 2 (save_expr 1 (atom "c ()" true))
              (constructor_elt 1 (save_expr 2 (atom "b ()" true))
                (constructor_elt 0 (save_expr 3 (atom "a ()" true)) null_tree)))))
          (build_libcall .LIBCALL_ARRAYCATNTX
            [build_typeinfo (.TypeDArray (.TypeBasic .Tint32)),
              d_array_value (size_int 3) (build_address
                (temp_var 0 (constructor
                  (constructor_elt 2 (save_expr 1 (atom "c ()" true))
                    (constructor_elt 1 (save_expr 2 (atom "b ()" true))
                      (constructor_elt 0 (save_expr 3 (atom "a ()" true)) null_tree))))))]),
          { IRState.start true with temps := 4 })
    ∧ Tree.effects (temp_var 0 (constructor
            (constructor_elt 2 (save_expr 1 (atom "c ()" true))
              (constructor_elt 1 (save_expr 2 (atom "b ()" true))
                (constructor_elt 0 (save_expr 3 (atom "a ()" true)) null_tree)))))
        = ["c ()", "b ()", "a ()"] :=
  ⟨rfl, by decide⟩

theorem d_array_convert_no_assert (toElem : Expression → Lower Tree)
    (hne : ∀ e s0, toElem e s0 ≠ .error .gcc_assert) (exp : Expression) (s : IRState) :
    d_array_convert toElem exp s ≠ .error .gcc_assert := by
  unfold d_array_convert
  by_cases h1 : (exp.type.toBasetype.ty == .Tarray) = true
  · simp only [h1, if_true]
    exact hne exp s
  · by_cases h2 : (exp.type.toBasetype.ty == .Tsarray) = true
    · simp only [h1, h2, Bool.false_eq_true, if_true, if_false, Lower.bind_apply]
      generalize h : toElem exp s = r
      rcases r with err | ⟨t, sA⟩
      · intro hc
        exact hne exp s (by rw [h]; simpa using hc)
      · simp
    · simp [h1, h2, Lower.throw_apply]

theorem d_array_convert_elem_no_assert (toElem : Expression → Lower Tree)
    (hne : ∀ e s0, toElem e s0 ≠ .error .gcc_assert) (etype : Option DType)
    (leaf : Expression) (vars : List Tree) (s : IRState) :
    d_array_convert_elem toElem etype leaf vars s ≠ .error .gcc_assert := by
  unfold d_array_convert_elem
  dsimp only
  split
  · simp only [Lower.bind_apply]
    generalize h : toElem leaf s = r
    rcases r with err | ⟨t, sA⟩
    · intro hc
      exact hne leaf s (by rw [h]; simpa using hc)
    · simp only []
      split <;> simp [Lower.bind_apply, create_temporary_var, Lower.get_apply, Lower.set_apply,
        Lower.pure_apply]
  · simp only [Lower.bind_apply]
    generalize h : d_array_convert toElem leaf s = r
    rcases r with err | ⟨t, sA⟩
    · intro hc
      exact d_array_convert_no_assert toElem hne leaf s (by rw [h]; simpa using hc)
    · simp

theorem maybe_make_temp_ok (t : Tree) (s : IRState) :
    ∃ a s1, maybe_make_temp t s = .ok (a, s1) := by
  unfold maybe_make_temp
  split
  · exact ⟨_, _, rfl⟩
  · exact ⟨_, _, rfl⟩

theorem CatExp.spec_store_no_assert (toElem : Expression → Lower Tree)
    (hne : ∀ e s0, toElem e s0 ≠ .error .gcc_assert) (etype : Option DType) :
    ∀ (pairs : List (Nat × Expression)) (elms : List (Nat × Tree)) (vars : List Tree)
      (s : IRState),
    CatExp.spec_store toElem etype pairs elms vars s ≠ .error .gcc_assert := by
  intro pairs
  induction pairs with
  | nil => intro elms vars s; simp [CatExp.spec_store]
  | cons p rest ih =>
    intro elms vars s
    obtain ⟨k, leaf⟩ := p
    simp only [CatExp.spec_store, Lower.bind_apply]
    generalize hA : d_array_convert_elem toElem etype leaf vars s = r
    rcases r with err | ⟨⟨arg, vars1⟩, sA⟩
    · intro hc
      exact d_array_convert_elem_no_assert toElem hne etype leaf vars s
        (by rw [hA]; simpa using hc)
    · simp only []
      obtain ⟨tA, sA1, hT⟩ := maybe_make_temp_ok arg sA
      simp only [hT]
      exact ih _ _ _

theorem CatExp.spec_store_ok (toElem : Expression → Lower Tree) (etype : Option DType) :
    ∀ (pairs : List (Nat × Expression)) (elms : List (Nat × Tree)) (vars : List Tree)
      (s : IRState),
    (∀ p ∈ pairs, ∀ vars0 s0, ∃ r, d_array_convert_elem toElem etype p.2 vars0 s0 = .ok r) →
    ∃ r, CatExp.spec_store toElem etype pairs elms vars s = .ok r := by
  intro pairs
  induction pairs with
  | nil => intro elms vars s _; exact ⟨_, rfl⟩
  | cons p rest ih =>
    intro elms vars s hp
    obtain ⟨k, leaf⟩ := p
    obtain ⟨⟨⟨arg, vars1⟩, sA⟩, hA⟩ := hp (k, leaf) (List.mem_cons_self _ _) vars s
    obtain ⟨tA, sA1, hT⟩ := maybe_make_temp_ok arg sA
    simp only [CatExp.spec_store, Lower.bind_apply, hA, hT]
    exact ih _ _ _ (fun q hq => hp q (List.mem_cons_of_mem _ hq))

/-- C37: on a chain `((a ~ b) ~ ...) ~ e2`, the left operand a concatenation,
the first loop of `CatExp::toElem` ends with `ndims` the number of leaves of
the chain; the second loop, whenever it ends, ends with `dim` zero; the rule
returns a tree from every state when the conversion of every leaf returns
one, and when no lowering of an operand stops at a `gcc_assert` the rule does
not stop at one: its check `gcc_assert (dim == 0)` does not fail. -/
theorem CatExp_loops_end_with_dim_zero (toElem : Expression → Lower Tree) (type t1 : DType)
    (a b e2 : Expression) :
    CatExp.ndims_loop (.CatExp t1 a b) 2
        = (CatExp.leaves (.CatExp type (.CatExp t1 a b) e2)).length
    ∧ (∀ etype s elms dim elemvars s1,
        CatExp.elms_loop toElem etype (.CatExp t1 a b) e2
            ((CatExp.ndims_loop (.CatExp t1 a b) 2 : Int) - 1) [] [] s
          = .ok ((elms, dim, elemvars), s1) → dim = 0)
    ∧ (∀ s,
        (∀ leaf ∈ CatExp.leaves (.CatExp type (.CatExp t1 a b) e2), ∀ vars0 s0,
          ∃ r, d_array_convert_elem toElem (CatExp.etype (.CatExp t1 a b) e2) leaf vars0 s0
            = .ok r) →
        ∃ r, CatExp.toElem toElem type (.CatExp t1 a b) e2 s = .ok r)
    ∧ (∀ s, (∀ e s0, toElem e s0 ≠ .error .gcc_assert) →
        CatExp.toElem toElem type (.CatExp t1 a b) e2 s ≠ .error .gcc_assert) := by
  have hleaves : CatExp.leaves (.CatExp type (.CatExp t1 a b) e2)
      = CatExp.leaves (.CatExp t1 a b) ++ [e2] := rfl
  have hnd : CatExp.ndims_loop (.CatExp t1 a b) 2 = (CatExp.leaves (.CatExp t1 a b)).length + 1 := by
    have := CatExp.leaves_length_pos (.CatExp t1 a b)
    rw [CatExp.ndims_loop_eq _ _ 2 rfl]; omega
  refine ⟨by rw [hnd, hleaves]; simp, ?_, ?_, ?_⟩
  · intro etype s elms dim elemvars s1 h
    have hd : (((CatExp.leaves (.CatExp t1 a b)).length + 1 : Nat) : Int) - 1
        = ((0 + (CatExp.leaves (.CatExp t1 a b)).length : Nat) : Int) := by
      push_cast; ring
    rw [hnd, hd, CatExp.elms_loop_eq_spec_store toElem _ _ (.CatExp t1 a b) e2 0 [] [] _ rfl] at h
    simp only [Lower.bind_apply] at h
    rcases hS : CatExp.spec_store toElem etype
      (List.enumFrom 0 (CatExp.leaves (.CatExp t1 a b) ++ [e2])).reverse [] [] s
      with err | ⟨⟨elms0, vars0⟩, sA⟩
    · simp [hS] at h
    · simp only [hS, Lower.pure_apply, Except.ok.injEq, Prod.mk.injEq] at h
      exact h.1.2.1.symm ▸ rfl
  · intro s hl
    rw [CatExp.toElem_eq_spec_flattened]
    unfold CatExp.spec_flattened
    simp only [Lower.bind_apply, create_temporary_var, Lower.get_apply, Lower.set_apply,
      Lower.pure_apply]
    obtain ⟨⟨⟨elms, vars⟩, sA⟩, hS⟩ := CatExp.spec_store_ok toElem
      (CatExp.etype (.CatExp t1 a b) e2)
      (CatExp.leaves (.CatExp t1 a b) ++ [e2]).enum.reverse [] []
      { s with temps := s.temps + 1 } (by
        intro p hp vars0 s0
        refine hl p.2 ?_ vars0 s0
        rw [hleaves]
        have := List.mem_reverse.1 hp
        obtain ⟨k, leaf⟩ := p
        exact List.getElem?_mem (List.mk_mem_enum_iff_getElem?.1 this))
    simp only [CatExp.etype] at hS
    simp only [hS]
    exact ⟨_, rfl⟩
  · intro s hne
    rw [CatExp.toElem_eq_spec_flattened]
    unfold CatExp.spec_flattened
    simp only [Lower.bind_apply, create_temporary_var, Lower.get_apply, Lower.set_apply,
      Lower.pure_apply]
    rcases hS : CatExp.spec_store toElem _ _ [] [] _ with err | ⟨⟨elms, vars⟩, sA⟩
    · intro hc
      have he : err = .gcc_assert := by simpa using hc
      rw [he] at hS
      exact CatExp.spec_store_no_assert toElem hne _ _ _ _ _ hS
    · simp

/-- C39: when the result type of a slice with a lower bound is a fixed-size
array, `SliceExp::toElem` lowers and captures the base and the lower bound and
returns the dereference of the base pointer, offset by the lower bound unless
that is the constant zero.  It returns in the state the capture of the lower
bound left, for every upper bound and every behaviour of the lowering on it,
and for every setting of `upperIsInBounds` and `lowerIsLessThanUpper`: the
upper bound is not lowered, and the result holds no call of the bounds-check
failure routine beyond those of the lowered base and lower bound. -/
theorem SliceExp_fixed_size_returns_early (toElem : Expression → Lower Tree) (type : DType)
    (e1 lwr upr : Expression) (upperIsInBounds lowerIsLessThanUpper : Bool)
    (lengthVar : Option String) (next : DType) (s s1 s1a s2 s2a : IRState)
    (tx array tl l : Tree)
    (hty : type.toBasetype.ty = .Tsarray)
    (hnext : e1.type.toBasetype.nextOf = some next)
    (hptr : e1.type.toBasetype.ty = .Tpointer → lengthVar = none)
    (h1 : toElem e1 s = .ok (tx, s1))
    (ha : maybe_make_temp tx s1 = .ok (array, s1a))
    (h2 : toElem lwr s1a = .ok (tl, s2))
    (hl : maybe_make_temp tl s2 = .ok (l, s2a)) :
    SliceExp.toElem toElem type e1 (some lwr) (some upr) upperIsInBounds lowerIsLessThanUpper
        lengthVar s
      = .ok (indirect_ref
          (if integer_zerop l = true then
             convert_expr array e1.type.toBasetype next.pointerTo
           else
             build_nop (build_array_index
               (void_okay_p (convert_expr array e1.type.toBasetype next.pointerTo)) l)), s2a)
    ∧ libcalls (indirect_ref
          (if integer_zerop l = true then
             convert_expr array e1.type.toBasetype next.pointerTo
           else
             build_nop (build_array_index
               (void_okay_p (convert_expr array e1.type.toBasetype next.pointerTo)) l)))
        = libcalls (convert_expr array e1.type.toBasetype next.pointerTo)
            ++ (if integer_zerop l = true then [] else libcalls l) := by
  constructor
  · unfold SliceExp.toElem
    have hty3 : (type.toBasetype.ty == TY.Tsarray) = true := by simp [hty]
    by_cases hp : e1.type.toBasetype.ty = .Tpointer
    · have hlv := hptr hp
      subst hlv
      have hp2 : (e1.type.toBasetype.ty != TY.Tpointer) = false := by simp [hp]
      simp only [hty3, Bool.or_true, gcc_assert_true, Lower.bind_apply, Lower.pure_apply, h1, ha,
        h2, hl, hnext, Option.isSome_some, hp2, Bool.not_false, if_true, Bool.false_eq_true,
        if_false, Option.isNone_none, Bool.or_false, Bool.not_true, ite_true, ite_false]
      cases hz : integer_zerop l <;> simp
    · have hp2 : (e1.type.toBasetype.ty != TY.Tpointer) = true := by simp [hp]
      simp only [hty3, Bool.or_true, gcc_assert_true, Lower.bind_apply, Lower.pure_apply, h1, ha,
        h2, hl, hnext, Option.isSome_some, hp2, Bool.not_false, if_true, Bool.false_eq_true,
        if_false, Bool.or_false, Bool.not_true, ite_true, ite_false]
      cases hz : integer_zerop l <;> simp
  · cases hz : integer_zerop l <;>
      simp [indirect_ref, build_nop, build_array_index, void_okay_p, libcalls]

/-- The slice `a[l .. (S u, n)]` read as an `int[2]`: the declaration in the
upper bound is not lowered, the ledger stays empty. -/
theorem SliceExp_fixed_size_returns_early_witness :
    toElem 2 sarray_slice (IRState.start true)
      = .ok (indirect_ref (build_nop (build_array_index
          (build_nop (build_address (atom "a" false))) (atom "l" false))), IRState.start true) :=
  (SliceExp_fixed_size_returns_early (toElem 1) (.TypeSArray (.TypeBasic .Tint32) 2)
    (int_sarray "a" 4) (size_value "l")
    (.CommaExp (.TypeBasic .Tuns64) (scoped_decl "u") (size_value "n")) false false none
    (.TypeBasic .Tint32) (IRState.start true) (IRState.start true) (IRState.start true)
    (IRState.start true) (IRState.start true) (atom "a" false) (atom "a" false)
    (atom "l" false) (atom "l" false) rfl rfl (fun h => by cases h) rfl rfl rfl rfl).1

/-- C38: on a left side of struct type `sd` (no array length, no slice, no
initialization of a reference) the memset path of `AssignExp::toElem` is taken
by the kind of the right side alone.  For the integer literal of every value
the rule returns `(memset (&t1, v, sd->structsize), t1)`, `v` the literal of
that value converted for the assignment, with the link to the enclosing
object set after the `memset` for a nested struct: there is no assignment of
the struct.  For a right side of any other kind it returns the assignment
`t1 = t2`. -/
theorem AssignExp_struct_memset_by_kind (fuel : Nat) (op : TOK) (type : DType)
    (e1 : Expression) (ismemset : Bool) (sd : StructDeclaration) (s s1 : IRState) (t1 : Tree)
    (hs : e1.op ≠ .TOKslice) (ha : e1.op ≠ .TOKarraylength)
    (href : ∀ t decl, e1 = .VarExp t decl → op = .TOKconstruct →
      decl.storage_class.contains .STCout = false ∧ decl.storage_class.contains .STCref = false)
    (hsd : e1.type.toBasetype = .TypeStruct sd)
    (h1 : toElem (fuel + 1) e1 s = .ok (t1, s1)) :
    (∀ littype value,
      toElem (fuel + 2) (.AssignExp op type e1 (.IntegerExp littype value) ismemset) s
        = .ok (compound_expr
            (if sd.isNested then
              compound_expr
                (d_build_call_nary .BUILT_IN_MEMSET [build_address t1,
                  convert_for_assignment (integer_cst value) littype e1.type,
                  size_int sd.structsize])
                (modify_expr (component_ref t1 "this") (build_vthis sd))
            else
              d_build_call_nary .BUILT_IN_MEMSET [build_address t1,
                convert_for_assignment (integer_cst value) littype e1.type,
                size_int sd.structsize])
            t1, s1))
    ∧ (∀ e2 t2 s2, e2.op ≠ .TOKint64 → toElem (fuel + 1) e2 s1 = .ok (t2, s2) →
      toElem (fuel + 2) (.AssignExp op type e1 e2 ismemset) s
        = .ok (modify_expr t1 (convert_for_assignment t2 e2.type e1.type), s2)) := by
  have hrest : ∀ e2, toElem (fuel + 2) (.AssignExp op type e1 e2 ismemset) s
      = AssignExp.toElem_rest (toElem (fuel + 1)) op e1 e2 s := by
    intro e2
    show AssignExp.toElem (toElem (fuel + 1)) op e1 e2 ismemset s = _
    rw [AssignExp.toElem_eq_rest _ op e1 e2 ismemset hs ha]
  constructor
  · intro littype value
    rw [hrest]
    have h2 : toElem (fuel + 1) (.IntegerExp littype value) s1 = .ok (integer_cst value, s1) :=
      rfl
    unfold AssignExp.toElem_rest
    split
    · rename_i h
      exfalso
      cases e1 <;> simp at h
      obtain ⟨a, b⟩ := href _ _ rfl h.1
      simp only [List.contains_eq_any_beq, List.any_eq_false, beq_iff_eq] at a b
      rcases h.2 with h3 | h3
      · exact a _ h3 rfl
      · exact b _ h3 rfl
    · have hint : (Expression.IntegerExp littype value).op = .TOKint64 := rfl
      have hlt : (Expression.IntegerExp littype value).type = littype := rfl
      simp only [hsd, Lower.bind_apply, h1, h2, hint, hlt, beq_self_eq_true, if_true,
        Lower.pure_apply]
  · intro e2 t2 s2 hop h2
    rw [hrest]
    have hop2 : (e2.op == .TOKint64) = false := by simpa using hop
    unfold AssignExp.toElem_rest
    split
    · rename_i h
      exfalso
      cases e1 <;> simp at h
      obtain ⟨a, b⟩ := href _ _ rfl h.1
      simp only [List.contains_eq_any_beq, List.any_eq_false, beq_iff_eq] at a b
      rcases h.2 with h3 | h3
      · exact a _ h3 rfl
      · exact b _ h3 rfl
    · simp only [hsd, Lower.bind_apply, h1, h2, hop2, Bool.false_eq_true, if_false,
        Lower.pure_apply]

/-- The assignment `s = 5` to a struct of 8 bytes fills it with `memset`. -/
theorem AssignExp_struct_memset_by_kind_witness :
    toElem 2 (.AssignExp .TOKassign (.TypeStruct (plain_struct false))
        (struct_value (plain_struct false) "s") (.IntegerExp (.TypeBasic .Tint32) 5) false)
        (IRState.start true)
      = .ok (build2 .COMPOUND_EXPR
          (call_expr (build1 .ADDR_EXPR (builtin_decl .BUILT_IN_MEMSET))
            (Tree.list [build1 .ADDR_EXPR (atom "s" false),
              helper "convert_for_assignment" false (Tree.list [integer_cst 5]),
              integer_cst 8]))
          (atom "s" false), IRState.start true) :=
  (AssignExp_struct_memset_by_kind 0 .TOKassign (.TypeStruct (plain_struct false))
    (struct_value (plain_struct false) "s") false (plain_struct false) (IRState.start true)
    (IRState.start true) (atom "s" false) (by decide) (by decide) (fun t decl h => by cases h)
    rfl rfl).1 (.TypeBasic .Tint32) 5

/-! ## Indexing and slices without a check or a temporary -/

/-- C12 as claimed fails: with bounds checking off the element `a[i]` of an
`int[]`, `indexIsInBounds` false and the base no pointer, is dereferenced at
the index itself: the result holds no check and no call of `_d_array_bounds`. -/
theorem IndexExp_no_check_when_unchecked :
    IndexExp.toElem (toElem 1) (int_array "a" false) (int_value "i" false) false false none
        (IRState.start false)
      = .ok (build1 .INDIRECT_REF (build2 .POINTER_PLUS_EXPR
          (build1 .NOP_EXPR (component_ref (atom "a" false) "ptr")) (atom "i" false)),
          IRState.start false)
    ∧ LibCall.LIBCALL_ARRAY_BOUNDS ∉ libcalls (build1 .INDIRECT_REF (build2 .POINTER_PLUS_EXPR
          (build1 .NOP_EXPR (component_ref (atom "a" false) "ptr")) (atom "i" false))) :=
  ⟨rfl, by decide⟩

/-- What `maybe_make_temp` returns evaluates as its operand does the first
time, and without effect from then on. -/
theorem maybe_make_temp_eval (t c : Tree) (s sa : IRState) (seen : List Nat)
    (h : maybe_make_temp t s = .ok (c, sa)) (hb : t.temps_below s.temps = true)
    (hseen : ∀ i ∈ seen, i < s.temps) :
    c = (if d_has_side_effects t = true then save_expr s.temps t else t)
    ∧ (c.eval_order seen).1 = (t.eval_order seen).1
    ∧ (∀ i ∈ (c.eval_order seen).2, i < sa.temps)
    ∧ (∀ i ∈ seen, i ∈ (c.eval_order seen).2)
    ∧ (∀ seen1, (∀ i ∈ (c.eval_order seen).2, i ∈ seen1) → c.eval_order seen1 = ([], seen1))
    ∧ s.temps ≤ sa.temps := by
  have hes := eval_order_seen s.temps t seen hb hseen
  by_cases ht : d_has_side_effects t = true
  · rw [maybe_make_temp_side_effects t s ht] at h
    simp only [Except.ok.injEq, Prod.mk.injEq] at h
    obtain ⟨rfl, rfl⟩ := h
    have hn : s.temps ∉ seen := fun hm => lt_irrefl _ (hseen _ hm)
    refine ⟨by simp [ht], ?_, ?_, ?_, ?_, Nat.le_succ _⟩
    · simp only [Tree.eval_order, hn, if_false]
    · intro i hi
      simp only [Tree.eval_order, hn, if_false] at hi
      rcases List.mem_cons.1 hi with hi | hi
      · rw [hi]; exact Nat.lt_succ_self _
      · exact Nat.lt_succ_of_lt (hes.1 i hi)
    · intro i hi
      simp only [Tree.eval_order, hn, if_false]
      exact List.mem_cons_of_mem _ (hes.2 i hi)
    · intro seen1 h1
      exact eval_order_save_seen _ _ _ (h1 _ (eval_order_save_mem _ _ _))
  · have hf : d_has_side_effects t = false := by simpa using ht
    simp only [maybe_make_temp, hf, Bool.false_eq_true, if_false, Lower.pure_apply,
      Except.ok.injEq, Prod.mk.injEq] at h
    obtain ⟨rfl, rfl⟩ := h
    exact ⟨by simp [hf], rfl, hes.1, hes.2, fun seen1 h1 => eval_order_again t seen seen1 hf h1,
      le_refl _⟩

/-- The result of `SliceExp::toElem` on a dynamic-array result with both bounds
given, from the captured base and bounds. -/
theorem SliceExp.toElem_captured (toElem : Expression → Lower Tree) (type : DType)
    (e1 lwr upr : Expression) (upperIsInBounds lowerIsLessThanUpper : Bool)
    (lengthVar : Option String) (next : DType) (s s1 s1a s2 s2a s3 s3a : IRState)
    (tx array tl l tu u : Tree)
    (hty : type.toBasetype.ty = .Tarray)
    (hnext : e1.type.toBasetype.nextOf = some next)
    (hptr : e1.type.toBasetype.ty = .Tpointer → lengthVar = none)
    (h1 : toElem e1 s = .ok (tx, s1))
    (ha : maybe_make_temp tx s1 = .ok (array, s1a))
    (h2 : toElem lwr s1a = .ok (tl, s2))
    (hl : maybe_make_temp tl s2 = .ok (l, s2a))
    (hz : integer_zerop l = false)
    (h3 : toElem upr s2a = .ok (tu, s3))
    (hu : maybe_make_temp tu s3 = .ok (u, s3a)) :
    SliceExp.toElem toElem type e1 (some lwr) (some upr) upperIsInBounds lowerIsLessThanUpper
        lengthVar s
      = .ok (spec_slice_result s3a.array_bounds_check upperIsInBounds lowerIsLessThanUpper
              e1.type.toBasetype next array l u, s3a) := by
  unfold SliceExp.toElem
  have hty2 : (type.toBasetype.ty == TY.Tarray || type.toBasetype.ty == TY.Tsarray) = true := by
    simp [hty]
  have hty3 : (type.toBasetype.ty == TY.Tsarray) = false := by simp [hty]
  have hty4 : (type.toBasetype.ty == TY.Tarray) = true := by simp [hty]
  have hls := maybe_make_temp_no_side_effects tl l s2 s2a hl
  by_cases hp : e1.type.toBasetype.ty = .Tpointer
  · have hlv := hptr hp
    subst hlv
    have hp2 : (e1.type.toBasetype.ty != TY.Tpointer) = false := by simp [hp]
    simp only [hty2, hty3, hty4, gcc_assert_true, Lower.bind_apply, Lower.pure_apply, h1, ha,
      h2, hl, hnext, Option.isSome_some, hp2, Bool.not_false, if_true, Bool.false_eq_true,
      if_false, Option.isNone_none, Bool.or_false, Bool.not_true, ite_true, ite_false, hz]
    rw [SliceExp.toElem_upper_some toElem _ upr upperIsInBounds lowerIsLessThanUpper _ _ none
      l s2a s3 s3a tu u (fun _ => hp) hls h3 hu]
    simp [spec_slice_result, hp, build_nop, build_array_index, void_okay_p, DType.pointerTo,
      compound_expr]
  · have hp2 : (e1.type.toBasetype.ty != TY.Tpointer) = true := by simp [hp]
    simp only [hty2, hty3, hty4, gcc_assert_true, Lower.bind_apply, Lower.pure_apply, h1, ha,
      h2, hl, hnext, Option.isSome_some, hp2, Bool.not_false, if_true, Bool.false_eq_true,
      if_false, Bool.or_false, Bool.not_true, ite_true, ite_false, hz]
    rw [SliceExp.toElem_upper_some toElem _ upr upperIsInBounds lowerIsLessThanUpper _ _ _
      l s2a s3 s3a tu u (fun h => by cases h) hls h3 hu]
    simp [spec_slice_result, hp, build_nop, build_array_index, void_okay_p, DType.pointerTo,
      compound_expr]

/-- C4, amended: for a slice `x[l..u]` with a dynamic-array result and a lower
bound that is not the constant zero, `SliceExp::toElem` lowers `x`, `l` and `u`
in turn, once each, captures each bound through `maybe_make_temp`, in a new
temporary when it has side effects and as it is otherwise, and returns
`(array, [length: (l_tmp, u_checked) - l_tmp, ptr: array.ptr + l_tmp])` with
`u_checked` the upper bound under the bounds checks asked for; evaluating the
result evaluates the base, then `l` once, then `u` once, in this order, and
nothing else. -/
theorem SliceExp_bounds_once_in_order (toElem : Expression → Lower Tree) (type : DType)
    (e1 lwr upr : Expression) (upperIsInBounds lowerIsLessThanUpper : Bool)
    (lengthVar : Option String) (next : DType) (s s1 s1a s2 s2a s3 s3a : IRState)
    (tx array tl l tu u : Tree)
    (hty : type.toBasetype.ty = .Tarray)
    (hnext : e1.type.toBasetype.nextOf = some next)
    (hptr : e1.type.toBasetype.ty = .Tpointer → lengthVar = none)
    (h1 : toElem e1 s = .ok (tx, s1))
    (ha : maybe_make_temp tx s1 = .ok (array, s1a))
    (h2 : toElem lwr s1a = .ok (tl, s2))
    (hl : maybe_make_temp tl s2 = .ok (l, s2a))
    (hz : integer_zerop l = false)
    (h3 : toElem upr s2a = .ok (tu, s3))
    (hu : maybe_make_temp tu s3 = .ok (u, s3a))
    (hbx : array.temps_below s2.temps = true) (hbl : tl.temps_below s2.temps = true)
    (hbu : tu.temps_below s3.temps = true) (hlt : s2a.temps ≤ s3.temps) :
    SliceExp.toElem toElem type e1 (some lwr) (some upr) upperIsInBounds lowerIsLessThanUpper
        lengthVar s
      = .ok (spec_slice_result s3a.array_bounds_check upperIsInBounds lowerIsLessThanUpper
              e1.type.toBasetype next array l u, s3a)
    ∧ l = (if d_has_side_effects tl = true then save_expr s2.temps tl else tl)
    ∧ u = (if d_has_side_effects tu = true then save_expr s3.temps tu else tu)
    ∧ (spec_slice_result s3a.array_bounds_check upperIsInBounds lowerIsLessThanUpper
          e1.type.toBasetype next array l u).effects
        = (array.eval_order []).1
            ++ (tl.eval_order (array.eval_order []).2).1
            ++ (tu.eval_order (l.eval_order (array.eval_order []).2).2).1 := by
  have hx0 := (eval_order_seen s2.temps array [] hbx (by simp)).1
  obtain ⟨hl1, hl2, hl3, hl4, hl5, _⟩ :=
    maybe_make_temp_eval tl l s2 s2a (array.eval_order []).2 hl hbl hx0
  obtain ⟨hu1, hu2, _, hu4, hu5, _⟩ :=
    maybe_make_temp_eval tu u s3 s3a (l.eval_order (array.eval_order []).2).2 hu hbu
      (fun i hi => lt_of_lt_of_le (hl3 i hi) hlt)
  refine ⟨SliceExp.toElem_captured toElem type e1 lwr upr upperIsInBounds lowerIsLessThanUpper
    lengthVar next s s1 s1a s2 s2a s3 s3a tx array tl l tu u hty hnext hptr h1 ha h2 hl hz h3 hu,
    hl1, hu1, ?_⟩
  rw [← hl2, ← hu2]
  apply spec_slice_result_effects _ _ _ _ _ array l u (array.eval_order []).2
    (l.eval_order (array.eval_order []).2).2
    (u.eval_order (l.eval_order (array.eval_order []).2).2).2
  · rfl
  · rfl
  · rfl
  · exact hl5 _ (fun i hi => hi)
  · exact hl5 _ (fun i hi => hu4 i hi)
  · exact hu5 _ (fun i hi => hi)
  · refine eval_order_again array [] _ (maybe_make_temp_no_side_effects tx array s1 s1a ha) ?_
    intro i hi
    exact hu4 i (hl4 i hi)

/-- The slice `x ()[i++ .. n]` with both bounds checked: the base and the
lower bound are captured in temporaries, the upper bound, which has no side
effect, is not; the effects are those of the base, then of the lower bound. -/
theorem SliceExp_bounds_once_in_order_witness :
    SliceExp.toElem (toElem 1) (.TypeDArray (.TypeBasic .Tint32)) (int_array "x ()" true)
        (some (.ElemExp .TOKcall (.TypeBasic .Tuns64) (atom "i++" true) false))
        (some (size_value "n")) false false none (IRState.start true)
      = .ok (spec_slice_result true false false (.TypeDArray (.TypeBasic .Tint32))
              (.TypeBasic .Tint32) (save_expr 0 (atom "x ()" true))
              (save_expr 1 (atom "i++" true)) (atom "n" false),
            { IRState.start true with temps := 2 })
    ∧ (spec_slice_result true false false (.TypeDArray (.TypeBasic .Tint32))
          (.TypeBasic .Tint32) (save_expr 0 (atom "x ()" true))
          (save_expr 1 (atom "i++" true)) (atom "n" false)).effects
        = ["x ()", "i++"] := by
  obtain ⟨h, _, _, he⟩ := SliceExp_bounds_once_in_order (toElem 1)
    (.TypeDArray (.TypeBasic .Tint32)) (int_array "x ()" true)
    (.ElemExp .TOKcall (.TypeBasic .Tuns64) (atom "i++" true) false) (size_value "n")
    false false none (.TypeBasic .Tint32) (IRState.start true) (IRState.start true)
    { IRState.start true with temps := 1 } { IRState.start true with temps := 1 }
    { IRState.start true with temps := 2 } { IRState.start true with temps := 2 }
    { IRState.start true with temps := 2 }
    (atom "x ()" true) (save_expr 0 (atom "x ()" true)) (atom "i++" true)
    (save_expr 1 (atom "i++" true)) (atom "n" false) (atom "n" false)
    rfl rfl (fun h => by cases h) rfl rfl rfl rfl rfl rfl rfl rfl rfl rfl (le_refl _)
  exact ⟨h, he⟩

/-- C4 as claimed fails: the bounds of `a[l..u]`, which have no side effects,
are not lowered into temporaries.  The lowering makes no temporary, the
state is as it was, and the new length is `(l, u) - l` on the lowered bounds
themselves. -/
theorem SliceExp_pure_bounds_no_temporaries :
    SliceExp.toElem (toElem 1) (.TypeDArray (.TypeBasic .Tint32)) (int_array "a" false)
        (some (size_value "l")) (some (size_value "u")) true true none (IRState.start true)
      = .ok (build2 .COMPOUND_EXPR (atom "a" false)
          (d_array_value
            (build2 .MINUS_EXPR (build2 .COMPOUND_EXPR (atom "l" false) (atom "u" false))
              (atom "l" false))
            (build1 .NOP_EXPR (build2 .POINTER_PLUS_EXPR
              (build1 .NOP_EXPR (component_ref (atom "a" false) "ptr")) (atom "l" false)))),
          IRState.start true)
    ∧ (build2 .COMPOUND_EXPR (atom "a" false)
          (d_array_value
            (build2 .MINUS_EXPR (build2 .COMPOUND_EXPR (atom "l" false) (atom "u" false))
              (atom "l" false))
            (build1 .NOP_EXPR (build2 .POINTER_PLUS_EXPR
              (build1 .NOP_EXPR (component_ref (atom "a" false) "ptr"))
              (atom "l" false))))).temps_below 0 = true :=
  ⟨rfl, rfl⟩

/-! ## Lowering twice: shapes of values and steps of a lowering

The shape of a value is the value with the numbers of temporaries erased.  The
builders of trees commute with the erasure, and the tests a lowering makes on a
tree (`d_has_side_effects`, `integer_zerop`, the kind of the node) are tests of
its shape. -/

@[simp] theorem shape_tree (t : Tree) : Shape.shape t = t.erase_temps := rfl

@[simp] theorem shape_unit (u : Unit) : Shape.shape u = u := rfl

@[simp] theorem shape_bool (u : Bool) : Shape.shape u = u := rfl

@[simp] theorem shape_nat (u : Nat) : Shape.shape u = u := rfl

@[simp] theorem shape_int (u : Int) : Shape.shape u = u := rfl

@[simp] theorem shape_dtype (u : DType) : Shape.shape u = u := rfl

@[simp] theorem shape_libcall (u : LibCall) : Shape.shape u = u := rfl

@[simp] theorem shape_expression (u : Expression) : Shape.shape u = u := rfl

@[simp] theorem shape_fld (u : FuncLiteralDeclaration) : Shape.shape u = u := rfl

@[simp] theorem shape_tree_code (u : tree_code) : Shape.shape u = u := rfl

@[simp] theorem shape_tok (u : TOK) : Shape.shape u = u := rfl

@[simp] theorem shape_ty (u : TY) : Shape.shape u = u := rfl

@[simp] theorem shape_string (u : String) : Shape.shape u = u := rfl

@[simp] theorem shape_class (u : ClassDeclaration) : Shape.shape u = u := rfl

@[simp] theorem shape_struct (u : StructDeclaration) : Shape.shape u = u := rfl

@[simp] theorem shape_func (u : FuncDeclaration) : Shape.shape u = u := rfl

@[simp] theorem shape_var (u : VarDeclaration) : Shape.shape u = u := rfl

@[simp] theorem shape_dsymbol (u : Dsymbol) : Shape.shape u = u := rfl

@[simp] theorem shape_builtin (u : built_in_function) : Shape.shape u = u := rfl

@[simp] theorem shape_type_node (u : type_node) : Shape.shape u = u := rfl

@[simp] theorem shape_ite {α : Type} [Shape α] (c : Prop) [Decidable c] (a b : α) :
    Shape.shape (if c then a else b) = if c then Shape.shape a else Shape.shape b := by
  split <;> rfl

@[simp] theorem shape_prod {α β : Type} [Shape α] [Shape β] (a : α) (b : β) :
    Shape.shape (a, b) = (Shape.shape a, Shape.shape b) := rfl

@[simp] theorem shape_none {α : Type} [Shape α] : Shape.shape (none : Option α) = none := rfl

@[simp] theorem shape_some {α : Type} [Shape α] (a : α) :
    Shape.shape (some a) = some (Shape.shape a) := rfl

@[simp] theorem shape_nil {α : Type} [Shape α] : Shape.shape ([] : List α) = [] := rfl

@[simp] theorem shape_cons {α : Type} [Shape α] (a : α) (l : List α) :
    Shape.shape (a :: l) = Shape.shape a :: Shape.shape l := rfl

@[simp] theorem shape_append {α : Type} [Shape α] (l1 l2 : List α) :
    Shape.shape (l1 ++ l2) = Shape.shape l1 ++ Shape.shape l2 := List.map_append _ _ _

theorem same_context_refl_of (b b1 : Nat) (s s1 : IRState)
    (h : s.same_context b b1 s1) (sa sa1 : IRState)
    (ha : sa.context = s.context) (ha1 : sa1.context = s1.context) :
    sa.same_context b b1 sa1 := by
  simp only [IRState.context, Prod.mk.injEq] at ha ha1
  unfold IRState.same_context at h ⊢
  rw [ha.1, ha.2.1, ha.2.2.1, ha.2.2.2, ha1.1, ha1.2.1, ha1.2.2.1, ha1.2.2.2]
  exact h

theorem same_settings_refl (s : IRState) : s.same_settings s := ⟨rfl, rfl, rfl⟩

theorem same_settings_trans (s sa sb : IRState) (h1 : s.same_settings sa)
    (h2 : sa.same_settings sb) : s.same_settings sb :=
  ⟨h2.1.trans h1.1, h2.2.1.trans h1.2.1, h2.2.2.trans h1.2.2⟩

theorem same_settings_of_context (s sa : IRState) (h : sa.context = s.context) :
    s.same_settings sa := by
  simp only [IRState.context, Prod.mk.injEq] at h
  exact ⟨h.1, h.2.1, h.2.2.1⟩

theorem repeats_pure {α : Type} [Shape α] (b b1 : Nat) (a a1 : α)
    (h : Shape.shape a = Shape.shape a1) :
    Lower.repeats b b1 (pure a : Lower α) (pure a1) :=
  ⟨fun s s1 x sa hs hm => by cases hm; exact ⟨same_settings_refl s, a1, s1, rfl, h, hs⟩⟩

theorem repeats_same {α : Type} [Shape α] (b b1 : Nat) (a : α) :
    Lower.repeats b b1 (pure a : Lower α) (pure a) := repeats_pure b b1 a a rfl

theorem repeats_throw {α : Type} [Shape α] (b b1 : Nat) (err : Fault) (m1 : Lower α) :
    Lower.repeats b b1 (throw err : Lower α) m1 :=
  ⟨fun s s1 x sa _ hm => by cases hm⟩

theorem repeats_throw_bind {α β : Type} [Shape β] (b b1 : Nat) (err : Fault)
    (f : α → Lower β) (m1 : Lower β) :
    Lower.repeats b b1 ((throw err : Lower α) >>= f) m1 :=
  ⟨fun s s1 x sa _ hm => by cases hm⟩

theorem repeats_bind {α β : Type} [Shape α] [Shape β] (b b1 : Nat) (m m1 : Lower α)
    (f f1 : α → Lower β) (hm : Lower.repeats b b1 m m1)
    (hf : ∀ a a1, Shape.shape a = Shape.shape a1 → Lower.repeats b b1 (f a) (f1 a1)) :
    Lower.repeats b b1 (m >>= f) (m1 >>= f1) := by
  refine ⟨fun s s1 x sx hs h => ?_⟩
  simp only [Lower.bind_apply] at h
  rcases hma : m s with err | ⟨a, sa⟩
  · simp [hma] at h
  · simp only [hma] at h
    obtain ⟨hk, a1, sa1, h1, hr, hs1⟩ := hm.ok s s1 a sa hs hma
    obtain ⟨hk2, x1, sx1, h2, hr2, hs2⟩ := (hf a a1 hr).ok sa sa1 x sx hs1 h
    exact ⟨same_settings_trans s sa sx hk hk2, x1, sx1,
      by simp only [Lower.bind_apply, h1, h2], hr2, hs2⟩

/-- A step that only names a value. -/
theorem repeats_pure_bind {α β : Type} [Shape β] (b b1 : Nat) (a : α) (f f1 : α → Lower β)
    (hf : Lower.repeats b b1 (f a) (f1 a)) :
    Lower.repeats b b1 (pure a >>= f) (pure a >>= f1) := by
  simpa only [pure_bind] using hf

/-- A step whose value has no temporaries. -/
theorem repeats_bind_plain {α β : Type} [Shape α] [Plain α] [Shape β] (b b1 : Nat)
    (m m1 : Lower α) (f f1 : α → Lower β) (hm : Lower.repeats b b1 m m1)
    (hf : ∀ a, Lower.repeats b b1 (f a) (f1 a)) :
    Lower.repeats b b1 (m >>= f) (m1 >>= f1) :=
  repeats_bind b b1 m m1 f f1 hm (fun a a1 h => by
    rw [Plain.shape_id, Plain.shape_id] at h
    subst h
    exact hf a)

/-- A step whose value is a pair that starts without temporaries. -/
theorem repeats_bind_plain_pair {α γ β : Type} [Shape α] [Plain α] [Shape γ] [Shape β]
    (b b1 : Nat) (m m1 : Lower (α × γ)) (f f1 : α × γ → Lower β)
    (hm : Lower.repeats b b1 m m1)
    (hf : ∀ a c c1, Shape.shape c = Shape.shape c1 → Lower.repeats b b1 (f (a, c)) (f1 (a, c1))) :
    Lower.repeats b b1 (m >>= f) (m1 >>= f1) :=
  repeats_bind b b1 m m1 f f1 hm (fun p p1 h => by
    obtain ⟨a, c⟩ := p
    obtain ⟨a1, c1⟩ := p1
    simp only [shape_prod, Prod.mk.injEq] at h
    obtain ⟨h1, h2⟩ := h
    rw [Plain.shape_id, Plain.shape_id] at h1
    subst h1
    exact hf a c c1 h2)

/-- A step without a value. -/
theorem repeats_bind_unit {β : Type} [Shape β] (b b1 : Nat) (m m1 : Lower PUnit)
    (f f1 : PUnit → Lower β) (hm : Lower.repeats b b1 m m1)
    (hf : Lower.repeats b b1 (f PUnit.unit) (f1 PUnit.unit)) :
    Lower.repeats b b1 (m >>= f) (m1 >>= f1) :=
  repeats_bind b b1 m m1 f f1 hm (fun _ _ _ => hf)

theorem repeats_ite {α : Type} [Shape α] (b b1 : Nat) (c : Prop) [Decidable c]
    (m n m1 n1 : Lower α) (h1 : c → Lower.repeats b b1 m m1)
    (h2 : ¬ c → Lower.repeats b b1 n n1) :
    Lower.repeats b b1 (if c then m else n) (if c then m1 else n1) := by
  by_cases h : c
  · simp only [h, if_true]; exact h1 h
  · simp only [h, if_false]; exact h2 h

/-- The state is read for its context. -/
theorem repeats_bind_get {β : Type} [Shape β] (b b1 : Nat) (f f1 : IRState → Lower β)
    (hf : ∀ s s1 : IRState, s.same_context b b1 s1 → Lower.repeats b b1 (f s) (f1 s1)) :
    Lower.repeats b b1 (get >>= f) (get >>= f1) := by
  refine ⟨fun s s1 x sx hs h => ?_⟩
  simp only [Lower.bind_apply, Lower.get_apply] at h ⊢
  exact (hf s s1 hs).ok s s1 x sx hs h

theorem repeats_ite_iff {α : Type} [Shape α] (b b1 : Nat) (c c1 : Prop) [Decidable c]
    [Decidable c1] (m n m1 n1 : Lower α) (hc : c ↔ c1)
    (h1 : c → c1 → Lower.repeats b b1 m m1)
    (h2 : ¬ c → ¬ c1 → Lower.repeats b b1 n n1) :
    Lower.repeats b b1 (if c then m else n) (if c1 then m1 else n1) := by
  by_cases h : c
  · simp only [h, hc.1 h, if_true]; exact h1 h (hc.1 h)
  · have h' : ¬ c1 := fun x => h (hc.2 x)
    simp only [h, h', if_false]; exact h2 h h'

theorem repeats_gcc_assert (b b1 : Nat) (c : Bool) :
    Lower.repeats b b1 (gcc_assert c) (gcc_assert c) := by
  cases c
  · exact repeats_throw _ _ _ _
  · exact repeats_same _ _ _

/-- A step that changes the state outside of the context and returns values of
one shape whatever the state. -/
theorem repeats_of_context {α : Type} [Shape α] (b b1 : Nat) (m m1 : Lower α)
    (h : ∀ s a sa, m s = .ok (a, sa) → sa.context = s.context
      ∧ ∀ s1, ∃ a1 sa1, m1 s1 = .ok (a1, sa1) ∧ Shape.shape a = Shape.shape a1
        ∧ sa1.context = s1.context) :
    Lower.repeats b b1 m m1 :=
  ⟨fun s s1 a sa hs hm => by
    obtain ⟨hc, h1⟩ := h s a sa hm
    obtain ⟨a1, sa1, hm1, hr, hc1⟩ := h1 s1
    exact ⟨same_settings_of_context s sa hc, a1, sa1, hm1, hr,
      same_context_refl_of b b1 s s1 hs sa sa1 hc hc1⟩⟩

theorem repeats_gcc_assert_of (b b1 : Nat) (c c1 : Bool) (h : c = c1) :
    Lower.repeats b b1 (gcc_assert c) (gcc_assert c1) := by
  subst h
  exact repeats_gcc_assert b b1 c

theorem repeats_error (b b1 : Nat) (msg : String) :
    Lower.repeats b b1 (error msg) (error msg) :=
  repeats_of_context b b1 _ _ fun s a sa hm => by
    cases hm
    exact ⟨rfl, fun s1 => ⟨(), _, rfl, rfl, rfl⟩⟩

/-- A declaration is put on the list of things needing destruction. -/
theorem repeats_push (b b1 : Nat) (vd : VarDeclaration) :
    Lower.repeats b b1
      (modify fun s => { s with vars_in_scope := s.vars_in_scope ++ [some vd] } : Lower PUnit)
      (modify fun s => { s with vars_in_scope := s.vars_in_scope ++ [some vd] }) :=
  ⟨fun s s1 x sa hs hm => by
    cases hm
    obtain ⟨h1, h2, h3, h4, h5, h6⟩ := hs
    refine ⟨⟨rfl, rfl, rfl⟩, PUnit.unit, _, rfl, rfl, h1, h2, h3, ?_, ?_, ?_⟩
    · simp only [List.length_append]; omega
    · simp only [List.length_append]; omega
    · show (s.vars_in_scope ++ [some vd]).drop b = (s1.vars_in_scope ++ [some vd]).drop b1
      rw [List.drop_append_of_le_length h4, List.drop_append_of_le_length h5, h6]⟩

/-- A function is deferred to after the current one. -/
theorem repeats_defer (b b1 : Nat) (ident : String) :
    Lower.repeats b b1
      (modify fun s => { s with deferred_fns := s.deferred_fns ++ [ident] } : Lower PUnit)
      (modify fun s => { s with deferred_fns := s.deferred_fns ++ [ident] }) :=
  repeats_of_context b b1 _ _ fun s a sa hm => by
    cases hm
    exact ⟨rfl, fun s1 => ⟨PUnit.unit, _, rfl, rfl, rfl⟩⟩

theorem repeats_make_temp (b b1 : Nat) (t t1 : Tree) (h : t.erase_temps = t1.erase_temps) :
    Lower.repeats b b1 (make_temp t) (make_temp t1) :=
  repeats_of_context b b1 _ _ fun s a sa hm => by
    cases hm
    exact ⟨rfl, fun s1 => ⟨_, _, rfl, congrArg (save_expr 0) h, rfl⟩⟩

/-- A new variable: its number is a name, of no shape. -/
theorem repeats_bind_create_temporary_var {β : Type} [Shape β] (b b1 : Nat)
    (f f1 : Nat → Lower β) (hf : ∀ id id1 : Nat, Lower.repeats b b1 (f id) (f1 id1)) :
    Lower.repeats b b1 (create_temporary_var >>= f) (create_temporary_var >>= f1) := by
  refine ⟨fun s s1 x sx hs h => ?_⟩
  simp only [create_temporary_var, Lower.bind_apply, Lower.get_apply, Lower.set_apply,
    Lower.pure_apply] at h ⊢
  obtain ⟨hk, r⟩ := (hf s.temps s1.temps).ok { s with temps := s.temps + 1 }
    { s1 with temps := s1.temps + 1 } x sx
    (same_context_refl_of b b1 s s1 hs _ _ rfl rfl) h
  exact ⟨hk, r⟩

theorem TREE_SIDE_EFFECTS_build2_eq (code : tree_code) (a b : Tree) :
    (build2 code a b).TREE_SIDE_EFFECTS =
      (code == .MODIFY_EXPR || a.TREE_SIDE_EFFECTS || b.TREE_SIDE_EFFECTS) := by
  by_cases hc : code = .MODIFY_EXPR
  · subst hc; rfl
  · have hb : (code == tree_code.MODIFY_EXPR) = false := by simpa using hc
    rw [Tree.TREE_SIDE_EFFECTS, hb, Bool.false_or]
    exact hc

theorem TREE_SIDE_EFFECTS_erase (t : Tree) :
    t.erase_temps.TREE_SIDE_EFFECTS = t.TREE_SIDE_EFFECTS := by
  induction t with
  | build1 code a ih => exact ih
  | build2 code a b iha ihb =>
    rw [Tree.erase_temps, TREE_SIDE_EFFECTS_build2_eq, TREE_SIDE_EFFECTS_build2_eq, iha, ihb]
  | build3 code a b c iha ihb ihc =>
    show (a.erase_temps.TREE_SIDE_EFFECTS || b.erase_temps.TREE_SIDE_EFFECTS ||
      c.erase_temps.TREE_SIDE_EFFECTS) = _
    rw [iha, ihb, ihc]; rfl
  | component_ref a f ih => exact ih
  | tree_list a b iha ihb =>
    show (a.erase_temps.TREE_SIDE_EFFECTS || b.erase_temps.TREE_SIDE_EFFECTS) = _
    rw [iha, ihb]; rfl
  | constructor a ih => exact ih
  | constructor_elt i a b iha ihb =>
    show (a.erase_temps.TREE_SIDE_EFFECTS || b.erase_temps.TREE_SIDE_EFFECTS) = _
    rw [iha, ihb]; rfl
  | bind_expr a b iha ihb =>
    show (a.erase_temps.TREE_SIDE_EFFECTS || b.erase_temps.TREE_SIDE_EFFECTS) = _
    rw [iha, ihb]; rfl
  | statement_list a ih => exact ih
  | method_call_expr a b iha ihb =>
    show (a.erase_temps.TREE_SIDE_EFFECTS || b.erase_temps.TREE_SIDE_EFFECTS) = _
    rw [iha, ihb]; rfl
  | helper n se a ih =>
    show (se || a.erase_temps.TREE_SIDE_EFFECTS) = _
    rw [ih]; rfl
  | _ => rfl

theorem d_has_side_effects_build1_eq (code : tree_code) (a : Tree) :
    d_has_side_effects (build1 code a) =
      if code = .NOP_EXPR ∨ code = .INDIRECT_REF ∨ code = .ADDR_EXPR then d_has_side_effects a
      else a.TREE_SIDE_EFFECTS := by
  by_cases h1 : code = .NOP_EXPR
  · subst h1; simp [d_has_side_effects]
  by_cases h2 : code = .INDIRECT_REF
  · subst h2; simp [d_has_side_effects]
  by_cases h3 : code = .ADDR_EXPR
  · subst h3; simp [d_has_side_effects]
  rw [d_has_side_effects]
  · rw [if_neg (by simp [h1, h2, h3]), Tree.TREE_SIDE_EFFECTS]
  · intro _ _ h; cases h
  · intro _ h; exact h1 (Tree.build1.inj h).1
  · intro _ h; exact h2 (Tree.build1.inj h).1
  · intro _ h; exact h3 (Tree.build1.inj h).1
  · intro _ _ h; cases h

theorem d_has_side_effects_erase (t : Tree) :
    d_has_side_effects t.erase_temps = d_has_side_effects t := by
  induction t with
  | build1 code a ih =>
    rw [Tree.erase_temps, d_has_side_effects_build1_eq, d_has_side_effects_build1_eq, ih,
      TREE_SIDE_EFFECTS_erase]
  | component_ref a f ih => exact ih
  | save_expr _ _ _ => rfl
  | build2 code a b _ _ => exact TREE_SIDE_EFFECTS_erase (build2 code a b)
  | build3 code a b c _ _ _ => exact TREE_SIDE_EFFECTS_erase (build3 code a b c)
  | call_expr a b _ _ => rfl
  | tree_list a b _ _ => exact TREE_SIDE_EFFECTS_erase (tree_list a b)
  | constructor a _ => exact TREE_SIDE_EFFECTS_erase (constructor a)
  | constructor_elt i a b _ _ => exact TREE_SIDE_EFFECTS_erase (constructor_elt i a b)
  | bind_expr a b _ _ => exact TREE_SIDE_EFFECTS_erase (bind_expr a b)
  | statement_list a _ => exact TREE_SIDE_EFFECTS_erase (statement_list a)
  | method_call_expr a b _ _ => exact TREE_SIDE_EFFECTS_erase (method_call_expr a b)
  | helper n se a _ => exact TREE_SIDE_EFFECTS_erase (helper n se a)
  | _ => rfl

theorem d_has_side_effects_same (t t1 : Tree) (h : t.erase_temps = t1.erase_temps) :
    d_has_side_effects t = d_has_side_effects t1 := by
  rw [← d_has_side_effects_erase t, h, d_has_side_effects_erase]

@[simp] theorem d_has_side_effects_shape (t : Tree) :
    d_has_side_effects t = Tree.shape_side_effects t.erase_temps :=
  (d_has_side_effects_erase t).symm

theorem repeats_maybe_make_temp (b b1 : Nat) (t t1 : Tree)
    (h : t.erase_temps = t1.erase_temps) :
    Lower.repeats b b1 (maybe_make_temp t) (maybe_make_temp t1) := by
  unfold maybe_make_temp
  rw [d_has_side_effects_same t t1 h]
  exact repeats_ite _ _ _ _ _ _ _ (fun _ => repeats_make_temp b b1 t t1 h)
    (fun _ => repeats_pure b b1 t t1 h)

@[simp] theorem erase_build_address (a : Tree) :
    (build_address a).erase_temps = build_address a.erase_temps := rfl

@[simp] theorem erase_build_nop (a : Tree) :
    (build_nop a).erase_temps = build_nop a.erase_temps := rfl

@[simp] theorem erase_indirect_ref (a : Tree) :
    (indirect_ref a).erase_temps = indirect_ref a.erase_temps := rfl

@[simp] theorem erase_build_deref (a : Tree) :
    (build_deref a).erase_temps = build_deref a.erase_temps := rfl

@[simp] theorem erase_void_okay_p (a : Tree) :
    (void_okay_p a).erase_temps = void_okay_p a.erase_temps := rfl

@[simp] theorem erase_d_array_length (a : Tree) :
    (d_array_length a).erase_temps = d_array_length a.erase_temps := rfl

@[simp] theorem erase_d_array_ptr (a : Tree) :
    (d_array_ptr a).erase_temps = d_array_ptr a.erase_temps := rfl

@[simp] theorem erase_d_convert (a : Tree) :
    (d_convert a).erase_temps = d_convert a.erase_temps := rfl

@[simp] theorem erase_d_truthvalue_conversion (a : Tree) :
    (d_truthvalue_conversion a).erase_temps = d_truthvalue_conversion a.erase_temps := rfl

@[simp] theorem erase_compound_expr (a b : Tree) :
    (compound_expr a b).erase_temps = compound_expr a.erase_temps b.erase_temps := rfl

@[simp] theorem erase_modify_expr (a b : Tree) :
    (modify_expr a b).erase_temps = modify_expr a.erase_temps b.erase_temps := rfl

@[simp] theorem erase_build_array_index (a b : Tree) :
    (build_array_index a b).erase_temps = build_array_index a.erase_temps b.erase_temps := rfl

@[simp] theorem erase_d_array_value (a b : Tree) :
    (d_array_value a b).erase_temps = d_array_value a.erase_temps b.erase_temps := rfl

@[simp] theorem erase_build_condition (a b c : Tree) :
    (build_condition a b c).erase_temps = build_condition a.erase_temps b.erase_temps c.erase_temps := rfl

@[simp] theorem erase_build_array_set (a b c : Tree) :
    (build_array_set a b c).erase_temps = build_array_set a.erase_temps b.erase_temps c.erase_temps := rfl

@[simp] theorem erase_build_boolop (code : tree_code) (a b : Tree) :
    (build_boolop code a b).erase_temps = build_boolop code a.erase_temps b.erase_temps := rfl

theorem erase_eq_integer_cst (t : Tree) (n : Nat) (h : t.erase_temps = integer_cst n) :
    t = integer_cst n := by
  cases t <;> first | exact h | cases h

theorem fold_build2_of_left (code : tree_code) (a b : Tree) (h : ∀ x, a ≠ integer_cst x) :
    fold_build2 code a b = build2 code a b := by
  unfold fold_build2
  split
  · exact absurd rfl (h _)
  · exact absurd rfl (h _)
  · rfl

theorem fold_build2_of_right (code : tree_code) (a b : Tree) (h : ∀ x, b ≠ integer_cst x) :
    fold_build2 code a b = build2 code a b := by
  unfold fold_build2
  split
  · exact absurd rfl (h _)
  · exact absurd rfl (h _)
  · rfl

@[simp] theorem erase_fold_build2 (code : tree_code) (a b : Tree) :
    (fold_build2 code a b).erase_temps = fold_build2 code a.erase_temps b.erase_temps := by
  by_cases ha : ∃ x, a = integer_cst x
  · obtain ⟨x, rfl⟩ := ha
    by_cases hb : ∃ y, b = integer_cst y
    · obtain ⟨y, rfl⟩ := hb
      cases code <;> rfl
    · rw [fold_build2_of_right code _ b (fun y h => hb ⟨y, h⟩),
        fold_build2_of_right code _ b.erase_temps
          (fun y h => hb ⟨y, erase_eq_integer_cst b y h⟩)]
      rfl
  · rw [fold_build2_of_left code a b (fun y h => ha ⟨y, h⟩),
      fold_build2_of_left code a.erase_temps _
        (fun y h => ha ⟨y, erase_eq_integer_cst a y h⟩)]
    rfl

@[simp] theorem erase_convert_expr (t : Tree) (a b : DType) :
    (convert_expr t a b).erase_temps = convert_expr t.erase_temps a b := by
  unfold convert_expr
  split
  · rfl
  · split <;> rfl

@[simp] theorem erase_convert_for_assignment (t : Tree) (a b : DType) :
    (convert_for_assignment t a b).erase_temps = convert_for_assignment t.erase_temps a b := by
  unfold convert_for_assignment
  split <;> rfl

@[simp] theorem erase_convert_for_condition (t : Tree) (a : DType) :
    (convert_for_condition t a).erase_temps = convert_for_condition t.erase_temps a := rfl

@[simp] theorem erase_get_array_length (t : Tree) (a : DType) :
    (get_array_length t a).erase_temps = get_array_length t.erase_temps a := by
  unfold get_array_length
  split <;> rfl

@[simp] theorem erase_list (l : List Tree) :
    (Tree.list l).erase_temps = Tree.list (Shape.shape l) := by
  induction l with
  | nil => rfl
  | cons t ts ih => simp only [Tree.list, Tree.erase_temps, ih]; rfl

@[simp] theorem erase_elts (l : List (Nat × Tree)) :
    (Tree.elts l).erase_temps = Tree.elts (Shape.shape l) := by
  induction l with
  | nil => rfl
  | cons p ps ih => obtain ⟨i, v⟩ := p; simp only [Tree.elts, Tree.erase_temps, ih]; rfl

@[simp] theorem erase_build_libcall (libcall : LibCall) (l : List Tree) :
    (build_libcall libcall l).erase_temps = build_libcall libcall (Shape.shape l) := by
  simp only [build_libcall, Tree.erase_temps, erase_list]

@[simp] theorem erase_d_build_call_nary (fn : built_in_function) (l : List Tree) :
    (d_build_call_nary fn l).erase_temps = d_build_call_nary fn (Shape.shape l) := by
  simp only [d_build_call_nary, Tree.erase_temps, erase_list, build_address]

@[simp] theorem erase_maybe_compound_expr (a : Option Tree) (b : Tree) :
    (maybe_compound_expr a b).erase_temps
      = maybe_compound_expr (Shape.shape a) b.erase_temps := by
  cases a <;> rfl

@[simp] theorem erase_build_vindex_ref (a : Tree) (index : Nat) :
    (build_vindex_ref a index).erase_temps = build_vindex_ref a.erase_temps index := rfl

@[simp] theorem erase_build_typeinfo (t : DType) :
    (build_typeinfo t).erase_temps = build_typeinfo t := rfl

@[simp] theorem erase_size_int (n : Nat) : (size_int n).erase_temps = size_int n := rfl

@[simp] theorem erase_d_assert_call (l : LibCall) :
    (d_assert_call l).erase_temps = d_assert_call l := rfl

@[simp] theorem erase_complex_expr (a b : Tree) :
    (complex_expr a b).erase_temps = complex_expr a.erase_temps b.erase_temps := rfl

@[simp] theorem erase_build_binary_op (code : tree_code) (a b : Tree) :
    (build_binary_op code a b).erase_temps = build_binary_op code a.erase_temps b.erase_temps := rfl

@[simp] theorem erase_build_vcondition (a b c : Tree) :
    (build_vcondition a b c).erase_temps
      = build_vcondition a.erase_temps b.erase_temps c.erase_temps := rfl

@[simp] theorem erase_d_assert_call_msg (l : LibCall) (m : Option Tree) :
    (d_assert_call_msg l m).erase_temps = d_assert_call_msg l (Shape.shape m) := by
  cases m <;> rfl

@[simp] theorem erase_build_vthis_class (cd : ClassDeclaration) :
    (build_vthis_class cd).erase_temps = build_vthis_class cd := rfl

@[simp] theorem erase_get_decl_tree (var : Dsymbol) :
    (get_decl_tree var).erase_temps = get_decl_tree var := by
  unfold get_decl_tree
  split <;> rfl

@[simp] theorem erase_build1 (code : tree_code) (a : Tree) :
    (build1 code a).erase_temps = build1 code a.erase_temps := rfl

@[simp] theorem erase_build2 (code : tree_code) (a b : Tree) :
    (build2 code a b).erase_temps = build2 code a.erase_temps b.erase_temps := rfl

@[simp] theorem erase_build3 (code : tree_code) (a b c : Tree) :
    (build3 code a b c).erase_temps = build3 code a.erase_temps b.erase_temps c.erase_temps :=
  rfl

@[simp] theorem erase_component_ref (a : Tree) (f : String) :
    (component_ref a f).erase_temps = component_ref a.erase_temps f := rfl

@[simp] theorem erase_call_expr (a b : Tree) :
    (call_expr a b).erase_temps = call_expr a.erase_temps b.erase_temps := rfl

@[simp] theorem erase_method_call_expr (a b : Tree) :
    (method_call_expr a b).erase_temps = method_call_expr a.erase_temps b.erase_temps := rfl

@[simp] theorem erase_bind_expr (a b : Tree) :
    (bind_expr a b).erase_temps = bind_expr a.erase_temps b.erase_temps := rfl

@[simp] theorem erase_helper (name : String) (se : Bool) (a : Tree) :
    (helper name se a).erase_temps = helper name se a.erase_temps := rfl

@[simp] theorem erase_save_expr (id : Nat) (a : Tree) :
    (save_expr id a).erase_temps = save_expr 0 a.erase_temps := rfl

@[simp] theorem erase_temp_var (id : Nat) (a : Tree) :
    (temp_var id a).erase_temps = temp_var 0 a.erase_temps := rfl

@[simp] theorem erase_integer_cst (n : Nat) : (integer_cst n).erase_temps = integer_cst n := rfl

@[simp] theorem erase_var_decl (n : String) : (var_decl n).erase_temps = var_decl n := rfl

@[simp] theorem erase_function_decl (n : String) : (function_decl n).erase_temps = function_decl n := rfl

@[simp] theorem erase_libcall_decl (n : LibCall) : (libcall_decl n).erase_temps = libcall_decl n := rfl

@[simp] theorem erase_builtin_decl (n : built_in_function) : (builtin_decl n).erase_temps = builtin_decl n := rfl

@[simp] theorem erase_typeinfo_decl (n : DType) : (typeinfo_decl n).erase_temps = typeinfo_decl n := rfl

@[simp] theorem erase_atom (n : String) (se : Bool) : (atom n se).erase_temps = atom n se := rfl

@[simp] theorem erase_error_mark_node : error_mark_node.erase_temps = error_mark_node := rfl

@[simp] theorem erase_void_node : void_node.erase_temps = void_node := rfl

@[simp] theorem erase_null_tree : null_tree.erase_temps = null_tree := rfl

@[simp] theorem erase_integer_zero_node : integer_zero_node.erase_temps = integer_zero_node := rfl

@[simp] theorem erase_size_zero_node : size_zero_node.erase_temps = size_zero_node := rfl

@[simp] theorem erase_size_one_node : size_one_node.erase_temps = size_one_node := rfl

@[simp] theorem erase_null_pointer_node : null_pointer_node.erase_temps = null_pointer_node := rfl

@[simp] theorem erase_tree_list (a b : Tree) :
    (tree_list a b).erase_temps = tree_list a.erase_temps b.erase_temps := rfl

@[simp] theorem erase_constructor (a : Tree) :
    (constructor a).erase_temps = constructor a.erase_temps := rfl

@[simp] theorem erase_constructor_elt (i : Nat) (a b : Tree) :
    (constructor_elt i a b).erase_temps = constructor_elt i a.erase_temps b.erase_temps := rfl

@[simp] theorem erase_statement_list (a : Tree) :
    (statement_list a).erase_temps = statement_list a.erase_temps := rfl

@[simp] theorem erase_foldl_bind_expr (l : List Tree) (r : Tree) :
    (l.foldl (fun result var => bind_expr var result) r).erase_temps
      = (Shape.shape l).foldl (fun result var => bind_expr var result) r.erase_temps := by
  induction l generalizing r with
  | nil => rfl
  | cons v vs ih => simp only [List.foldl_cons, ih]; rfl

@[simp] theorem erase_ite (c : Prop) [Decidable c] (a b : Tree) :
    (if c then a else b).erase_temps = if c then a.erase_temps else b.erase_temps := by
  split <;> rfl

theorem erase_eq_var_decl (t : Tree) (n : String) (h : t.erase_temps = var_decl n) :
    t = var_decl n := by
  cases t <;> first | exact h | cases h

@[simp] theorem shape_prod_eta {α β : Type} [Shape α] [Shape β] (p : α × β) :
    Shape.shape p = (Shape.shape p.1, Shape.shape p.2) := rfl

theorem integer_zerop_erase (t : Tree) : integer_zerop t.erase_temps = integer_zerop t := by
  cases t <;> rfl

@[simp] theorem integer_zerop_shape (t : Tree) :
    integer_zerop t = Tree.shape_zerop t.erase_temps :=
  (integer_zerop_erase t).symm

theorem integer_zerop_same (t t1 : Tree) (h : t.erase_temps = t1.erase_temps) :
    integer_zerop t = integer_zerop t1 := by
  rw [← integer_zerop_erase t, h, integer_zerop_erase]

theorem TREE_OPERAND_erase (t : Tree) (i : Nat) :
    TREE_OPERAND t.erase_temps i = Shape.shape (TREE_OPERAND t i) := by
  cases t <;> first | rfl | (rcases i with _ | _ | _ | i <;> rfl)

/-! ## Lowering twice: the cleanup wrapper -/

theorem drop_getElem?_of_le {α : Type} (l : List α) (b i : Nat) (h : b ≤ i) :
    l[i]? = (l.drop b)[i - b]? := by
  rw [List.getElem?_drop]; congr 1; omega

theorem drop_set_of_le {α : Type} (l : List α) (b i : Nat) (a : α) (h : b ≤ i) :
    (l.set i a).drop b = (l.drop b).set (i - b) a := by
  apply List.ext_getElem?
  intro k
  rw [List.getElem?_drop, List.getElem?_set, List.getElem?_set, List.getElem?_drop]
  by_cases hk : i = b + k
  · subst hk
    simp only [List.length_drop, Nat.add_sub_cancel_left, if_true]
    by_cases hl : b + k < l.length
    · have : k < l.length - b := by omega
      simp [hl, this]
    · have : ¬ k < l.length - b := by omega
      simp [hl, this]
  · have : ¬ i - b = k := by omega
    simp [hk, this]

/-- Corresponding entries of the two ledgers are set to `NULL`. -/
theorem same_context_set (b b1 : Nat) (s s1 : IRState) (hs : s.same_context b b1 s1)
    (i i1 : Nat) (hi : b ≤ i) (hi1 : b1 ≤ i1) (hii : i - b = i1 - b1) (dl dl1 : List Nat) :
    IRState.same_context b b1
      { s with vars_in_scope := s.vars_in_scope.set i none, dtors_lowered := dl }
      { s1 with vars_in_scope := s1.vars_in_scope.set i1 none, dtors_lowered := dl1 } := by
  obtain ⟨h1, h2, h3, h4, h5, h6⟩ := hs
  refine ⟨h1, h2, h3, by simpa using h4, by simpa using h5, ?_⟩
  show (s.vars_in_scope.set i none).drop b = (s1.vars_in_scope.set i1 none).drop b1
  rw [drop_set_of_le _ _ _ _ hi, drop_set_of_le _ _ _ _ hi1, h6, hii]

theorem repeats_toElemDtor_loop (b b1 : Nat) (toElem toElem1 : Expression → Lower Tree)
    (hf : ∀ e, Lower.repeats b b1 (toElem e) (toElem1 e)) (count : Nat) :
    ∀ (i i1 : Nat) (tdtors tdtors1 : Option Tree), Shape.shape tdtors = Shape.shape tdtors1 →
      b ≤ i → b1 ≤ i1 → i - b = i1 - b1 →
      Lower.repeats b b1 (toElemDtor_loop toElem count i tdtors)
        (toElemDtor_loop toElem1 count i1 tdtors1) := by
  induction count with
  | zero =>
    intro i i1 tdtors tdtors1 ht _ _ _
    exact repeats_pure b b1 _ _ ht
  | succ count ih =>
    intro i i1 tdtors tdtors1 ht hi hi1 hii
    refine ⟨fun s s1 x sx hs h => ?_⟩
    have hlook : s.vars_in_scope[i]? = s1.vars_in_scope[i1]? := by
      rw [drop_getElem?_of_le _ b i hi, drop_getElem?_of_le _ b1 i1 hi1, hs.2.2.2.2.2, hii]
    simp only [toElemDtor_loop, Lower.bind_apply, Lower.get_apply] at h ⊢
    rw [← hlook]
    generalize s.vars_in_scope[i]? = entry at h ⊢
    rcases entry with _ | _ | vd
    · cases h
    · exact (ih (i + 1) (i1 + 1) tdtors tdtors1 ht (by omega) (by omega) (by omega)).ok
        s s1 x sx hs h
    · simp only [Lower.bind_apply, Lower.set_apply] at h ⊢
      rcases hed : vd.edtor with _ | edtor
      · simp [hed] at h
      · simp only [hed] at h ⊢
        have hs2 := same_context_set b b1 s s1 hs i i1 hi hi1 hii
          (i :: s.dtors_lowered) (i1 :: s1.dtors_lowered)
        have hrest := repeats_bind b b1 (toElem edtor) (toElem1 edtor)
          (fun td => toElemDtor_loop toElem count (i + 1) (some (maybe_compound_expr tdtors td)))
          (fun td => toElemDtor_loop toElem1 count (i1 + 1)
            (some (maybe_compound_expr tdtors1 td)))
          (hf edtor)
          (fun td td1 htd => ih (i + 1) (i1 + 1) _ _ (by simp_all) (by omega) (by omega)
            (by omega))
        obtain ⟨hk, r⟩ := hrest.ok _ _ x sx hs2 h
        exact ⟨same_settings_trans s _ sx ⟨rfl, rfl, rfl⟩ hk, r⟩

theorem same_context_length (b b1 : Nat) (s s1 : IRState) (hs : s.same_context b b1 s1) :
    b ≤ s.vars_in_scope.length ∧ b1 ≤ s1.vars_in_scope.length
      ∧ s.vars_in_scope.length - b = s1.vars_in_scope.length - b1 := by
  obtain ⟨_, _, _, h4, h5, h6⟩ := hs
  have := congrArg List.length h6
  simp only [List.length_drop] at this
  exact ⟨h4, h5, this⟩

theorem shape_option_cases {α : Type} [Shape α] (a a1 : Option α)
    (h : Shape.shape a = Shape.shape a1) :
    (a = none ∧ a1 = none) ∨ ∃ x x1, a = some x ∧ a1 = some x1
      ∧ Shape.shape x = Shape.shape x1 := by
  cases a <;> cases a1 <;> simp_all [Shape.shape]

theorem repeats_toElemDtor (b b1 : Nat) (toElem toElem1 : Expression → Lower Tree)
    (hf : ∀ e, Lower.repeats b b1 (toElem e) (toElem1 e)) (this : Expression) :
    Lower.repeats b b1 (this.toElemDtor toElem) (this.toElemDtor toElem1) := by
  unfold Expression.toElemDtor
  apply repeats_bind_get
  intro s s1 hs
  apply repeats_bind _ _ _ _ _ _ (hf this)
  intro exp exp1 hexp
  apply repeats_bind_get
  intro sa sa1 hsa
  obtain ⟨l1, l2, l3⟩ := same_context_length b b1 s s1 hs
  obtain ⟨m1, m2, m3⟩ := same_context_length b b1 sa sa1 hsa
  have hcount : sa.vars_in_scope.length - s.vars_in_scope.length
      = sa1.vars_in_scope.length - s1.vars_in_scope.length := by omega
  dsimp only
  by_cases hlt : sa.vars_in_scope.length < s.vars_in_scope.length
  · simp only [hlt, if_true]
    exact ⟨fun _ _ _ _ _ h => by cases h⟩
  · have hlt1 : ¬ sa1.vars_in_scope.length < s1.vars_in_scope.length := by omega
    simp only [hlt, hlt1, if_false, hcount, pure_bind]
    apply repeats_bind _ _ _ _ _ _
      (repeats_toElemDtor_loop b b1 toElem toElem1 hf _ _ _ none none rfl l1 l2 l3)
    intro tdtors tdtors1 htd
    rcases shape_option_cases tdtors tdtors1 htd with ⟨rfl, rfl⟩ | ⟨td, td1, rfl, rfl, htd2⟩
    · exact repeats_pure _ _ _ _ hexp
    · simp only [shape_tree] at htd2 hexp
      dsimp only
      have h0 := TREE_OPERAND_erase exp 0
      have h1 := TREE_OPERAND_erase exp 1
      rw [hexp, TREE_OPERAND_erase] at h0 h1
      repeat' first
        | with_reducible exact repeats_throw _ _ _ _
        | with_reducible apply repeats_bind
        | with_reducible apply repeats_ite
        | with_reducible apply repeats_maybe_make_temp
        | with_reducible apply repeats_pure
        | intro _
        | (simp_all; done)
      generalize TREE_OPERAND exp 0 = o0 at h0 ⊢
      generalize TREE_OPERAND exp 1 = o1 at h1 ⊢
      generalize TREE_OPERAND exp1 0 = p0 at h0 ⊢
      generalize TREE_OPERAND exp1 1 = p1 at h1 ⊢
      rcases shape_option_cases p0 o0 h0 with ⟨rfl, rfl⟩ | ⟨x0, y0, rfl, rfl, hxy0⟩
      · exact repeats_throw _ _ _ _
      · rcases shape_option_cases p1 o1 h1 with ⟨rfl, rfl⟩ | ⟨x1, y1, rfl, rfl, hxy1⟩
        · exact repeats_throw _ _ _ _
        · apply repeats_pure
          simp_all

/-! ## Lowering twice: the rules

For every rule, the rule over a virtual call `toElem1` that repeats `toElem`
repeats the rule over `toElem`.  The proofs walk the rule step by step; where
a rule continues after a branch (a join point), the continuation is treated
first and once. -/

theorem repeats_build_bounds_condition (b b1 : Nat)
    (inclusive : Bool)
    (index index1 : Tree) (len len1 : Tree)
    (hindex : Shape.shape index = Shape.shape index1) (hlen : Shape.shape len = Shape.shape len1) :
    Lower.repeats b b1 (build_bounds_condition index len inclusive)
      (build_bounds_condition index1 len1 inclusive) := by
  unfold build_bounds_condition
  repeat' first
    | (intro _; intros)
    | with_reducible exact repeats_throw_bind _ _ _ _ _
    | with_reducible apply repeats_bind_get
    | with_reducible apply repeats_bind_create_temporary_var
    | with_reducible apply repeats_pure_bind
    | with_reducible apply repeats_bind_unit
    | with_reducible apply repeats_bind_plain
    | with_reducible apply repeats_bind_plain_pair
    | with_reducible apply repeats_bind
    | with_reducible apply repeats_ite
    | with_reducible exact repeats_same _ _ _
    | with_reducible exact repeats_throw _ _ _ _
    | with_reducible exact repeats_gcc_assert _ _ _
    | with_reducible exact repeats_error _ _ _
    | ((with_reducible apply repeats_gcc_assert_of) <;> (solve | (first | (simp [*]; done) | simp_all)))
    | with_reducible exact repeats_push _ _ _
    | with_reducible exact repeats_defer _ _ _
    | ((with_reducible apply repeats_ite_iff); case hc => (solve | (first | (simp [IRState.same_context, *]; done) | simp_all [IRState.same_context])))
    | ((with_reducible apply repeats_maybe_make_temp) <;> (solve | (first | (simp [*]; done) | simp_all)))
    | ((with_reducible apply repeats_make_temp) <;> (solve | (first | (simp [*]; done) | simp_all)))
    | ((with_reducible apply repeats_pure) <;> (solve | (first | (simp [IRState.same_context, *]; done) | simp_all [IRState.same_context])))
    | dsimp only
    | split
    | (exfalso; (solve | (first | (simp [*]; done) | simp_all)))
    | (solve | (first | (simp [IRState.same_context, *]; done) | simp_all [IRState.same_context]))

theorem repeats_d_array_convert (b b1 : Nat) (toElem toElem1 : Expression → Lower Tree)
    (hf : ∀ e, Lower.repeats b b1 (toElem e) (toElem1 e))
    (exp : Expression) :
    Lower.repeats b b1 (d_array_convert toElem exp)
      (d_array_convert toElem1 exp) := by
  unfold d_array_convert
  repeat' first
    | (intro _; intros)
    | with_reducible exact hf _
    | with_reducible exact repeats_throw_bind _ _ _ _ _
    | with_reducible apply repeats_bind_get
    | with_reducible apply repeats_bind_create_temporary_var
    | with_reducible apply repeats_pure_bind
    | with_reducible apply repeats_bind_unit
    | with_reducible apply repeats_bind_plain
    | with_reducible apply repeats_bind_plain_pair
    | with_reducible apply repeats_bind
    | with_reducible apply repeats_ite
    | with_reducible exact repeats_same _ _ _
    | with_reducible exact repeats_throw _ _ _ _
    | with_reducible exact repeats_gcc_assert _ _ _
    | with_reducible exact repeats_error _ _ _
    | ((with_reducible apply repeats_gcc_assert_of) <;> (solve | (clear hf; first | (simp [*]; done) | simp_all)))
    | with_reducible exact repeats_push _ _ _
    | with_reducible exact repeats_defer _ _ _
    | with_reducible exact repeats_toElemDtor b b1 toElem toElem1 hf _
    | ((with_reducible apply repeats_build_bounds_condition b b1) <;> (solve | (clear hf; first | (simp [*]; done) | simp_all)))
    | ((with_reducible apply repeats_ite_iff); case hc => (solve | (clear hf; first | (simp [IRState.same_context, *]; done) | simp_all [IRState.same_context])))
    | ((with_reducible apply repeats_maybe_make_temp) <;> (solve | (clear hf; first | (simp [*]; done) | simp_all)))
    | ((with_reducible apply repeats_make_temp) <;> (solve | (clear hf; first | (simp [*]; done) | simp_all)))
    | ((with_reducible apply repeats_pure) <;> (solve | (clear hf; first | (simp [IRState.same_context, *]; done) | simp_all [IRState.same_context])))
    | dsimp only
    | split
    | (exfalso; (solve | (clear hf; first | (simp [*]; done) | simp_all)))
    | (solve | (clear hf; first | (simp [IRState.same_context, *]; done) | simp_all [IRState.same_context]))

theorem repeats_CommaExp_toElem (b b1 : Nat) (toElem toElem1 : Expression → Lower Tree)
    (hf : ∀ e, Lower.repeats b b1 (toElem e) (toElem1 e))
    (e1 e2 : Expression) :
    Lower.repeats b b1 (CommaExp.toElem toElem e1 e2)
      (CommaExp.toElem toElem1 e1 e2) := by
  unfold CommaExp.toElem
  repeat' first
    | (intro _; intros)
    | with_reducible exact hf _
    | with_reducible exact repeats_throw_bind _ _ _ _ _
    | with_reducible apply repeats_bind_get
    | with_reducible apply repeats_bind_create_temporary_var
    | with_reducible apply repeats_pure_bind
    | with_reducible apply repeats_bind_unit
    | with_reducible apply repeats_bind_plain
    | with_reducible apply repeats_bind_plain_pair
    | with_reducible apply repeats_bind
    | with_reducible apply repeats_ite
    | with_reducible exact repeats_same _ _ _
    | with_reducible exact repeats_throw _ _ _ _
    | with_reducible exact repeats_gcc_assert _ _ _
    | with_reducible exact repeats_error _ _ _
    | ((with_reducible apply repeats_gcc_assert_of) <;> (solve | (clear hf; first | (simp [*]; done) | simp_all)))
    | with_reducible exact repeats_push _ _ _
    | with_reducible exact repeats_defer _ _ _
    | with_reducible exact repeats_toElemDtor b b1 toElem toElem1 hf _
    | ((with_reducible apply repeats_build_bounds_condition b b1) <;> (solve | (clear hf; first | (simp [*]; done) | simp_all)))
    | ((with_reducible apply repeats_d_array_convert b b1 toElem toElem1 hf))
    | ((with_reducible apply repeats_ite_iff); case hc => (solve | (clear hf; first | (simp [IRState.same_context, *]; done) | simp_all [IRState.same_context])))
    | ((with_reducible apply repeats_maybe_make_temp) <;> (solve | (clear hf; first | (simp [*]; done) | simp_all)))
    | ((with_reducible apply repeats_make_temp) <;> (solve | (clear hf; first | (simp [*]; done) | simp_all)))
    | ((with_reducible apply repeats_pure) <;> (solve | (clear hf; first | (simp [IRState.same_context, *]; done) | simp_all [IRState.same_context])))
    | dsimp only
    | split
    | (exfalso; (solve | (clear hf; first | (simp [*]; done) | simp_all)))
    | (solve | (clear hf; first | (simp [IRState.same_context, *]; done) | simp_all [IRState.same_context]))

theorem repeats_CondExp_toElem (b b1 : Nat) (toElem toElem1 : Expression → Lower Tree)
    (hf : ∀ e, Lower.repeats b b1 (toElem e) (toElem1 e))
    (type : DType) (econd e1 e2 : Expression) :
    Lower.repeats b b1 (CondExp.toElem toElem type econd e1 e2)
      (CondExp.toElem toElem1 type econd e1 e2) := by
  unfold CondExp.toElem
  repeat' first
    | (intro _; intros)
    | with_reducible exact hf _
    | with_reducible exact repeats_throw_bind _ _ _ _ _
    | with_reducible apply repeats_bind_get
    | with_reducible apply repeats_bind_create_temporary_var
    | with_reducible apply repeats_pure_bind
    | with_reducible apply repeats_bind_unit
    | with_reducible apply repeats_bind_plain
    | with_reducible apply repeats_bind_plain_pair
    | with_reducible apply repeats_bind
    | with_reducible apply repeats_ite
    | with_reducible exact repeats_same _ _ _
    | with_reducible exact repeats_throw _ _ _ _
    | with_reducible exact repeats_gcc_assert _ _ _
    | with_reducible exact repeats_error _ _ _
    | ((with_reducible apply repeats_gcc_assert_of) <;> (solve | (clear hf; first | (simp [*]; done) | simp_all)))
    | with_reducible exact repeats_push _ _ _
    | with_reducible exact repeats_defer _ _ _
    | with_reducible exact repeats_toElemDtor b b1 toElem toElem1 hf _
    | ((with_reducible apply repeats_build_bounds_condition b b1) <;> (solve | (clear hf; first | (simp [*]; done) | simp_all)))
    | ((with_reducible apply repeats_d_array_convert b b1 toElem toElem1 hf))
    | ((with_reducible apply repeats_ite_iff); case hc => (solve | (clear hf; first | (simp [IRState.same_context, *]; done) | simp_all [IRState.same_context])))
    | ((with_reducible apply repeats_maybe_make_temp) <;> (solve | (clear hf; first | (simp [*]; done) | simp_all)))
    | ((with_reducible apply repeats_make_temp) <;> (solve | (clear hf; first | (simp [*]; done) | simp_all)))
    | ((with_reducible apply repeats_pure) <;> (solve | (clear hf; first | (simp [IRState.same_context, *]; done) | simp_all [IRState.same_context])))
    | dsimp only
    | split
    | (exfalso; (solve | (clear hf; first | (simp [*]; done) | simp_all)))
    | (solve | (clear hf; first | (simp [IRState.same_context, *]; done) | simp_all [IRState.same_context]))

theorem repeats_SymbolExp_toElem (b b1 : Nat)
    (type : DType) (var : Dsymbol) :
    Lower.repeats b b1 (SymbolExp.toElem type var)
      (SymbolExp.toElem type var) := by
  unfold SymbolExp.toElem
  repeat' first
    | (intro _; intros)
    | with_reducible exact repeats_throw_bind _ _ _ _ _
    | with_reducible apply repeats_bind_get
    | with_reducible apply repeats_bind_create_temporary_var
    | with_reducible apply repeats_pure_bind
    | with_reducible apply repeats_bind_unit
    | with_reducible apply repeats_bind_plain
    | with_reducible apply repeats_bind_plain_pair
    | with_reducible apply repeats_bind
    | with_reducible apply repeats_ite
    | with_reducible exact repeats_same _ _ _
    | with_reducible exact repeats_throw _ _ _ _
    | with_reducible exact repeats_gcc_assert _ _ _
    | with_reducible exact repeats_error _ _ _
    | ((with_reducible apply repeats_gcc_assert_of) <;> (solve | (first | (simp [*]; done) | simp_all)))
    | with_reducible exact repeats_push _ _ _
    | with_reducible exact repeats_defer _ _ _
    | ((with_reducible apply repeats_build_bounds_condition b b1) <;> (solve | (first | (simp [*]; done) | simp_all)))
    | ((with_reducible apply repeats_ite_iff); case hc => (solve | (first | (simp [IRState.same_context, *]; done) | simp_all [IRState.same_context])))
    | ((with_reducible apply repeats_maybe_make_temp) <;> (solve | (first | (simp [*]; done) | simp_all)))
    | ((with_reducible apply repeats_make_temp) <;> (solve | (first | (simp [*]; done) | simp_all)))
    | ((with_reducible apply repeats_pure) <;> (solve | (first | (simp [IRState.same_context, *]; done) | simp_all [IRState.same_context])))
    | dsimp only
    | split
    | (exfalso; (solve | (first | (simp [*]; done) | simp_all)))
    | (solve | (first | (simp [IRState.same_context, *]; done) | simp_all [IRState.same_context]))

theorem repeats_DotVarExp_toElem (b b1 : Nat) (toElem toElem1 : Expression → Lower Tree)
    (hf : ∀ e, Lower.repeats b b1 (toElem e) (toElem1 e))
    (e1 : Expression) (var : Dsymbol) :
    Lower.repeats b b1 (DotVarExp.toElem toElem e1 var)
      (DotVarExp.toElem toElem1 e1 var) := by
  unfold DotVarExp.toElem
  repeat' first
    | (intro _; intros)
    | with_reducible exact hf _
    | with_reducible exact repeats_throw_bind _ _ _ _ _
    | with_reducible apply repeats_bind_get
    | with_reducible apply repeats_bind_create_temporary_var
    | with_reducible apply repeats_pure_bind
    | with_reducible apply repeats_bind_unit
    | with_reducible apply repeats_bind_plain
    | with_reducible apply repeats_bind_plain_pair
    | with_reducible apply repeats_bind
    | with_reducible apply repeats_ite
    | with_reducible exact repeats_same _ _ _
    | with_reducible exact repeats_throw _ _ _ _
    | with_reducible exact repeats_gcc_assert _ _ _
    | with_reducible exact repeats_error _ _ _
    | ((with_reducible apply repeats_gcc_assert_of) <;> (solve | (clear hf; first | (simp [*]; done) | simp_all)))
    | with_reducible exact repeats_push _ _ _
    | with_reducible exact repeats_defer _ _ _
    | with_reducible exact repeats_toElemDtor b b1 toElem toElem1 hf _
    | ((with_reducible apply repeats_build_bounds_condition b b1) <;> (solve | (clear hf; first | (simp [*]; done) | simp_all)))
    | ((with_reducible apply repeats_d_array_convert b b1 toElem toElem1 hf))
    | ((with_reducible apply repeats_ite_iff); case hc => (solve | (clear hf; first | (simp [IRState.same_context, *]; done) | simp_all [IRState.same_context])))
    | ((with_reducible apply repeats_maybe_make_temp) <;> (solve | (clear hf; first | (simp [*]; done) | simp_all)))
    | ((with_reducible apply repeats_make_temp) <;> (solve | (clear hf; first | (simp [*]; done) | simp_all)))
    | ((with_reducible apply repeats_pure) <;> (solve | (clear hf; first | (simp [IRState.same_context, *]; done) | simp_all [IRState.same_context])))
    | dsimp only
    | split
    | (exfalso; (solve | (clear hf; first | (simp [*]; done) | simp_all)))
    | (solve | (clear hf; first | (simp [IRState.same_context, *]; done) | simp_all [IRState.same_context]))

theorem repeats_ArrayLengthExp_toElem (b b1 : Nat) (toElem toElem1 : Expression → Lower Tree)
    (hf : ∀ e, Lower.repeats b b1 (toElem e) (toElem1 e))
    (e1 : Expression) :
    Lower.repeats b b1 (ArrayLengthExp.toElem toElem e1)
      (ArrayLengthExp.toElem toElem1 e1) := by
  unfold ArrayLengthExp.toElem
  repeat' first
    | (intro _; intros)
    | with_reducible exact hf _
    | with_reducible exact repeats_throw_bind _ _ _ _ _
    | with_reducible apply repeats_bind_get
    | with_reducible apply repeats_bind_create_temporary_var
    | with_reducible apply repeats_pure_bind
    | with_reducible apply repeats_bind_unit
    | with_reducible apply repeats_bind_plain
    | with_reducible apply repeats_bind_plain_pair
    | with_reducible apply repeats_bind
    | with_reducible apply repeats_ite
    | with_reducible exact repeats_same _ _ _
    | with_reducible exact repeats_throw _ _ _ _
    | with_reducible exact repeats_gcc_assert _ _ _
    | with_reducible exact repeats_error _ _ _
    | ((with_reducible apply repeats_gcc_assert_of) <;> (solve | (clear hf; first | (simp [*]; done) | simp_all)))
    | with_reducible exact repeats_push _ _ _
    | with_reducible exact repeats_defer _ _ _
    | with_reducible exact repeats_toElemDtor b b1 toElem toElem1 hf _
    | ((with_reducible apply repeats_build_bounds_condition b b1) <;> (solve | (clear hf; first | (simp [*]; done) | simp_all)))
    | ((with_reducible apply repeats_d_array_convert b b1 toElem toElem1 hf))
    | ((with_reducible apply repeats_ite_iff); case hc => (solve | (clear hf; first | (simp [IRState.same_context, *]; done) | simp_all [IRState.same_context])))
    | ((with_reducible apply repeats_maybe_make_temp) <;> (solve | (clear hf; first | (simp [*]; done) | simp_all)))
    | ((with_reducible apply repeats_make_temp) <;> (solve | (clear hf; first | (simp [*]; done) | simp_all)))
    | ((with_reducible apply repeats_pure) <;> (solve | (clear hf; first | (simp [IRState.same_context, *]; done) | simp_all [IRState.same_context])))
    | dsimp only
    | split
    | (exfalso; (solve | (clear hf; first | (simp [*]; done) | simp_all)))
    | (solve | (clear hf; first | (simp [IRState.same_context, *]; done) | simp_all [IRState.same_context]))

theorem repeats_CastExp_toElem (b b1 : Nat) (toElem toElem1 : Expression → Lower Tree)
    (hf : ∀ e, Lower.repeats b b1 (toElem e) (toElem1 e))
    (e1 : Expression) (totype : DType) :
    Lower.repeats b b1 (CastExp.toElem toElem e1 totype)
      (CastExp.toElem toElem1 e1 totype) := by
  unfold CastExp.toElem
  repeat' first
    | (intro _; intros)
    | with_reducible exact hf _
    | with_reducible exact repeats_throw_bind _ _ _ _ _
    | with_reducible apply repeats_bind_get
    | with_reducible apply repeats_bind_create_temporary_var
    | with_reducible apply repeats_pure_bind
    | with_reducible apply repeats_bind_unit
    | with_reducible apply repeats_bind_plain
    | with_reducible apply repeats_bind_plain_pair
    | with_reducible apply repeats_bind
    | with_reducible apply repeats_ite
    | with_reducible exact repeats_same _ _ _
    | with_reducible exact repeats_throw _ _ _ _
    | with_reducible exact repeats_gcc_assert _ _ _
    | with_reducible exact repeats_error _ _ _
    | ((with_reducible apply repeats_gcc_assert_of) <;> (solve | (clear hf; first | (simp [*]; done) | simp_all)))
    | with_reducible exact repeats_push _ _ _
    | with_reducible exact repeats_defer _ _ _
    | with_reducible exact repeats_toElemDtor b b1 toElem toElem1 hf _
    | ((with_reducible apply repeats_build_bounds_condition b b1) <;> (solve | (clear hf; first | (simp [*]; done) | simp_all)))
    | ((with_reducible apply repeats_d_array_convert b b1 toElem toElem1 hf))
    | ((with_reducible apply repeats_ite_iff); case hc => (solve | (clear hf; first | (simp [IRState.same_context, *]; done) | simp_all [IRState.same_context])))
    | ((with_reducible apply repeats_maybe_make_temp) <;> (solve | (clear hf; first | (simp [*]; done) | simp_all)))
    | ((with_reducible apply repeats_make_temp) <;> (solve | (clear hf; first | (simp [*]; done) | simp_all)))
    | ((with_reducible apply repeats_pure) <;> (solve | (clear hf; first | (simp [IRState.same_context, *]; done) | simp_all [IRState.same_context])))
    | dsimp only
    | split
    | (exfalso; (solve | (clear hf; first | (simp [*]; done) | simp_all)))
    | (solve | (clear hf; first | (simp [IRState.same_context, *]; done) | simp_all [IRState.same_context]))

theorem repeats_EqualExp_toElem (b b1 : Nat) (toElem toElem1 : Expression → Lower Tree)
    (hf : ∀ e, Lower.repeats b b1 (toElem e) (toElem1 e))
    (op : TOK) (e1 e2 : Expression) :
    Lower.repeats b b1 (EqualExp.toElem toElem op e1 e2)
      (EqualExp.toElem toElem1 op e1 e2) := by
  unfold EqualExp.toElem
  repeat' first
    | (intro _; intros)
    | with_reducible exact hf _
    | with_reducible exact repeats_throw_bind _ _ _ _ _
    | with_reducible apply repeats_bind_get
    | with_reducible apply repeats_bind_create_temporary_var
    | with_reducible apply repeats_pure_bind
    | with_reducible apply repeats_bind_unit
    | with_reducible apply repeats_bind_plain
    | with_reducible apply repeats_bind_plain_pair
    | with_reducible apply repeats_bind
    | with_reducible apply repeats_ite
    | with_reducible exact repeats_same _ _ _
    | with_reducible exact repeats_throw _ _ _ _
    | with_reducible exact repeats_gcc_assert _ _ _
    | with_reducible exact repeats_error _ _ _
    | ((with_reducible apply repeats_gcc_assert_of) <;> (solve | (clear hf; first | (simp [*]; done) | simp_all)))
    | with_reducible exact repeats_push _ _ _
    | with_reducible exact repeats_defer _ _ _
    | with_reducible exact repeats_toElemDtor b b1 toElem toElem1 hf _
    | ((with_reducible apply repeats_build_bounds_condition b b1) <;> (solve | (clear hf; first | (simp [*]; done) | simp_all)))
    | ((with_reducible apply repeats_d_array_convert b b1 toElem toElem1 hf))
    | ((with_reducible apply repeats_ite_iff); case hc => (solve | (clear hf; first | (simp [IRState.same_context, *]; done) | simp_all [IRState.same_context])))
    | ((with_reducible apply repeats_maybe_make_temp) <;> (solve | (clear hf; first | (simp [*]; done) | simp_all)))
    | ((with_reducible apply repeats_make_temp) <;> (solve | (clear hf; first | (simp [*]; done) | simp_all)))
    | ((with_reducible apply repeats_pure) <;> (solve | (clear hf; first | (simp [IRState.same_context, *]; done) | simp_all [IRState.same_context])))
    | dsimp only
    | split
    | (exfalso; (solve | (clear hf; first | (simp [*]; done) | simp_all)))
    | (solve | (clear hf; first | (simp [IRState.same_context, *]; done) | simp_all [IRState.same_context]))

theorem repeats_SliceExp_toElem_upper (b b1 : Nat) (toElem toElem1 : Expression → Lower Tree)
    (hf : ∀ e, Lower.repeats b b1 (toElem e) (toElem1 e))
    (tb1 : DType) (upr : Option Expression) (upperIsInBounds lowerIsLessThanUpper : Bool)
    (array array1 : Tree) (ptr ptr1 : Tree) (length length1 : Option Tree) (lwr_tree lwr_tree1 : Option Tree)
    (harray : Shape.shape array = Shape.shape array1) (hptr : Shape.shape ptr = Shape.shape ptr1) (hlength : Shape.shape length = Shape.shape length1) (hlwr_tree : Shape.shape lwr_tree = Shape.shape lwr_tree1) :
    Lower.repeats b b1 (SliceExp.toElem_upper toElem tb1 upr upperIsInBounds lowerIsLessThanUpper array ptr length lwr_tree)
      (SliceExp.toElem_upper toElem1 tb1 upr upperIsInBounds lowerIsLessThanUpper array1 ptr1 length1 lwr_tree1) := by
  unfold SliceExp.toElem_upper
  try simp -zeta only []
  lift_lets
  intro j1 j2 j3 j4
  have h5 : ∀ a a1, Shape.shape a = Shape.shape a1 → Lower.repeats b b1 (j1 a) (j3 a1) := by
    try clear j4 j2
    intro a a1 ha
    unfold j1 j3
    try simp -zeta only []
    repeat' first
      | (intro _; intros)
      | with_reducible exact hf _
      | with_reducible exact repeats_throw_bind _ _ _ _ _
      | with_reducible apply repeats_bind_get
      | with_reducible apply repeats_bind_create_temporary_var
      | with_reducible apply repeats_pure_bind
      | with_reducible apply repeats_bind_unit
      | with_reducible apply repeats_bind_plain
      | with_reducible apply repeats_bind_plain_pair
      | with_reducible apply repeats_bind
      | with_reducible apply repeats_ite
      | with_reducible exact repeats_same _ _ _
      | with_reducible exact repeats_throw _ _ _ _
      | with_reducible exact repeats_gcc_assert _ _ _
      | with_reducible exact repeats_error _ _ _
      | ((with_reducible apply repeats_gcc_assert_of) <;> (solve | (clear hf; first | (simp [*]; done) | simp_all)))
      | with_reducible exact repeats_push _ _ _
      | with_reducible exact repeats_defer _ _ _
      | with_reducible exact repeats_toElemDtor b b1 toElem toElem1 hf _
      | ((with_reducible apply repeats_build_bounds_condition b b1) <;> (solve | (clear hf; first | (simp [*]; done) | simp_all)))
      | ((with_reducible apply repeats_d_array_convert b b1 toElem toElem1 hf))
      | ((with_reducible apply repeats_ite_iff); case hc => (solve | (clear hf; first | (simp [IRState.same_context, *]; done) | simp_all [IRState.same_context])))
      | ((with_reducible apply repeats_maybe_make_temp) <;> (solve | (clear hf; first | (simp [*]; done) | simp_all)))
      | ((with_reducible apply repeats_make_temp) <;> (solve | (clear hf; first | (simp [*]; done) | simp_all)))
      | ((with_reducible apply repeats_pure) <;> (solve | (clear hf; first | (simp [IRState.same_context, *]; done) | simp_all [IRState.same_context])))
      | dsimp only
      | split
      | (exfalso; (solve | (clear hf; first | (simp [*]; done) | simp_all)))
      | (solve | (clear hf; first | (simp [IRState.same_context, *]; done) | simp_all [IRState.same_context]))
  clear_value j1 j3
  have h6 : ∀ a a1, Shape.shape a = Shape.shape a1 → Lower.repeats b b1 (j2 a) (j4 a1) := by
    intro a a1 ha
    unfold j2 j4
    try simp -zeta only []
    try simp -zeta only []
    lift_lets
    intro j7 j8
    have h9 : ∀ a a1, Shape.shape a = Shape.shape a1 → Lower.repeats b b1 (j7 a) (j8 a1) := by
      intro a a1 ha
      unfold j7 j8
      try simp -zeta only []
      repeat' first
        | (intro _; intros)
        | with_reducible exact hf _
        | with_reducible exact repeats_throw_bind _ _ _ _ _
        | with_reducible apply repeats_bind_get
        | with_reducible apply repeats_bind_create_temporary_var
        | with_reducible apply repeats_pure_bind
        | with_reducible apply repeats_bind_unit
        | with_reducible apply repeats_bind_plain
        | with_reducible apply repeats_bind_plain_pair
        | with_reducible apply repeats_bind
        | with_reducible apply repeats_ite
        | with_reducible exact repeats_same _ _ _
        | with_reducible exact repeats_throw _ _ _ _
        | with_reducible exact repeats_gcc_assert _ _ _
        | with_reducible exact repeats_error _ _ _
        | ((with_reducible apply repeats_gcc_assert_of) <;> (solve | (clear hf h5; first | (simp [*]; done) | simp_all)))
        | with_reducible exact repeats_push _ _ _
        | with_reducible exact repeats_defer _ _ _
        | with_reducible exact repeats_toElemDtor b b1 toElem toElem1 hf _
        | ((with_reducible apply repeats_build_bounds_condition b b1) <;> (solve | (clear hf h5; first | (simp [*]; done) | simp_all)))
        | ((with_reducible apply repeats_d_array_convert b b1 toElem toElem1 hf))
        | ((with_reducible apply h5) <;> (solve | (clear hf h5; first | (simp [*]; done) | simp_all)))
        | ((with_reducible apply repeats_ite_iff); case hc => (solve | (clear hf h5; first | (simp [IRState.same_context, *]; done) | simp_all [IRState.same_context])))
        | ((with_reducible apply repeats_maybe_make_temp) <;> (solve | (clear hf h5; first | (simp [*]; done) | simp_all)))
        | ((with_reducible apply repeats_make_temp) <;> (solve | (clear hf h5; first | (simp [*]; done) | simp_all)))
        | ((with_reducible apply repeats_pure) <;> (solve | (clear hf h5; first | (simp [IRState.same_context, *]; done) | simp_all [IRState.same_context])))
        | dsimp only
        | split
        | (exfalso; (solve | (clear hf h5; first | (simp [*]; done) | simp_all)))
        | (solve | (clear hf h5; first | (simp [IRState.same_context, *]; done) | simp_all [IRState.same_context]))
    clear_value j7 j8
    repeat' first
      | (intro _; intros)
      | with_reducible exact hf _
      | with_reducible exact repeats_throw_bind _ _ _ _ _
      | with_reducible apply repeats_bind_get
      | with_reducible apply repeats_bind_create_temporary_var
      | with_reducible apply repeats_pure_bind
      | with_reducible apply repeats_bind_unit
      | with_reducible apply repeats_bind_plain
      | with_reducible apply repeats_bind_plain_pair
      | with_reducible apply repeats_bind
      | with_reducible apply repeats_ite
      | with_reducible exact repeats_same _ _ _
      | with_reducible exact repeats_throw _ _ _ _
      | with_reducible exact repeats_gcc_assert _ _ _
      | with_reducible exact repeats_error _ _ _
      | ((with_reducible apply repeats_gcc_assert_of) <;> (solve | (clear hf h5 h9; first | (simp [*]; done) | simp_all)))
      | with_reducible exact repeats_push _ _ _
      | with_reducible exact repeats_defer _ _ _
      | with_reducible exact repeats_toElemDtor b b1 toElem toElem1 hf _
      | ((with_reducible apply repeats_build_bounds_condition b b1) <;> (solve | (clear hf h5 h9; first | (simp [*]; done) | simp_all)))
      | ((with_reducible apply repeats_d_array_convert b b1 toElem toElem1 hf))
      | ((with_reducible apply h5) <;> (solve | (clear hf h5 h9; first | (simp [*]; done) | simp_all)))
      | ((with_reducible apply h9) <;> (solve | (clear hf h5 h9; first | (simp [*]; done) | simp_all)))
      | ((with_reducible apply repeats_ite_iff); case hc => (solve | (clear hf h5 h9; first | (simp [IRState.same_context, *]; done) | simp_all [IRState.same_context])))
      | ((with_reducible apply repeats_maybe_make_temp) <;> (solve | (clear hf h5 h9; first | (simp [*]; done) | simp_all)))
      | ((with_reducible apply repeats_make_temp) <;> (solve | (clear hf h5 h9; first | (simp [*]; done) | simp_all)))
      | ((with_reducible apply repeats_pure) <;> (solve | (clear hf h5 h9; first | (simp [IRState.same_context, *]; done) | simp_all [IRState.same_context])))
      | dsimp only
      | split
      | (exfalso; (solve | (clear hf h5 h9; first | (simp [*]; done) | simp_all)))
      | (solve | (clear hf h5 h9; first | (simp [IRState.same_context, *]; done) | simp_all [IRState.same_context]))
  clear_value j2 j4
  repeat' first
    | (intro _; intros)
    | with_reducible exact hf _
    | with_reducible exact repeats_throw_bind _ _ _ _ _
    | with_reducible apply repeats_bind_get
    | with_reducible apply repeats_bind_create_temporary_var
    | with_reducible apply repeats_pure_bind
    | with_reducible apply repeats_bind_unit
    | with_reducible apply repeats_bind_plain
    | with_reducible apply repeats_bind_plain_pair
    | with_reducible apply repeats_bind
    | with_reducible apply repeats_ite
    | with_reducible exact repeats_same _ _ _
    | with_reducible exact repeats_throw _ _ _ _
    | with_reducible exact repeats_gcc_assert _ _ _
    | with_reducible exact repeats_error _ _ _
    | ((with_reducible apply repeats_gcc_assert_of) <;> (solve | (clear hf h5 h6; first | (simp [*]; done) | simp_all)))
    | with_reducible exact repeats_push _ _ _
    | with_reducible exact repeats_defer _ _ _
    | with_reducible exact repeats_toElemDtor b b1 toElem toElem1 hf _
    | ((with_reducible apply repeats_build_bounds_condition b b1) <;> (solve | (clear hf h5 h6; first | (simp [*]; done) | simp_all)))
    | ((with_reducible apply repeats_d_array_convert b b1 toElem toElem1 hf))
    | ((with_reducible apply h5) <;> (solve | (clear hf h5 h6; first | (simp [*]; done) | simp_all)))
    | ((with_reducible apply h6) <;> (solve | (clear hf h5 h6; first | (simp [*]; done) | simp_all)))
    | ((with_reducible apply repeats_ite_iff); case hc => (solve | (clear hf h5 h6; first | (simp [IRState.same_context, *]; done) | simp_all [IRState.same_context])))
    | ((with_reducible apply repeats_maybe_make_temp) <;> (solve | (clear hf h5 h6; first | (simp [*]; done) | simp_all)))
    | ((with_reducible apply repeats_make_temp) <;> (solve | (clear hf h5 h6; first | (simp [*]; done) | simp_all)))
    | ((with_reducible apply repeats_pure) <;> (solve | (clear hf h5 h6; first | (simp [IRState.same_context, *]; done) | simp_all [IRState.same_context])))
    | dsimp only
    | split
    | (exfalso; (solve | (clear hf h5 h6; first | (simp [*]; done) | simp_all)))
    | (solve | (clear hf h5 h6; first | (simp [IRState.same_context, *]; done) | simp_all [IRState.same_context]))

theorem repeats_SliceExp_toElem (b b1 : Nat) (toElem toElem1 : Expression → Lower Tree)
    (hf : ∀ e, Lower.repeats b b1 (toElem e) (toElem1 e))
    (type : DType) (e1 : Expression) (lwr upr : Option Expression)
    (upperIsInBounds lowerIsLessThanUpper : Bool) (lengthVar : Option String) :
    Lower.repeats b b1 (SliceExp.toElem toElem type e1 lwr upr upperIsInBounds lowerIsLessThanUpper lengthVar)
      (SliceExp.toElem toElem1 type e1 lwr upr upperIsInBounds lowerIsLessThanUpper lengthVar) := by
  unfold SliceExp.toElem
  repeat' first
    | (intro _; intros)
    | with_reducible exact hf _
    | with_reducible exact repeats_throw_bind _ _ _ _ _
    | with_reducible apply repeats_bind_get
    | with_reducible apply repeats_bind_create_temporary_var
    | with_reducible apply repeats_pure_bind
    | with_reducible apply repeats_bind_unit
    | with_reducible apply repeats_bind_plain
    | with_reducible apply repeats_bind_plain_pair
    | with_reducible apply repeats_bind
    | with_reducible apply repeats_ite
    | with_reducible exact repeats_same _ _ _
    | with_reducible exact repeats_throw _ _ _ _
    | with_reducible exact repeats_gcc_assert _ _ _
    | with_reducible exact repeats_error _ _ _
    | ((with_reducible apply repeats_gcc_assert_of) <;> (solve | (clear hf; first | (simp [*]; done) | simp_all)))
    | with_reducible exact repeats_push _ _ _
    | with_reducible exact repeats_defer _ _ _
    | with_reducible exact repeats_toElemDtor b b1 toElem toElem1 hf _
    | ((with_reducible apply repeats_build_bounds_condition b b1) <;> (solve | (clear hf; first | (simp [*]; done) | simp_all)))
    | ((with_reducible apply repeats_d_array_convert b b1 toElem toElem1 hf))
    | ((with_reducible apply repeats_SliceExp_toElem_upper b b1 toElem toElem1 hf) <;> (solve | (clear hf; first | (simp [*]; done) | simp_all)))
    | ((with_reducible apply repeats_ite_iff); case hc => (solve | (clear hf; first | (simp [IRState.same_context, *]; done) | simp_all [IRState.same_context])))
    | ((with_reducible apply repeats_maybe_make_temp) <;> (solve | (clear hf; first | (simp [*]; done) | simp_all)))
    | ((with_reducible apply repeats_make_temp) <;> (solve | (clear hf; first | (simp [*]; done) | simp_all)))
    | ((with_reducible apply repeats_pure) <;> (solve | (clear hf; first | (simp [IRState.same_context, *]; done) | simp_all [IRState.same_context])))
    | dsimp only
    | split
    | (exfalso; (solve | (clear hf; first | (simp [*]; done) | simp_all)))
    | (solve | (clear hf; first | (simp [IRState.same_context, *]; done) | simp_all [IRState.same_context]))

theorem repeats_DeclarationExp_toElem (b b1 : Nat)
    (declaration : Dsymbol) (objfile : Tree) :
    Lower.repeats b b1 (DeclarationExp.toElem declaration objfile)
      (DeclarationExp.toElem declaration objfile) := by
  unfold DeclarationExp.toElem
  try simp -zeta only []
  lift_lets
  intro j10
  have h11 : ∀ a, Lower.repeats b b1 (j10 a) (j10 a) := by
    intro a
    unfold j10
    try simp -zeta only []
    repeat' first
      | (intro _; intros)
      | with_reducible exact repeats_throw_bind _ _ _ _ _
      | with_reducible apply repeats_bind_get
      | with_reducible apply repeats_bind_create_temporary_var
      | with_reducible apply repeats_pure_bind
      | with_reducible apply repeats_bind_unit
      | with_reducible apply repeats_bind_plain
      | with_reducible apply repeats_bind_plain_pair
      | with_reducible apply repeats_bind
      | with_reducible apply repeats_ite
      | with_reducible exact repeats_same _ _ _
      | with_reducible exact repeats_throw _ _ _ _
      | with_reducible exact repeats_gcc_assert _ _ _
      | with_reducible exact repeats_error _ _ _
      | ((with_reducible apply repeats_gcc_assert_of) <;> (solve | (first | (simp [*]; done) | simp_all)))
      | with_reducible exact repeats_push _ _ _
      | with_reducible exact repeats_defer _ _ _
      | ((with_reducible apply repeats_build_bounds_condition b b1) <;> (solve | (first | (simp [*]; done) | simp_all)))
      | ((with_reducible apply repeats_ite_iff); case hc => (solve | (first | (simp [IRState.same_context, *]; done) | simp_all [IRState.same_context])))
      | ((with_reducible apply repeats_maybe_make_temp) <;> (solve | (first | (simp [*]; done) | simp_all)))
      | ((with_reducible apply repeats_make_temp) <;> (solve | (first | (simp [*]; done) | simp_all)))
      | ((with_reducible apply repeats_pure) <;> (solve | (first | (simp [IRState.same_context, *]; done) | simp_all [IRState.same_context])))
      | dsimp only
      | split
      | (exfalso; (solve | (first | (simp [*]; done) | simp_all)))
      | (solve | (first | (simp [IRState.same_context, *]; done) | simp_all [IRState.same_context]))
  clear_value j10
  repeat' first
    | (intro _; intros)
    | with_reducible exact repeats_throw_bind _ _ _ _ _
    | with_reducible apply repeats_bind_get
    | with_reducible apply repeats_bind_create_temporary_var
    | with_reducible apply repeats_pure_bind
    | with_reducible apply repeats_bind_unit
    | with_reducible apply repeats_bind_plain
    | with_reducible apply repeats_bind_plain_pair
    | with_reducible apply repeats_bind
    | with_reducible apply repeats_ite
    | with_reducible exact repeats_same _ _ _
    | with_reducible exact repeats_throw _ _ _ _
    | with_reducible exact repeats_gcc_assert _ _ _
    | with_reducible exact repeats_error _ _ _
    | ((with_reducible apply repeats_gcc_assert_of) <;> (solve | (clear h11; first | (simp [*]; done) | simp_all)))
    | with_reducible exact repeats_push _ _ _
    | with_reducible exact repeats_defer _ _ _
    | ((with_reducible apply repeats_build_bounds_condition b b1) <;> (solve | (clear h11; first | (simp [*]; done) | simp_all)))
    | with_reducible exact h11 _
    | ((with_reducible apply repeats_ite_iff); case hc => (solve | (clear h11; first | (simp [IRState.same_context, *]; done) | simp_all [IRState.same_context])))
    | ((with_reducible apply repeats_maybe_make_temp) <;> (solve | (clear h11; first | (simp [*]; done) | simp_all)))
    | ((with_reducible apply repeats_make_temp) <;> (solve | (clear h11; first | (simp [*]; done) | simp_all)))
    | ((with_reducible apply repeats_pure) <;> (solve | (clear h11; first | (simp [IRState.same_context, *]; done) | simp_all [IRState.same_context])))
    | dsimp only
    | split
    | (exfalso; (solve | (clear h11; first | (simp [*]; done) | simp_all)))
    | (solve | (clear h11; first | (simp [IRState.same_context, *]; done) | simp_all [IRState.same_context]))

theorem repeats_IdentityExp_toElem (b b1 : Nat) (toElem toElem1 : Expression → Lower Tree)
    (hf : ∀ e, Lower.repeats b b1 (toElem e) (toElem1 e))
    (precision : DType → Nat) (op : TOK) (e1 e2 : Expression) :
    Lower.repeats b b1 (IdentityExp.toElem toElem precision op e1 e2)
      (IdentityExp.toElem toElem1 precision op e1 e2) := by
  unfold IdentityExp.toElem
  repeat' first
    | (intro _; intros)
    | with_reducible exact hf _
    | with_reducible exact repeats_throw_bind _ _ _ _ _
    | with_reducible apply repeats_bind_get
    | with_reducible apply repeats_bind_create_temporary_var
    | with_reducible apply repeats_pure_bind
    | with_reducible apply repeats_bind_unit
    | with_reducible apply repeats_bind_plain
    | with_reducible apply repeats_bind_plain_pair
    | with_reducible apply repeats_bind
    | with_reducible apply repeats_ite
    | with_reducible exact repeats_same _ _ _
    | with_reducible exact repeats_throw _ _ _ _
    | with_reducible exact repeats_gcc_assert _ _ _
    | with_reducible exact repeats_error _ _ _
    | ((with_reducible apply repeats_gcc_assert_of) <;> (solve | (clear hf; first | (simp [*]; done) | simp_all)))
    | with_reducible exact repeats_push _ _ _
    | with_reducible exact repeats_defer _ _ _
    | with_reducible exact repeats_toElemDtor b b1 toElem toElem1 hf _
    | ((with_reducible apply repeats_build_bounds_condition b b1) <;> (solve | (clear hf; first | (simp [*]; done) | simp_all)))
    | ((with_reducible apply repeats_d_array_convert b b1 toElem toElem1 hf))
    | ((with_reducible apply repeats_SliceExp_toElem_upper b b1 toElem toElem1 hf) <;> (solve | (clear hf; first | (simp [*]; done) | simp_all)))
    | ((with_reducible apply repeats_ite_iff); case hc => (solve | (clear hf; first | (simp [IRState.same_context, *]; done) | simp_all [IRState.same_context])))
    | ((with_reducible apply repeats_maybe_make_temp) <;> (solve | (clear hf; first | (simp [*]; done) | simp_all)))
    | ((with_reducible apply repeats_make_temp) <;> (solve | (clear hf; first | (simp [*]; done) | simp_all)))
    | ((with_reducible apply repeats_pure) <;> (solve | (clear hf; first | (simp [IRState.same_context, *]; done) | simp_all [IRState.same_context])))
    | dsimp only
    | split
    | (exfalso; (solve | (clear hf; first | (simp [*]; done) | simp_all)))
    | (solve | (clear hf; first | (simp [IRState.same_context, *]; done) | simp_all [IRState.same_context]))

theorem repeats_CmpExp_toElem (b b1 : Nat) (toElem toElem1 : Expression → Lower Tree)
    (hf : ∀ e, Lower.repeats b b1 (toElem e) (toElem1 e))
    (op : TOK) (e1 e2 : Expression) :
    Lower.repeats b b1 (CmpExp.toElem toElem op e1 e2)
      (CmpExp.toElem toElem1 op e1 e2) := by
  unfold CmpExp.toElem
  try simp -zeta only []
  lift_lets
  intro v12 v13 j14 j15
  have h16 : ∀ a, Lower.repeats b b1 (j14 a) (j15 a) := by
    intro a
    unfold j14 j15
    try simp -zeta only [v12, v13]
    try simp -zeta only []
    lift_lets
    intro j17 j18
    have h19 : ∀ a, Lower.repeats b b1 (j17 a) (j18 a) := by
      intro a
      unfold j17 j18
      try simp -zeta only [v12, v13]
      try simp only [v12, v13]
      try clear v13 v12
      repeat' first
        | (intro _; intros)
        | with_reducible exact hf _
        | with_reducible exact repeats_throw_bind _ _ _ _ _
        | with_reducible apply repeats_bind_get
        | with_reducible apply repeats_bind_create_temporary_var
        | with_reducible apply repeats_pure_bind
        | with_reducible apply repeats_bind_unit
        | with_reducible apply repeats_bind_plain
        | with_reducible apply repeats_bind_plain_pair
        | with_reducible apply repeats_bind
        | with_reducible apply repeats_ite
        | with_reducible exact repeats_same _ _ _
        | with_reducible exact repeats_throw _ _ _ _
        | with_reducible exact repeats_gcc_assert _ _ _
        | with_reducible exact repeats_error _ _ _
        | ((with_reducible apply repeats_gcc_assert_of) <;> (solve | (clear hf; first | (simp [*]; done) | simp_all)))
        | with_reducible exact repeats_push _ _ _
        | with_reducible exact repeats_defer _ _ _
        | with_reducible exact repeats_toElemDtor b b1 toElem toElem1 hf _
        | ((with_reducible apply repeats_build_bounds_condition b b1) <;> (solve | (clear hf; first | (simp [*]; done) | simp_all)))
        | ((with_reducible apply repeats_d_array_convert b b1 toElem toElem1 hf))
        | ((with_reducible apply repeats_SliceExp_toElem_upper b b1 toElem toElem1 hf) <;> (solve | (clear hf; first | (simp [*]; done) | simp_all)))
        | ((with_reducible apply repeats_ite_iff); case hc => (solve | (clear hf; first | (simp [IRState.same_context, *]; done) | simp_all [IRState.same_context])))
        | ((with_reducible apply repeats_maybe_make_temp) <;> (solve | (clear hf; first | (simp [*]; done) | simp_all)))
        | ((with_reducible apply repeats_make_temp) <;> (solve | (clear hf; first | (simp [*]; done) | simp_all)))
        | ((with_reducible apply repeats_pure) <;> (solve | (clear hf; first | (simp [IRState.same_context, *]; done) | simp_all [IRState.same_context])))
        | dsimp only
        | split
        | (exfalso; (solve | (clear hf; first | (simp [*]; done) | simp_all)))
        | (solve | (clear hf; first | (simp [IRState.same_context, *]; done) | simp_all [IRState.same_context]))
    clear_value j17 j18
    try simp only [v12, v13]
    try clear v13 v12
    repeat' first
      | (intro _; intros)
      | with_reducible exact hf _
      | with_reducible exact repeats_throw_bind _ _ _ _ _
      | with_reducible apply repeats_bind_get
      | with_reducible apply repeats_bind_create_temporary_var
      | with_reducible apply repeats_pure_bind
      | with_reducible apply repeats_bind_unit
      | with_reducible apply repeats_bind_plain
      | with_reducible apply repeats_bind_plain_pair
      | with_reducible apply repeats_bind
      | with_reducible apply repeats_ite
      | with_reducible exact repeats_same _ _ _
      | with_reducible exact repeats_throw _ _ _ _
      | with_reducible exact repeats_gcc_assert _ _ _
      | with_reducible exact repeats_error _ _ _
      | ((with_reducible apply repeats_gcc_assert_of) <;> (solve | (clear hf h19; first | (simp [*]; done) | simp_all)))
      | with_reducible exact repeats_push _ _ _
      | with_reducible exact repeats_defer _ _ _
      | with_reducible exact repeats_toElemDtor b b1 toElem toElem1 hf _
      | ((with_reducible apply repeats_build_bounds_condition b b1) <;> (solve | (clear hf h19; first | (simp [*]; done) | simp_all)))
      | ((with_reducible apply repeats_d_array_convert b b1 toElem toElem1 hf))
      | ((with_reducible apply repeats_SliceExp_toElem_upper b b1 toElem toElem1 hf) <;> (solve | (clear hf h19; first | (simp [*]; done) | simp_all)))
      | with_reducible exact h19 _
      | ((with_reducible apply repeats_ite_iff); case hc => (solve | (clear hf h19; first | (simp [IRState.same_context, *]; done) | simp_all [IRState.same_context])))
      | ((with_reducible apply repeats_maybe_make_temp) <;> (solve | (clear hf h19; first | (simp [*]; done) | simp_all)))
      | ((with_reducible apply repeats_make_temp) <;> (solve | (clear hf h19; first | (simp [*]; done) | simp_all)))
      | ((with_reducible apply repeats_pure) <;> (solve | (clear hf h19; first | (simp [IRState.same_context, *]; done) | simp_all [IRState.same_context])))
      | dsimp only
      | split
      | (exfalso; (solve | (clear hf h19; first | (simp [*]; done) | simp_all)))
      | (solve | (clear hf h19; first | (simp [IRState.same_context, *]; done) | simp_all [IRState.same_context]))
  clear_value j14 j15
  try simp only [v12, v13]
  try clear v13 v12
  repeat' first
    | (intro _; intros)
    | with_reducible exact hf _
    | with_reducible exact repeats_throw_bind _ _ _ _ _
    | with_reducible apply repeats_bind_get
    | with_reducible apply repeats_bind_create_temporary_var
    | with_reducible apply repeats_pure_bind
    | with_reducible apply repeats_bind_unit
    | with_reducible apply repeats_bind_plain
    | with_reducible apply repeats_bind_plain_pair
    | with_reducible apply repeats_bind
    | with_reducible apply repeats_ite
    | with_reducible exact repeats_same _ _ _
    | with_reducible exact repeats_throw _ _ _ _
    | with_reducible exact repeats_gcc_assert _ _ _
    | with_reducible exact repeats_error _ _ _
    | ((with_reducible apply repeats_gcc_assert_of) <;> (solve | (clear hf h16; first | (simp [*]; done) | simp_all)))
    | with_reducible exact repeats_push _ _ _
    | with_reducible exact repeats_defer _ _ _
    | with_reducible exact repeats_toElemDtor b b1 toElem toElem1 hf _
    | ((with_reducible apply repeats_build_bounds_condition b b1) <;> (solve | (clear hf h16; first | (simp [*]; done) | simp_all)))
    | ((with_reducible apply repeats_d_array_convert b b1 toElem toElem1 hf))
    | ((with_reducible apply repeats_SliceExp_toElem_upper b b1 toElem toElem1 hf) <;> (solve | (clear hf h16; first | (simp [*]; done) | simp_all)))
    | with_reducible exact h16 _
    | ((with_reducible apply repeats_ite_iff); case hc => (solve | (clear hf h16; first | (simp [IRState.same_context, *]; done) | simp_all [IRState.same_context])))
    | ((with_reducible apply repeats_maybe_make_temp) <;> (solve | (clear hf h16; first | (simp [*]; done) | simp_all)))
    | ((with_reducible apply repeats_make_temp) <;> (solve | (clear hf h16; first | (simp [*]; done) | simp_all)))
    | ((with_reducible apply repeats_pure) <;> (solve | (clear hf h16; first | (simp [IRState.same_context, *]; done) | simp_all [IRState.same_context])))
    | dsimp only
    | split
    | (exfalso; (solve | (clear hf h16; first | (simp [*]; done) | simp_all)))
    | (solve | (clear hf h16; first | (simp [IRState.same_context, *]; done) | simp_all [IRState.same_context]))

theorem repeats_DeleteExp_toElem (b b1 : Nat) (toElem toElem1 : Expression → Lower Tree)
    (hf : ∀ e, Lower.repeats b b1 (toElem e) (toElem1 e))
    (e1 : Expression) :
    Lower.repeats b b1 (DeleteExp.toElem toElem e1)
      (DeleteExp.toElem toElem1 e1) := by
  unfold DeleteExp.toElem
  repeat' first
    | (intro _; intros)
    | with_reducible exact hf _
    | with_reducible exact repeats_throw_bind _ _ _ _ _
    | with_reducible apply repeats_bind_get
    | with_reducible apply repeats_bind_create_temporary_var
    | with_reducible apply repeats_pure_bind
    | with_reducible apply repeats_bind_unit
    | with_reducible apply repeats_bind_plain
    | with_reducible apply repeats_bind_plain_pair
    | with_reducible apply repeats_bind
    | with_reducible apply repeats_ite
    | with_reducible exact repeats_same _ _ _
    | with_reducible exact repeats_throw _ _ _ _
    | with_reducible exact repeats_gcc_assert _ _ _
    | with_reducible exact repeats_error _ _ _
    | ((with_reducible apply repeats_gcc_assert_of) <;> (solve | (clear hf; first | (simp [*]; done) | simp_all)))
    | with_reducible exact repeats_push _ _ _
    | with_reducible exact repeats_defer _ _ _
    | with_reducible exact repeats_toElemDtor b b1 toElem toElem1 hf _
    | ((with_reducible apply repeats_build_bounds_condition b b1) <;> (solve | (clear hf; first | (simp [*]; done) | simp_all)))
    | ((with_reducible apply repeats_d_array_convert b b1 toElem toElem1 hf))
    | ((with_reducible apply repeats_SliceExp_toElem_upper b b1 toElem toElem1 hf) <;> (solve | (clear hf; first | (simp [*]; done) | simp_all)))
    | ((with_reducible apply repeats_ite_iff); case hc => (solve | (clear hf; first | (simp [IRState.same_context, *]; done) | simp_all [IRState.same_context])))
    | ((with_reducible apply repeats_maybe_make_temp) <;> (solve | (clear hf; first | (simp [*]; done) | simp_all)))
    | ((with_reducible apply repeats_make_temp) <;> (solve | (clear hf; first | (simp [*]; done) | simp_all)))
    | ((with_reducible apply repeats_pure) <;> (solve | (clear hf; first | (simp [IRState.same_context, *]; done) | simp_all [IRState.same_context])))
    | dsimp only
    | split
    | (exfalso; (solve | (clear hf; first | (simp [*]; done) | simp_all)))
    | (solve | (clear hf; first | (simp [IRState.same_context, *]; done) | simp_all [IRState.same_context]))

theorem repeats_PowExp_toElem (b b1 : Nat) (toElem toElem1 : Expression → Lower Tree)
    (hf : ∀ e, Lower.repeats b b1 (toElem e) (toElem1 e))
    (type : DType) (e1 e2 : Expression) :
    Lower.repeats b b1 (PowExp.toElem toElem type e1 e2)
      (PowExp.toElem toElem1 type e1 e2) := by
  unfold PowExp.toElem
  try simp -zeta only []
  lift_lets
  intro v20 v21 v22 j23
  have h24 : ∀ a, Lower.repeats b b1 (j23 a) (j23 a) := by
    intro a
    unfold j23
    try simp -zeta only [v20, v21, v22]
    try simp only [v20, v21, v22]
    try clear v22 v21 v20
    repeat' first
      | (intro _; intros)
      | with_reducible exact hf _
      | with_reducible exact repeats_throw_bind _ _ _ _ _
      | with_reducible apply repeats_bind_get
      | with_reducible apply repeats_bind_create_temporary_var
      | with_reducible apply repeats_pure_bind
      | with_reducible apply repeats_bind_unit
      | with_reducible apply repeats_bind_plain
      | with_reducible apply repeats_bind_plain_pair
      | with_reducible apply repeats_bind
      | with_reducible apply repeats_ite
      | with_reducible exact repeats_same _ _ _
      | with_reducible exact repeats_throw _ _ _ _
      | with_reducible exact repeats_gcc_assert _ _ _
      | with_reducible exact repeats_error _ _ _
      | ((with_reducible apply repeats_gcc_assert_of) <;> (solve | (clear hf; first | (simp [*]; done) | simp_all)))
      | with_reducible exact repeats_push _ _ _
      | with_reducible exact repeats_defer _ _ _
      | with_reducible exact repeats_toElemDtor b b1 toElem toElem1 hf _
      | ((with_reducible apply repeats_build_bounds_condition b b1) <;> (solve | (clear hf; first | (simp [*]; done) | simp_all)))
      | ((with_reducible apply repeats_d_array_convert b b1 toElem toElem1 hf))
      | ((with_reducible apply repeats_SliceExp_toElem_upper b b1 toElem toElem1 hf) <;> (solve | (clear hf; first | (simp [*]; done) | simp_all)))
      | ((with_reducible apply repeats_ite_iff); case hc => (solve | (clear hf; first | (simp [IRState.same_context, *]; done) | simp_all [IRState.same_context])))
      | ((with_reducible apply repeats_maybe_make_temp) <;> (solve | (clear hf; first | (simp [*]; done) | simp_all)))
      | ((with_reducible apply repeats_make_temp) <;> (solve | (clear hf; first | (simp [*]; done) | simp_all)))
      | ((with_reducible apply repeats_pure) <;> (solve | (clear hf; first | (simp [IRState.same_context, *]; done) | simp_all [IRState.same_context])))
      | dsimp only
      | split
      | (exfalso; (solve | (clear hf; first | (simp [*]; done) | simp_all)))
      | (solve | (clear hf; first | (simp [IRState.same_context, *]; done) | simp_all [IRState.same_context]))
  clear_value j23
  try simp only [v20, v21, v22]
  try clear v22 v21 v20
  repeat' first
    | (intro _; intros)
    | with_reducible exact hf _
    | with_reducible exact repeats_throw_bind _ _ _ _ _
    | with_reducible apply repeats_bind_get
    | with_reducible apply repeats_bind_create_temporary_var
    | with_reducible apply repeats_pure_bind
    | with_reducible apply repeats_bind_unit
    | with_reducible apply repeats_bind_plain
    | with_reducible apply repeats_bind_plain_pair
    | with_reducible apply repeats_bind
    | with_reducible apply repeats_ite
    | with_reducible exact repeats_same _ _ _
    | with_reducible exact repeats_throw _ _ _ _
    | with_reducible exact repeats_gcc_assert _ _ _
    | with_reducible exact repeats_error _ _ _
    | ((with_reducible apply repeats_gcc_assert_of) <;> (solve | (clear hf h24; first | (simp [*]; done) | simp_all)))
    | with_reducible exact repeats_push _ _ _
    | with_reducible exact repeats_defer _ _ _
    | with_reducible exact repeats_toElemDtor b b1 toElem toElem1 hf _
    | ((with_reducible apply repeats_build_bounds_condition b b1) <;> (solve | (clear hf h24; first | (simp [*]; done) | simp_all)))
    | ((with_reducible apply repeats_d_array_convert b b1 toElem toElem1 hf))
    | ((with_reducible apply repeats_SliceExp_toElem_upper b b1 toElem toElem1 hf) <;> (solve | (clear hf h24; first | (simp [*]; done) | simp_all)))
    | with_reducible exact h24 _
    | ((with_reducible apply repeats_ite_iff); case hc => (solve | (clear hf h24; first | (simp [IRState.same_context, *]; done) | simp_all [IRState.same_context])))
    | ((with_reducible apply repeats_maybe_make_temp) <;> (solve | (clear hf h24; first | (simp [*]; done) | simp_all)))
    | ((with_reducible apply repeats_make_temp) <;> (solve | (clear hf h24; first | (simp [*]; done) | simp_all)))
    | ((with_reducible apply repeats_pure) <;> (solve | (clear hf h24; first | (simp [IRState.same_context, *]; done) | simp_all [IRState.same_context])))
    | dsimp only
    | split
    | (exfalso; (solve | (clear hf h24; first | (simp [*]; done) | simp_all)))
    | (solve | (clear hf h24; first | (simp [IRState.same_context, *]; done) | simp_all [IRState.same_context]))

theorem repeats_AndAndExp_toElem (b b1 : Nat) (toElem toElem1 : Expression → Lower Tree)
    (hf : ∀ e, Lower.repeats b b1 (toElem e) (toElem1 e))
    (e1 e2 : Expression) :
    Lower.repeats b b1 (AndAndExp.toElem toElem e1 e2)
      (AndAndExp.toElem toElem1 e1 e2) := by
  unfold AndAndExp.toElem
  repeat' first
    | (intro _; intros)
    | with_reducible exact hf _
    | with_reducible exact repeats_throw_bind _ _ _ _ _
    | with_reducible apply repeats_bind_get
    | with_reducible apply repeats_bind_create_temporary_var
    | with_reducible apply repeats_pure_bind
    | with_reducible apply repeats_bind_unit
    | with_reducible apply repeats_bind_plain
    | with_reducible apply repeats_bind_plain_pair
    | with_reducible apply repeats_bind
    | with_reducible apply repeats_ite
    | with_reducible exact repeats_same _ _ _
    | with_reducible exact repeats_throw _ _ _ _
    | with_reducible exact repeats_gcc_assert _ _ _
    | with_reducible exact repeats_error _ _ _
    | ((with_reducible apply repeats_gcc_assert_of) <;> (solve | (clear hf; first | (simp [*]; done) | simp_all)))
    | with_reducible exact repeats_push _ _ _
    | with_reducible exact repeats_defer _ _ _
    | with_reducible exact repeats_toElemDtor b b1 toElem toElem1 hf _
    | ((with_reducible apply repeats_build_bounds_condition b b1) <;> (solve | (clear hf; first | (simp [*]; done) | simp_all)))
    | ((with_reducible apply repeats_d_array_convert b b1 toElem toElem1 hf))
    | ((with_reducible apply repeats_SliceExp_toElem_upper b b1 toElem toElem1 hf) <;> (solve | (clear hf; first | (simp [*]; done) | simp_all)))
    | ((with_reducible apply repeats_ite_iff); case hc => (solve | (clear hf; first | (simp [IRState.same_context, *]; done) | simp_all [IRState.same_context])))
    | ((with_reducible apply repeats_maybe_make_temp) <;> (solve | (clear hf; first | (simp [*]; done) | simp_all)))
    | ((with_reducible apply repeats_make_temp) <;> (solve | (clear hf; first | (simp [*]; done) | simp_all)))
    | ((with_reducible apply repeats_pure) <;> (solve | (clear hf; first | (simp [IRState.same_context, *]; done) | simp_all [IRState.same_context])))
    | dsimp only
    | split
    | (exfalso; (solve | (clear hf; first | (simp [*]; done) | simp_all)))
    | (solve | (clear hf; first | (simp [IRState.same_context, *]; done) | simp_all [IRState.same_context]))

theorem repeats_OrOrExp_toElem (b b1 : Nat) (toElem toElem1 : Expression → Lower Tree)
    (hf : ∀ e, Lower.repeats b b1 (toElem e) (toElem1 e))
    (e1 e2 : Expression) :
    Lower.repeats b b1 (OrOrExp.toElem toElem e1 e2)
      (OrOrExp.toElem toElem1 e1 e2) := by
  unfold OrOrExp.toElem
  repeat' first
    | (intro _; intros)
    | with_reducible exact hf _
    | with_reducible exact repeats_throw_bind _ _ _ _ _
    | with_reducible apply repeats_bind_get
    | with_reducible apply repeats_bind_create_temporary_var
    | with_reducible apply repeats_pure_bind
    | with_reducible apply repeats_bind_unit
    | with_reducible apply repeats_bind_plain
    | with_reducible apply repeats_bind_plain_pair
    | with_reducible apply repeats_bind
    | with_reducible apply repeats_ite
    | with_reducible exact repeats_same _ _ _
    | with_reducible exact repeats_throw _ _ _ _
    | with_reducible exact repeats_gcc_assert _ _ _
    | with_reducible exact repeats_error _ _ _
    | ((with_reducible apply repeats_gcc_assert_of) <;> (solve | (clear hf; first | (simp [*]; done) | simp_all)))
    | with_reducible exact repeats_push _ _ _
    | with_reducible exact repeats_defer _ _ _
    | with_reducible exact repeats_toElemDtor b b1 toElem toElem1 hf _
    | ((with_reducible apply repeats_build_bounds_condition b b1) <;> (solve | (clear hf; first | (simp [*]; done) | simp_all)))
    | ((with_reducible apply repeats_d_array_convert b b1 toElem toElem1 hf))
    | ((with_reducible apply repeats_SliceExp_toElem_upper b b1 toElem toElem1 hf) <;> (solve | (clear hf; first | (simp [*]; done) | simp_all)))
    | ((with_reducible apply repeats_ite_iff); case hc => (solve | (clear hf; first | (simp [IRState.same_context, *]; done) | simp_all [IRState.same_context])))
    | ((with_reducible apply repeats_maybe_make_temp) <;> (solve | (clear hf; first | (simp [*]; done) | simp_all)))
    | ((with_reducible apply repeats_make_temp) <;> (solve | (clear hf; first | (simp [*]; done) | simp_all)))
    | ((with_reducible apply repeats_pure) <;> (solve | (clear hf; first | (simp [IRState.same_context, *]; done) | simp_all [IRState.same_context])))
    | dsimp only
    | split
    | (exfalso; (solve | (clear hf; first | (simp [*]; done) | simp_all)))
    | (solve | (clear hf; first | (simp [IRState.same_context, *]; done) | simp_all [IRState.same_context]))

theorem repeats_MinExp_toElem (b b1 : Nat) (toElem toElem1 : Expression → Lower Tree)
    (hf : ∀ e, Lower.repeats b b1 (toElem e) (toElem1 e))
    (e1 e2 : Expression) :
    Lower.repeats b b1 (MinExp.toElem toElem e1 e2)
      (MinExp.toElem toElem1 e1 e2) := by
  unfold MinExp.toElem
  repeat' first
    | (intro _; intros)
    | with_reducible exact hf _
    | with_reducible exact repeats_throw_bind _ _ _ _ _
    | with_reducible apply repeats_bind_get
    | with_reducible apply repeats_bind_create_temporary_var
    | with_reducible apply repeats_pure_bind
    | with_reducible apply repeats_bind_unit
    | with_reducible apply repeats_bind_plain
    | with_reducible apply repeats_bind_plain_pair
    | with_reducible apply repeats_bind
    | with_reducible apply repeats_ite
    | with_reducible exact repeats_same _ _ _
    | with_reducible exact repeats_throw _ _ _ _
    | with_reducible exact repeats_gcc_assert _ _ _
    | with_reducible exact repeats_error _ _ _
    | ((with_reducible apply repeats_gcc_assert_of) <;> (solve | (clear hf; first | (simp [*]; done) | simp_all)))
    | with_reducible exact repeats_push _ _ _
    | with_reducible exact repeats_defer _ _ _
    | with_reducible exact repeats_toElemDtor b b1 toElem toElem1 hf _
    | ((with_reducible apply repeats_build_bounds_condition b b1) <;> (solve | (clear hf; first | (simp [*]; done) | simp_all)))
    | ((with_reducible apply repeats_d_array_convert b b1 toElem toElem1 hf))
    | ((with_reducible apply repeats_SliceExp_toElem_upper b b1 toElem toElem1 hf) <;> (solve | (clear hf; first | (simp [*]; done) | simp_all)))
    | ((with_reducible apply repeats_ite_iff); case hc => (solve | (clear hf; first | (simp [IRState.same_context, *]; done) | simp_all [IRState.same_context])))
    | ((with_reducible apply repeats_maybe_make_temp) <;> (solve | (clear hf; first | (simp [*]; done) | simp_all)))
    | ((with_reducible apply repeats_make_temp) <;> (solve | (clear hf; first | (simp [*]; done) | simp_all)))
    | ((with_reducible apply repeats_pure) <;> (solve | (clear hf; first | (simp [IRState.same_context, *]; done) | simp_all [IRState.same_context])))
    | dsimp only
    | split
    | (exfalso; (solve | (clear hf; first | (simp [*]; done) | simp_all)))
    | (solve | (clear hf; first | (simp [IRState.same_context, *]; done) | simp_all [IRState.same_context]))

theorem repeats_AddExp_toElem (b b1 : Nat) (toElem toElem1 : Expression → Lower Tree)
    (hf : ∀ e, Lower.repeats b b1 (toElem e) (toElem1 e))
    (e1 e2 : Expression) :
    Lower.repeats b b1 (AddExp.toElem toElem e1 e2)
      (AddExp.toElem toElem1 e1 e2) := by
  unfold AddExp.toElem
  repeat' first
    | (intro _; intros)
    | with_reducible exact hf _
    | with_reducible exact repeats_throw_bind _ _ _ _ _
    | with_reducible apply repeats_bind_get
    | with_reducible apply repeats_bind_create_temporary_var
    | with_reducible apply repeats_pure_bind
    | with_reducible apply repeats_bind_unit
    | with_reducible apply repeats_bind_plain
    | with_reducible apply repeats_bind_plain_pair
    | with_reducible apply repeats_bind
    | with_reducible apply repeats_ite
    | with_reducible exact repeats_same _ _ _
    | with_reducible exact repeats_throw _ _ _ _
    | with_reducible exact repeats_gcc_assert _ _ _
    | with_reducible exact repeats_error _ _ _
    | ((with_reducible apply repeats_gcc_assert_of) <;> (solve | (clear hf; first | (simp [*]; done) | simp_all)))
    | with_reducible exact repeats_push _ _ _
    | with_reducible exact repeats_defer _ _ _
    | with_reducible exact repeats_toElemDtor b b1 toElem toElem1 hf _
    | ((with_reducible apply repeats_build_bounds_condition b b1) <;> (solve | (clear hf; first | (simp [*]; done) | simp_all)))
    | ((with_reducible apply repeats_d_array_convert b b1 toElem toElem1 hf))
    | ((with_reducible apply repeats_SliceExp_toElem_upper b b1 toElem toElem1 hf) <;> (solve | (clear hf; first | (simp [*]; done) | simp_all)))
    | ((with_reducible apply repeats_ite_iff); case hc => (solve | (clear hf; first | (simp [IRState.same_context, *]; done) | simp_all [IRState.same_context])))
    | ((with_reducible apply repeats_maybe_make_temp) <;> (solve | (clear hf; first | (simp [*]; done) | simp_all)))
    | ((with_reducible apply repeats_make_temp) <;> (solve | (clear hf; first | (simp [*]; done) | simp_all)))
    | ((with_reducible apply repeats_pure) <;> (solve | (clear hf; first | (simp [IRState.same_context, *]; done) | simp_all [IRState.same_context])))
    | dsimp only
    | split
    | (exfalso; (solve | (clear hf; first | (simp [*]; done) | simp_all)))
    | (solve | (clear hf; first | (simp [IRState.same_context, *]; done) | simp_all [IRState.same_context]))

theorem repeats_IndexExp_toElem (b b1 : Nat) (toElem toElem1 : Expression → Lower Tree)
    (hf : ∀ e, Lower.repeats b b1 (toElem e) (toElem1 e))
    (e1 e2 : Expression) (modifiable indexIsInBounds : Bool)
    (lengthVar : Option String) :
    Lower.repeats b b1 (IndexExp.toElem toElem e1 e2 modifiable indexIsInBounds lengthVar)
      (IndexExp.toElem toElem1 e1 e2 modifiable indexIsInBounds lengthVar) := by
  unfold IndexExp.toElem
  try simp -zeta only []
  lift_lets
  intro v25 j26
  have h27 : ∀ a a1, Shape.shape a = Shape.shape a1 → Lower.repeats b b1 (j26 a) (j26 a1) := by
    intro a a1 ha
    unfold j26
    try simp -zeta only [v25]
    try simp only [v25]
    try clear v25
    repeat' first
      | (intro _; intros)
      | with_reducible exact hf _
      | with_reducible exact repeats_throw_bind _ _ _ _ _
      | with_reducible apply repeats_bind_get
      | with_reducible apply repeats_bind_create_temporary_var
      | with_reducible apply repeats_pure_bind
      | with_reducible apply repeats_bind_unit
      | with_reducible apply repeats_bind_plain
      | with_reducible apply repeats_bind_plain_pair
      | with_reducible apply repeats_bind
      | with_reducible apply repeats_ite
      | with_reducible exact repeats_same _ _ _
      | with_reducible exact repeats_throw _ _ _ _
      | with_reducible exact repeats_gcc_assert _ _ _
      | with_reducible exact repeats_error _ _ _
      | ((with_reducible apply repeats_gcc_assert_of) <;> (solve | (clear hf; first | (simp [*]; done) | simp_all)))
      | with_reducible exact repeats_push _ _ _
      | with_reducible exact repeats_defer _ _ _
      | with_reducible exact repeats_toElemDtor b b1 toElem toElem1 hf _
      | ((with_reducible apply repeats_build_bounds_condition b b1) <;> (solve | (clear hf; first | (simp [*]; done) | simp_all)))
      | ((with_reducible apply repeats_d_array_convert b b1 toElem toElem1 hf))
      | ((with_reducible apply repeats_SliceExp_toElem_upper b b1 toElem toElem1 hf) <;> (solve | (clear hf; first | (simp [*]; done) | simp_all)))
      | ((with_reducible apply repeats_ite_iff); case hc => (solve | (clear hf; first | (simp [IRState.same_context, *]; done) | simp_all [IRState.same_context])))
      | ((with_reducible apply repeats_maybe_make_temp) <;> (solve | (clear hf; first | (simp [*]; done) | simp_all)))
      | ((with_reducible apply repeats_make_temp) <;> (solve | (clear hf; first | (simp [*]; done) | simp_all)))
      | ((with_reducible apply repeats_pure) <;> (solve | (clear hf; first | (simp [IRState.same_context, *]; done) | simp_all [IRState.same_context])))
      | dsimp only
      | split
      | (exfalso; (solve | (clear hf; first | (simp [*]; done) | simp_all)))
      | (solve | (clear hf; first | (simp [IRState.same_context, *]; done) | simp_all [IRState.same_context]))
  clear_value j26
  try simp only [v25]
  try clear v25
  repeat' first
    | (intro _; intros)
    | with_reducible exact hf _
    | with_reducible exact repeats_throw_bind _ _ _ _ _
    | with_reducible apply repeats_bind_get
    | with_reducible apply repeats_bind_create_temporary_var
    | with_reducible apply repeats_pure_bind
    | with_reducible apply repeats_bind_unit
    | with_reducible apply repeats_bind_plain
    | with_reducible apply repeats_bind_plain_pair
    | with_reducible apply repeats_bind
    | with_reducible apply repeats_ite
    | with_reducible exact repeats_same _ _ _
    | with_reducible exact repeats_throw _ _ _ _
    | with_reducible exact repeats_gcc_assert _ _ _
    | with_reducible exact repeats_error _ _ _
    | ((with_reducible apply repeats_gcc_assert_of) <;> (solve | (clear hf h27; first | (simp [*]; done) | simp_all)))
    | with_reducible exact repeats_push _ _ _
    | with_reducible exact repeats_defer _ _ _
    | with_reducible exact repeats_toElemDtor b b1 toElem toElem1 hf _
    | ((with_reducible apply repeats_build_bounds_condition b b1) <;> (solve | (clear hf h27; first | (simp [*]; done) | simp_all)))
    | ((with_reducible apply repeats_d_array_convert b b1 toElem toElem1 hf))
    | ((with_reducible apply repeats_SliceExp_toElem_upper b b1 toElem toElem1 hf) <;> (solve | (clear hf h27; first | (simp [*]; done) | simp_all)))
    | ((with_reducible apply h27) <;> (solve | (clear hf h27; first | (simp [*]; done) | simp_all)))
    | ((with_reducible apply repeats_ite_iff); case hc => (solve | (clear hf h27; first | (simp [IRState.same_context, *]; done) | simp_all [IRState.same_context])))
    | ((with_reducible apply repeats_maybe_make_temp) <;> (solve | (clear hf h27; first | (simp [*]; done) | simp_all)))
    | ((with_reducible apply repeats_make_temp) <;> (solve | (clear hf h27; first | (simp [*]; done) | simp_all)))
    | ((with_reducible apply repeats_pure) <;> (solve | (clear hf h27; first | (simp [IRState.same_context, *]; done) | simp_all [IRState.same_context])))
    | dsimp only
    | split
    | (exfalso; (solve | (clear hf h27; first | (simp [*]; done) | simp_all)))
    | (solve | (clear hf h27; first | (simp [IRState.same_context, *]; done) | simp_all [IRState.same_context]))

theorem var_decl_mismatch (t1 : Tree) (name : String)
    (h : Shape.shape (var_decl name) = Shape.shape t1)
    (hne : ∀ name, t1 = var_decl name → False) : False :=
  hne name (erase_eq_var_decl t1 name h.symm)

theorem var_decl_mismatch_left (t : Tree) (name : String)
    (h : Shape.shape t = Shape.shape (var_decl name))
    (hne : ∀ name, t = var_decl name → False) : False :=
  hne name (erase_eq_var_decl t name h)

theorem erase_eq_method_call_expr (t a b : Tree) (h : t.erase_temps = method_call_expr a b) :
    ∃ fn obj, t = method_call_expr fn obj := by
  cases t <;> first | exact ⟨_, _, rfl⟩ | cases h

theorem method_call_mismatch (t1 fn obj : Tree)
    (h : Shape.shape (method_call_expr fn obj) = Shape.shape t1)
    (hne : ∀ fn obj, t1 = method_call_expr fn obj → False) : False := by
  obtain ⟨f, o, rfl⟩ := erase_eq_method_call_expr t1 _ _ h.symm
  exact hne f o rfl

theorem method_call_mismatch_left (t fn obj : Tree)
    (h : Shape.shape t = Shape.shape (method_call_expr fn obj))
    (hne : ∀ fn obj, t = method_call_expr fn obj → False) : False := by
  obtain ⟨f, o, rfl⟩ := erase_eq_method_call_expr t _ _ h
  exact hne f o rfl

theorem operand_mismatch (t t1 x : Tree) (i : Nat) (h1 : TREE_OPERAND t i = some x)
    (h2 : TREE_OPERAND t1 i = none) (h : Shape.shape t = Shape.shape t1) : False := by
  have e := TREE_OPERAND_erase t i
  have e1 := TREE_OPERAND_erase t1 i
  simp only [shape_tree] at h
  rw [h, e1, h1, h2] at e
  cases e

theorem operand_mismatch_left (t t1 x : Tree) (i : Nat) (h1 : TREE_OPERAND t i = none)
    (h2 : TREE_OPERAND t1 i = some x) (h : Shape.shape t = Shape.shape t1) : False := by
  have e := TREE_OPERAND_erase t i
  have e1 := TREE_OPERAND_erase t1 i
  simp only [shape_tree] at h
  rw [h, e1, h1, h2] at e
  cases e

/-- Corresponding operands of trees of one shape are of one shape. -/
theorem operand_same (t t1 x y : Tree) (i : Nat) (h1 : TREE_OPERAND t i = some x)
    (h2 : TREE_OPERAND t1 i = some y) (h : Shape.shape t = Shape.shape t1) :
    Shape.shape x = Shape.shape y := by
  have e := TREE_OPERAND_erase t i
  have e1 := TREE_OPERAND_erase t1 i
  simp only [shape_tree] at h
  rw [h, e1, h1, h2] at e
  simpa using e.symm

theorem repeats_d_array_convert_elem (b b1 : Nat) (toElem toElem1 : Expression → Lower Tree)
    (hf : ∀ e, Lower.repeats b b1 (toElem e) (toElem1 e))
    (etype : Option DType) (exp : Expression)
    (vars vars1 : List Tree)
    (hvars : Shape.shape vars = Shape.shape vars1) :
    Lower.repeats b b1 (d_array_convert_elem toElem etype exp vars)
      (d_array_convert_elem toElem1 etype exp vars1) := by
  unfold d_array_convert_elem
  repeat' first
    | (intro _; intros)
    | with_reducible exact hf _
    | with_reducible exact repeats_throw_bind _ _ _ _ _
    | with_reducible apply repeats_bind_get
    | with_reducible apply repeats_bind_create_temporary_var
    | with_reducible apply repeats_pure_bind
    | with_reducible apply repeats_bind_unit
    | with_reducible apply repeats_bind_plain
    | with_reducible apply repeats_bind_plain_pair
    | with_reducible apply repeats_bind
    | with_reducible apply repeats_ite
    | with_reducible exact repeats_same _ _ _
    | with_reducible exact repeats_throw _ _ _ _
    | with_reducible exact repeats_gcc_assert _ _ _
    | with_reducible exact repeats_error _ _ _
    | ((with_reducible apply repeats_gcc_assert_of) <;> (solve | (clear hf; first | (simp [*]; done) | simp_all)))
    | with_reducible exact repeats_push _ _ _
    | with_reducible exact repeats_defer _ _ _
    | with_reducible exact repeats_toElemDtor b b1 toElem toElem1 hf _
    | ((with_reducible apply repeats_build_bounds_condition b b1) <;> (solve | (clear hf; first | (simp [*]; done) | simp_all)))
    | (with_reducible apply repeats_d_array_convert b b1 toElem toElem1 hf)
    | ((with_reducible apply repeats_SliceExp_toElem_upper b b1 toElem toElem1 hf) <;> (solve | (clear hf; first | (simp [*]; done) | simp_all)))
    | ((with_reducible apply repeats_ite_iff); case hc => (solve | (clear hf; first | (simp [IRState.same_context, *]; done) | simp_all [IRState.same_context])))
    | ((with_reducible apply repeats_maybe_make_temp) <;> (solve | (clear hf; first | (simp [*]; done) | simp_all)))
    | ((with_reducible apply repeats_make_temp) <;> (solve | (clear hf; first | (simp [*]; done) | simp_all)))
    | ((with_reducible apply repeats_pure) <;> (solve | (clear hf; first | (simp [IRState.same_context, *]; done) | simp_all [IRState.same_context])))
    | dsimp only
    | (exfalso; apply var_decl_mismatch <;> assumption)
    | (exfalso; apply var_decl_mismatch_left <;> assumption)
    | split
    | (exfalso; (solve | (clear hf; first | (simp [*]; done) | simp_all)))
    | (solve | (clear hf; first | (simp [IRState.same_context, *]; done) | simp_all [IRState.same_context]))

theorem repeats_CatExp_elms_loop (b b1 : Nat) (toElem toElem1 : Expression → Lower Tree)
    (hf : ∀ e, Lower.repeats b b1 (toElem e) (toElem1 e)) (etype : Option DType)
    (k : Nat) :
    ∀ (ce_e1 ce_e2 : Expression) (dim : Int) (elms elms1 : List (Nat × Tree))
      (vars vars1 : List Tree), Shape.shape elms = Shape.shape elms1 →
      Shape.shape vars = Shape.shape vars1 → (CatExp.leaves ce_e1).length = k →
      Lower.repeats b b1 (CatExp.elms_loop toElem etype ce_e1 ce_e2 dim elms vars)
        (CatExp.elms_loop toElem1 etype ce_e1 ce_e2 dim elms1 vars1) := by
  induction k with
  | zero => intro ce_e1 _ _ _ _ _ _ _ _ h; have := CatExp.leaves_length_pos ce_e1; omega
  | succ k ih =>
    intro ce_e1 ce_e2 dim elms elms1 vars vars1 helms hvars hk
    by_cases hcat : ∃ t x y, ce_e1 = .CatExp t x y
    · obtain ⟨t, x, y, rfl⟩ := hcat
      simp only [CatExp.leaves, List.length_append, List.length_singleton] at hk
      have hk2 : (CatExp.leaves x).length = k := by omega
      rw [CatExp.elms_loop, CatExp.elms_loop]
      repeat' first
        | (intro _; intros)
        | with_reducible exact hf _
        | with_reducible exact repeats_throw_bind _ _ _ _ _
        | with_reducible apply repeats_bind_get
        | with_reducible apply repeats_bind_create_temporary_var
        | with_reducible apply repeats_pure_bind
        | with_reducible apply repeats_bind_unit
        | with_reducible apply repeats_bind_plain
        | with_reducible apply repeats_bind_plain_pair
        | with_reducible apply repeats_bind
        | with_reducible apply repeats_ite
        | with_reducible exact repeats_same _ _ _
        | with_reducible exact repeats_throw _ _ _ _
        | with_reducible exact repeats_gcc_assert _ _ _
        | with_reducible exact repeats_error _ _ _
        | ((with_reducible apply repeats_gcc_assert_of) <;> (solve | (clear hf ih; first | (simp [*]; done) | simp_all)))
        | with_reducible exact repeats_push _ _ _
        | with_reducible exact repeats_defer _ _ _
        | with_reducible exact repeats_toElemDtor b b1 toElem toElem1 hf _
        | ((with_reducible apply repeats_build_bounds_condition b b1) <;> (solve | (clear hf ih; first | (simp [*]; done) | simp_all)))
        | (with_reducible apply repeats_d_array_convert b b1 toElem toElem1 hf)
        | ((with_reducible apply repeats_SliceExp_toElem_upper b b1 toElem toElem1 hf) <;> (solve | (clear hf ih; first | (simp [*]; done) | simp_all)))
        | ((with_reducible apply repeats_d_array_convert_elem b b1 toElem toElem1 hf) <;> (solve | (clear hf ih; first | (simp [*]; done) | simp_all)))
        | ((with_reducible apply ih) <;> (solve | (clear hf ih; first | (simp [*]; done) | simp_all)))
        | ((with_reducible apply repeats_ite_iff); case hc => (solve | (clear hf ih; first | (simp [IRState.same_context, *]; done) | simp_all [IRState.same_context])))
        | ((with_reducible apply repeats_maybe_make_temp) <;> (solve | (clear hf ih; first | (simp [*]; done) | simp_all)))
        | ((with_reducible apply repeats_make_temp) <;> (solve | (clear hf ih; first | (simp [*]; done) | simp_all)))
        | ((with_reducible apply repeats_pure) <;> (solve | (clear hf ih; first | (simp [IRState.same_context, *]; done) | simp_all [IRState.same_context])))
        | dsimp only
        | split
        | (exfalso; (solve | (clear hf ih; first | (simp [*]; done) | simp_all)))
        | (solve | (clear hf ih; first | (simp [IRState.same_context, *]; done) | simp_all [IRState.same_context]))
    · rw [CatExp.elms_loop_leaf toElem etype ce_e1 ce_e2 dim elms vars
        (fun t x y h => hcat ⟨t, x, y, h⟩),
        CatExp.elms_loop_leaf toElem1 etype ce_e1 ce_e2 dim elms1 vars1
        (fun t x y h => hcat ⟨t, x, y, h⟩)]
      repeat' first
        | (intro _; intros)
        | with_reducible exact hf _
        | with_reducible exact repeats_throw_bind _ _ _ _ _
        | with_reducible apply repeats_bind_get
        | with_reducible apply repeats_bind_create_temporary_var
        | with_reducible apply repeats_pure_bind
        | with_reducible apply repeats_bind_unit
        | with_reducible apply repeats_bind_plain
        | with_reducible apply repeats_bind_plain_pair
        | with_reducible apply repeats_bind
        | with_reducible apply repeats_ite
        | with_reducible exact repeats_same _ _ _
        | with_reducible exact repeats_throw _ _ _ _
        | with_reducible exact repeats_gcc_assert _ _ _
        | with_reducible exact repeats_error _ _ _
        | ((with_reducible apply repeats_gcc_assert_of) <;> (solve | (clear hf ih; first | (simp [*]; done) | simp_all)))
        | with_reducible exact repeats_push _ _ _
        | with_reducible exact repeats_defer _ _ _
        | with_reducible exact repeats_toElemDtor b b1 toElem toElem1 hf _
        | ((with_reducible apply repeats_build_bounds_condition b b1) <;> (solve | (clear hf ih; first | (simp [*]; done) | simp_all)))
        | (with_reducible apply repeats_d_array_convert b b1 toElem toElem1 hf)
        | ((with_reducible apply repeats_SliceExp_toElem_upper b b1 toElem toElem1 hf) <;> (solve | (clear hf ih; first | (simp [*]; done) | simp_all)))
        | ((with_reducible apply repeats_d_array_convert_elem b b1 toElem toElem1 hf) <;> (solve | (clear hf ih; first | (simp [*]; done) | simp_all)))
        | ((with_reducible apply repeats_ite_iff); case hc => (solve | (clear hf ih; first | (simp [IRState.same_context, *]; done) | simp_all [IRState.same_context])))
        | ((with_reducible apply repeats_maybe_make_temp) <;> (solve | (clear hf ih; first | (simp [*]; done) | simp_all)))
        | ((with_reducible apply repeats_make_temp) <;> (solve | (clear hf ih; first | (simp [*]; done) | simp_all)))
        | ((with_reducible apply repeats_pure) <;> (solve | (clear hf ih; first | (simp [IRState.same_context, *]; done) | simp_all [IRState.same_context])))
        | dsimp only
        | split
        | (exfalso; (solve | (clear hf ih; first | (simp [*]; done) | simp_all)))
        | (solve | (clear hf ih; first | (simp [IRState.same_context, *]; done) | simp_all [IRState.same_context]))

theorem repeats_CatExp_toElem (b b1 : Nat) (toElem toElem1 : Expression → Lower Tree)
    (hf : ∀ e, Lower.repeats b b1 (toElem e) (toElem1 e))
    (type : DType) (e1 e2 : Expression) :
    Lower.repeats b b1 (CatExp.toElem toElem type e1 e2)
      (CatExp.toElem toElem1 type e1 e2) := by
  unfold CatExp.toElem
  try simp -zeta only []
  lift_lets
  intro v1 v2 v3 j4 v5 v6
  have h7 : ∀ a a1, Shape.shape a = Shape.shape a1 → Lower.repeats b b1 (j4 a) (j4 a1) := by
    intro a a1 ha
    obtain ⟨x8, x9⟩ := a
    obtain ⟨y10, y11⟩ := a1
    simp only [shape_prod, Prod.mk.injEq] at ha
    obtain ⟨e12, e13⟩ := ha
    unfold j4
    try simp -zeta only [v1, v2, v3, v5, v6]
    try simp only [v1, v2, v3, v5, v6]
    try clear v6 v5 v3 v2 v1
    repeat' first
      | (intro _; intros)
      | with_reducible exact hf _
      | with_reducible exact repeats_throw_bind _ _ _ _ _
      | with_reducible apply repeats_bind_get
      | with_reducible apply repeats_bind_create_temporary_var
      | with_reducible apply repeats_pure_bind
      | with_reducible apply repeats_bind_unit
      | with_reducible apply repeats_bind_plain
      | with_reducible apply repeats_bind_plain_pair
      | with_reducible apply repeats_bind
      | with_reducible apply repeats_ite
      | with_reducible exact repeats_same _ _ _
      | with_reducible exact repeats_throw _ _ _ _
      | with_reducible exact repeats_gcc_assert _ _ _
      | with_reducible exact repeats_error _ _ _
      | ((with_reducible apply repeats_gcc_assert_of) <;> (solve | (clear hf; first | (simp [*]; done) | simp_all)))
      | with_reducible exact repeats_push _ _ _
      | with_reducible exact repeats_defer _ _ _
      | with_reducible exact repeats_toElemDtor b b1 toElem toElem1 hf _
      | ((with_reducible apply repeats_build_bounds_condition b b1) <;> (solve | (clear hf; first | (simp [*]; done) | simp_all)))
      | (with_reducible apply repeats_d_array_convert b b1 toElem toElem1 hf)
      | ((with_reducible apply repeats_SliceExp_toElem_upper b b1 toElem toElem1 hf) <;> (solve | (clear hf; first | (simp [*]; done) | simp_all)))
      | ((with_reducible apply repeats_d_array_convert_elem b b1 toElem toElem1 hf) <;> (solve | (clear hf; first | (simp [*]; done) | simp_all)))
      | ((with_reducible apply repeats_CatExp_elms_loop b b1 toElem toElem1 hf _ _ _ _ _ _ _ _ _ ?_ ?_ rfl) <;> (solve | (clear hf; first | (simp [*]; done) | simp_all)))
      | ((with_reducible apply repeats_ite_iff); case hc => (solve | (clear hf; first | (simp [IRState.same_context, *]; done) | simp_all [IRState.same_context])))
      | ((with_reducible apply repeats_maybe_make_temp) <;> (solve | (clear hf; first | (simp [*]; done) | simp_all)))
      | ((with_reducible apply repeats_make_temp) <;> (solve | (clear hf; first | (simp [*]; done) | simp_all)))
      | ((with_reducible apply repeats_pure) <;> (solve | (clear hf; first | (simp [IRState.same_context, *]; done) | simp_all [IRState.same_context])))
      | dsimp only
      | split
      | (exfalso; (solve | (clear hf; first | (simp [*]; done) | simp_all)))
      | (solve | (clear hf; first | (simp [IRState.same_context, *]; done) | simp_all [IRState.same_context]))
  clear_value j4
  try simp only [v1, v2, v3, v5, v6]
  try clear v6 v5 v3 v2 v1
  repeat' first
    | (intro _; intros)
    | with_reducible exact hf _
    | with_reducible exact repeats_throw_bind _ _ _ _ _
    | with_reducible apply repeats_bind_get
    | with_reducible apply repeats_bind_create_temporary_var
    | with_reducible apply repeats_pure_bind
    | with_reducible apply repeats_bind_unit
    | with_reducible apply repeats_bind_plain
    | with_reducible apply repeats_bind_plain_pair
    | with_reducible apply repeats_bind
    | with_reducible apply repeats_ite
    | with_reducible exact repeats_same _ _ _
    | with_reducible exact repeats_throw _ _ _ _
    | with_reducible exact repeats_gcc_assert _ _ _
    | with_reducible exact repeats_error _ _ _
    | ((with_reducible apply repeats_gcc_assert_of) <;> (solve | (clear hf h7; first | (simp [*]; done) | simp_all)))
    | with_reducible exact repeats_push _ _ _
    | with_reducible exact repeats_defer _ _ _
    | with_reducible exact repeats_toElemDtor b b1 toElem toElem1 hf _
    | ((with_reducible apply repeats_build_bounds_condition b b1) <;> (solve | (clear hf h7; first | (simp [*]; done) | simp_all)))
    | (with_reducible apply repeats_d_array_convert b b1 toElem toElem1 hf)
    | ((with_reducible apply repeats_SliceExp_toElem_upper b b1 toElem toElem1 hf) <;> (solve | (clear hf h7; first | (simp [*]; done) | simp_all)))
    | ((with_reducible apply repeats_d_array_convert_elem b b1 toElem toElem1 hf) <;> (solve | (clear hf h7; first | (simp [*]; done) | simp_all)))
    | ((with_reducible apply repeats_CatExp_elms_loop b b1 toElem toElem1 hf _ _ _ _ _ _ _ _ _ ?_ ?_ rfl) <;> (solve | (clear hf h7; first | (simp [*]; done) | simp_all)))
    | ((with_reducible apply h7) <;> (solve | (clear hf h7; first | (simp [*]; done) | simp_all)))
    | ((with_reducible apply repeats_ite_iff); case hc => (solve | (clear hf h7; first | (simp [IRState.same_context, *]; done) | simp_all [IRState.same_context])))
    | ((with_reducible apply repeats_maybe_make_temp) <;> (solve | (clear hf h7; first | (simp [*]; done) | simp_all)))
    | ((with_reducible apply repeats_make_temp) <;> (solve | (clear hf h7; first | (simp [*]; done) | simp_all)))
    | ((with_reducible apply repeats_pure) <;> (solve | (clear hf h7; first | (simp [IRState.same_context, *]; done) | simp_all [IRState.same_context])))
    | dsimp only
    | split
    | (exfalso; (solve | (clear hf h7; first | (simp [*]; done) | simp_all)))
    | (solve | (clear hf h7; first | (simp [IRState.same_context, *]; done) | simp_all [IRState.same_context]))

theorem repeats_AssignExp_toElem_slice (b b1 : Nat) (toElem toElem1 : Expression → Lower Tree)
    (hf : ∀ e, Lower.repeats b b1 (toElem e) (toElem1 e))
    (op : TOK) (e1 e2 : Expression) (ismemset : Bool) (se_e1 : Expression) :
    Lower.repeats b b1 (AssignExp.toElem_slice toElem op e1 e2 ismemset se_e1)
      (AssignExp.toElem_slice toElem1 op e1 e2 ismemset se_e1) := by
  unfold AssignExp.toElem_slice
  try simp -zeta only []
  lift_lets
  intro v14 v15 v16 j17 j18
  have h19 : ∀ a, Lower.repeats b b1 (j17 a) (j18 a) := by
    intro a
    unfold j17 j18
    try simp -zeta only [v14, v15, v16]
    try simp only [v14, v15, v16]
    try clear v16 v15 v14
    repeat' first
      | (intro _; intros)
      | with_reducible exact hf _
      | with_reducible exact repeats_throw_bind _ _ _ _ _
      | with_reducible apply repeats_bind_get
      | with_reducible apply repeats_bind_create_temporary_var
      | with_reducible apply repeats_pure_bind
      | with_reducible apply repeats_bind_unit
      | with_reducible apply repeats_bind_plain
      | with_reducible apply repeats_bind_plain_pair
      | with_reducible apply repeats_bind
      | with_reducible apply repeats_ite
      | with_reducible exact repeats_same _ _ _
      | with_reducible exact repeats_throw _ _ _ _
      | with_reducible exact repeats_gcc_assert _ _ _
      | with_reducible exact repeats_error _ _ _
      | ((with_reducible apply repeats_gcc_assert_of) <;> (solve | (clear hf; first | (simp [*]; done) | simp_all)))
      | with_reducible exact repeats_push _ _ _
      | with_reducible exact repeats_defer _ _ _
      | with_reducible exact repeats_toElemDtor b b1 toElem toElem1 hf _
      | ((with_reducible apply repeats_build_bounds_condition b b1) <;> (solve | (clear hf; first | (simp [*]; done) | simp_all)))
      | (with_reducible apply repeats_d_array_convert b b1 toElem toElem1 hf)
      | ((with_reducible apply repeats_SliceExp_toElem_upper b b1 toElem toElem1 hf) <;> (solve | (clear hf; first | (simp [*]; done) | simp_all)))
      | ((with_reducible apply repeats_d_array_convert_elem b b1 toElem toElem1 hf) <;> (solve | (clear hf; first | (simp [*]; done) | simp_all)))
      | ((with_reducible apply repeats_CatExp_elms_loop b b1 toElem toElem1 hf _ _ _ _ _ _ _ _ _ ?_ ?_ rfl) <;> (solve | (clear hf; first | (simp [*]; done) | simp_all)))
      | ((with_reducible apply repeats_ite_iff); case hc => (solve | (clear hf; first | (simp [IRState.same_context, *]; done) | simp_all [IRState.same_context])))
      | ((with_reducible apply repeats_maybe_make_temp) <;> (solve | (clear hf; first | (simp [*]; done) | simp_all)))
      | ((with_reducible apply repeats_make_temp) <;> (solve | (clear hf; first | (simp [*]; done) | simp_all)))
      | ((with_reducible apply repeats_pure) <;> (solve | (clear hf; first | (simp [IRState.same_context, *]; done) | simp_all [IRState.same_context])))
      | dsimp only
      | split
      | (exfalso; (solve | (clear hf; first | (simp [*]; done) | simp_all)))
      | (solve | (clear hf; first | (simp [IRState.same_context, *]; done) | simp_all [IRState.same_context]))
  clear_value j17 j18
  try simp only [v14, v15, v16]
  try clear v16 v15 v14
  repeat' first
    | (intro _; intros)
    | with_reducible exact hf _
    | with_reducible exact repeats_throw_bind _ _ _ _ _
    | with_reducible apply repeats_bind_get
    | with_reducible apply repeats_bind_create_temporary_var
    | with_reducible apply repeats_pure_bind
    | with_reducible apply repeats_bind_unit
    | with_reducible apply repeats_bind_plain
    | with_reducible apply repeats_bind_plain_pair
    | with_reducible apply repeats_bind
    | with_reducible apply repeats_ite
    | with_reducible exact repeats_same _ _ _
    | with_reducible exact repeats_throw _ _ _ _
    | with_reducible exact repeats_gcc_assert _ _ _
    | with_reducible exact repeats_error _ _ _
    | ((with_reducible apply repeats_gcc_assert_of) <;> (solve | (clear hf h19; first | (simp [*]; done) | simp_all)))
    | with_reducible exact repeats_push _ _ _
    | with_reducible exact repeats_defer _ _ _
    | with_reducible exact repeats_toElemDtor b b1 toElem toElem1 hf _
    | ((with_reducible apply repeats_build_bounds_condition b b1) <;> (solve | (clear hf h19; first | (simp [*]; done) | simp_all)))
    | (with_reducible apply repeats_d_array_convert b b1 toElem toElem1 hf)
    | ((with_reducible apply repeats_SliceExp_toElem_upper b b1 toElem toElem1 hf) <;> (solve | (clear hf h19; first | (simp [*]; done) | simp_all)))
    | ((with_reducible apply repeats_d_array_convert_elem b b1 toElem toElem1 hf) <;> (solve | (clear hf h19; first | (simp [*]; done) | simp_all)))
    | ((with_reducible apply repeats_CatExp_elms_loop b b1 toElem toElem1 hf _ _ _ _ _ _ _ _ _ ?_ ?_ rfl) <;> (solve | (clear hf h19; first | (simp [*]; done) | simp_all)))
    | with_reducible exact h19 _
    | ((with_reducible apply repeats_ite_iff); case hc => (solve | (clear hf h19; first | (simp [IRState.same_context, *]; done) | simp_all [IRState.same_context])))
    | ((with_reducible apply repeats_maybe_make_temp) <;> (solve | (clear hf h19; first | (simp [*]; done) | simp_all)))
    | ((with_reducible apply repeats_make_temp) <;> (solve | (clear hf h19; first | (simp [*]; done) | simp_all)))
    | ((with_reducible apply repeats_pure) <;> (solve | (clear hf h19; first | (simp [IRState.same_context, *]; done) | simp_all [IRState.same_context])))
    | dsimp only
    | split
    | (exfalso; (solve | (clear hf h19; first | (simp [*]; done) | simp_all)))
    | (solve | (clear hf h19; first | (simp [IRState.same_context, *]; done) | simp_all [IRState.same_context]))

theorem repeats_AssignExp_toElem_rest (b b1 : Nat) (toElem toElem1 : Expression → Lower Tree)
    (hf : ∀ e, Lower.repeats b b1 (toElem e) (toElem1 e))
    (op : TOK) (e1 e2 : Expression) :
    Lower.repeats b b1 (AssignExp.toElem_rest toElem op e1 e2)
      (AssignExp.toElem_rest toElem1 op e1 e2) := by
  unfold AssignExp.toElem_rest
  repeat' first
    | (intro _; intros)
    | with_reducible exact hf _
    | with_reducible exact repeats_throw_bind _ _ _ _ _
    | with_reducible apply repeats_bind_get
    | with_reducible apply repeats_bind_create_temporary_var
    | with_reducible apply repeats_pure_bind
    | with_reducible apply repeats_bind_unit
    | with_reducible apply repeats_bind_plain
    | with_reducible apply repeats_bind_plain_pair
    | with_reducible apply repeats_bind
    | with_reducible apply repeats_ite
    | with_reducible exact repeats_same _ _ _
    | with_reducible exact repeats_throw _ _ _ _
    | with_reducible exact repeats_gcc_assert _ _ _
    | with_reducible exact repeats_error _ _ _
    | ((with_reducible apply repeats_gcc_assert_of) <;> (solve | (clear hf; first | (simp [*]; done) | simp_all)))
    | with_reducible exact repeats_push _ _ _
    | with_reducible exact repeats_defer _ _ _
    | with_reducible exact repeats_toElemDtor b b1 toElem toElem1 hf _
    | ((with_reducible apply repeats_build_bounds_condition b b1) <;> (solve | (clear hf; first | (simp [*]; done) | simp_all)))
    | (with_reducible apply repeats_d_array_convert b b1 toElem toElem1 hf)
    | ((with_reducible apply repeats_SliceExp_toElem_upper b b1 toElem toElem1 hf) <;> (solve | (clear hf; first | (simp [*]; done) | simp_all)))
    | ((with_reducible apply repeats_d_array_convert_elem b b1 toElem toElem1 hf) <;> (solve | (clear hf; first | (simp [*]; done) | simp_all)))
    | ((with_reducible apply repeats_CatExp_elms_loop b b1 toElem toElem1 hf _ _ _ _ _ _ _ _ _ ?_ ?_ rfl) <;> (solve | (clear hf; first | (simp [*]; done) | simp_all)))
    | ((with_reducible apply repeats_AssignExp_toElem_slice b b1 toElem toElem1 hf))
    | ((with_reducible apply repeats_ite_iff); case hc => (solve | (clear hf; first | (simp [IRState.same_context, *]; done) | simp_all [IRState.same_context])))
    | ((with_reducible apply repeats_maybe_make_temp) <;> (solve | (clear hf; first | (simp [*]; done) | simp_all)))
    | ((with_reducible apply repeats_make_temp) <;> (solve | (clear hf; first | (simp [*]; done) | simp_all)))
    | ((with_reducible apply repeats_pure) <;> (solve | (clear hf; first | (simp [IRState.same_context, *]; done) | simp_all [IRState.same_context])))
    | dsimp only
    | (exfalso; apply operand_mismatch <;> assumption)
    | (exfalso; apply operand_mismatch_left <;> assumption)
    | (rename_i hs _ _ _ _ _ h1 _ _ h2; exact repeats_pure _ _ _ _ (by have := operand_same _ _ _ _ _ h1 h2 hs; clear hf; simp_all))
    | split
    | (exfalso; (solve | (clear hf; first | (simp [*]; done) | simp_all)))
    | (solve | (clear hf; first | (simp [IRState.same_context, *]; done) | simp_all [IRState.same_context]))

theorem repeats_AssignExp_toElem (b b1 : Nat) (toElem toElem1 : Expression → Lower Tree)
    (hf : ∀ e, Lower.repeats b b1 (toElem e) (toElem1 e))
    (op : TOK) (e1 e2 : Expression) (ismemset : Bool) :
    Lower.repeats b b1 (AssignExp.toElem toElem op e1 e2 ismemset)
      (AssignExp.toElem toElem1 op e1 e2 ismemset) := by
  unfold AssignExp.toElem
  repeat' first
    | (intro _; intros)
    | with_reducible exact hf _
    | with_reducible exact repeats_throw_bind _ _ _ _ _
    | with_reducible apply repeats_bind_get
    | with_reducible apply repeats_bind_create_temporary_var
    | with_reducible apply repeats_pure_bind
    | with_reducible apply repeats_bind_unit
    | with_reducible apply repeats_bind_plain
    | with_reducible apply repeats_bind_plain_pair
    | with_reducible apply repeats_bind
    | with_reducible apply repeats_ite
    | with_reducible exact repeats_same _ _ _
    | with_reducible exact repeats_throw _ _ _ _
    | with_reducible exact repeats_gcc_assert _ _ _
    | with_reducible exact repeats_error _ _ _
    | ((with_reducible apply repeats_gcc_assert_of) <;> (solve | (clear hf; first | (simp [*]; done) | simp_all)))
    | with_reducible exact repeats_push _ _ _
    | with_reducible exact repeats_defer _ _ _
    | with_reducible exact repeats_toElemDtor b b1 toElem toElem1 hf _
    | ((with_reducible apply repeats_build_bounds_condition b b1) <;> (solve | (clear hf; first | (simp [*]; done) | simp_all)))
    | (with_reducible apply repeats_d_array_convert b b1 toElem toElem1 hf)
    | ((with_reducible apply repeats_SliceExp_toElem_upper b b1 toElem toElem1 hf) <;> (solve | (clear hf; first | (simp [*]; done) | simp_all)))
    | ((with_reducible apply repeats_d_array_convert_elem b b1 toElem toElem1 hf) <;> (solve | (clear hf; first | (simp [*]; done) | simp_all)))
    | ((with_reducible apply repeats_CatExp_elms_loop b b1 toElem toElem1 hf _ _ _ _ _ _ _ _ _ ?_ ?_ rfl) <;> (solve | (clear hf; first | (simp [*]; done) | simp_all)))
    | ((with_reducible apply repeats_AssignExp_toElem_slice b b1 toElem toElem1 hf))
    | ((with_reducible apply repeats_AssignExp_toElem_rest b b1 toElem toElem1 hf))
    | ((with_reducible apply repeats_ite_iff); case hc => (solve | (clear hf; first | (simp [IRState.same_context, *]; done) | simp_all [IRState.same_context])))
    | ((with_reducible apply repeats_maybe_make_temp) <;> (solve | (clear hf; first | (simp [*]; done) | simp_all)))
    | ((with_reducible apply repeats_make_temp) <;> (solve | (clear hf; first | (simp [*]; done) | simp_all)))
    | ((with_reducible apply repeats_pure) <;> (solve | (clear hf; first | (simp [IRState.same_context, *]; done) | simp_all [IRState.same_context])))
    | dsimp only
    | split
    | (exfalso; (solve | (clear hf; first | (simp [*]; done) | simp_all)))
    | (solve | (clear hf; first | (simp [IRState.same_context, *]; done) | simp_all [IRState.same_context]))

theorem repeats_toElem_arguments (b b1 : Nat) (toElem toElem1 : Expression → Lower Tree)
    (hf : ∀ e, Lower.repeats b b1 (toElem e) (toElem1 e))
    (arguments : List Expression) :
    Lower.repeats b b1 (toElem_arguments toElem arguments)
      (toElem_arguments toElem1 arguments) := by
  induction arguments with
  | nil => exact repeats_same _ _ _
  | cons arg rest ih =>
    unfold toElem_arguments
    repeat' first
      | (intro _; intros)
      | with_reducible exact hf _
      | with_reducible exact repeats_throw_bind _ _ _ _ _
      | with_reducible apply repeats_bind_get
      | with_reducible apply repeats_bind_create_temporary_var
      | with_reducible apply repeats_pure_bind
      | with_reducible apply repeats_bind_unit
      | with_reducible apply repeats_bind_plain
      | with_reducible apply repeats_bind_plain_pair
      | with_reducible apply repeats_bind
      | with_reducible apply repeats_ite
      | with_reducible exact repeats_same _ _ _
      | with_reducible exact repeats_throw _ _ _ _
      | with_reducible exact repeats_gcc_assert _ _ _
      | with_reducible exact repeats_error _ _ _
      | ((with_reducible apply repeats_gcc_assert_of) <;> (solve | (clear hf ih; first | (simp [*]; done) | simp_all)))
      | with_reducible exact repeats_push _ _ _
      | with_reducible exact repeats_defer _ _ _
      | with_reducible exact repeats_toElemDtor b b1 toElem toElem1 hf _
      | with_reducible exact ih
      | ((with_reducible apply repeats_ite_iff); case hc => (solve | (clear hf ih; first | (simp [IRState.same_context, *]; done) | simp_all [IRState.same_context])))
      | ((with_reducible apply repeats_maybe_make_temp) <;> (solve | (clear hf ih; first | (simp [*]; done) | simp_all)))
      | ((with_reducible apply repeats_make_temp) <;> (solve | (clear hf ih; first | (simp [*]; done) | simp_all)))
      | ((with_reducible apply repeats_pure) <;> (solve | (clear hf ih; first | (simp [IRState.same_context, *]; done) | simp_all [IRState.same_context])))
      | dsimp only
      | split
      | (exfalso; (solve | (clear hf ih; first | (simp [*]; done) | simp_all)))
      | (solve | (clear hf ih; first | (simp [IRState.same_context, *]; done) | simp_all [IRState.same_context]))

theorem repeats_d_build_call (b b1 : Nat) (toElem toElem1 : Expression → Lower Tree)
    (hf : ∀ e, Lower.repeats b b1 (toElem e) (toElem1 e))
    (arguments : List Expression)
    (callee callee1 : Tree) (object object1 : Option Tree)
    (hcallee : Shape.shape callee = Shape.shape callee1) (hobject : Shape.shape object = Shape.shape object1) :
    Lower.repeats b b1 (d_build_call toElem callee object arguments)
      (d_build_call toElem1 callee1 object1 arguments) := by
  unfold d_build_call
  repeat' first
    | (intro _; intros)
    | with_reducible exact hf _
    | with_reducible exact repeats_throw_bind _ _ _ _ _
    | with_reducible apply repeats_bind_get
    | with_reducible apply repeats_bind_create_temporary_var
    | with_reducible apply repeats_pure_bind
    | with_reducible apply repeats_bind_unit
    | with_reducible apply repeats_bind_plain
    | with_reducible apply repeats_bind_plain_pair
    | with_reducible apply repeats_bind
    | with_reducible apply repeats_ite
    | with_reducible exact repeats_same _ _ _
    | with_reducible exact repeats_throw _ _ _ _
    | with_reducible exact repeats_gcc_assert _ _ _
    | with_reducible exact repeats_error _ _ _
    | ((with_reducible apply repeats_gcc_assert_of) <;> (solve | (clear hf; first | (simp [*]; done) | simp_all)))
    | with_reducible exact repeats_push _ _ _
    | with_reducible exact repeats_defer _ _ _
    | with_reducible exact repeats_toElemDtor b b1 toElem toElem1 hf _
    | ((with_reducible apply repeats_build_bounds_condition b b1) <;> (solve | (clear hf; first | (simp [*]; done) | simp_all)))
    | (with_reducible apply repeats_d_array_convert b b1 toElem toElem1 hf)
    | ((with_reducible apply repeats_SliceExp_toElem_upper b b1 toElem toElem1 hf) <;> (solve | (clear hf; first | (simp [*]; done) | simp_all)))
    | ((with_reducible apply repeats_d_array_convert_elem b b1 toElem toElem1 hf) <;> (solve | (clear hf; first | (simp [*]; done) | simp_all)))
    | ((with_reducible apply repeats_CatExp_elms_loop b b1 toElem toElem1 hf _ _ _ _ _ _ _ _ _ ?_ ?_ rfl) <;> (solve | (clear hf; first | (simp [*]; done) | simp_all)))
    | ((with_reducible apply repeats_AssignExp_toElem_slice b b1 toElem toElem1 hf))
    | ((with_reducible apply repeats_AssignExp_toElem_rest b b1 toElem toElem1 hf))
    | with_reducible exact repeats_toElem_arguments b b1 toElem toElem1 hf _
    | ((with_reducible apply repeats_ite_iff); case hc => (solve | (clear hf; first | (simp [IRState.same_context, *]; done) | simp_all [IRState.same_context])))
    | ((with_reducible apply repeats_maybe_make_temp) <;> (solve | (clear hf; first | (simp [*]; done) | simp_all)))
    | ((with_reducible apply repeats_make_temp) <;> (solve | (clear hf; first | (simp [*]; done) | simp_all)))
    | ((with_reducible apply repeats_pure) <;> (solve | (clear hf; first | (simp [IRState.same_context, *]; done) | simp_all [IRState.same_context])))
    | dsimp only
    | split
    | (exfalso; (solve | (clear hf; first | (simp [*]; done) | simp_all)))
    | (solve | (clear hf; first | (simp [IRState.same_context, *]; done) | simp_all [IRState.same_context]))

theorem repeats_CallExp_toElem (b b1 : Nat) (toElem toElem1 : Expression → Lower Tree)
    (hf : ∀ e, Lower.repeats b b1 (toElem e) (toElem1 e))
    (type : DType) (e1 : Expression) (arguments : List Expression) :
    Lower.repeats b b1 (CallExp.toElem toElem type e1 arguments)
      (CallExp.toElem toElem1 type e1 arguments) := by
  unfold CallExp.toElem
  try simp -zeta only []
  lift_lets
  intro v20 j21 j22 j23 j24
  have h25 : ∀ a a1, Shape.shape a = Shape.shape a1 → Lower.repeats b b1 (j21 a) (j23 a1) := by
    try clear j24 j22
    intro a a1 ha
    obtain ⟨x26, x27, x28⟩ := a
    obtain ⟨y29, y30, y31⟩ := a1
    simp only [shape_prod, Prod.mk.injEq] at ha
    obtain ⟨e32, e33, e34⟩ := ha
    rw [Plain.shape_id, Plain.shape_id] at e32
    subst e32
    unfold j21 j23
    try simp -zeta only [v20]
    try simp only [v20]
    try clear v20
    repeat' first
      | (intro _; intros)
      | with_reducible exact hf _
      | with_reducible exact repeats_throw_bind _ _ _ _ _
      | with_reducible apply repeats_bind_get
      | with_reducible apply repeats_bind_create_temporary_var
      | with_reducible apply repeats_pure_bind
      | with_reducible apply repeats_bind_unit
      | with_reducible apply repeats_bind_plain
      | with_reducible apply repeats_bind_plain_pair
      | with_reducible apply repeats_bind
      | with_reducible apply repeats_ite
      | with_reducible exact repeats_same _ _ _
      | with_reducible exact repeats_throw _ _ _ _
      | with_reducible exact repeats_gcc_assert _ _ _
      | with_reducible exact repeats_error _ _ _
      | ((with_reducible apply repeats_gcc_assert_of) <;> (solve | (clear hf; first | (simp [*]; done) | simp_all)))
      | with_reducible exact repeats_push _ _ _
      | with_reducible exact repeats_defer _ _ _
      | with_reducible exact repeats_toElemDtor b b1 toElem toElem1 hf _
      | ((with_reducible apply repeats_build_bounds_condition b b1) <;> (solve | (clear hf; first | (simp [*]; done) | simp_all)))
      | (with_reducible apply repeats_d_array_convert b b1 toElem toElem1 hf)
      | ((with_reducible apply repeats_SliceExp_toElem_upper b b1 toElem toElem1 hf) <;> (solve | (clear hf; first | (simp [*]; done) | simp_all)))
      | ((with_reducible apply repeats_d_array_convert_elem b b1 toElem toElem1 hf) <;> (solve | (clear hf; first | (simp [*]; done) | simp_all)))
      | ((with_reducible apply repeats_CatExp_elms_loop b b1 toElem toElem1 hf _ _ _ _ _ _ _ _ _ ?_ ?_ rfl) <;> (solve | (clear hf; first | (simp [*]; done) | simp_all)))
      | ((with_reducible apply repeats_AssignExp_toElem_slice b b1 toElem toElem1 hf))
      | ((with_reducible apply repeats_AssignExp_toElem_rest b b1 toElem toElem1 hf))
      | with_reducible exact repeats_toElem_arguments b b1 toElem toElem1 hf _
      | ((with_reducible apply repeats_d_build_call b b1 toElem toElem1 hf) <;> (solve | (clear hf; first | (simp [*]; done) | simp_all)))
      | ((with_reducible apply repeats_ite_iff); case hc => (solve | (clear hf; first | (simp [IRState.same_context, *]; done) | simp_all [IRState.same_context])))
      | ((with_reducible apply repeats_maybe_make_temp) <;> (solve | (clear hf; first | (simp [*]; done) | simp_all)))
      | ((with_reducible apply repeats_make_temp) <;> (solve | (clear hf; first | (simp [*]; done) | simp_all)))
      | ((with_reducible apply repeats_pure) <;> (solve | (clear hf; first | (simp [IRState.same_context, *]; done) | simp_all [IRState.same_context])))
      | dsimp only
      | (exfalso; apply method_call_mismatch <;> assumption)
      | (exfalso; apply method_call_mismatch_left <;> assumption)
      | split
      | (exfalso; (solve | (clear hf; first | (simp [*]; done) | simp_all)))
      | (solve | (clear hf; first | (simp [IRState.same_context, *]; done) | simp_all [IRState.same_context]))
  clear_value j21 j23
  have h35 : ∀ a, Lower.repeats b b1 (j22 a) (j24 a) := by
    intro a
    unfold j22 j24
    try simp -zeta only [v20]
    try simp -zeta only []
    lift_lets
    intro j36 j37 j38 j39
    have h40 : ∀ a a1, Shape.shape a = Shape.shape a1 → Lower.repeats b b1 (j36 a) (j38 a1) := by
      try clear j39 j37
      intro a a1 ha
      unfold j36 j38
      try simp -zeta only [v20]
      try simp only [v20]
      try clear v20
      repeat' first
        | (intro _; intros)
        | with_reducible exact hf _
        | with_reducible exact repeats_throw_bind _ _ _ _ _
        | with_reducible apply repeats_bind_get
        | with_reducible apply repeats_bind_create_temporary_var
        | with_reducible apply repeats_pure_bind
        | with_reducible apply repeats_bind_unit
        | with_reducible apply repeats_bind_plain
        | with_reducible apply repeats_bind_plain_pair
        | with_reducible apply repeats_bind
        | with_reducible apply repeats_ite
        | with_reducible exact repeats_same _ _ _
        | with_reducible exact repeats_throw _ _ _ _
        | with_reducible exact repeats_gcc_assert _ _ _
        | with_reducible exact repeats_error _ _ _
        | ((with_reducible apply repeats_gcc_assert_of) <;> (solve | (clear hf h25; first | (simp [*]; done) | simp_all)))
        | with_reducible exact repeats_push _ _ _
        | with_reducible exact repeats_defer _ _ _
        | with_reducible exact repeats_toElemDtor b b1 toElem toElem1 hf _
        | ((with_reducible apply repeats_build_bounds_condition b b1) <;> (solve | (clear hf h25; first | (simp [*]; done) | simp_all)))
        | (with_reducible apply repeats_d_array_convert b b1 toElem toElem1 hf)
        | ((with_reducible apply repeats_SliceExp_toElem_upper b b1 toElem toElem1 hf) <;> (solve | (clear hf h25; first | (simp [*]; done) | simp_all)))
        | ((with_reducible apply repeats_d_array_convert_elem b b1 toElem toElem1 hf) <;> (solve | (clear hf h25; first | (simp [*]; done) | simp_all)))
        | ((with_reducible apply repeats_CatExp_elms_loop b b1 toElem toElem1 hf _ _ _ _ _ _ _ _ _ ?_ ?_ rfl) <;> (solve | (clear hf h25; first | (simp [*]; done) | simp_all)))
        | ((with_reducible apply repeats_AssignExp_toElem_slice b b1 toElem toElem1 hf))
        | ((with_reducible apply repeats_AssignExp_toElem_rest b b1 toElem toElem1 hf))
        | with_reducible exact repeats_toElem_arguments b b1 toElem toElem1 hf _
        | ((with_reducible apply repeats_d_build_call b b1 toElem toElem1 hf) <;> (solve | (clear hf h25; first | (simp [*]; done) | simp_all)))
        | ((with_reducible apply h25) <;> (solve | (clear hf h25; first | (simp [*]; done) | simp_all)))
        | ((with_reducible apply repeats_ite_iff); case hc => (solve | (clear hf h25; first | (simp [IRState.same_context, *]; done) | simp_all [IRState.same_context])))
        | ((with_reducible apply repeats_maybe_make_temp) <;> (solve | (clear hf h25; first | (simp [*]; done) | simp_all)))
        | ((with_reducible apply repeats_make_temp) <;> (solve | (clear hf h25; first | (simp [*]; done) | simp_all)))
        | ((with_reducible apply repeats_pure) <;> (solve | (clear hf h25; first | (simp [IRState.same_context, *]; done) | simp_all [IRState.same_context])))
        | dsimp only
        | (exfalso; apply method_call_mismatch <;> assumption)
        | (exfalso; apply method_call_mismatch_left <;> assumption)
        | split
        | (exfalso; (solve | (clear hf h25; first | (simp [*]; done) | simp_all)))
        | (solve | (clear hf h25; first | (simp [IRState.same_context, *]; done) | simp_all [IRState.same_context]))
    clear_value j36 j38
    have h41 : ∀ a a1, Shape.shape a = Shape.shape a1 → Lower.repeats b b1 (j37 a) (j39 a1) := by
      intro a a1 ha
      unfold j37 j39
      try simp -zeta only [v20]
      try simp only [v20]
      try clear v20
      repeat' first
        | (intro _; intros)
        | with_reducible exact hf _
        | with_reducible exact repeats_throw_bind _ _ _ _ _
        | with_reducible apply repeats_bind_get
        | with_reducible apply repeats_bind_create_temporary_var
        | with_reducible apply repeats_pure_bind
        | with_reducible apply repeats_bind_unit
        | with_reducible apply repeats_bind_plain
        | with_reducible apply repeats_bind_plain_pair
        | with_reducible apply repeats_bind
        | with_reducible apply repeats_ite
        | with_reducible exact repeats_same _ _ _
        | with_reducible exact repeats_throw _ _ _ _
        | with_reducible exact repeats_gcc_assert _ _ _
        | with_reducible exact repeats_error _ _ _
        | ((with_reducible apply repeats_gcc_assert_of) <;> (solve | (clear hf h25 h40; first | (simp [*]; done) | simp_all)))
        | with_reducible exact repeats_push _ _ _
        | with_reducible exact repeats_defer _ _ _
        | with_reducible exact repeats_toElemDtor b b1 toElem toElem1 hf _
        | ((with_reducible apply repeats_build_bounds_condition b b1) <;> (solve | (clear hf h25 h40; first | (simp [*]; done) | simp_all)))
        | (with_reducible apply repeats_d_array_convert b b1 toElem toElem1 hf)
        | ((with_reducible apply repeats_SliceExp_toElem_upper b b1 toElem toElem1 hf) <;> (solve | (clear hf h25 h40; first | (simp [*]; done) | simp_all)))
        | ((with_reducible apply repeats_d_array_convert_elem b b1 toElem toElem1 hf) <;> (solve | (clear hf h25 h40; first | (simp [*]; done) | simp_all)))
        | ((with_reducible apply repeats_CatExp_elms_loop b b1 toElem toElem1 hf _ _ _ _ _ _ _ _ _ ?_ ?_ rfl) <;> (solve | (clear hf h25 h40; first | (simp [*]; done) | simp_all)))
        | ((with_reducible apply repeats_AssignExp_toElem_slice b b1 toElem toElem1 hf))
        | ((with_reducible apply repeats_AssignExp_toElem_rest b b1 toElem toElem1 hf))
        | with_reducible exact repeats_toElem_arguments b b1 toElem toElem1 hf _
        | ((with_reducible apply repeats_d_build_call b b1 toElem toElem1 hf) <;> (solve | (clear hf h25 h40; first | (simp [*]; done) | simp_all)))
        | ((with_reducible apply h25) <;> (solve | (clear hf h25 h40; first | (simp [*]; done) | simp_all)))
        | ((with_reducible apply h40) <;> (solve | (clear hf h25 h40; first | (simp [*]; done) | simp_all)))
        | ((with_reducible apply repeats_ite_iff); case hc => (solve | (clear hf h25 h40; first | (simp [IRState.same_context, *]; done) | simp_all [IRState.same_context])))
        | ((with_reducible apply repeats_maybe_make_temp) <;> (solve | (clear hf h25 h40; first | (simp [*]; done) | simp_all)))
        | ((with_reducible apply repeats_make_temp) <;> (solve | (clear hf h25 h40; first | (simp [*]; done) | simp_all)))
        | ((with_reducible apply repeats_pure) <;> (solve | (clear hf h25 h40; first | (simp [IRState.same_context, *]; done) | simp_all [IRState.same_context])))
        | dsimp only
        | (exfalso; apply method_call_mismatch <;> assumption)
        | (exfalso; apply method_call_mismatch_left <;> assumption)
        | split
        | (exfalso; (solve | (clear hf h25 h40; first | (simp [*]; done) | simp_all)))
        | (solve | (clear hf h25 h40; first | (simp [IRState.same_context, *]; done) | simp_all [IRState.same_context]))
    clear_value j37 j39
    try simp only [v20]
    try clear v20
    repeat' first
      | (intro _; intros)
      | with_reducible exact hf _
      | with_reducible exact repeats_throw_bind _ _ _ _ _
      | with_reducible apply repeats_bind_get
      | with_reducible apply repeats_bind_create_temporary_var
      | with_reducible apply repeats_pure_bind
      | with_reducible apply repeats_bind_unit
      | with_reducible apply repeats_bind_plain
      | with_reducible apply repeats_bind_plain_pair
      | with_reducible apply repeats_bind
      | with_reducible apply repeats_ite
      | with_reducible exact repeats_same _ _ _
      | with_reducible exact repeats_throw _ _ _ _
      | with_reducible exact repeats_gcc_assert _ _ _
      | with_reducible exact repeats_error _ _ _
      | ((with_reducible apply repeats_gcc_assert_of) <;> (solve | (clear hf h25 h40 h41; first | (simp [*]; done) | simp_all)))
      | with_reducible exact repeats_push _ _ _
      | with_reducible exact repeats_defer _ _ _
      | with_reducible exact repeats_toElemDtor b b1 toElem toElem1 hf _
      | ((with_reducible apply repeats_build_bounds_condition b b1) <;> (solve | (clear hf h25 h40 h41; first | (simp [*]; done) | simp_all)))
      | (with_reducible apply repeats_d_array_convert b b1 toElem toElem1 hf)
      | ((with_reducible apply repeats_SliceExp_toElem_upper b b1 toElem toElem1 hf) <;> (solve | (clear hf h25 h40 h41; first | (simp [*]; done) | simp_all)))
      | ((with_reducible apply repeats_d_array_convert_elem b b1 toElem toElem1 hf) <;> (solve | (clear hf h25 h40 h41; first | (simp [*]; done) | simp_all)))
      | ((with_reducible apply repeats_CatExp_elms_loop b b1 toElem toElem1 hf _ _ _ _ _ _ _ _ _ ?_ ?_ rfl) <;> (solve | (clear hf h25 h40 h41; first | (simp [*]; done) | simp_all)))
      | ((with_reducible apply repeats_AssignExp_toElem_slice b b1 toElem toElem1 hf))
      | ((with_reducible apply repeats_AssignExp_toElem_rest b b1 toElem toElem1 hf))
      | with_reducible exact repeats_toElem_arguments b b1 toElem toElem1 hf _
      | ((with_reducible apply repeats_d_build_call b b1 toElem toElem1 hf) <;> (solve | (clear hf h25 h40 h41; first | (simp [*]; done) | simp_all)))
      | ((with_reducible apply h25) <;> (solve | (clear hf h25 h40 h41; first | (simp [*]; done) | simp_all)))
      | ((with_reducible apply h40) <;> (solve | (clear hf h25 h40 h41; first | (simp [*]; done) | simp_all)))
      | ((with_reducible apply h41) <;> (solve | (clear hf h25 h40 h41; first | (simp [*]; done) | simp_all)))
      | ((with_reducible apply repeats_ite_iff); case hc => (solve | (clear hf h25 h40 h41; first | (simp [IRState.same_context, *]; done) | simp_all [IRState.same_context])))
      | ((with_reducible apply repeats_maybe_make_temp) <;> (solve | (clear hf h25 h40 h41; first | (simp [*]; done) | simp_all)))
      | ((with_reducible apply repeats_make_temp) <;> (solve | (clear hf h25 h40 h41; first | (simp [*]; done) | simp_all)))
      | ((with_reducible apply repeats_pure) <;> (solve | (clear hf h25 h40 h41; first | (simp [IRState.same_context, *]; done) | simp_all [IRState.same_context])))
      | dsimp only
      | (exfalso; apply method_call_mismatch <;> assumption)
      | (exfalso; apply method_call_mismatch_left <;> assumption)
      | split
      | (exfalso; (solve | (clear hf h25 h40 h41; first | (simp [*]; done) | simp_all)))
      | (solve | (clear hf h25 h40 h41; first | (simp [IRState.same_context, *]; done) | simp_all [IRState.same_context]))
  clear_value j22 j24
  try simp only [v20]
  try clear v20
  repeat' first
    | (intro _; intros)
    | with_reducible exact hf _
    | with_reducible exact repeats_throw_bind _ _ _ _ _
    | with_reducible apply repeats_bind_get
    | with_reducible apply repeats_bind_create_temporary_var
    | with_reducible apply repeats_pure_bind
    | with_reducible apply repeats_bind_unit
    | with_reducible apply repeats_bind_plain
    | with_reducible apply repeats_bind_plain_pair
    | with_reducible apply repeats_bind
    | with_reducible apply repeats_ite
    | with_reducible exact repeats_same _ _ _
    | with_reducible exact repeats_throw _ _ _ _
    | with_reducible exact repeats_gcc_assert _ _ _
    | with_reducible exact repeats_error _ _ _
    | ((with_reducible apply repeats_gcc_assert_of) <;> (solve | (clear hf h25 h35; first | (simp [*]; done) | simp_all)))
    | with_reducible exact repeats_push _ _ _
    | with_reducible exact repeats_defer _ _ _
    | with_reducible exact repeats_toElemDtor b b1 toElem toElem1 hf _
    | ((with_reducible apply repeats_build_bounds_condition b b1) <;> (solve | (clear hf h25 h35; first | (simp [*]; done) | simp_all)))
    | (with_reducible apply repeats_d_array_convert b b1 toElem toElem1 hf)
    | ((with_reducible apply repeats_SliceExp_toElem_upper b b1 toElem toElem1 hf) <;> (solve | (clear hf h25 h35; first | (simp [*]; done) | simp_all)))
    | ((with_reducible apply repeats_d_array_convert_elem b b1 toElem toElem1 hf) <;> (solve | (clear hf h25 h35; first | (simp [*]; done) | simp_all)))
    | ((with_reducible apply repeats_CatExp_elms_loop b b1 toElem toElem1 hf _ _ _ _ _ _ _ _ _ ?_ ?_ rfl) <;> (solve | (clear hf h25 h35; first | (simp [*]; done) | simp_all)))
    | ((with_reducible apply repeats_AssignExp_toElem_slice b b1 toElem toElem1 hf))
    | ((with_reducible apply repeats_AssignExp_toElem_rest b b1 toElem toElem1 hf))
    | with_reducible exact repeats_toElem_arguments b b1 toElem toElem1 hf _
    | ((with_reducible apply repeats_d_build_call b b1 toElem toElem1 hf) <;> (solve | (clear hf h25 h35; first | (simp [*]; done) | simp_all)))
    | ((with_reducible apply h25) <;> (solve | (clear hf h25 h35; first | (simp [*]; done) | simp_all)))
    | with_reducible exact h35 _
    | ((with_reducible apply repeats_ite_iff); case hc => (solve | (clear hf h25 h35; first | (simp [IRState.same_context, *]; done) | simp_all [IRState.same_context])))
    | ((with_reducible apply repeats_maybe_make_temp) <;> (solve | (clear hf h25 h35; first | (simp [*]; done) | simp_all)))
    | ((with_reducible apply repeats_make_temp) <;> (solve | (clear hf h25 h35; first | (simp [*]; done) | simp_all)))
    | ((with_reducible apply repeats_pure) <;> (solve | (clear hf h25 h35; first | (simp [IRState.same_context, *]; done) | simp_all [IRState.same_context])))
    | dsimp only
    | (exfalso; apply method_call_mismatch <;> assumption)
    | (exfalso; apply method_call_mismatch_left <;> assumption)
    | split
    | (exfalso; (solve | (clear hf h25 h35; first | (simp [*]; done) | simp_all)))
    | (solve | (clear hf h25 h35; first | (simp [IRState.same_context, *]; done) | simp_all [IRState.same_context]))

theorem repeats_CatAssignExp_toElem (b b1 : Nat) (toElem toElem1 : Expression → Lower Tree)
    (hf : ∀ e, Lower.repeats b b1 (toElem e) (toElem1 e))
    (type : DType) (e1 e2 : Expression) :
    Lower.repeats b b1 (CatAssignExp.toElem toElem type e1 e2)
      (CatAssignExp.toElem toElem1 type e1 e2) := by
  unfold CatAssignExp.toElem
  try simp -zeta only []
  lift_lets
  intro v42 v43 v44 v45 j46 j47
  have h48 : ∀ a, Lower.repeats b b1 (j46 a) (j47 a) := by
    intro a
    unfold j46 j47
    try simp -zeta only [v42, v43, v44, v45]
    try simp -zeta only []
    lift_lets
    intro v49 j50 j51
    have h52 : ∀ a, Lower.repeats b b1 (j50 a) (j51 a) := by
      intro a
      unfold j50 j51
      try simp -zeta only [v42, v43, v44, v45, v49]
      try simp only [v42, v43, v44, v45, v49]
      try clear v49 v45 v44 v43 v42
      repeat' first
        | (intro _; intros)
        | with_reducible exact hf _
        | with_reducible exact repeats_throw_bind _ _ _ _ _
        | with_reducible apply repeats_bind_get
        | with_reducible apply repeats_bind_create_temporary_var
        | with_reducible apply repeats_pure_bind
        | with_reducible apply repeats_bind_unit
        | with_reducible apply repeats_bind_plain
        | with_reducible apply repeats_bind_plain_pair
        | with_reducible apply repeats_bind
        | with_reducible apply repeats_ite
        | with_reducible exact repeats_same _ _ _
        | with_reducible exact repeats_throw _ _ _ _
        | with_reducible exact repeats_gcc_assert _ _ _
        | with_reducible exact repeats_error _ _ _
        | ((with_reducible apply repeats_gcc_assert_of) <;> (solve | (clear hf; first | (simp [*]; done) | simp_all)))
        | with_reducible exact repeats_push _ _ _
        | with_reducible exact repeats_defer _ _ _
        | with_reducible exact repeats_toElemDtor b b1 toElem toElem1 hf _
        | ((with_reducible apply repeats_build_bounds_condition b b1) <;> (solve | (clear hf; first | (simp [*]; done) | simp_all)))
        | (with_reducible apply repeats_d_array_convert b b1 toElem toElem1 hf)
        | ((with_reducible apply repeats_SliceExp_toElem_upper b b1 toElem toElem1 hf) <;> (solve | (clear hf; first | (simp [*]; done) | simp_all)))
        | ((with_reducible apply repeats_d_array_convert_elem b b1 toElem toElem1 hf) <;> (solve | (clear hf; first | (simp [*]; done) | simp_all)))
        | ((with_reducible apply repeats_CatExp_elms_loop b b1 toElem toElem1 hf _ _ _ _ _ _ _ _ _ ?_ ?_ rfl) <;> (solve | (clear hf; first | (simp [*]; done) | simp_all)))
        | ((with_reducible apply repeats_AssignExp_toElem_slice b b1 toElem toElem1 hf))
        | ((with_reducible apply repeats_AssignExp_toElem_rest b b1 toElem toElem1 hf))
        | with_reducible exact repeats_toElem_arguments b b1 toElem toElem1 hf _
        | ((with_reducible apply repeats_d_build_call b b1 toElem toElem1 hf) <;> (solve | (clear hf; first | (simp [*]; done) | simp_all)))
        | ((with_reducible apply repeats_ite_iff); case hc => (solve | (clear hf; first | (simp [IRState.same_context, *]; done) | simp_all [IRState.same_context])))
        | ((with_reducible apply repeats_maybe_make_temp) <;> (solve | (clear hf; first | (simp [*]; done) | simp_all)))
        | ((with_reducible apply repeats_make_temp) <;> (solve | (clear hf; first | (simp [*]; done) | simp_all)))
        | ((with_reducible apply repeats_pure) <;> (solve | (clear hf; first | (simp [IRState.same_context, *]; done) | simp_all [IRState.same_context])))
        | dsimp only
        | split
        | (exfalso; (solve | (clear hf; first | (simp [*]; done) | simp_all)))
        | (solve | (clear hf; first | (simp [IRState.same_context, *]; done) | simp_all [IRState.same_context]))
    clear_value j50 j51
    try simp only [v42, v43, v44, v45, v49]
    try clear v49 v45 v44 v43 v42
    repeat' first
      | (intro _; intros)
      | with_reducible exact hf _
      | with_reducible exact repeats_throw_bind _ _ _ _ _
      | with_reducible apply repeats_bind_get
      | with_reducible apply repeats_bind_create_temporary_var
      | with_reducible apply repeats_pure_bind
      | with_reducible apply repeats_bind_unit
      | with_reducible apply repeats_bind_plain
      | with_reducible apply repeats_bind_plain_pair
      | with_reducible apply repeats_bind
      | with_reducible apply repeats_ite
      | with_reducible exact repeats_same _ _ _
      | with_reducible exact repeats_throw _ _ _ _
      | with_reducible exact repeats_gcc_assert _ _ _
      | with_reducible exact repeats_error _ _ _
      | ((with_reducible apply repeats_gcc_assert_of) <;> (solve | (clear hf h52; first | (simp [*]; done) | simp_all)))
      | with_reducible exact repeats_push _ _ _
      | with_reducible exact repeats_defer _ _ _
      | with_reducible exact repeats_toElemDtor b b1 toElem toElem1 hf _
      | ((with_reducible apply repeats_build_bounds_condition b b1) <;> (solve | (clear hf h52; first | (simp [*]; done) | simp_all)))
      | (with_reducible apply repeats_d_array_convert b b1 toElem toElem1 hf)
      | ((with_reducible apply repeats_SliceExp_toElem_upper b b1 toElem toElem1 hf) <;> (solve | (clear hf h52; first | (simp [*]; done) | simp_all)))
      | ((with_reducible apply repeats_d_array_convert_elem b b1 toElem toElem1 hf) <;> (solve | (clear hf h52; first | (simp [*]; done) | simp_all)))
      | ((with_reducible apply repeats_CatExp_elms_loop b b1 toElem toElem1 hf _ _ _ _ _ _ _ _ _ ?_ ?_ rfl) <;> (solve | (clear hf h52; first | (simp [*]; done) | simp_all)))
      | ((with_reducible apply repeats_AssignExp_toElem_slice b b1 toElem toElem1 hf))
      | ((with_reducible apply repeats_AssignExp_toElem_rest b b1 toElem toElem1 hf))
      | with_reducible exact repeats_toElem_arguments b b1 toElem toElem1 hf _
      | ((with_reducible apply repeats_d_build_call b b1 toElem toElem1 hf) <;> (solve | (clear hf h52; first | (simp [*]; done) | simp_all)))
      | with_reducible exact h52 _
      | ((with_reducible apply repeats_ite_iff); case hc => (solve | (clear hf h52; first | (simp [IRState.same_context, *]; done) | simp_all [IRState.same_context])))
      | ((with_reducible apply repeats_maybe_make_temp) <;> (solve | (clear hf h52; first | (simp [*]; done) | simp_all)))
      | ((with_reducible apply repeats_make_temp) <;> (solve | (clear hf h52; first | (simp [*]; done) | simp_all)))
      | ((with_reducible apply repeats_pure) <;> (solve | (clear hf h52; first | (simp [IRState.same_context, *]; done) | simp_all [IRState.same_context])))
      | dsimp only
      | split
      | (exfalso; (solve | (clear hf h52; first | (simp [*]; done) | simp_all)))
      | (solve | (clear hf h52; first | (simp [IRState.same_context, *]; done) | simp_all [IRState.same_context]))
  clear_value j46 j47
  try simp only [v42, v43, v44, v45]
  try clear v45 v44 v43 v42
  repeat' first
    | (intro _; intros)
    | with_reducible exact hf _
    | with_reducible exact repeats_throw_bind _ _ _ _ _
    | with_reducible apply repeats_bind_get
    | with_reducible apply repeats_bind_create_temporary_var
    | with_reducible apply repeats_pure_bind
    | with_reducible apply repeats_bind_unit
    | with_reducible apply repeats_bind_plain
    | with_reducible apply repeats_bind_plain_pair
    | with_reducible apply repeats_bind
    | with_reducible apply repeats_ite
    | with_reducible exact repeats_same _ _ _
    | with_reducible exact repeats_throw _ _ _ _
    | with_reducible exact repeats_gcc_assert _ _ _
    | with_reducible exact repeats_error _ _ _
    | ((with_reducible apply repeats_gcc_assert_of) <;> (solve | (clear hf h48; first | (simp [*]; done) | simp_all)))
    | with_reducible exact repeats_push _ _ _
    | with_reducible exact repeats_defer _ _ _
    | with_reducible exact repeats_toElemDtor b b1 toElem toElem1 hf _
    | ((with_reducible apply repeats_build_bounds_condition b b1) <;> (solve | (clear hf h48; first | (simp [*]; done) | simp_all)))
    | (with_reducible apply repeats_d_array_convert b b1 toElem toElem1 hf)
    | ((with_reducible apply repeats_SliceExp_toElem_upper b b1 toElem toElem1 hf) <;> (solve | (clear hf h48; first | (simp [*]; done) | simp_all)))
    | ((with_reducible apply repeats_d_array_convert_elem b b1 toElem toElem1 hf) <;> (solve | (clear hf h48; first | (simp [*]; done) | simp_all)))
    | ((with_reducible apply repeats_CatExp_elms_loop b b1 toElem toElem1 hf _ _ _ _ _ _ _ _ _ ?_ ?_ rfl) <;> (solve | (clear hf h48; first | (simp [*]; done) | simp_all)))
    | ((with_reducible apply repeats_AssignExp_toElem_slice b b1 toElem toElem1 hf))
    | ((with_reducible apply repeats_AssignExp_toElem_rest b b1 toElem toElem1 hf))
    | with_reducible exact repeats_toElem_arguments b b1 toElem toElem1 hf _
    | ((with_reducible apply repeats_d_build_call b b1 toElem toElem1 hf) <;> (solve | (clear hf h48; first | (simp [*]; done) | simp_all)))
    | with_reducible exact h48 _
    | ((with_reducible apply repeats_ite_iff); case hc => (solve | (clear hf h48; first | (simp [IRState.same_context, *]; done) | simp_all [IRState.same_context])))
    | ((with_reducible apply repeats_maybe_make_temp) <;> (solve | (clear hf h48; first | (simp [*]; done) | simp_all)))
    | ((with_reducible apply repeats_make_temp) <;> (solve | (clear hf h48; first | (simp [*]; done) | simp_all)))
    | ((with_reducible apply repeats_pure) <;> (solve | (clear hf h48; first | (simp [IRState.same_context, *]; done) | simp_all [IRState.same_context])))
    | dsimp only
    | split
    | (exfalso; (solve | (clear hf h48; first | (simp [*]; done) | simp_all)))
    | (solve | (clear hf h48; first | (simp [IRState.same_context, *]; done) | simp_all [IRState.same_context]))

theorem repeats_AssertExp_toElem (b b1 : Nat) (toElem toElem1 : Expression → Lower Tree)
    (hf : ∀ e, Lower.repeats b b1 (toElem e) (toElem1 e))
    (e1 : Expression) (msg : Option Expression) :
    Lower.repeats b b1 (AssertExp.toElem toElem e1 msg)
      (AssertExp.toElem toElem1 e1 msg) := by
  unfold AssertExp.toElem
  try simp -zeta only []
  lift_lets
  intro v53 j54 j55
  have h56 : ∀ a a1, Shape.shape a = Shape.shape a1 → Lower.repeats b b1 (j54 a) (j55 a1) := by
    intro a a1 ha
    obtain ⟨x57, x58⟩ := a
    obtain ⟨y59, y60⟩ := a1
    simp only [shape_prod, Prod.mk.injEq] at ha
    obtain ⟨e61, e62⟩ := ha
    rw [Plain.shape_id, Plain.shape_id] at e62
    subst e62
    unfold j54 j55
    try simp -zeta only [v53]
    try simp -zeta only []
    lift_lets
    intro v63 j64 v65 j66
    have h67 : ∀ a, Lower.repeats b b1 (j64 a) (j66 a) := by
      intro a
      unfold j64 j66
      try simp -zeta only [v53, v63, v65]
      try simp only [v53, v63, v65]
      try clear v65 v63 v53
      repeat' first
        | (intro _; intros)
        | with_reducible exact hf _
        | with_reducible exact repeats_throw_bind _ _ _ _ _
        | with_reducible apply repeats_bind_get
        | with_reducible apply repeats_bind_create_temporary_var
        | with_reducible apply repeats_pure_bind
        | with_reducible apply repeats_bind_unit
        | with_reducible apply repeats_bind_plain
        | with_reducible apply repeats_bind_plain_pair
        | with_reducible apply repeats_bind
        | with_reducible apply repeats_ite
        | with_reducible exact repeats_same _ _ _
        | with_reducible exact repeats_throw _ _ _ _
        | with_reducible exact repeats_gcc_assert _ _ _
        | with_reducible exact repeats_error _ _ _
        | ((with_reducible apply repeats_gcc_assert_of) <;> (solve | (clear hf; first | (simp [*]; done) | simp_all)))
        | with_reducible exact repeats_push _ _ _
        | with_reducible exact repeats_defer _ _ _
        | with_reducible exact repeats_toElemDtor b b1 toElem toElem1 hf _
        | ((with_reducible apply repeats_build_bounds_condition b b1) <;> (solve | (clear hf; first | (simp [*]; done) | simp_all)))
        | (with_reducible apply repeats_d_array_convert b b1 toElem toElem1 hf)
        | ((with_reducible apply repeats_SliceExp_toElem_upper b b1 toElem toElem1 hf) <;> (solve | (clear hf; first | (simp [*]; done) | simp_all)))
        | ((with_reducible apply repeats_d_array_convert_elem b b1 toElem toElem1 hf) <;> (solve | (clear hf; first | (simp [*]; done) | simp_all)))
        | ((with_reducible apply repeats_CatExp_elms_loop b b1 toElem toElem1 hf _ _ _ _ _ _ _ _ _ ?_ ?_ rfl) <;> (solve | (clear hf; first | (simp [*]; done) | simp_all)))
        | ((with_reducible apply repeats_AssignExp_toElem_slice b b1 toElem toElem1 hf))
        | ((with_reducible apply repeats_AssignExp_toElem_rest b b1 toElem toElem1 hf))
        | with_reducible exact repeats_toElem_arguments b b1 toElem toElem1 hf _
        | ((with_reducible apply repeats_d_build_call b b1 toElem toElem1 hf) <;> (solve | (clear hf; first | (simp [*]; done) | simp_all)))
        | ((with_reducible apply repeats_ite_iff); case hc => (solve | (clear hf; first | (simp [IRState.same_context, *]; done) | simp_all [IRState.same_context])))
        | ((with_reducible apply repeats_maybe_make_temp) <;> (solve | (clear hf; first | (simp [*]; done) | simp_all)))
        | ((with_reducible apply repeats_make_temp) <;> (solve | (clear hf; first | (simp [*]; done) | simp_all)))
        | ((with_reducible apply repeats_pure) <;> (solve | (clear hf; first | (simp [IRState.same_context, *]; done) | simp_all [IRState.same_context])))
        | dsimp only
        | split
        | (exfalso; (solve | (clear hf; first | (simp [*]; done) | simp_all)))
        | (solve | (clear hf; first | (simp [IRState.same_context, *]; done) | simp_all [IRState.same_context]))
    clear_value j64 j66
    try simp only [v53, v63, v65]
    try clear v65 v63 v53
    repeat' first
      | (intro _; intros)
      | with_reducible exact hf _
      | with_reducible exact repeats_throw_bind _ _ _ _ _
      | with_reducible apply repeats_bind_get
      | with_reducible apply repeats_bind_create_temporary_var
      | with_reducible apply repeats_pure_bind
      | with_reducible apply repeats_bind_unit
      | with_reducible apply repeats_bind_plain
      | with_reducible apply repeats_bind_plain_pair
      | with_reducible apply repeats_bind
      | with_reducible apply repeats_ite
      | with_reducible exact repeats_same _ _ _
      | with_reducible exact repeats_throw _ _ _ _
      | with_reducible exact repeats_gcc_assert _ _ _
      | with_reducible exact repeats_error _ _ _
      | ((with_reducible apply repeats_gcc_assert_of) <;> (solve | (clear hf h67; first | (simp [*]; done) | simp_all)))
      | with_reducible exact repeats_push _ _ _
      | with_reducible exact repeats_defer _ _ _
      | with_reducible exact repeats_toElemDtor b b1 toElem toElem1 hf _
      | ((with_reducible apply repeats_build_bounds_condition b b1) <;> (solve | (clear hf h67; first | (simp [*]; done) | simp_all)))
      | (with_reducible apply repeats_d_array_convert b b1 toElem toElem1 hf)
      | ((with_reducible apply repeats_SliceExp_toElem_upper b b1 toElem toElem1 hf) <;> (solve | (clear hf h67; first | (simp [*]; done) | simp_all)))
      | ((with_reducible apply repeats_d_array_convert_elem b b1 toElem toElem1 hf) <;> (solve | (clear hf h67; first | (simp [*]; done) | simp_all)))
      | ((with_reducible apply repeats_CatExp_elms_loop b b1 toElem toElem1 hf _ _ _ _ _ _ _ _ _ ?_ ?_ rfl) <;> (solve | (clear hf h67; first | (simp [*]; done) | simp_all)))
      | ((with_reducible apply repeats_AssignExp_toElem_slice b b1 toElem toElem1 hf))
      | ((with_reducible apply repeats_AssignExp_toElem_rest b b1 toElem toElem1 hf))
      | with_reducible exact repeats_toElem_arguments b b1 toElem toElem1 hf _
      | ((with_reducible apply repeats_d_build_call b b1 toElem toElem1 hf) <;> (solve | (clear hf h67; first | (simp [*]; done) | simp_all)))
      | with_reducible exact h67 _
      | ((with_reducible apply repeats_ite_iff); case hc => (solve | (clear hf h67; first | (simp [IRState.same_context, *]; done) | simp_all [IRState.same_context])))
      | ((with_reducible apply repeats_maybe_make_temp) <;> (solve | (clear hf h67; first | (simp [*]; done) | simp_all)))
      | ((with_reducible apply repeats_make_temp) <;> (solve | (clear hf h67; first | (simp [*]; done) | simp_all)))
      | ((with_reducible apply repeats_pure) <;> (solve | (clear hf h67; first | (simp [IRState.same_context, *]; done) | simp_all [IRState.same_context])))
      | dsimp only
      | split
      | (exfalso; (solve | (clear hf h67; first | (simp [*]; done) | simp_all)))
      | (solve | (clear hf h67; first | (simp [IRState.same_context, *]; done) | simp_all [IRState.same_context]))
  clear_value j54 j55
  try simp only [v53]
  try clear v53
  repeat' first
    | (intro _; intros)
    | with_reducible exact hf _
    | with_reducible exact repeats_throw_bind _ _ _ _ _
    | with_reducible apply repeats_bind_get
    | with_reducible apply repeats_bind_create_temporary_var
    | with_reducible apply repeats_pure_bind
    | with_reducible apply repeats_bind_unit
    | with_reducible apply repeats_bind_plain
    | with_reducible apply repeats_bind_plain_pair
    | with_reducible apply repeats_bind
    | with_reducible apply repeats_ite
    | with_reducible exact repeats_same _ _ _
    | with_reducible exact repeats_throw _ _ _ _
    | with_reducible exact repeats_gcc_assert _ _ _
    | with_reducible exact repeats_error _ _ _
    | ((with_reducible apply repeats_gcc_assert_of) <;> (solve | (clear hf h56; first | (simp [*]; done) | simp_all)))
    | with_reducible exact repeats_push _ _ _
    | with_reducible exact repeats_defer _ _ _
    | with_reducible exact repeats_toElemDtor b b1 toElem toElem1 hf _
    | ((with_reducible apply repeats_build_bounds_condition b b1) <;> (solve | (clear hf h56; first | (simp [*]; done) | simp_all)))
    | (with_reducible apply repeats_d_array_convert b b1 toElem toElem1 hf)
    | ((with_reducible apply repeats_SliceExp_toElem_upper b b1 toElem toElem1 hf) <;> (solve | (clear hf h56; first | (simp [*]; done) | simp_all)))
    | ((with_reducible apply repeats_d_array_convert_elem b b1 toElem toElem1 hf) <;> (solve | (clear hf h56; first | (simp [*]; done) | simp_all)))
    | ((with_reducible apply repeats_CatExp_elms_loop b b1 toElem toElem1 hf _ _ _ _ _ _ _ _ _ ?_ ?_ rfl) <;> (solve | (clear hf h56; first | (simp [*]; done) | simp_all)))
    | ((with_reducible apply repeats_AssignExp_toElem_slice b b1 toElem toElem1 hf))
    | ((with_reducible apply repeats_AssignExp_toElem_rest b b1 toElem toElem1 hf))
    | with_reducible exact repeats_toElem_arguments b b1 toElem toElem1 hf _
    | ((with_reducible apply repeats_d_build_call b b1 toElem toElem1 hf) <;> (solve | (clear hf h56; first | (simp [*]; done) | simp_all)))
    | ((with_reducible apply h56) <;> (solve | (clear hf h56; first | (simp [*]; done) | simp_all)))
    | ((with_reducible apply repeats_ite_iff); case hc => (solve | (clear hf h56; first | (simp [IRState.same_context, *]; done) | simp_all [IRState.same_context])))
    | ((with_reducible apply repeats_maybe_make_temp) <;> (solve | (clear hf h56; first | (simp [*]; done) | simp_all)))
    | ((with_reducible apply repeats_make_temp) <;> (solve | (clear hf h56; first | (simp [*]; done) | simp_all)))
    | ((with_reducible apply repeats_pure) <;> (solve | (clear hf h56; first | (simp [IRState.same_context, *]; done) | simp_all [IRState.same_context])))
    | dsimp only
    | split
    | (exfalso; (solve | (clear hf h56; first | (simp [*]; done) | simp_all)))
    | (solve | (clear hf h56; first | (simp [IRState.same_context, *]; done) | simp_all [IRState.same_context]))

theorem repeats_d_build_call_fd (b b1 : Nat) (toElem toElem1 : Expression → Lower Tree)
    (hf : ∀ e, Lower.repeats b b1 (toElem e) (toElem1 e))
    (fd : FuncDeclaration) (arguments : Option (List Expression))
    (object object1 : Option Tree)
    (hobject : Shape.shape object = Shape.shape object1) :
    Lower.repeats b b1 (d_build_call_fd toElem fd object arguments)
      (d_build_call_fd toElem1 fd object1 arguments) := by
  unfold d_build_call_fd
  repeat' first
    | (intro _; intros)
    | with_reducible exact hf _
    | with_reducible exact repeats_throw_bind _ _ _ _ _
    | with_reducible apply repeats_bind_get
    | with_reducible apply repeats_bind_create_temporary_var
    | with_reducible apply repeats_pure_bind
    | with_reducible apply repeats_bind_unit
    | with_reducible apply repeats_bind_plain
    | with_reducible apply repeats_bind_plain_pair
    | with_reducible apply repeats_bind
    | with_reducible apply repeats_ite
    | with_reducible exact repeats_same _ _ _
    | with_reducible exact repeats_throw _ _ _ _
    | with_reducible exact repeats_gcc_assert _ _ _
    | with_reducible exact repeats_error _ _ _
    | ((with_reducible apply repeats_gcc_assert_of) <;> (solve | (clear hf; first | (simp [*]; done) | simp_all)))
    | with_reducible exact repeats_push _ _ _
    | with_reducible exact repeats_defer _ _ _
    | with_reducible exact repeats_toElemDtor b b1 toElem toElem1 hf _
    | ((with_reducible apply repeats_build_bounds_condition b b1) <;> (solve | (clear hf; first | (simp [*]; done) | simp_all)))
    | (with_reducible apply repeats_d_array_convert b b1 toElem toElem1 hf)
    | ((with_reducible apply repeats_SliceExp_toElem_upper b b1 toElem toElem1 hf) <;> (solve | (clear hf; first | (simp [*]; done) | simp_all)))
    | ((with_reducible apply repeats_d_array_convert_elem b b1 toElem toElem1 hf) <;> (solve | (clear hf; first | (simp [*]; done) | simp_all)))
    | ((with_reducible apply repeats_CatExp_elms_loop b b1 toElem toElem1 hf _ _ _ _ _ _ _ _ _ ?_ ?_ rfl) <;> (solve | (clear hf; first | (simp [*]; done) | simp_all)))
    | ((with_reducible apply repeats_AssignExp_toElem_slice b b1 toElem toElem1 hf))
    | ((with_reducible apply repeats_AssignExp_toElem_rest b b1 toElem toElem1 hf))
    | with_reducible exact repeats_toElem_arguments b b1 toElem toElem1 hf _
    | ((with_reducible apply repeats_d_build_call b b1 toElem toElem1 hf) <;> (solve | (clear hf; first | (simp [*]; done) | simp_all)))
    | ((with_reducible apply repeats_ite_iff); case hc => (solve | (clear hf; first | (simp [IRState.same_context, *]; done) | simp_all [IRState.same_context])))
    | ((with_reducible apply repeats_maybe_make_temp) <;> (solve | (clear hf; first | (simp [*]; done) | simp_all)))
    | ((with_reducible apply repeats_make_temp) <;> (solve | (clear hf; first | (simp [*]; done) | simp_all)))
    | ((with_reducible apply repeats_pure) <;> (solve | (clear hf; first | (simp [IRState.same_context, *]; done) | simp_all [IRState.same_context])))
    | dsimp only
    | split
    | (exfalso; (solve | (clear hf; first | (simp [*]; done) | simp_all)))
    | (solve | (clear hf; first | (simp [IRState.same_context, *]; done) | simp_all [IRState.same_context]))

theorem repeats_NewExp_finish (b b1 : Nat) (toElem toElem1 : Expression → Lower Tree)
    (hf : ∀ e, Lower.repeats b b1 (toElem e) (toElem1 e))
    (type tb : DType) ( argprefix : Option Expression)
    (result result1 : Tree)
    (hresult : Shape.shape result = Shape.shape result1) :
    Lower.repeats b b1 (NewExp.finish toElem type tb argprefix result)
      (NewExp.finish toElem1 type tb argprefix result1) := by
  unfold NewExp.finish
  try simp -zeta only []
  lift_lets
  intro j68
  have h69 : ∀ a a1, Shape.shape a = Shape.shape a1 → Lower.repeats b b1 (j68 a) (j68 a1) := by
    intro a a1 ha
    unfold j68
    try simp -zeta only []
    repeat' first
      | (intro _; intros)
      | with_reducible exact hf _
      | with_reducible exact repeats_throw_bind _ _ _ _ _
      | with_reducible apply repeats_bind_get
      | with_reducible apply repeats_bind_create_temporary_var
      | with_reducible apply repeats_pure_bind
      | with_reducible apply repeats_bind_unit
      | with_reducible apply repeats_bind_plain
      | with_reducible apply repeats_bind_plain_pair
      | with_reducible apply repeats_bind
      | with_reducible apply repeats_ite
      | with_reducible exact repeats_same _ _ _
      | with_reducible exact repeats_throw _ _ _ _
      | with_reducible exact repeats_gcc_assert _ _ _
      | with_reducible exact repeats_error _ _ _
      | ((with_reducible apply repeats_gcc_assert_of) <;> (solve | (clear hf; first | (simp [*]; done) | simp_all)))
      | with_reducible exact repeats_push _ _ _
      | with_reducible exact repeats_defer _ _ _
      | with_reducible exact repeats_toElemDtor b b1 toElem toElem1 hf _
      | ((with_reducible apply repeats_build_bounds_condition b b1) <;> (solve | (clear hf; first | (simp [*]; done) | simp_all)))
      | (with_reducible apply repeats_d_array_convert b b1 toElem toElem1 hf)
      | ((with_reducible apply repeats_SliceExp_toElem_upper b b1 toElem toElem1 hf) <;> (solve | (clear hf; first | (simp [*]; done) | simp_all)))
      | ((with_reducible apply repeats_d_array_convert_elem b b1 toElem toElem1 hf) <;> (solve | (clear hf; first | (simp [*]; done) | simp_all)))
      | ((with_reducible apply repeats_CatExp_elms_loop b b1 toElem toElem1 hf _ _ _ _ _ _ _ _ _ ?_ ?_ rfl) <;> (solve | (clear hf; first | (simp [*]; done) | simp_all)))
      | ((with_reducible apply repeats_AssignExp_toElem_slice b b1 toElem toElem1 hf))
      | ((with_reducible apply repeats_AssignExp_toElem_rest b b1 toElem toElem1 hf))
      | with_reducible exact repeats_toElem_arguments b b1 toElem toElem1 hf _
      | ((with_reducible apply repeats_d_build_call b b1 toElem toElem1 hf) <;> (solve | (clear hf; first | (simp [*]; done) | simp_all)))
      | ((with_reducible apply repeats_d_build_call_fd b b1 toElem toElem1 hf) <;> (solve | (clear hf; first | (simp [*]; done) | simp_all)))
      | ((with_reducible apply repeats_ite_iff); case hc => (solve | (clear hf; first | (simp [IRState.same_context, *]; done) | simp_all [IRState.same_context])))
      | ((with_reducible apply repeats_maybe_make_temp) <;> (solve | (clear hf; first | (simp [*]; done) | simp_all)))
      | ((with_reducible apply repeats_make_temp) <;> (solve | (clear hf; first | (simp [*]; done) | simp_all)))
      | ((with_reducible apply repeats_pure) <;> (solve | (clear hf; first | (simp [IRState.same_context, *]; done) | simp_all [IRState.same_context])))
      | dsimp only
      | split
      | (exfalso; (solve | (clear hf; first | (simp [*]; done) | simp_all)))
      | (solve | (clear hf; first | (simp [IRState.same_context, *]; done) | simp_all [IRState.same_context]))
  clear_value j68
  repeat' first
    | (intro _; intros)
    | with_reducible exact hf _
    | with_reducible exact repeats_throw_bind _ _ _ _ _
    | with_reducible apply repeats_bind_get
    | with_reducible apply repeats_bind_create_temporary_var
    | with_reducible apply repeats_pure_bind
    | with_reducible apply repeats_bind_unit
    | with_reducible apply repeats_bind_plain
    | with_reducible apply repeats_bind_plain_pair
    | with_reducible apply repeats_bind
    | with_reducible apply repeats_ite
    | with_reducible exact repeats_same _ _ _
    | with_reducible exact repeats_throw _ _ _ _
    | with_reducible exact repeats_gcc_assert _ _ _
    | with_reducible exact repeats_error _ _ _
    | ((with_reducible apply repeats_gcc_assert_of) <;> (solve | (clear hf h69; first | (simp [*]; done) | simp_all)))
    | with_reducible exact repeats_push _ _ _
    | with_reducible exact repeats_defer _ _ _
    | with_reducible exact repeats_toElemDtor b b1 toElem toElem1 hf _
    | ((with_reducible apply repeats_build_bounds_condition b b1) <;> (solve | (clear hf h69; first | (simp [*]; done) | simp_all)))
    | (with_reducible apply repeats_d_array_convert b b1 toElem toElem1 hf)
    | ((with_reducible apply repeats_SliceExp_toElem_upper b b1 toElem toElem1 hf) <;> (solve | (clear hf h69; first | (simp [*]; done) | simp_all)))
    | ((with_reducible apply repeats_d_array_convert_elem b b1 toElem toElem1 hf) <;> (solve | (clear hf h69; first | (simp [*]; done) | simp_all)))
    | ((with_reducible apply repeats_CatExp_elms_loop b b1 toElem toElem1 hf _ _ _ _ _ _ _ _ _ ?_ ?_ rfl) <;> (solve | (clear hf h69; first | (simp [*]; done) | simp_all)))
    | ((with_reducible apply repeats_AssignExp_toElem_slice b b1 toElem toElem1 hf))
    | ((with_reducible apply repeats_AssignExp_toElem_rest b b1 toElem toElem1 hf))
    | with_reducible exact repeats_toElem_arguments b b1 toElem toElem1 hf _
    | ((with_reducible apply repeats_d_build_call b b1 toElem toElem1 hf) <;> (solve | (clear hf h69; first | (simp [*]; done) | simp_all)))
    | ((with_reducible apply repeats_d_build_call_fd b b1 toElem toElem1 hf) <;> (solve | (clear hf h69; first | (simp [*]; done) | simp_all)))
    | ((with_reducible apply h69) <;> (solve | (clear hf h69; first | (simp [*]; done) | simp_all)))
    | ((with_reducible apply repeats_ite_iff); case hc => (solve | (clear hf h69; first | (simp [IRState.same_context, *]; done) | simp_all [IRState.same_context])))
    | ((with_reducible apply repeats_maybe_make_temp) <;> (solve | (clear hf h69; first | (simp [*]; done) | simp_all)))
    | ((with_reducible apply repeats_make_temp) <;> (solve | (clear hf h69; first | (simp [*]; done) | simp_all)))
    | ((with_reducible apply repeats_pure) <;> (solve | (clear hf h69; first | (simp [IRState.same_context, *]; done) | simp_all [IRState.same_context])))
    | dsimp only
    | split
    | (exfalso; (solve | (clear hf h69; first | (simp [*]; done) | simp_all)))
    | (solve | (clear hf h69; first | (simp [IRState.same_context, *]; done) | simp_all [IRState.same_context]))

theorem repeats_NewExp_dims_loop (b b1 : Nat) (toElem toElem1 : Expression → Lower Tree)
    (hf : ∀ e, Lower.repeats b b1 (toElem e) (toElem1 e))
    (arguments : List Expression) :
    ∀ (i : Nat) (telem : DType) (elms elms1 : List (Nat × Tree)),
      Shape.shape elms = Shape.shape elms1 →
      Lower.repeats b b1 (NewExp.dims_loop toElem arguments i telem elms)
        (NewExp.dims_loop toElem1 arguments i telem elms1) := by
  induction arguments with
  | nil => intro i telem elms elms1 h; exact repeats_pure _ _ _ _ (by simp_all)
  | cons arg rest ih =>
    intro i telem elms elms1 h
    unfold NewExp.dims_loop
    repeat' first
      | (intro _; intros)
      | with_reducible exact hf _
      | with_reducible exact repeats_throw_bind _ _ _ _ _
      | with_reducible apply repeats_bind_get
      | with_reducible apply repeats_bind_create_temporary_var
      | with_reducible apply repeats_pure_bind
      | with_reducible apply repeats_bind_unit
      | with_reducible apply repeats_bind_plain
      | with_reducible apply repeats_bind_plain_pair
      | with_reducible apply repeats_bind
      | with_reducible apply repeats_ite
      | with_reducible exact repeats_same _ _ _
      | with_reducible exact repeats_throw _ _ _ _
      | with_reducible exact repeats_gcc_assert _ _ _
      | with_reducible exact repeats_error _ _ _
      | ((with_reducible apply repeats_gcc_assert_of) <;> (solve | (clear hf ih; first | (simp [*]; done) | simp_all)))
      | with_reducible exact repeats_push _ _ _
      | with_reducible exact repeats_defer _ _ _
      | with_reducible exact repeats_toElemDtor b b1 toElem toElem1 hf _
      | ((with_reducible apply repeats_build_bounds_condition b b1) <;> (solve | (clear hf ih; first | (simp [*]; done) | simp_all)))
      | (with_reducible apply repeats_d_array_convert b b1 toElem toElem1 hf)
      | ((with_reducible apply repeats_SliceExp_toElem_upper b b1 toElem toElem1 hf) <;> (solve | (clear hf ih; first | (simp [*]; done) | simp_all)))
      | ((with_reducible apply repeats_d_array_convert_elem b b1 toElem toElem1 hf) <;> (solve | (clear hf ih; first | (simp [*]; done) | simp_all)))
      | ((with_reducible apply repeats_CatExp_elms_loop b b1 toElem toElem1 hf _ _ _ _ _ _ _ _ _ ?_ ?_ rfl) <;> (solve | (clear hf ih; first | (simp [*]; done) | simp_all)))
      | ((with_reducible apply repeats_AssignExp_toElem_slice b b1 toElem toElem1 hf))
      | ((with_reducible apply repeats_AssignExp_toElem_rest b b1 toElem toElem1 hf))
      | with_reducible exact repeats_toElem_arguments b b1 toElem toElem1 hf _
      | ((with_reducible apply repeats_d_build_call b b1 toElem toElem1 hf) <;> (solve | (clear hf ih; first | (simp [*]; done) | simp_all)))
      | ((with_reducible apply repeats_d_build_call_fd b b1 toElem toElem1 hf) <;> (solve | (clear hf ih; first | (simp [*]; done) | simp_all)))
      | ((with_reducible apply repeats_NewExp_finish b b1 toElem toElem1 hf) <;> (solve | (clear hf ih; first | (simp [*]; done) | simp_all)))
      | ((with_reducible apply ih) <;> (solve | (clear hf ih; first | (simp [*]; done) | simp_all)))
      | ((with_reducible apply repeats_ite_iff); case hc => (solve | (clear hf ih; first | (simp [IRState.same_context, *]; done) | simp_all [IRState.same_context])))
      | ((with_reducible apply repeats_maybe_make_temp) <;> (solve | (clear hf ih; first | (simp [*]; done) | simp_all)))
      | ((with_reducible apply repeats_make_temp) <;> (solve | (clear hf ih; first | (simp [*]; done) | simp_all)))
      | ((with_reducible apply repeats_pure) <;> (solve | (clear hf ih; first | (simp [IRState.same_context, *]; done) | simp_all [IRState.same_context])))
      | dsimp only
      | split
      | (exfalso; (solve | (clear hf ih; first | (simp [*]; done) | simp_all)))
      | (solve | (clear hf ih; first | (simp [IRState.same_context, *]; done) | simp_all [IRState.same_context]))

theorem repeats_NewExp_toElem_class (b b1 : Nat) (toElem toElem1 : Expression → Lower Tree)
    (hf : ∀ e, Lower.repeats b b1 (toElem e) (toElem1 e))
    (type newtype : DType) (thisexp : Option Expression)
    (allocator : Option FuncDeclaration) (newargs : Option (List Expression)) (onstack : Bool)
    (member : Option FuncDeclaration) (arguments : Option (List Expression))
    ( argprefix : Option Expression) :
    Lower.repeats b b1 (NewExp.toElem_class toElem type newtype thisexp allocator newargs onstack member
      arguments argprefix)
      (NewExp.toElem_class toElem1 type newtype thisexp allocator newargs onstack member
      arguments argprefix) := by
  unfold NewExp.toElem_class
  try simp -zeta only []
  lift_lets
  intro v70 j71 j72 j73 j74
  have h75 : ∀ a a1, Shape.shape a = Shape.shape a1 → Lower.repeats b b1 (j71 a) (j73 a1) := by
    try clear j74 j72
    intro a a1 ha
    unfold j71 j73
    try simp -zeta only [v70]
    try simp only [v70]
    try clear v70
    repeat' first
      | (intro _; intros)
      | with_reducible exact hf _
      | with_reducible exact repeats_throw_bind _ _ _ _ _
      | with_reducible apply repeats_bind_get
      | with_reducible apply repeats_bind_create_temporary_var
      | with_reducible apply repeats_pure_bind
      | with_reducible apply repeats_bind_unit
      | with_reducible apply repeats_bind_plain
      | with_reducible apply repeats_bind_plain_pair
      | with_reducible apply repeats_bind
      | with_reducible apply repeats_ite
      | with_reducible exact repeats_same _ _ _
      | with_reducible exact repeats_throw _ _ _ _
      | with_reducible exact repeats_gcc_assert _ _ _
      | with_reducible exact repeats_error _ _ _
      | ((with_reducible apply repeats_gcc_assert_of) <;> (solve | (clear hf; first | (simp [*]; done) | simp_all)))
      | with_reducible exact repeats_push _ _ _
      | with_reducible exact repeats_defer _ _ _
      | with_reducible exact repeats_toElemDtor b b1 toElem toElem1 hf _
      | ((with_reducible apply repeats_build_bounds_condition b b1) <;> (solve | (clear hf; first | (simp [*]; done) | simp_all)))
      | (with_reducible apply repeats_d_array_convert b b1 toElem toElem1 hf)
      | ((with_reducible apply repeats_SliceExp_toElem_upper b b1 toElem toElem1 hf) <;> (solve | (clear hf; first | (simp [*]; done) | simp_all)))
      | ((with_reducible apply repeats_d_array_convert_elem b b1 toElem toElem1 hf) <;> (solve | (clear hf; first | (simp [*]; done) | simp_all)))
      | ((with_reducible apply repeats_CatExp_elms_loop b b1 toElem toElem1 hf _ _ _ _ _ _ _ _ _ ?_ ?_ rfl) <;> (solve | (clear hf; first | (simp [*]; done) | simp_all)))
      | ((with_reducible apply repeats_AssignExp_toElem_slice b b1 toElem toElem1 hf))
      | ((with_reducible apply repeats_AssignExp_toElem_rest b b1 toElem toElem1 hf))
      | with_reducible exact repeats_toElem_arguments b b1 toElem toElem1 hf _
      | ((with_reducible apply repeats_d_build_call b b1 toElem toElem1 hf) <;> (solve | (clear hf; first | (simp [*]; done) | simp_all)))
      | ((with_reducible apply repeats_d_build_call_fd b b1 toElem toElem1 hf) <;> (solve | (clear hf; first | (simp [*]; done) | simp_all)))
      | ((with_reducible apply repeats_NewExp_finish b b1 toElem toElem1 hf) <;> (solve | (clear hf; first | (simp [*]; done) | simp_all)))
      | ((with_reducible apply repeats_NewExp_dims_loop b b1 toElem toElem1 hf) <;> (solve | (clear hf; first | (simp [*]; done) | simp_all)))
      | ((with_reducible apply repeats_ite_iff); case hc => (solve | (clear hf; first | (simp [IRState.same_context, *]; done) | simp_all [IRState.same_context])))
      | ((with_reducible apply repeats_maybe_make_temp) <;> (solve | (clear hf; first | (simp [*]; done) | simp_all)))
      | ((with_reducible apply repeats_make_temp) <;> (solve | (clear hf; first | (simp [*]; done) | simp_all)))
      | ((with_reducible apply repeats_pure) <;> (solve | (clear hf; first | (simp [IRState.same_context, *]; done) | simp_all [IRState.same_context])))
      | dsimp only
      | split
      | (exfalso; (solve | (clear hf; first | (simp [*]; done) | simp_all)))
      | (solve | (clear hf; first | (simp [IRState.same_context, *]; done) | simp_all [IRState.same_context]))
  clear_value j71 j73
  have h76 : ∀ a a1, Shape.shape a = Shape.shape a1 → Lower.repeats b b1 (j72 a) (j74 a1) := by
    intro a a1 ha
    obtain ⟨x77, x78⟩ := a
    obtain ⟨y79, y80⟩ := a1
    simp only [shape_prod, Prod.mk.injEq] at ha
    obtain ⟨e81, e82⟩ := ha
    unfold j72 j74
    try simp -zeta only [v70]
    try simp only [v70]
    try clear v70
    repeat' first
      | (intro _; intros)
      | with_reducible exact hf _
      | with_reducible exact repeats_throw_bind _ _ _ _ _
      | with_reducible apply repeats_bind_get
      | with_reducible apply repeats_bind_create_temporary_var
      | with_reducible apply repeats_pure_bind
      | with_reducible apply repeats_bind_unit
      | with_reducible apply repeats_bind_plain
      | with_reducible apply repeats_bind_plain_pair
      | with_reducible apply repeats_bind
      | with_reducible apply repeats_ite
      | with_reducible exact repeats_same _ _ _
      | with_reducible exact repeats_throw _ _ _ _
      | with_reducible exact repeats_gcc_assert _ _ _
      | with_reducible exact repeats_error _ _ _
      | ((with_reducible apply repeats_gcc_assert_of) <;> (solve | (clear hf h75; first | (simp [*]; done) | simp_all)))
      | with_reducible exact repeats_push _ _ _
      | with_reducible exact repeats_defer _ _ _
      | with_reducible exact repeats_toElemDtor b b1 toElem toElem1 hf _
      | ((with_reducible apply repeats_build_bounds_condition b b1) <;> (solve | (clear hf h75; first | (simp [*]; done) | simp_all)))
      | (with_reducible apply repeats_d_array_convert b b1 toElem toElem1 hf)
      | ((with_reducible apply repeats_SliceExp_toElem_upper b b1 toElem toElem1 hf) <;> (solve | (clear hf h75; first | (simp [*]; done) | simp_all)))
      | ((with_reducible apply repeats_d_array_convert_elem b b1 toElem toElem1 hf) <;> (solve | (clear hf h75; first | (simp [*]; done) | simp_all)))
      | ((with_reducible apply repeats_CatExp_elms_loop b b1 toElem toElem1 hf _ _ _ _ _ _ _ _ _ ?_ ?_ rfl) <;> (solve | (clear hf h75; first | (simp [*]; done) | simp_all)))
      | ((with_reducible apply repeats_AssignExp_toElem_slice b b1 toElem toElem1 hf))
      | ((with_reducible apply repeats_AssignExp_toElem_rest b b1 toElem toElem1 hf))
      | with_reducible exact repeats_toElem_arguments b b1 toElem toElem1 hf _
      | ((with_reducible apply repeats_d_build_call b b1 toElem toElem1 hf) <;> (solve | (clear hf h75; first | (simp [*]; done) | simp_all)))
      | ((with_reducible apply repeats_d_build_call_fd b b1 toElem toElem1 hf) <;> (solve | (clear hf h75; first | (simp [*]; done) | simp_all)))
      | ((with_reducible apply repeats_NewExp_finish b b1 toElem toElem1 hf) <;> (solve | (clear hf h75; first | (simp [*]; done) | simp_all)))
      | ((with_reducible apply repeats_NewExp_dims_loop b b1 toElem toElem1 hf) <;> (solve | (clear hf h75; first | (simp [*]; done) | simp_all)))
      | ((with_reducible apply h75) <;> (solve | (clear hf h75; first | (simp [*]; done) | simp_all)))
      | ((with_reducible apply repeats_ite_iff); case hc => (solve | (clear hf h75; first | (simp [IRState.same_context, *]; done) | simp_all [IRState.same_context])))
      | ((with_reducible apply repeats_maybe_make_temp) <;> (solve | (clear hf h75; first | (simp [*]; done) | simp_all)))
      | ((with_reducible apply repeats_make_temp) <;> (solve | (clear hf h75; first | (simp [*]; done) | simp_all)))
      | ((with_reducible apply repeats_pure) <;> (solve | (clear hf h75; first | (simp [IRState.same_context, *]; done) | simp_all [IRState.same_context])))
      | dsimp only
      | split
      | (exfalso; (solve | (clear hf h75; first | (simp [*]; done) | simp_all)))
      | (solve | (clear hf h75; first | (simp [IRState.same_context, *]; done) | simp_all [IRState.same_context]))
  clear_value j72 j74
  try simp only [v70]
  try clear v70
  repeat' first
    | (intro _; intros)
    | with_reducible exact hf _
    | with_reducible exact repeats_throw_bind _ _ _ _ _
    | with_reducible apply repeats_bind_get
    | with_reducible apply repeats_bind_create_temporary_var
    | with_reducible apply repeats_pure_bind
    | with_reducible apply repeats_bind_unit
    | with_reducible apply repeats_bind_plain
    | with_reducible apply repeats_bind_plain_pair
    | with_reducible apply repeats_bind
    | with_reducible apply repeats_ite
    | with_reducible exact repeats_same _ _ _
    | with_reducible exact repeats_throw _ _ _ _
    | with_reducible exact repeats_gcc_assert _ _ _
    | with_reducible exact repeats_error _ _ _
    | ((with_reducible apply repeats_gcc_assert_of) <;> (solve | (clear hf h75 h76; first | (simp [*]; done) | simp_all)))
    | with_reducible exact repeats_push _ _ _
    | with_reducible exact repeats_defer _ _ _
    | with_reducible exact repeats_toElemDtor b b1 toElem toElem1 hf _
    | ((with_reducible apply repeats_build_bounds_condition b b1) <;> (solve | (clear hf h75 h76; first | (simp [*]; done) | simp_all)))
    | (with_reducible apply repeats_d_array_convert b b1 toElem toElem1 hf)
    | ((with_reducible apply repeats_SliceExp_toElem_upper b b1 toElem toElem1 hf) <;> (solve | (clear hf h75 h76; first | (simp [*]; done) | simp_all)))
    | ((with_reducible apply repeats_d_array_convert_elem b b1 toElem toElem1 hf) <;> (solve | (clear hf h75 h76; first | (simp [*]; done) | simp_all)))
    | ((with_reducible apply repeats_CatExp_elms_loop b b1 toElem toElem1 hf _ _ _ _ _ _ _ _ _ ?_ ?_ rfl) <;> (solve | (clear hf h75 h76; first | (simp [*]; done) | simp_all)))
    | ((with_reducible apply repeats_AssignExp_toElem_slice b b1 toElem toElem1 hf))
    | ((with_reducible apply repeats_AssignExp_toElem_rest b b1 toElem toElem1 hf))
    | with_reducible exact repeats_toElem_arguments b b1 toElem toElem1 hf _
    | ((with_reducible apply repeats_d_build_call b b1 toElem toElem1 hf) <;> (solve | (clear hf h75 h76; first | (simp [*]; done) | simp_all)))
    | ((with_reducible apply repeats_d_build_call_fd b b1 toElem toElem1 hf) <;> (solve | (clear hf h75 h76; first | (simp [*]; done) | simp_all)))
    | ((with_reducible apply repeats_NewExp_finish b b1 toElem toElem1 hf) <;> (solve | (clear hf h75 h76; first | (simp [*]; done) | simp_all)))
    | ((with_reducible apply repeats_NewExp_dims_loop b b1 toElem toElem1 hf) <;> (solve | (clear hf h75 h76; first | (simp [*]; done) | simp_all)))
    | ((with_reducible apply h75) <;> (solve | (clear hf h75 h76; first | (simp [*]; done) | simp_all)))
    | ((with_reducible apply h76) <;> (solve | (clear hf h75 h76; first | (simp [*]; done) | simp_all)))
    | ((with_reducible apply repeats_ite_iff); case hc => (solve | (clear hf h75 h76; first | (simp [IRState.same_context, *]; done) | simp_all [IRState.same_context])))
    | ((with_reducible apply repeats_maybe_make_temp) <;> (solve | (clear hf h75 h76; first | (simp [*]; done) | simp_all)))
    | ((with_reducible apply repeats_make_temp) <;> (solve | (clear hf h75 h76; first | (simp [*]; done) | simp_all)))
    | ((with_reducible apply repeats_pure) <;> (solve | (clear hf h75 h76; first | (simp [IRState.same_context, *]; done) | simp_all [IRState.same_context])))
    | dsimp only
    | split
    | (exfalso; (solve | (clear hf h75 h76; first | (simp [*]; done) | simp_all)))
    | (solve | (clear hf h75 h76; first | (simp [IRState.same_context, *]; done) | simp_all [IRState.same_context]))

theorem repeats_NewExp_toElem_struct (b b1 : Nat) (toElem toElem1 : Expression → Lower Tree)
    (hf : ∀ e, Lower.repeats b b1 (toElem e) (toElem1 e))
    (type newtype : DType)
    (allocator : Option FuncDeclaration) (newargs : Option (List Expression)) (onstack : Bool)
    (member : Option FuncDeclaration) (arguments : Option (List Expression))
    ( argprefix : Option Expression) :
    Lower.repeats b b1 (NewExp.toElem_struct toElem type newtype allocator newargs onstack member arguments
      argprefix)
      (NewExp.toElem_struct toElem1 type newtype allocator newargs onstack member arguments
      argprefix) := by
  unfold NewExp.toElem_struct
  try simp -zeta only []
  lift_lets
  intro v83 v84 j85 v86 j87
  have h88 : ∀ a a1, Shape.shape a = Shape.shape a1 → Lower.repeats b b1 (j85 a) (j87 a1) := by
    intro a a1 ha
    unfold j85 j87
    try simp -zeta only [v83, v84, v86]
    try simp only [v83, v84, v86]
    try clear v86 v84 v83
    repeat' first
      | (intro _; intros)
      | with_reducible exact hf _
      | with_reducible exact repeats_throw_bind _ _ _ _ _
      | with_reducible apply repeats_bind_get
      | with_reducible apply repeats_bind_create_temporary_var
      | with_reducible apply repeats_pure_bind
      | with_reducible apply repeats_bind_unit
      | with_reducible apply repeats_bind_plain
      | with_reducible apply repeats_bind_plain_pair
      | with_reducible apply repeats_bind
      | with_reducible apply repeats_ite
      | with_reducible exact repeats_same _ _ _
      | with_reducible exact repeats_throw _ _ _ _
      | with_reducible exact repeats_gcc_assert _ _ _
      | with_reducible exact repeats_error _ _ _
      | ((with_reducible apply repeats_gcc_assert_of) <;> (solve | (clear hf; first | (simp [*]; done) | simp_all)))
      | with_reducible exact repeats_push _ _ _
      | with_reducible exact repeats_defer _ _ _
      | with_reducible exact repeats_toElemDtor b b1 toElem toElem1 hf _
      | ((with_reducible apply repeats_build_bounds_condition b b1) <;> (solve | (clear hf; first | (simp [*]; done) | simp_all)))
      | (with_reducible apply repeats_d_array_convert b b1 toElem toElem1 hf)
      | ((with_reducible apply repeats_SliceExp_toElem_upper b b1 toElem toElem1 hf) <;> (solve | (clear hf; first | (simp [*]; done) | simp_all)))
      | ((with_reducible apply repeats_d_array_convert_elem b b1 toElem toElem1 hf) <;> (solve | (clear hf; first | (simp [*]; done) | simp_all)))
      | ((with_reducible apply repeats_CatExp_elms_loop b b1 toElem toElem1 hf _ _ _ _ _ _ _ _ _ ?_ ?_ rfl) <;> (solve | (clear hf; first | (simp [*]; done) | simp_all)))
      | ((with_reducible apply repeats_AssignExp_toElem_slice b b1 toElem toElem1 hf))
      | ((with_reducible apply repeats_AssignExp_toElem_rest b b1 toElem toElem1 hf))
      | with_reducible exact repeats_toElem_arguments b b1 toElem toElem1 hf _
      | ((with_reducible apply repeats_d_build_call b b1 toElem toElem1 hf) <;> (solve | (clear hf; first | (simp [*]; done) | simp_all)))
      | ((with_reducible apply repeats_d_build_call_fd b b1 toElem toElem1 hf) <;> (solve | (clear hf; first | (simp [*]; done) | simp_all)))
      | ((with_reducible apply repeats_NewExp_finish b b1 toElem toElem1 hf) <;> (solve | (clear hf; first | (simp [*]; done) | simp_all)))
      | ((with_reducible apply repeats_NewExp_dims_loop b b1 toElem toElem1 hf) <;> (solve | (clear hf; first | (simp [*]; done) | simp_all)))
      | ((with_reducible apply repeats_NewExp_toElem_class b b1 toElem toElem1 hf))
      | ((with_reducible apply repeats_ite_iff); case hc => (solve | (clear hf; first | (simp [IRState.same_context, *]; done) | simp_all [IRState.same_context])))
      | ((with_reducible apply repeats_maybe_make_temp) <;> (solve | (clear hf; first | (simp [*]; done) | simp_all)))
      | ((with_reducible apply repeats_make_temp) <;> (solve | (clear hf; first | (simp [*]; done) | simp_all)))
      | ((with_reducible apply repeats_pure) <;> (solve | (clear hf; first | (simp [IRState.same_context, *]; done) | simp_all [IRState.same_context])))
      | dsimp only
      | split
      | (exfalso; (solve | (clear hf; first | (simp [*]; done) | simp_all)))
      | (solve | (clear hf; first | (simp [IRState.same_context, *]; done) | simp_all [IRState.same_context]))
  clear_value j85 j87
  try simp only [v83, v84, v86]
  try clear v86 v84 v83
  repeat' first
    | (intro _; intros)
    | with_reducible exact hf _
    | with_reducible exact repeats_throw_bind _ _ _ _ _
    | with_reducible apply repeats_bind_get
    | with_reducible apply repeats_bind_create_temporary_var
    | with_reducible apply repeats_pure_bind
    | with_reducible apply repeats_bind_unit
    | with_reducible apply repeats_bind_plain
    | with_reducible apply repeats_bind_plain_pair
    | with_reducible apply repeats_bind
    | with_reducible apply repeats_ite
    | with_reducible exact repeats_same _ _ _
    | with_reducible exact repeats_throw _ _ _ _
    | with_reducible exact repeats_gcc_assert _ _ _
    | with_reducible exact repeats_error _ _ _
    | ((with_reducible apply repeats_gcc_assert_of) <;> (solve | (clear hf h88; first | (simp [*]; done) | simp_all)))
    | with_reducible exact repeats_push _ _ _
    | with_reducible exact repeats_defer _ _ _
    | with_reducible exact repeats_toElemDtor b b1 toElem toElem1 hf _
    | ((with_reducible apply repeats_build_bounds_condition b b1) <;> (solve | (clear hf h88; first | (simp [*]; done) | simp_all)))
    | (with_reducible apply repeats_d_array_convert b b1 toElem toElem1 hf)
    | ((with_reducible apply repeats_SliceExp_toElem_upper b b1 toElem toElem1 hf) <;> (solve | (clear hf h88; first | (simp [*]; done) | simp_all)))
    | ((with_reducible apply repeats_d_array_convert_elem b b1 toElem toElem1 hf) <;> (solve | (clear hf h88; first | (simp [*]; done) | simp_all)))
    | ((with_reducible apply repeats_CatExp_elms_loop b b1 toElem toElem1 hf _ _ _ _ _ _ _ _ _ ?_ ?_ rfl) <;> (solve | (clear hf h88; first | (simp [*]; done) | simp_all)))
    | ((with_reducible apply repeats_AssignExp_toElem_slice b b1 toElem toElem1 hf))
    | ((with_reducible apply repeats_AssignExp_toElem_rest b b1 toElem toElem1 hf))
    | with_reducible exact repeats_toElem_arguments b b1 toElem toElem1 hf _
    | ((with_reducible apply repeats_d_build_call b b1 toElem toElem1 hf) <;> (solve | (clear hf h88; first | (simp [*]; done) | simp_all)))
    | ((with_reducible apply repeats_d_build_call_fd b b1 toElem toElem1 hf) <;> (solve | (clear hf h88; first | (simp [*]; done) | simp_all)))
    | ((with_reducible apply repeats_NewExp_finish b b1 toElem toElem1 hf) <;> (solve | (clear hf h88; first | (simp [*]; done) | simp_all)))
    | ((with_reducible apply repeats_NewExp_dims_loop b b1 toElem toElem1 hf) <;> (solve | (clear hf h88; first | (simp [*]; done) | simp_all)))
    | ((with_reducible apply repeats_NewExp_toElem_class b b1 toElem toElem1 hf))
    | ((with_reducible apply h88) <;> (solve | (clear hf h88; first | (simp [*]; done) | simp_all)))
    | ((with_reducible apply repeats_ite_iff); case hc => (solve | (clear hf h88; first | (simp [IRState.same_context, *]; done) | simp_all [IRState.same_context])))
    | ((with_reducible apply repeats_maybe_make_temp) <;> (solve | (clear hf h88; first | (simp [*]; done) | simp_all)))
    | ((with_reducible apply repeats_make_temp) <;> (solve | (clear hf h88; first | (simp [*]; done) | simp_all)))
    | ((with_reducible apply repeats_pure) <;> (solve | (clear hf h88; first | (simp [IRState.same_context, *]; done) | simp_all [IRState.same_context])))
    | dsimp only
    | split
    | (exfalso; (solve | (clear hf h88; first | (simp [*]; done) | simp_all)))
    | (solve | (clear hf h88; first | (simp [IRState.same_context, *]; done) | simp_all [IRState.same_context]))

theorem repeats_NewExp_toElem_array (b b1 : Nat) (toElem toElem1 : Expression → Lower Tree)
    (hf : ∀ e, Lower.repeats b b1 (toElem e) (toElem1 e))
    (type newtype : DType)
    (allocator : Option FuncDeclaration) (arguments : Option (List Expression))
    ( argprefix : Option Expression) :
    Lower.repeats b b1 (NewExp.toElem_array toElem type newtype allocator arguments argprefix)
      (NewExp.toElem_array toElem1 type newtype allocator arguments argprefix) := by
  unfold NewExp.toElem_array
  repeat' first
    | (intro _; intros)
    | with_reducible exact hf _
    | with_reducible exact repeats_throw_bind _ _ _ _ _
    | with_reducible apply repeats_bind_get
    | with_reducible apply repeats_bind_create_temporary_var
    | with_reducible apply repeats_pure_bind
    | with_reducible apply repeats_bind_unit
    | with_reducible apply repeats_bind_plain
    | with_reducible apply repeats_bind_plain_pair
    | with_reducible apply repeats_bind
    | with_reducible apply repeats_ite
    | with_reducible exact repeats_same _ _ _
    | with_reducible exact repeats_throw _ _ _ _
    | with_reducible exact repeats_gcc_assert _ _ _
    | with_reducible exact repeats_error _ _ _
    | ((with_reducible apply repeats_gcc_assert_of) <;> (solve | (clear hf; first | (simp [*]; done) | simp_all)))
    | with_reducible exact repeats_push _ _ _
    | with_reducible exact repeats_defer _ _ _
    | with_reducible exact repeats_toElemDtor b b1 toElem toElem1 hf _
    | ((with_reducible apply repeats_build_bounds_condition b b1) <;> (solve | (clear hf; first | (simp [*]; done) | simp_all)))
    | (with_reducible apply repeats_d_array_convert b b1 toElem toElem1 hf)
    | ((with_reducible apply repeats_SliceExp_toElem_upper b b1 toElem toElem1 hf) <;> (solve | (clear hf; first | (simp [*]; done) | simp_all)))
    | ((with_reducible apply repeats_d_array_convert_elem b b1 toElem toElem1 hf) <;> (solve | (clear hf; first | (simp [*]; done) | simp_all)))
    | ((with_reducible apply repeats_CatExp_elms_loop b b1 toElem toElem1 hf _ _ _ _ _ _ _ _ _ ?_ ?_ rfl) <;> (solve | (clear hf; first | (simp [*]; done) | simp_all)))
    | ((with_reducible apply repeats_AssignExp_toElem_slice b b1 toElem toElem1 hf))
    | ((with_reducible apply repeats_AssignExp_toElem_rest b b1 toElem toElem1 hf))
    | with_reducible exact repeats_toElem_arguments b b1 toElem toElem1 hf _
    | ((with_reducible apply repeats_d_build_call b b1 toElem toElem1 hf) <;> (solve | (clear hf; first | (simp [*]; done) | simp_all)))
    | ((with_reducible apply repeats_d_build_call_fd b b1 toElem toElem1 hf) <;> (solve | (clear hf; first | (simp [*]; done) | simp_all)))
    | ((with_reducible apply repeats_NewExp_finish b b1 toElem toElem1 hf) <;> (solve | (clear hf; first | (simp [*]; done) | simp_all)))
    | ((with_reducible apply repeats_NewExp_dims_loop b b1 toElem toElem1 hf) <;> (solve | (clear hf; first | (simp [*]; done) | simp_all)))
    | ((with_reducible apply repeats_NewExp_toElem_class b b1 toElem toElem1 hf))
    | ((with_reducible apply repeats_NewExp_toElem_struct b b1 toElem toElem1 hf))
    | ((with_reducible apply repeats_ite_iff); case hc => (solve | (clear hf; first | (simp [IRState.same_context, *]; done) | simp_all [IRState.same_context])))
    | ((with_reducible apply repeats_maybe_make_temp) <;> (solve | (clear hf; first | (simp [*]; done) | simp_all)))
    | ((with_reducible apply repeats_make_temp) <;> (solve | (clear hf; first | (simp [*]; done) | simp_all)))
    | ((with_reducible apply repeats_pure) <;> (solve | (clear hf; first | (simp [IRState.same_context, *]; done) | simp_all [IRState.same_context])))
    | dsimp only
    | split
    | (exfalso; (solve | (clear hf; first | (simp [*]; done) | simp_all)))
    | (solve | (clear hf; first | (simp [IRState.same_context, *]; done) | simp_all [IRState.same_context]))

theorem repeats_NewExp_toElem_pointer (b b1 : Nat) (toElem toElem1 : Expression → Lower Tree)
    (hf : ∀ e, Lower.repeats b b1 (toElem e) (toElem1 e))
    (type newtype : DType)
    (arguments : Option (List Expression)) ( argprefix : Option Expression) :
    Lower.repeats b b1 (NewExp.toElem_pointer toElem type newtype arguments argprefix)
      (NewExp.toElem_pointer toElem1 type newtype arguments argprefix) := by
  unfold NewExp.toElem_pointer
  try simp -zeta only []
  lift_lets
  intro v89 j90 j91
  have h92 : ∀ a a1, Shape.shape a = Shape.shape a1 → Lower.repeats b b1 (j90 a) (j91 a1) := by
    intro a a1 ha
    unfold j90 j91
    try simp -zeta only [v89]
    try simp only [v89]
    try clear v89
    repeat' first
      | (intro _; intros)
      | with_reducible exact hf _
      | with_reducible exact repeats_throw_bind _ _ _ _ _
      | with_reducible apply repeats_bind_get
      | with_reducible apply repeats_bind_create_temporary_var
      | with_reducible apply repeats_pure_bind
      | with_reducible apply repeats_bind_unit
      | with_reducible apply repeats_bind_plain
      | with_reducible apply repeats_bind_plain_pair
      | with_reducible apply repeats_bind
      | with_reducible apply repeats_ite
      | with_reducible exact repeats_same _ _ _
      | with_reducible exact repeats_throw _ _ _ _
      | with_reducible exact repeats_gcc_assert _ _ _
      | with_reducible exact repeats_error _ _ _
      | ((with_reducible apply repeats_gcc_assert_of) <;> (solve | (clear hf; first | (simp [*]; done) | simp_all)))
      | with_reducible exact repeats_push _ _ _
      | with_reducible exact repeats_defer _ _ _
      | with_reducible exact repeats_toElemDtor b b1 toElem toElem1 hf _
      | ((with_reducible apply repeats_build_bounds_condition b b1) <;> (solve | (clear hf; first | (simp [*]; done) | simp_all)))
      | (with_reducible apply repeats_d_array_convert b b1 toElem toElem1 hf)
      | ((with_reducible apply repeats_SliceExp_toElem_upper b b1 toElem toElem1 hf) <;> (solve | (clear hf; first | (simp [*]; done) | simp_all)))
      | ((with_reducible apply repeats_d_array_convert_elem b b1 toElem toElem1 hf) <;> (solve | (clear hf; first | (simp [*]; done) | simp_all)))
      | ((with_reducible apply repeats_CatExp_elms_loop b b1 toElem toElem1 hf _ _ _ _ _ _ _ _ _ ?_ ?_ rfl) <;> (solve | (clear hf; first | (simp [*]; done) | simp_all)))
      | ((with_reducible apply repeats_AssignExp_toElem_slice b b1 toElem toElem1 hf))
      | ((with_reducible apply repeats_AssignExp_toElem_rest b b1 toElem toElem1 hf))
      | with_reducible exact repeats_toElem_arguments b b1 toElem toElem1 hf _
      | ((with_reducible apply repeats_d_build_call b b1 toElem toElem1 hf) <;> (solve | (clear hf; first | (simp [*]; done) | simp_all)))
      | ((with_reducible apply repeats_d_build_call_fd b b1 toElem toElem1 hf) <;> (solve | (clear hf; first | (simp [*]; done) | simp_all)))
      | ((with_reducible apply repeats_NewExp_finish b b1 toElem toElem1 hf) <;> (solve | (clear hf; first | (simp [*]; done) | simp_all)))
      | ((with_reducible apply repeats_NewExp_dims_loop b b1 toElem toElem1 hf) <;> (solve | (clear hf; first | (simp [*]; done) | simp_all)))
      | ((with_reducible apply repeats_NewExp_toElem_class b b1 toElem toElem1 hf))
      | ((with_reducible apply repeats_NewExp_toElem_struct b b1 toElem toElem1 hf))
      | ((with_reducible apply repeats_NewExp_toElem_array b b1 toElem toElem1 hf))
      | ((with_reducible apply repeats_ite_iff); case hc => (solve | (clear hf; first | (simp [IRState.same_context, *]; done) | simp_all [IRState.same_context])))
      | ((with_reducible apply repeats_maybe_make_temp) <;> (solve | (clear hf; first | (simp [*]; done) | simp_all)))
      | ((with_reducible apply repeats_make_temp) <;> (solve | (clear hf; first | (simp [*]; done) | simp_all)))
      | ((with_reducible apply repeats_pure) <;> (solve | (clear hf; first | (simp [IRState.same_context, *]; done) | simp_all [IRState.same_context])))
      | dsimp only
      | split
      | (exfalso; (solve | (clear hf; first | (simp [*]; done) | simp_all)))
      | (solve | (clear hf; first | (simp [IRState.same_context, *]; done) | simp_all [IRState.same_context]))
  clear_value j90 j91
  try simp only [v89]
  try clear v89
  repeat' first
    | (intro _; intros)
    | with_reducible exact hf _
    | with_reducible exact repeats_throw_bind _ _ _ _ _
    | with_reducible apply repeats_bind_get
    | with_reducible apply repeats_bind_create_temporary_var
    | with_reducible apply repeats_pure_bind
    | with_reducible apply repeats_bind_unit
    | with_reducible apply repeats_bind_plain
    | with_reducible apply repeats_bind_plain_pair
    | with_reducible apply repeats_bind
    | with_reducible apply repeats_ite
    | with_reducible exact repeats_same _ _ _
    | with_reducible exact repeats_throw _ _ _ _
    | with_reducible exact repeats_gcc_assert _ _ _
    | with_reducible exact repeats_error _ _ _
    | ((with_reducible apply repeats_gcc_assert_of) <;> (solve | (clear hf h92; first | (simp [*]; done) | simp_all)))
    | with_reducible exact repeats_push _ _ _
    | with_reducible exact repeats_defer _ _ _
    | with_reducible exact repeats_toElemDtor b b1 toElem toElem1 hf _
    | ((with_reducible apply repeats_build_bounds_condition b b1) <;> (solve | (clear hf h92; first | (simp [*]; done) | simp_all)))
    | (with_reducible apply repeats_d_array_convert b b1 toElem toElem1 hf)
    | ((with_reducible apply repeats_SliceExp_toElem_upper b b1 toElem toElem1 hf) <;> (solve | (clear hf h92; first | (simp [*]; done) | simp_all)))
    | ((with_reducible apply repeats_d_array_convert_elem b b1 toElem toElem1 hf) <;> (solve | (clear hf h92; first | (simp [*]; done) | simp_all)))
    | ((with_reducible apply repeats_CatExp_elms_loop b b1 toElem toElem1 hf _ _ _ _ _ _ _ _ _ ?_ ?_ rfl) <;> (solve | (clear hf h92; first | (simp [*]; done) | simp_all)))
    | ((with_reducible apply repeats_AssignExp_toElem_slice b b1 toElem toElem1 hf))
    | ((with_reducible apply repeats_AssignExp_toElem_rest b b1 toElem toElem1 hf))
    | with_reducible exact repeats_toElem_arguments b b1 toElem toElem1 hf _
    | ((with_reducible apply repeats_d_build_call b b1 toElem toElem1 hf) <;> (solve | (clear hf h92; first | (simp [*]; done) | simp_all)))
    | ((with_reducible apply repeats_d_build_call_fd b b1 toElem toElem1 hf) <;> (solve | (clear hf h92; first | (simp [*]; done) | simp_all)))
    | ((with_reducible apply repeats_NewExp_finish b b1 toElem toElem1 hf) <;> (solve | (clear hf h92; first | (simp [*]; done) | simp_all)))
    | ((with_reducible apply repeats_NewExp_dims_loop b b1 toElem toElem1 hf) <;> (solve | (clear hf h92; first | (simp [*]; done) | simp_all)))
    | ((with_reducible apply repeats_NewExp_toElem_class b b1 toElem toElem1 hf))
    | ((with_reducible apply repeats_NewExp_toElem_struct b b1 toElem toElem1 hf))
    | ((with_reducible apply repeats_NewExp_toElem_array b b1 toElem toElem1 hf))
    | ((with_reducible apply h92) <;> (solve | (clear hf h92; first | (simp [*]; done) | simp_all)))
    | ((with_reducible apply repeats_ite_iff); case hc => (solve | (clear hf h92; first | (simp [IRState.same_context, *]; done) | simp_all [IRState.same_context])))
    | ((with_reducible apply repeats_maybe_make_temp) <;> (solve | (clear hf h92; first | (simp [*]; done) | simp_all)))
    | ((with_reducible apply repeats_make_temp) <;> (solve | (clear hf h92; first | (simp [*]; done) | simp_all)))
    | ((with_reducible apply repeats_pure) <;> (solve | (clear hf h92; first | (simp [IRState.same_context, *]; done) | simp_all [IRState.same_context])))
    | dsimp only
    | split
    | (exfalso; (solve | (clear hf h92; first | (simp [*]; done) | simp_all)))
    | (solve | (clear hf h92; first | (simp [IRState.same_context, *]; done) | simp_all [IRState.same_context]))

theorem repeats_NewExp_toElem (b b1 : Nat) (toElem toElem1 : Expression → Lower Tree)
    (hf : ∀ e, Lower.repeats b b1 (toElem e) (toElem1 e))
    (type newtype : DType) (thisexp : Option Expression)
    (allocator : Option FuncDeclaration) (newargs : Option (List Expression)) (onstack : Bool)
    (member : Option FuncDeclaration) (arguments : Option (List Expression))
    ( argprefix : Option Expression) :
    Lower.repeats b b1 (NewExp.toElem toElem type newtype thisexp allocator newargs onstack member arguments
      argprefix)
      (NewExp.toElem toElem1 type newtype thisexp allocator newargs onstack member arguments
      argprefix) := by
  unfold NewExp.toElem
  try simp -zeta only []
  lift_lets
  intro v93 j94 j95
  have h96 : ∀ a, Lower.repeats b b1 (j94 a) (j95 a) := by
    intro a
    unfold j94 j95
    try simp -zeta only [v93]
    try simp only [v93]
    try clear v93
    repeat' first
      | (intro _; intros)
      | with_reducible exact hf _
      | with_reducible exact repeats_throw_bind _ _ _ _ _
      | with_reducible apply repeats_bind_get
      | with_reducible apply repeats_bind_create_temporary_var
      | with_reducible apply repeats_pure_bind
      | with_reducible apply repeats_bind_unit
      | with_reducible apply repeats_bind_plain
      | with_reducible apply repeats_bind_plain_pair
      | with_reducible apply repeats_bind
      | with_reducible apply repeats_ite
      | with_reducible exact repeats_same _ _ _
      | with_reducible exact repeats_throw _ _ _ _
      | with_reducible exact repeats_gcc_assert _ _ _
      | with_reducible exact repeats_error _ _ _
      | ((with_reducible apply repeats_gcc_assert_of) <;> (solve | (clear hf; first | (simp [*]; done) | simp_all)))
      | with_reducible exact repeats_push _ _ _
      | with_reducible exact repeats_defer _ _ _
      | with_reducible exact repeats_toElemDtor b b1 toElem toElem1 hf _
      | ((with_reducible apply repeats_build_bounds_condition b b1) <;> (solve | (clear hf; first | (simp [*]; done) | simp_all)))
      | (with_reducible apply repeats_d_array_convert b b1 toElem toElem1 hf)
      | ((with_reducible apply repeats_SliceExp_toElem_upper b b1 toElem toElem1 hf) <;> (solve | (clear hf; first | (simp [*]; done) | simp_all)))
      | ((with_reducible apply repeats_d_array_convert_elem b b1 toElem toElem1 hf) <;> (solve | (clear hf; first | (simp [*]; done) | simp_all)))
      | ((with_reducible apply repeats_CatExp_elms_loop b b1 toElem toElem1 hf _ _ _ _ _ _ _ _ _ ?_ ?_ rfl) <;> (solve | (clear hf; first | (simp [*]; done) | simp_all)))
      | ((with_reducible apply repeats_AssignExp_toElem_slice b b1 toElem toElem1 hf))
      | ((with_reducible apply repeats_AssignExp_toElem_rest b b1 toElem toElem1 hf))
      | with_reducible exact repeats_toElem_arguments b b1 toElem toElem1 hf _
      | ((with_reducible apply repeats_d_build_call b b1 toElem toElem1 hf) <;> (solve | (clear hf; first | (simp [*]; done) | simp_all)))
      | ((with_reducible apply repeats_d_build_call_fd b b1 toElem toElem1 hf) <;> (solve | (clear hf; first | (simp [*]; done) | simp_all)))
      | ((with_reducible apply repeats_NewExp_finish b b1 toElem toElem1 hf) <;> (solve | (clear hf; first | (simp [*]; done) | simp_all)))
      | ((with_reducible apply repeats_NewExp_dims_loop b b1 toElem toElem1 hf) <;> (solve | (clear hf; first | (simp [*]; done) | simp_all)))
      | ((with_reducible apply repeats_NewExp_toElem_class b b1 toElem toElem1 hf))
      | ((with_reducible apply repeats_NewExp_toElem_struct b b1 toElem toElem1 hf))
      | ((with_reducible apply repeats_NewExp_toElem_array b b1 toElem toElem1 hf))
      | ((with_reducible apply repeats_NewExp_toElem_pointer b b1 toElem toElem1 hf))
      | ((with_reducible apply repeats_ite_iff); case hc => (solve | (clear hf; first | (simp [IRState.same_context, *]; done) | simp_all [IRState.same_context])))
      | ((with_reducible apply repeats_maybe_make_temp) <;> (solve | (clear hf; first | (simp [*]; done) | simp_all)))
      | ((with_reducible apply repeats_make_temp) <;> (solve | (clear hf; first | (simp [*]; done) | simp_all)))
      | ((with_reducible apply repeats_pure) <;> (solve | (clear hf; first | (simp [IRState.same_context, *]; done) | simp_all [IRState.same_context])))
      | dsimp only
      | split
      | (exfalso; (solve | (clear hf; first | (simp [*]; done) | simp_all)))
      | (solve | (clear hf; first | (simp [IRState.same_context, *]; done) | simp_all [IRState.same_context]))
  clear_value j94 j95
  try simp only [v93]
  try clear v93
  repeat' first
    | (intro _; intros)
    | with_reducible exact hf _
    | with_reducible exact repeats_throw_bind _ _ _ _ _
    | with_reducible apply repeats_bind_get
    | with_reducible apply repeats_bind_create_temporary_var
    | with_reducible apply repeats_pure_bind
    | with_reducible apply repeats_bind_unit
    | with_reducible apply repeats_bind_plain
    | with_reducible apply repeats_bind_plain_pair
    | with_reducible apply repeats_bind
    | with_reducible apply repeats_ite
    | with_reducible exact repeats_same _ _ _
    | with_reducible exact repeats_throw _ _ _ _
    | with_reducible exact repeats_gcc_assert _ _ _
    | with_reducible exact repeats_error _ _ _
    | ((with_reducible apply repeats_gcc_assert_of) <;> (solve | (clear hf h96; first | (simp [*]; done) | simp_all)))
    | with_reducible exact repeats_push _ _ _
    | with_reducible exact repeats_defer _ _ _
    | with_reducible exact repeats_toElemDtor b b1 toElem toElem1 hf _
    | ((with_reducible apply repeats_build_bounds_condition b b1) <;> (solve | (clear hf h96; first | (simp [*]; done) | simp_all)))
    | (with_reducible apply repeats_d_array_convert b b1 toElem toElem1 hf)
    | ((with_reducible apply repeats_SliceExp_toElem_upper b b1 toElem toElem1 hf) <;> (solve | (clear hf h96; first | (simp [*]; done) | simp_all)))
    | ((with_reducible apply repeats_d_array_convert_elem b b1 toElem toElem1 hf) <;> (solve | (clear hf h96; first | (simp [*]; done) | simp_all)))
    | ((with_reducible apply repeats_CatExp_elms_loop b b1 toElem toElem1 hf _ _ _ _ _ _ _ _ _ ?_ ?_ rfl) <;> (solve | (clear hf h96; first | (simp [*]; done) | simp_all)))
    | ((with_reducible apply repeats_AssignExp_toElem_slice b b1 toElem toElem1 hf))
    | ((with_reducible apply repeats_AssignExp_toElem_rest b b1 toElem toElem1 hf))
    | with_reducible exact repeats_toElem_arguments b b1 toElem toElem1 hf _
    | ((with_reducible apply repeats_d_build_call b b1 toElem toElem1 hf) <;> (solve | (clear hf h96; first | (simp [*]; done) | simp_all)))
    | ((with_reducible apply repeats_d_build_call_fd b b1 toElem toElem1 hf) <;> (solve | (clear hf h96; first | (simp [*]; done) | simp_all)))
    | ((with_reducible apply repeats_NewExp_finish b b1 toElem toElem1 hf) <;> (solve | (clear hf h96; first | (simp [*]; done) | simp_all)))
    | ((with_reducible apply repeats_NewExp_dims_loop b b1 toElem toElem1 hf) <;> (solve | (clear hf h96; first | (simp [*]; done) | simp_all)))
    | ((with_reducible apply repeats_NewExp_toElem_class b b1 toElem toElem1 hf))
    | ((with_reducible apply repeats_NewExp_toElem_struct b b1 toElem toElem1 hf))
    | ((with_reducible apply repeats_NewExp_toElem_array b b1 toElem toElem1 hf))
    | ((with_reducible apply repeats_NewExp_toElem_pointer b b1 toElem toElem1 hf))
    | with_reducible exact h96 _
    | ((with_reducible apply repeats_ite_iff); case hc => (solve | (clear hf h96; first | (simp [IRState.same_context, *]; done) | simp_all [IRState.same_context])))
    | ((with_reducible apply repeats_maybe_make_temp) <;> (solve | (clear hf h96; first | (simp [*]; done) | simp_all)))
    | ((with_reducible apply repeats_make_temp) <;> (solve | (clear hf h96; first | (simp [*]; done) | simp_all)))
    | ((with_reducible apply repeats_pure) <;> (solve | (clear hf h96; first | (simp [IRState.same_context, *]; done) | simp_all [IRState.same_context])))
    | dsimp only
    | split
    | (exfalso; (solve | (clear hf h96; first | (simp [*]; done) | simp_all)))
    | (solve | (clear hf h96; first | (simp [IRState.same_context, *]; done) | simp_all [IRState.same_context]))

/-! ## Lowering twice: the virtual call -/

/-- The rule leaves the declaration as `FuncExp.lowered_fd` says. -/
theorem FuncExp.toElem_fd (type : DType) (fd : FuncLiteralDeclaration) (s : IRState)
    (r : Tree × FuncLiteralDeclaration) (sa : IRState)
    (h : FuncExp.toElem type fd s = .ok (r, sa)) : r.2 = FuncExp.lowered_fd type fd := by
  unfold FuncExp.toElem at h
  unfold FuncExp.lowered_fd
  generalize (if (fd.tok == TOK.TOKreserved && type.toBasetype.ty == TY.Tpointer) = true then
    ({ fd with tok := .TOKfunction, vthis := none } : FuncLiteralDeclaration) else fd) = fd2 at h ⊢
  by_cases hn : fd2.isNested fd2.tok fd2.vthis = true
  · rw [if_pos hn] at h
    cases h
    rfl
  · rw [if_neg hn] at h
    cases h
    rfl

/-- The rule does with the declaration it left what it did with the one it
found. -/
theorem FuncExp.toElem_lowered_fd (type : DType) (fd : FuncLiteralDeclaration) :
    FuncExp.toElem type (FuncExp.lowered_fd type fd) = FuncExp.toElem type fd := by
  unfold FuncExp.toElem FuncExp.lowered_fd
  by_cases h : (fd.tok == .TOKreserved && type.toBasetype.ty == .Tpointer) = true
  · simp [h]
  · simp [h]

theorem repeats_FuncExp_toElem (b b1 : Nat) (type : DType) (fd : FuncLiteralDeclaration) :
    Lower.repeats b b1 (FuncExp.toElem type fd) (FuncExp.toElem type fd) := by
  unfold FuncExp.toElem
  repeat' first
    | (intro _; intros)
    | with_reducible exact repeats_throw_bind _ _ _ _ _
    | with_reducible apply repeats_bind_get
    | with_reducible apply repeats_bind_create_temporary_var
    | with_reducible apply repeats_pure_bind
    | with_reducible apply repeats_bind_unit
    | with_reducible apply repeats_bind_plain
    | with_reducible apply repeats_bind_plain_pair
    | with_reducible apply repeats_bind
    | with_reducible apply repeats_ite
    | with_reducible exact repeats_same _ _ _
    | with_reducible exact repeats_throw _ _ _ _
    | with_reducible exact repeats_gcc_assert _ _ _
    | with_reducible exact repeats_error _ _ _
    | ((with_reducible apply repeats_gcc_assert_of) <;> (solve | (first | (simp [*]; done) | simp_all)))
    | with_reducible exact repeats_push _ _ _
    | with_reducible exact repeats_defer _ _ _
    | ((with_reducible apply repeats_ite_iff); case hc => (solve | (first | (simp [IRState.same_context, *]; done) | simp_all [IRState.same_context])))
    | ((with_reducible apply repeats_maybe_make_temp) <;> (solve | (first | (simp [*]; done) | simp_all)))
    | ((with_reducible apply repeats_make_temp) <;> (solve | (first | (simp [*]; done) | simp_all)))
    | ((with_reducible apply repeats_pure) <;> (solve | (first | (simp [IRState.same_context, *]; done) | simp_all [IRState.same_context])))
    | dsimp only
    | split
    | (exfalso; (solve | (first | (simp [*]; done) | simp_all)))
    | (solve | (first | (simp [IRState.same_context, *]; done) | simp_all [IRState.same_context]))

/-- The virtual call on a node lowered before repeats the virtual call. -/
theorem repeats_toElem (lowered : DType → FuncLiteralDeclaration → Bool) (b b1 fuel : Nat) :
    ∀ e, Lower.repeats b b1 (toElem fuel e) (toElem_again lowered fuel e) := by
  induction fuel with
  | zero => intro e; exact repeats_throw _ _ _ _
  | succ fuel ih =>
    intro e
    cases e with
    | IntegerExp _ value => exact repeats_same _ _ _
    | VarExp type var => exact repeats_SymbolExp_toElem _ _ type var
    | DotVarExp _ e1 var => exact repeats_DotVarExp_toElem _ _ _ _ ih e1 var
    | CallExp type e1 arguments => exact repeats_CallExp_toElem _ _ _ _ ih type e1 arguments
    | ElemExp _ _ elem _ => exact repeats_same _ _ _
    | DeclarationExp _ declaration objfile =>
      exact repeats_DeclarationExp_toElem _ _ declaration objfile
    | CommaExp _ e1 e2 => exact repeats_CommaExp_toElem _ _ _ _ ih e1 e2
    | CondExp type econd e1 e2 => exact repeats_CondExp_toElem _ _ _ _ ih type econd e1 e2
    | CatExp type e1 e2 => exact repeats_CatExp_toElem _ _ _ _ ih type e1 e2
    | EqualExp op _ e1 e2 => exact repeats_EqualExp_toElem _ _ _ _ ih op e1 e2
    | SliceExp type e1 lwr upr a b lengthVar =>
      exact repeats_SliceExp_toElem _ _ _ _ ih type e1 lwr upr a b lengthVar
    | AssignExp op _ e1 e2 ismemset => exact repeats_AssignExp_toElem _ _ _ _ ih op e1 e2 ismemset
    | ArrayLengthExp _ e1 => exact repeats_ArrayLengthExp_toElem _ _ _ _ ih e1
    | CastExp _ e1 totype => exact repeats_CastExp_toElem _ _ _ _ ih e1 totype
    | CatAssignExp type e1 e2 => exact repeats_CatAssignExp_toElem _ _ _ _ ih type e1 e2
    | IndexExp _ e1 e2 a b lengthVar =>
      exact repeats_IndexExp_toElem _ _ _ _ ih e1 e2 a b lengthVar
    | NewExp type newtype thisexp allocator newargs onstack member arguments argprefix =>
      exact repeats_NewExp_toElem _ _ _ _ ih type newtype thisexp allocator newargs onstack
        member arguments argprefix
    | FuncExp type fd =>
      show Lower.repeats _ _ (FuncExp.toElem type fd >>= fun r => pure r.1)
        (FuncExp.toElem type (if lowered type fd then FuncExp.lowered_fd type fd else fd) >>=
          fun r => pure r.1)
      have h : FuncExp.toElem type
          (if lowered type fd then FuncExp.lowered_fd type fd else fd) =
          FuncExp.toElem type fd := by
        split
        · exact FuncExp.toElem_lowered_fd type fd
        · rfl
      rw [h]
      exact repeats_bind _ _ _ _ _ _ (repeats_FuncExp_toElem _ _ type fd)
        (fun r r1 hr => repeats_pure _ _ _ _ (by
          simp only [shape_prod_eta, shape_prod, Prod.mk.injEq] at hr
          exact hr.1))
    | CmpExp op type e1 e2 => exact repeats_CmpExp_toElem _ _ _ _ ih op e1 e2
    | IdentityExp op type e1 e2 => exact repeats_IdentityExp_toElem _ _ _ _ ih _ op e1 e2
    | DeleteExp type e1 => exact repeats_DeleteExp_toElem _ _ _ _ ih e1
    | PowExp type e1 e2 => exact repeats_PowExp_toElem _ _ _ _ ih type e1 e2
    | AssertExp type e1 msg => exact repeats_AssertExp_toElem _ _ _ _ ih e1 msg
    | AndAndExp type e1 e2 => exact repeats_AndAndExp_toElem _ _ _ _ ih e1 e2
    | OrOrExp type e1 e2 => exact repeats_OrOrExp_toElem _ _ _ _ ih e1 e2
    | AddExp type e1 e2 => exact repeats_AddExp_toElem _ _ _ _ ih e1 e2
    | MinExp type e1 e2 => exact repeats_MinExp_toElem _ _ _ _ ih e1 e2

/-- What a lowering repeated from the state the first one ended in returns. -/
theorem repeats_again {α : Type} [Shape α] (m m1 : Lower α)
    (h : ∀ b b1, Lower.repeats b b1 m m1) (s : IRState) (a : α) (sa : IRState)
    (hm : m s = .ok (a, sa)) :
    ∃ a1 sa1, m1 sa = .ok (a1, sa1) ∧ Shape.shape a1 = Shape.shape a := by
  have h0 := (h s.vars_in_scope.length s.vars_in_scope.length).ok s s a sa
    ⟨rfl, rfl, rfl, le_refl _, le_refl _, rfl⟩ hm
  obtain ⟨h1, h2, h3⟩ := h0.1
  have hc : s.same_context s.vars_in_scope.length sa.vars_in_scope.length sa :=
    ⟨h1.symm, h2.symm, h3.symm, le_refl _, le_refl _, by
      rw [List.drop_length, List.drop_length]⟩
  obtain ⟨_, a1, sa1, hr, hs, _⟩ := (h _ _).ok s sa a sa hc hm
  exact ⟨a1, sa1, hr, hs.symm⟩

/-- With no function literal picked, the virtual call on a node lowered before
is the virtual call. -/
theorem toElem_again_unchanged (fuel : Nat) :
    ∀ e, toElem_again (fun _ _ => false) fuel e = toElem fuel e := by
  induction fuel with
  | zero => intro e; rfl
  | succ fuel ih =>
    intro e
    have h : toElem_again (fun _ _ => false) fuel = toElem fuel := funext ih
    cases e <;> simp only [toElem_again, toElem, h, Bool.false_eq_true, if_false]

end GDC
